import Mathlib

/-! # go-image-board: batch jobs and bootstrap sequence of `gib.go`

A shallow embedding of `main` (src/gib.go) and of the configuration helpers it
calls.  The control thread of `main` is sequential; everything it does to the
outside (file system, catalog, goroutines, HTTP servers) is recorded as an
`Event` in a trace and applied to an abstract world `W` through `Env`.  What the
outside answers (`os.Stat`, `ioutil.ReadDir`, `InitDatabase`, `SearchImages`,
...) is read from the world, so a theorem quantified over `Env` and the initial
world speaks about every behaviour of the collaborators.  Log calls are not
modelled.  `uint64` counters are natural numbers reduced modulo `2 ^ 64`.
-/

namespace GoImageBoard

/-! ## Data model -/

/-- What `os.Stat(path)` answered, as far as `main` distinguishes it: `err == nil`,
an error for which `os.IsNotExist` holds, or any other error. -/
inductive StatResult where
  | ok
  | notExist
  | otherError
  deriving DecidableEq, Repr

/-- What `GetImageByFileName` answered: a record, `sql.ErrNoRows`, or another error. -/
inductive LookupResult where
  | found
  | errNoRows
  | otherError
  deriving DecidableEq, Repr

/-- The two members of `os.FileInfo` that `main` reads. -/
structure FileInfo where
  name : String
  isDir : Bool
  deriving DecidableEq, Repr

/-- The two members of `interfaces.ImageInformation` that `main` reads. -/
structure ImageInformation where
  ID : Nat
  Location : String
  deriving DecidableEq, Repr

/-- The answer of `SearchImages`: the page, the total count and whether `err != nil`. -/
structure SearchResult where
  images : List ImageInformation
  maxCount : Nat
  failed : Bool
  deriving DecidableEq, Repr

/-- One `requestRouter.HandleFunc(pattern, handler)` registration. -/
structure Route where
  pattern : String
  handler : String
  deriving DecidableEq, Repr

/-- The fields of `config.ConfigurationSettings` read or written by `main`,
`fixMissingConfigs`, `CreateSessionStore` and the collection router.  Byte slices
are lists of numbers; a nil slice is the empty list (the code only tests `== nil`
next to a length test that nil fails as well).  `UsersControlOwnObjects` has the
zero value of Go when it is not given. -/
structure ConfigurationSettings where
  DBName : String
  DBUser : String
  DBPassword : String
  DBHost : String
  ImageDirectory : String
  Address : String
  ReadTimeout : Int
  WriteTimeout : Int
  MaxHeaderBytes : Int
  SessionStoreKey : List (List Nat)
  CSRFKey : List Nat
  HTTPRoot : String
  MaxUploadBytes : Int
  MaxThumbnailWidth : Nat
  MaxThumbnailHeight : Nat
  UsersControlOwnObjects : Bool := false
  PageStride : Nat
  UseTLS : Bool
  TLSCertPath : String
  TLSKeyPath : String
  deriving DecidableEq, Repr

/-- The command-line flags of `main`. -/
structure Flags where
  thumbsonly : Bool
  dhashonly : Bool
  missingonly : Bool
  renameonly : Bool
  removeorphanfiles : Bool
  deriving DecidableEq, Repr

/-- Everything the control thread of `main` does to, or learns from, the outside. -/
inductive Event where
  | readDir (dir : String) (files : Option (List FileInfo))
  | stat (path : String) (result : StatResult)
  | remove (path : String)
  | goGenerateThumbnail (fileName : String)
  | goGeneratedHash (fileName : String) (imageID : Nat)
  | wgWait
  | generateRandomKey (length : Nat) (key : List Nat)
  | saveConfiguration
  | cacheTemplates
  | throttleInit
  | initDatabase (connected : Bool)
  | goBadConfigServer (routes : List Route)
  | sleep
  | shutdownBadConfigServer
  | databaseConnected
  | searchImages (page stride : Nat) (result : SearchResult)
  | getImagedHash (imageID : Nat) (hashExists : Bool)
  | getImageByFileName (fileName : List Nat) (result : LookupResult)
  | renameAllImages
  | listenAndServe (routes : List Route)
  | listenAndServeTLS (routes : List Route) (certPath keyPath : String)
  deriving DecidableEq, Repr

/-- The collaborators of `main` over a world `W`: what each query answers in a
world, and how an event changes the world. -/
structure Env (W : Type) where
  readDir : W → String → Option (List FileInfo)
  stat : W → String → StatResult
  generateRandomKey : W → Nat → List Nat
  initDatabase : W → Bool
  searchImages : W → Nat → Nat → SearchResult
  getImagedHash : W → Nat → Bool
  getImageByFileName : W → List Nat → LookupResult
  effect : W → Event → W

/-- The world reached so far and the trace of events that led to it. -/
structure Run (W : Type) where
  world : W
  trace : List Event

/-- How a run of the model can stop without the code having returned: the integer
division by zero panic of Go, the panic of a method call on the nil interface
value, or the model's fuel running out in a loop that has no bound in the code. -/
inductive Fault where
  | divideByZero
  | nilDereference
  | outOfFuel
  deriving DecidableEq, Repr

/-- Records an event and applies it to the world. -/
def emit {W : Type} (env : Env W) (r : Run W) (e : Event) : Run W :=
  { world := env.effect r.world e, trace := r.trace ++ [e] }

/-- The width of `uint64`. -/
def uint64Size : Nat := 2 ^ 64

/-- The value of `string(filepath.Separator)`. -/
def pathSeparator : String := "/"

/-- The counter of a `sync.WaitGroup` after one more event: `wg.Add(1)` with the
`go` statement raises it, `wg.Wait()` returns once it is zero again. -/
def inFlightStep (n : Nat) : Event → Nat
  | .goGenerateThumbnail _ => n + 1
  | .goGeneratedHash _ _ => n + 1
  | .wgWait => 0
  | _ => n

/-- The number of units launched since the last `wg.Wait()` of a trace: the units
that can still be running at its end. -/
def inFlight (t : List Event) : Nat := t.foldl inFlightStep 0

/-! ## Thumbnail job (`-thumbsonly`) -/

/-- The state of the thumbnail loop. -/
structure ThumbState (W : Type) where
  run : Run W
  generatedThumbnails : Nat

/-- The path `ImageDirectory/thumbs/<name>.png` built at gib.go:70. -/
def thumbNailPath (imageDirectory fileName : String) : String :=
  imageDirectory ++ pathSeparator ++ "thumbs" ++ pathSeparator ++ fileName ++ ".png"

/-- One iteration of the loop at gib.go:65-84. -/
def thumbsStep {W : Type} (env : Env W) (cfg : ConfigurationSettings) (missingOnly : Bool)
    (s : ThumbState W) (file : FileInfo) : Except Fault (ThumbState W) :=
  if file.isDir then
    .ok s
  else
    let path := thumbNailPath cfg.ImageDirectory file.name
    let err := env.stat s.run.world path
    let r1 := emit env s.run (.stat path err)
    let s2 : ThumbState W :=
      if missingOnly == false || err == StatResult.notExist then
        { run := emit env (emit env r1 (.remove path)) (.goGenerateThumbnail file.name),
          generatedThumbnails := (s.generatedThumbnails + 1) % uint64Size }
      else
        { run := r1, generatedThumbnails := s.generatedThumbnails }
    if cfg.PageStride = 0 then
      .error .divideByZero
    else if s2.generatedThumbnails % cfg.PageStride = 0 then
      .ok { s2 with run := emit env s2.run .wgWait }
    else
      .ok s2

/-- The loop `for _, file := range files` at gib.go:65-84. -/
def thumbsLoop {W : Type} (env : Env W) (cfg : ConfigurationSettings) (missingOnly : Bool) :
    ThumbState W → List FileInfo → Except Fault (ThumbState W)
  | s, [] => .ok s
  | s, file :: files =>
    match thumbsStep env cfg missingOnly s file with
    | .error f => .error f
    | .ok s' => thumbsLoop env cfg missingOnly s' files

/-- The `-thumbsonly` branch of `main`, gib.go:53-88. -/
def thumbsJob {W : Type} (env : Env W) (cfg : ConfigurationSettings) (missingOnly : Bool)
    (r : Run W) : Except Fault (ThumbState W) :=
  let files := env.readDir r.world cfg.ImageDirectory
  let r1 := emit env r (.readDir cfg.ImageDirectory files)
  match files with
  | none => .ok { run := r1, generatedThumbnails := 0 }
  | some files =>
    match thumbsLoop env cfg missingOnly { run := r1, generatedThumbnails := 0 } files with
    | .error f => .error f
    | .ok s => .ok { s with run := emit env s.run .wgWait }

/-! ## Database bootstrap (gib.go:101-140) -/

/-- The state after the bootstrap: the run and the variable `configConfirmed`. -/
structure BootState (W : Type) where
  run : Run W
  configConfirmed : Bool

/-- The routes of the temporary server (gib.go:114-115) and of the final server
when the configuration is not confirmed (gib.go:293-294). -/
def badConfigRoutes : List Route :=
  [⟨"/", "routers.BadConfigRouter"⟩, ⟨"/resources/{file}", "routers.ResourceRouter"⟩]

/-- The loop `for err != nil` at gib.go:126-129, entered with `err != nil`; one unit
of fuel pays for one iteration. -/
def retryLoop {W : Type} (env : Env W) : Nat → Run W → Except Fault (Run W)
  | 0, _ => .error .outOfFuel
  | fuel + 1, r =>
    let r1 := emit env r .sleep
    let connected := env.initDatabase r1.world
    let r2 := emit env r1 (.initDatabase connected)
    if connected then .ok r2 else retryLoop env fuel r2

/-- The block "If we can, start the database", gib.go:101-140.  The event
`databaseConnected` stands for lines 138-139: the log line "Successfully connected
to database" and `configConfirmed = true`. -/
def bootstrap {W : Type} (env : Env W) (cfg : ConfigurationSettings) (fuel : Nat)
    (r : Run W) : Except Fault (BootState W) :=
  if cfg.DBName == "" || cfg.DBPassword == "" || cfg.DBUser == "" || cfg.DBHost == "" then
    .ok { run := r, configConfirmed := false }
  else
    let connected := env.initDatabase r.world
    let r1 := emit env r (.initDatabase connected)
    if connected then
      .ok { run := emit env r1 .databaseConnected, configConfirmed := true }
    else
      let r2 := emit env r1 (.goBadConfigServer badConfigRoutes)
      match retryLoop env fuel r2 with
      | .error f => .error f
      | .ok r3 =>
        .ok { run := emit env (emit env r3 .shutdownBadConfigServer) .databaseConnected,
              configConfirmed := true }

/-! ## Hash job (`-dhashonly`) -/

/-- The state of the hash loop. -/
structure HashState (W : Type) where
  run : Run W
  page : Nat
  processedImages : Nat

/-- The inner loop `for _, nextImage := range images`, gib.go:160-173. -/
def dhashImages {W : Type} (env : Env W) (missingOnly : Bool) :
    HashState W → List ImageInformation → HashState W
  | s, [] => s
  | s, nextImage :: images =>
    let hashExists := if missingOnly then env.getImagedHash s.run.world nextImage.ID else true
    let r1 := if missingOnly then emit env s.run (.getImagedHash nextImage.ID hashExists) else s.run
    if missingOnly == false || !hashExists then
      dhashImages env missingOnly
        { run := emit env r1 (.goGeneratedHash nextImage.Location nextImage.ID),
          page := s.page,
          processedImages := (s.processedImages + 1) % uint64Size } images
    else
      dhashImages env missingOnly { s with run := r1 } images

/-- The loop `for true` at gib.go:148-175 run for at most `fuel` pages.  The flag
of the result tells whether the loop reached one of its `break`s; when it is
`false` the state is the one after `fuel` full iterations. -/
def dhashLoop {W : Type} (env : Env W) (cfg : ConfigurationSettings) (missingOnly : Bool) :
    Nat → HashState W → HashState W × Bool
  | 0, s => (s, false)
  | fuel + 1, s =>
    let result := env.searchImages s.run.world s.page cfg.PageStride
    let s1 : HashState W :=
      { run := emit env s.run (.searchImages s.page cfg.PageStride result),
        page := (s.page + cfg.PageStride) % uint64Size,
        processedImages := s.processedImages }
    if result.failed then
      (s1, true)
    else if result.images.length ≤ 0 then
      (s1, true)
    else
      let s2 := dhashImages env missingOnly s1 result.images
      dhashLoop env cfg missingOnly fuel { s2 with run := emit env s2.run .wgWait }

/-- The `-dhashonly` branch of `main`, gib.go:141-181. -/
def dhashJob {W : Type} (env : Env W) (cfg : ConfigurationSettings) (missingOnly : Bool)
    (fuel : Nat) (r : Run W) : Except Fault (HashState W) :=
  match dhashLoop env cfg missingOnly fuel { run := r, page := 0, processedImages := 0 } with
  | (_, false) => .error .outOfFuel
  | (s, true) => .ok { s with run := emit env s.run .wgWait }

/-! ## Orphan sweep (`-removeorphanfiles`) -/

/-- The elements of a path, the pieces between its slashes. -/
def pathElements (path : List Char) : List (List Char) :=
  path.foldr (fun c acc =>
    if c == '/' then [] :: acc
    else
      match acc with
      | [] => [[c]]
      | elem :: rest => (c :: elem) :: rest) [[]]

/-- One element in `path.Clean`, on the elements kept so far, the last one first:
an empty element and `.` are dropped; `..` removes the element before it, is
dropped at the root, and is kept where there is nothing to remove. -/
def cleanElement (rooted : Bool) (kept : List (List Char)) (elem : List Char) :
    List (List Char) :=
  if elem == [] || elem == ['.'] then kept
  else if elem == ['.', '.'] then
    match kept with
    | [] => if rooted then [] else [elem]
    | last :: rest => if last == ['.', '.'] then elem :: kept else rest
  else elem :: kept

/-- The function `path.Clean` of the Go library: the shortest path naming the same
place, `.` for the empty one. -/
def pathClean (path : String) : String :=
  if path == "" then "."
  else
    let rooted := path.data.head? == some '/'
    let kept := ((pathElements path.data).foldl (cleanElement rooted) []).reverse
    let body := String.mk (List.intercalate ['/'] kept)
    if rooted then "/" ++ body
    else if body == "" then "."
    else body

/-- The function `path.Join` of the Go library on two elements: the non-empty ones
are joined by a slash and the result is cleaned; two empty elements give the empty
string. -/
def pathJoin (dir name : String) : String :=
  if dir == "" then
    if name == "" then "" else pathClean name
  else pathClean (dir ++ "/" ++ name)

/-- The UTF-8 encoding of a character, the bytes it takes in a Go string. -/
def utf8EncodeChar (c : Char) : List Nat :=
  if c.toNat ≤ 0x7F then [c.toNat]
  else if c.toNat ≤ 0x7FF then [0xC0 + c.toNat / 64, 0x80 + c.toNat % 64]
  else if c.toNat ≤ 0xFFFF then
    [0xE0 + c.toNat / 4096, 0x80 + c.toNat / 64 % 64, 0x80 + c.toNat % 64]
  else
    [0xF0 + c.toNat / 262144, 0x80 + c.toNat / 4096 % 64, 0x80 + c.toNat / 64 % 64,
      0x80 + c.toNat % 64]

/-- The bytes of a string as Go holds it: `len` counts them and a slice expression
cuts between them. -/
def utf8Bytes (s : String) : List Nat := s.data.flatMap utf8EncodeChar

/-- One iteration of the image pass, gib.go:189-205.  The name handed to
`GetImageByFileName` is a Go string, given as its bytes. -/
def orphanImagesStep {W : Type} (env : Env W) (cfg : ConfigurationSettings)
    (r : Run W) (file : FileInfo) : Run W :=
  if file.isDir then
    r
  else
    let err := env.getImageByFileName r.world (utf8Bytes file.name)
    let r1 := emit env r (.getImageByFileName (utf8Bytes file.name) err)
    if err == LookupResult.errNoRows then
      emit env r1 (.remove (pathJoin cfg.ImageDirectory file.name))
    else
      r1

/-- The name a thumbnail is looked up under, gib.go:217-220: the last four bytes
are cut off a name longer than four bytes, whatever they are. -/
def stripPng (imageName : String) : List Nat :=
  if (utf8Bytes imageName).length > 4 then
    (utf8Bytes imageName).take ((utf8Bytes imageName).length - 4)
  else utf8Bytes imageName

/-- One iteration of the thumbnail pass, gib.go:212-232. -/
def orphanThumbsStep {W : Type} (env : Env W) (cfg : ConfigurationSettings)
    (r : Run W) (file : FileInfo) : Run W :=
  if file.isDir then
    r
  else
    let imageName := stripPng file.name
    let err := env.getImageByFileName r.world imageName
    let r1 := emit env r (.getImageByFileName imageName err)
    if err == LookupResult.errNoRows then
      emit env r1 (.remove (pathJoin (pathJoin cfg.ImageDirectory "thumbs") file.name))
    else
      r1

/-- The image pass of the sweep: the loop at gib.go:189-205 over a listing. -/
def orphanImagesLoop {W : Type} (env : Env W) (cfg : ConfigurationSettings)
    (r : Run W) (files : List FileInfo) : Run W :=
  files.foldl (orphanImagesStep env cfg) r

/-- The thumbnail pass of the sweep: the loop at gib.go:212-232 over a listing. -/
def orphanThumbsLoop {W : Type} (env : Env W) (cfg : ConfigurationSettings)
    (r : Run W) (files : List FileInfo) : Run W :=
  files.foldl (orphanThumbsStep env cfg) r

/-- The `-removeorphanfiles` branch of `main`, gib.go:182-235. -/
def removeOrphanFiles {W : Type} (env : Env W) (cfg : ConfigurationSettings)
    (r : Run W) : Run W :=
  let files := env.readDir r.world cfg.ImageDirectory
  let r1 := emit env r (.readDir cfg.ImageDirectory files)
  match files with
  | none => r1
  | some files =>
    let r2 := orphanImagesLoop env cfg r1 files
    let thumbsDir := pathJoin cfg.ImageDirectory "thumbs"
    let thumbs := env.readDir r2.world thumbsDir
    let r3 := emit env r2 (.readDir thumbsDir thumbs)
    match thumbs with
    | none => r3
    | some thumbs => orphanThumbsLoop env cfg r3 thumbs

/-- Whether `database.DBInterface` was assigned, gib.go:101-105: it is, in the
`else` branch taken when all four database settings are there. -/
def databaseAssigned (cfg : ConfigurationSettings) : Bool :=
  !(cfg.DBName == "" || cfg.DBPassword == "" || cfg.DBUser == "" || cfg.DBHost == "")

/-- The `-removeorphanfiles` branch of `main`, gib.go:182-235, when
`database.DBInterface` was never assigned: the first `GetImageByFileName`, at the
first entry of a listing that is not a directory, is a call on the nil interface
value and panics. -/
def removeOrphanFilesUnassigned {W : Type} (env : Env W) (cfg : ConfigurationSettings)
    (r : Run W) : Except Fault (Run W) :=
  let files := env.readDir r.world cfg.ImageDirectory
  let r1 := emit env r (.readDir cfg.ImageDirectory files)
  match files with
  | none => .ok r1
  | some files =>
    if files.any fun file => !file.isDir then
      .error .nilDereference
    else
      let thumbsDir := pathJoin cfg.ImageDirectory "thumbs"
      let thumbs := env.readDir r1.world thumbsDir
      let r3 := emit env r1 (.readDir thumbsDir thumbs)
      match thumbs with
      | none => .ok r3
      | some thumbs =>
        if thumbs.any fun file => !file.isDir then .error .nilDereference
        else .ok r3

/-! ## TLS check, routes and the final server (gib.go:236-316) -/

/-- The block "Verify TLS Settings", gib.go:237-245. -/
def verifyTLS {W : Type} (env : Env W) (cfg : ConfigurationSettings)
    (s : BootState W) : BootState W :=
  if cfg.UseTLS then
    let certErr := env.stat s.run.world cfg.TLSCertPath
    let r1 := emit env s.run (.stat cfg.TLSCertPath certErr)
    if certErr != StatResult.ok then
      { run := r1, configConfirmed := false }
    else
      let keyErr := env.stat r1.world cfg.TLSKeyPath
      let r2 := emit env r1 (.stat cfg.TLSKeyPath keyErr)
      if keyErr != StatResult.ok then
        { run := r2, configConfirmed := false }
      else
        { run := r2, configConfirmed := s.configConfirmed }
  else
    s

/-- The routes registered when the configuration is confirmed, gib.go:257-290. -/
def fullRoutes : List Route :=
  [⟨"/resources/{file}", "routers.ResourceRouter"⟩,
   ⟨"/", "routers.RootRouter"⟩,
   ⟨"/images", "routers.ImageQueryRouter"⟩,
   ⟨"/collectionorder", "routers.CollectionImageOrderRouter"⟩,
   ⟨"/collectionimages", "routers.CollectionImageRouter"⟩,
   ⟨"/collections", "routers.CollectionsRouter"⟩,
   ⟨"/images/{file}", "routers.ResourceImageRouter"⟩,
   ⟨"/thumbs/{file}", "routers.ThumbnailRouter"⟩,
   ⟨"/image", "routers.ImageRouter"⟩,
   ⟨"/uploadImage", "routers.UploadFormRouter"⟩,
   ⟨"/about/{file}", "routers.AboutRouter"⟩,
   ⟨"/tags", "routers.TagsRouter"⟩,
   ⟨"/tag", "routers.TagRouter"⟩,
   ⟨"/redirect", "routers.RedirectRouter"⟩,
   ⟨"/logon", "routers.LogonRouter"⟩,
   ⟨"/mod", "routers.ModRouter"⟩,
   ⟨"/mod/user", "routers.ModUserRouter"⟩,
   ⟨"/api/Collection/{CollectionID}", "api.CollectionAPIRouter"⟩,
   ⟨"/api/Collections", "api.CollectionsAPIRouter"⟩,
   ⟨"/api/Tag/{TagID}", "api.TagAPIRouter"⟩,
   ⟨"/api/Tags", "api.TagsAPIRouter"⟩,
   ⟨"/api/Image/{ImageID}", "api.ImageAPIRouter"⟩,
   ⟨"/api/Images", "api.ImagesAPIRouter"⟩,
   ⟨"/api/Logon", "api.LogonAPIRouter"⟩,
   ⟨"/api/Logout", "api.LogoutAPIRouter"⟩,
   ⟨"/api/Users", "api.UsersAPIRouter"⟩,
   ⟨"/api/TagName", "api.TagNameAPIRouter"⟩,
   ⟨"/api/CollectionName", "api.CollectionNameAPIRouter"⟩]

/-- The end of `main`, gib.go:305-312: the server is served with TLS only when
TLS is configured and the configuration is confirmed. -/
def listen {W : Type} (env : Env W) (cfg : ConfigurationSettings) (configConfirmed : Bool)
    (r : Run W) (routes : List Route) : Run W :=
  if cfg.UseTLS == false || configConfirmed == false then
    emit env r (.listenAndServe routes)
  else
    emit env r (.listenAndServeTLS routes cfg.TLSCertPath cfg.TLSKeyPath)

/-- The blocks "Setup request routers" to the end of `main`, gib.go:246-316. -/
def serve {W : Type} (env : Env W) (cfg : ConfigurationSettings) (flags : Flags)
    (s : BootState W) : Run W :=
  if s.configConfirmed == true then
    if flags.renameonly then
      emit env s.run .renameAllImages
    else
      listen env cfg s.configConfirmed s.run fullRoutes
  else
    listen env cfg s.configConfirmed s.run badConfigRoutes

/-! ## Configuration defaults (gib.go:318-350, configuration.go:130-143) -/

/-- The two keys `GenerateRandomKey(64)`, `GenerateRandomKey(32)` in that order,
with the run after both calls. -/
def freshSessionKeys {W : Type} (env : Env W) (r : Run W) : List (List Nat) × Run W :=
  let k64 := env.generateRandomKey r.world 64
  let r1 := emit env r (.generateRandomKey 64 k64)
  let k32 := env.generateRandomKey r1.world 32
  let r2 := emit env r1 (.generateRandomKey 32 k32)
  ([k64, k32], r2)

/-- The first statement of `CreateSessionStore`, configuration.go:132-136: the
session keys are replaced by two fresh ones when there are fewer than two keys or
when the first is not 64 or the second not 32 bytes long. -/
def sessionStoreKeys {W : Type} (env : Env W) (cfg : ConfigurationSettings) (r : Run W) :
    List (List Nat) × Run W :=
  match cfg.SessionStoreKey with
  | k0 :: k1 :: rest =>
    if k0.length != 64 || k1.length != 32 then freshSessionKeys env r
    else (k0 :: k1 :: rest, r)
  | _ => freshSessionKeys env r

/-- The function `CreateSessionStore`, configuration.go:131-143, as far as it
changes `Configuration`; the cookie store built from the keys is not modelled. -/
def CreateSessionStore {W : Type} (env : Env W) (cfg : ConfigurationSettings) (r : Run W) :
    ConfigurationSettings × Run W :=
  let keys := sessionStoreKeys env cfg r
  let cfg1 := { cfg with SessionStoreKey := keys.1 }
  if cfg1.CSRFKey.length != 32 then
    let key := env.generateRandomKey keys.2.world 32
    ({ cfg1 with CSRFKey := key }, emit env keys.2 (.generateRandomKey 32 key))
  else
    (cfg1, keys.2)

/-- One statement `if <field is missing> { <field> = <default> }` of
`fixMissingConfigs`. -/
def setIfMissing (missing : ConfigurationSettings → Bool)
    (set : ConfigurationSettings → ConfigurationSettings) (cfg : ConfigurationSettings) :
    ConfigurationSettings :=
  if missing cfg then set cfg else cfg

/-- The ten defaults of `fixMissingConfigs`, gib.go:319-348, in source order. -/
def fixMissingFields (cfg : ConfigurationSettings) : ConfigurationSettings :=
  cfg
  |> setIfMissing (fun c => c.Address == "") (fun c => { c with Address := ":8080" })
  |> setIfMissing (fun c => c.ImageDirectory == "")
      (fun c => { c with ImageDirectory := "." ++ pathSeparator ++ "images" })
  |> setIfMissing (fun c => c.HTTPRoot == "")
      (fun c => { c with HTTPRoot := "." ++ pathSeparator ++ "http" })
  |> setIfMissing (fun c => c.MaxUploadBytes ≤ 0) (fun c => { c with MaxUploadBytes := 100 * 2 ^ 20 })
  |> setIfMissing (fun c => c.MaxHeaderBytes ≤ 0) (fun c => { c with MaxHeaderBytes := 2 ^ 20 })
  |> setIfMissing (fun c => c.ReadTimeout ≤ 0) (fun c => { c with ReadTimeout := 30 * 1000000000 })
  |> setIfMissing (fun c => c.WriteTimeout ≤ 0) (fun c => { c with WriteTimeout := 30 * 1000000000 })
  |> setIfMissing (fun c => c.MaxThumbnailWidth ≤ 0) (fun c => { c with MaxThumbnailWidth := 402 })
  |> setIfMissing (fun c => c.MaxThumbnailHeight ≤ 0) (fun c => { c with MaxThumbnailHeight := 258 })
  |> setIfMissing (fun c => c.PageStride ≤ 0) (fun c => { c with PageStride := 30 })

/-- The function `fixMissingConfigs`, gib.go:318-350: the ten defaults, then
`config.CreateSessionStore()`. -/
def fixMissingConfigs {W : Type} (env : Env W) (cfg : ConfigurationSettings) (r : Run W) :
    ConfigurationSettings × Run W :=
  CreateSessionStore env (fixMissingFields cfg) r

/-! ## `main` -/

/-- The part of `main` after the configuration is complete, gib.go:50-316: the
mode chosen by the flags, run on the configuration `cfg` from the run `r0`.
`-renameonly` is the single event `renameAllImages`.  With incomplete database
settings `database.DBInterface` is still nil when a batch job that asks the
catalog is reached: the hash job panics in its first `SearchImages`, gib.go:149,
the sweep in its first `GetImageByFileName`, gib.go:194. -/
def runMode {W : Type} (env : Env W) (flags : Flags) (cfg : ConfigurationSettings)
    (fuel : Nat) (r0 : Run W) : Except Fault (Run W) :=
  if flags.thumbsonly then
    match thumbsJob env cfg flags.missingonly r0 with
    | .error f => .error f
    | .ok s => .ok s.run
  else
    let r1 := emit env (emit env (emit env r0 .saveConfiguration) .cacheTemplates) .throttleInit
    match bootstrap env cfg fuel r1 with
    | .error f => .error f
    | .ok b =>
      if flags.dhashonly then
        if databaseAssigned cfg then
          match dhashJob env cfg flags.missingonly fuel b.run with
          | .error f => .error f
          | .ok s => .ok s.run
        else
          .error .nilDereference
      else if flags.removeorphanfiles then
        if databaseAssigned cfg then
          .ok (removeOrphanFiles env cfg b.run)
        else
          removeOrphanFilesUnassigned env cfg b.run
      else
        .ok (serve env cfg flags (verifyTLS env cfg b))

/-- The function `main`, gib.go:28-316, from the configuration as loaded by
`LoadConfiguration` (or the zero value when loading failed) to the run at the
point where `main` returns or blocks in the final server: `fixMissingConfigs()`,
then the mode chosen by the flags. -/
def main {W : Type} (env : Env W) (flags : Flags) (loaded : ConfigurationSettings)
    (fuel : Nat) (world : W) : Except Fault (Run W) :=
  let fixed := fixMissingConfigs env loaded { world := world, trace := [] }
  runMode env flags fixed.1 fuel fixed.2

/-! ## Observations on traces -/

/-- Whether an event starts an HTTP server: the temporary server of the bootstrap
or the final server. -/
def Event.startsServer : Event → Bool
  | .goBadConfigServer _ => true
  | .listenAndServe _ => true
  | .listenAndServeTLS _ _ _ => true
  | _ => false

/-- The file names handed to `GenerateThumbnail` in a trace, in launch order. -/
def launchedThumbnails (t : List Event) : List String :=
  t.filterMap fun e => match e with
    | .goGenerateThumbnail fileName => some fileName
    | _ => none

/-- The records handed to `GeneratedHash` in a trace, in launch order. -/
def launchedHashes (t : List Event) : List ImageInformation :=
  t.filterMap fun e => match e with
    | .goGeneratedHash fileName imageID => some ⟨imageID, fileName⟩
    | _ => none

/-- The paths handed to `os.Remove` in a trace, in order. -/
def removedPaths (t : List Event) : List String :=
  t.filterMap fun e => match e with
    | .remove path => some path
    | _ => none

/-- The page offsets handed to `SearchImages` in a trace, in order. -/
def searchOffsets (t : List Event) : List Nat :=
  t.filterMap fun e => match e with
    | .searchImages page _ _ => some page
    | _ => none

/-- The strides handed to `SearchImages` in a trace, in order. -/
def searchStrides (t : List Event) : List Nat :=
  t.filterMap fun e => match e with
    | .searchImages _ stride _ => some stride
    | _ => none

/-- The pages `SearchImages` returned in a trace, in order. -/
def returnedPages (t : List Event) : List (List ImageInformation) :=
  t.filterMap fun e => match e with
    | .searchImages _ _ result => some result.images
    | _ => none

/-- The page of the most recent `SearchImages` call of a trace. -/
def currentPage (t : List Event) : List ImageInformation :=
  t.foldl (fun page e => match e with
    | .searchImages _ _ result => result.images
    | _ => page) []

/-- The answers of `InitDatabase` in a trace, in order. -/
def connectionAttempts (t : List Event) : List Bool :=
  t.filterMap fun e => match e with
    | .initDatabase connected => some connected
    | _ => none

/-- The lookups of the orphan sweep in a trace, in order: the name asked for and
the answer. -/
def lookups (t : List Event) : List (List Nat × LookupResult) :=
  t.filterMap fun e => match e with
    | .getImageByFileName fileName result => some (fileName, result)
    | _ => none

/-- The number of times the temporary server was started in a trace. -/
def placeholderStarts (t : List Event) : Nat :=
  t.countP fun e => match e with
    | .goBadConfigServer _ => true
    | _ => false

/-- The number of times the configuration was marked confirmed in a trace. -/
def confirmations (t : List Event) : Nat :=
  t.countP fun e => match e with
    | .databaseConnected => true
    | _ => false

/-- The catalog of `env` refuses as many connection attempts as `refusals` tells
for the world, whatever else happens in between, and accepts every later one. -/
def FailsThenConnects {W : Type} (env : Env W) (refusals : W → Nat) : Prop :=
  (∀ w, env.initDatabase w = decide (refusals w = 0)) ∧
  (∀ w c, refusals (env.effect w (.initDatabase c)) = refusals w - 1) ∧
  (∀ w e, (∀ c, e ≠ .initDatabase c) → refusals (env.effect w e) = refusals w)

/-! ## A store and catalog to run the jobs on -/

/-- Modelled from the spec: the media store, the catalog and the two work units
`routers.GenerateThumbnail` and `routers.GeneratedHash`, none of which is in the
sources at hand.  A unit "invokes the Artifact Encoder on one MediaRecord; on
success, persists the artifact (file write or catalog update); on failure, logs
and continues"; `broken` lists the file names the encoder fails on.  The
artifacts of the running units are in `pendingThumbs` and `pendingHashes` until
the next `wg.Wait()`.  The image directory of a store is written in clean form
(`images`, not `./images`), so that a file has one path: the one `path.Join`
gives and the one written with separators are the same. -/
structure Store where
  imageDirectory : String
  images : List String
  thumbs : List String
  records : List ImageInformation
  hashed : List Nat
  broken : List String
  outage : Nat
  pendingThumbs : List String
  pendingHashes : List Nat
  deriving DecidableEq, Repr

/-- A directory and a name in it with a slash in between: the path of the file
when the directory is written in clean form. -/
def slashJoin (dir name : String) : String := dir ++ "/" ++ name

/-- The directory of the thumbnails of a store. -/
def Store.thumbsDirectory (w : Store) : String := slashJoin w.imageDirectory "thumbs"

/-- Whether a path names a regular file of the store. -/
def Store.hasFile (w : Store) (path : String) : Bool :=
  (w.images.map (slashJoin w.imageDirectory)).contains path ||
  (w.thumbs.map (slashJoin w.thumbsDirectory)).contains path

/-- Modelled from the spec: how an event changes a store.  `os.Remove` deletes the
file of that path; a unit on a file the encoder can read leaves its artifact
pending; `wg.Wait()` returns when the pending artifacts are persisted; a
connection attempt uses up one attempt of the outage. -/
def Store.effect (w : Store) : Event → Store
  | .remove path =>
    { w with
      images := w.images.filter fun n => slashJoin w.imageDirectory n != path
      thumbs := w.thumbs.filter fun n => slashJoin w.thumbsDirectory n != path }
  | .goGenerateThumbnail fileName =>
    if w.broken.contains fileName then w
    else { w with pendingThumbs := (fileName ++ ".png") :: w.pendingThumbs }
  | .goGeneratedHash fileName imageID =>
    if w.broken.contains fileName then w
    else { w with pendingHashes := imageID :: w.pendingHashes }
  | .wgWait =>
    { w with
      thumbs := w.pendingThumbs ++ w.thumbs
      hashed := w.pendingHashes ++ w.hashed
      pendingThumbs := []
      pendingHashes := [] }
  | .initDatabase _ => { w with outage := w.outage - 1 }
  | _ => w

/-- Modelled from the spec: the adapters over a store.  `listMedia` lists the
regular files of a directory (and the `thumbs` directory inside the image
directory); `searchRecords(filterEmpty, offset, stride)` answers the records from
`offset` on, at most `stride` of them; `getHash` fails when no hash is stored;
`getByFilename` fails with no-rows when no record has that file name; `connect`
fails while the outage lasts. -/
def storeEnv : Env Store where
  readDir w dir :=
    if dir == w.imageDirectory then
      some (w.images.map (fun n => ⟨n, false⟩) ++ [⟨"thumbs", true⟩])
    else if dir == w.thumbsDirectory then
      some (w.thumbs.map fun n => ⟨n, false⟩)
    else
      none
  stat w path := if w.hasFile path then .ok else .notExist
  generateRandomKey _ length := List.replicate length 0
  initDatabase w := w.outage == 0
  searchImages w page stride := ⟨(w.records.drop page).take stride, w.records.length, false⟩
  getImagedHash w imageID := w.hashed.contains imageID
  getImageByFileName w fileName :=
    if w.records.any fun r => utf8Bytes r.Location == fileName then .found else .errNoRows
  effect := Store.effect

/-- A configuration with complete database settings for the image directory
`images`. -/
def sampleConfig : ConfigurationSettings where
  DBName := "gib"
  DBUser := "gib"
  DBPassword := "secret"
  DBHost := "localhost"
  ImageDirectory := "images"
  Address := ":8080"
  ReadTimeout := 30000000000
  WriteTimeout := 30000000000
  MaxHeaderBytes := 1048576
  SessionStoreKey := [List.replicate 64 0, List.replicate 32 0]
  CSRFKey := List.replicate 32 0
  HTTPRoot := "http"
  MaxUploadBytes := 104857600
  MaxThumbnailWidth := 402
  MaxThumbnailHeight := 258
  PageStride := 2
  UseTLS := false
  TLSCertPath := ""
  TLSKeyPath := ""

/-- A store with three image files, of which only `A` has a catalog record. -/
def sampleStore : Store where
  imageDirectory := "images"
  images := ["A", "B", "C"]
  thumbs := []
  records := [⟨1, "A"⟩]
  hashed := []
  broken := []
  outage := 0
  pendingThumbs := []
  pendingHashes := []

/-- No flag set: the server mode. -/
def serverMode : Flags where
  thumbsonly := false
  dhashonly := false
  missingonly := false
  renameonly := false
  removeorphanfiles := false

/-- The throttle invariant of the thumbnail loop for a stride `n`: the counter is a
`uint64`, the in-flight count is the counter modulo `n`, and at no point of the
trace were more than `n` units in flight. -/
def ThumbState.Throttled {W : Type} (n : Nat) (s : ThumbState W) : Prop :=
  s.generatedThumbnails < uint64Size ∧
  inFlight s.run.trace = s.generatedThumbnails % n ∧
  ∀ p, p <+: s.run.trace → inFlight p ≤ n

/-- No unit is in flight whenever `SearchImages` is called in the trace. -/
def JoinedAtQueries (t : List Event) : Prop :=
  ∀ p page stride result, p ++ [Event.searchImages page stride result] <+: t → inFlight p = 0

/-- At every point of the trace the units in flight are at most the records of the
page returned by the most recent `SearchImages` call. -/
def WithinPage (t : List Event) : Prop :=
  ∀ p, p <+: t → inFlight p ≤ (currentPage p).length

/-- The events of `n` rounds of the retry loop that end in a refused connection. -/
def failedRetries : Nat → List Event
  | 0 => []
  | n + 1 => .sleep :: .initDatabase false :: failedRetries n

/-- The part of a trace from the first accepted connection on. -/
def afterConnect (t : List Event) : List Event :=
  t.dropWhile fun e => e != .initDatabase true

/-- Whether an event starts the final server of `main`, with or without TLS. -/
def Event.startsFinalServer : Event → Bool
  | .listenAndServe _ => true
  | .listenAndServeTLS _ _ _ => true
  | _ => false

/-- The events of the thumbnail job. -/
def Event.ofThumbsJob : Event → Bool
  | .readDir _ _ => true
  | .stat _ _ => true
  | .remove _ => true
  | .goGenerateThumbnail _ => true
  | .wgWait => true
  | _ => false

/-- The events of the hash job. -/
def Event.ofHashJob : Event → Bool
  | .searchImages _ _ _ => true
  | .getImagedHash _ _ => true
  | .goGeneratedHash _ _ => true
  | .wgWait => true
  | _ => false

/-- The events of the orphan sweep. -/
def Event.ofSweep : Event → Bool
  | .readDir _ _ => true
  | .getImageByFileName _ _ => true
  | .remove _ => true
  | _ => false

/-- The run `r'` continues the run `r` by events of the kind `kind` only, each
applied to the world in turn. -/
def Extends {W : Type} (env : Env W) (kind : Event → Bool) (r r' : Run W) : Prop :=
  ∃ ext, r'.trace = r.trace ++ ext ∧ r'.world = ext.foldl env.effect r.world ∧
    ∀ e ∈ ext, kind e = true

/-- The sample configuration with TLS switched on. -/
def sampleTLSConfig : ConfigurationSettings :=
  { sampleConfig with UseTLS := true, TLSCertPath := "cert.pem", TLSKeyPath := "key.pem" }

/-- The `os.Remove` calls and the thumbnail launches of a trace, in order. -/
def regenerationEvents (t : List Event) : List Event :=
  t.filter fun e => match e with
    | .remove _ => true
    | .goGenerateThumbnail _ => true
    | _ => false

/-- What regenerating the thumbnail of one file is to the outside: its thumbnail
path is removed, then a unit is launched on the file. -/
def regeneration (imageDirectory : String) (file : FileInfo) : List Event :=
  [.remove (thumbNailPath imageDirectory file.name), .goGenerateThumbnail file.name]

/-- The number of times the temporary server was shut down in a trace. -/
def placeholderShutdowns (t : List Event) : Nat :=
  t.countP fun e => match e with
    | .shutdownBadConfigServer => true
    | _ => false

/-- The events of the retry loop. -/
def Event.ofRetry : Event → Bool
  | .sleep => true
  | .initDatabase _ => true
  | _ => false

/-- The flags of a hash regeneration run. -/
def hashMode : Flags where
  thumbsonly := false
  dhashonly := true
  missingonly := false
  renameonly := false
  removeorphanfiles := false

/-- The thumbnail of the file `fileName` exists in the store or is being written. -/
def Store.Settled (w : Store) (fileName : String) : Prop :=
  thumbNailPath w.imageDirectory fileName ∈ w.images.map (slashJoin w.imageDirectory) ∨
  fileName ++ ".png" ∈ w.thumbs ∨ fileName ++ ".png" ∈ w.pendingThumbs

/-- The store `w'` has the image files and the encoder of `w` and at least its
thumbnails, written or being written. -/
def Store.Grows (w w' : Store) : Prop :=
  w'.imageDirectory = w.imageDirectory ∧ w'.images = w.images ∧ w'.broken = w.broken ∧
  ∀ t, t ∈ w.thumbs ∨ t ∈ w.pendingThumbs → t ∈ w'.thumbs ∨ t ∈ w'.pendingThumbs

/-- The sample store with a file the encoder fails on. -/
def brokenStore : Store := { sampleStore with broken := ["B"], records := [⟨1, "A"⟩, ⟨2, "B"⟩] }

/-- The records the hash job is handed by a catalog that holds `records` and does
not change: the pages from the offset `page` on, up to the first empty page; `none`
when no empty page is met within `fuel` pages. -/
def visitedRecords (records : List ImageInformation) (stride : Nat) :
    Nat → Nat → Option (List ImageInformation)
  | 0, _ => none
  | fuel + 1, page =>
    if ((records.drop page).take stride).length ≤ 0 then some []
    else (visitedRecords records stride fuel ((page + stride) % uint64Size)).map
      fun rest => (records.drop page).take stride ++ rest

/-- The hash of the record `imageID` is stored or is being stored. -/
def Store.SettledHash (w : Store) (imageID : Nat) : Prop :=
  imageID ∈ w.hashed ∨ imageID ∈ w.pendingHashes

/-- The store `w'` has the catalog and the encoder of `w` and at least its hashes,
stored or being stored. -/
def Store.GrowsHashes (w w' : Store) : Prop :=
  w'.records = w.records ∧ w'.broken = w.broken ∧
  ∀ imageID, w.SettledHash imageID → w'.SettledHash imageID

/-- The state of the hash loop after the query of one iteration, gib.go:149-150. -/
def HashState.afterQuery {W : Type} (env : Env W) (cfg : ConfigurationSettings)
    (s : HashState W) : HashState W :=
  { run := emit env s.run (.searchImages s.page cfg.PageStride
      (env.searchImages s.run.world s.page cfg.PageStride)),
    page := (s.page + cfg.PageStride) % uint64Size,
    processedImages := s.processedImages }

/-- The state of the hash loop after a full iteration on a non-empty page: the
query, the inner loop over the page and the barrier, gib.go:149-174. -/
def HashState.afterPage {W : Type} (env : Env W) (cfg : ConfigurationSettings)
    (missingOnly : Bool) (s : HashState W) : HashState W :=
  { dhashImages env missingOnly (s.afterQuery env cfg)
      (env.searchImages s.run.world s.page cfg.PageStride).images with
    run := emit env (dhashImages env missingOnly (s.afterQuery env cfg)
      (env.searchImages s.run.world s.page cfg.PageStride).images).run .wgWait }

/-- Two stores hold the same image files and, apart from the thumbnails named in
`ignored`, the same thumbnails, written and being written.  Nothing is said about
the files their encoders fail on. -/
def Store.AgreeThumbs (ignored : List String) (w w' : Store) : Prop :=
  w.imageDirectory = w'.imageDirectory ∧ w.images = w'.images ∧
  ∀ t, t ∉ ignored →
    (t ∈ w.thumbs ↔ t ∈ w'.thumbs) ∧ (t ∈ w.pendingThumbs ↔ t ∈ w'.pendingThumbs)

/-- Two stores hold the same catalog and, apart from the records named in
`ignored`, the same hashes, stored and being stored.  Nothing is said about the
files their encoders fail on. -/
def Store.AgreeHashes (ignored : List Nat) (w w' : Store) : Prop :=
  w.records = w'.records ∧
  ∀ i, i ∉ ignored →
    (i ∈ w.hashed ↔ i ∈ w'.hashed) ∧ (i ∈ w.pendingHashes ↔ i ∈ w'.pendingHashes)

/-! ## Enumeration failures -/

/-- Whether an event is a `SearchImages` call that returned an error. -/
def Event.isFailedQuery : Event → Bool
  | .searchImages _ _ result => result.failed
  | _ => false

/-- The events of the inner loop over the records of one page, gib.go:160-173. -/
def Event.ofRecord : Event → Bool
  | .getImagedHash _ _ => true
  | .goGeneratedHash _ _ => true
  | _ => false

/-- The adapters of a store whose directories cannot be listed and whose catalog
query fails from the offset 2 on. -/
def failingEnv : Env Store :=
  { storeEnv with
    readDir := fun _ _ => none
    searchImages := fun w page stride =>
      if page < 2 then storeEnv.searchImages w page stride else ⟨[], 0, true⟩ }

/-! ## The per-item filters of the jobs -/

/-- The hash lookups of a trace, in order: the record ID asked for and whether a
hash exists (`GetImagedHash` returned no error). -/
def hashLookups (t : List Event) : List (Nat × Bool) :=
  t.filterMap fun e => match e with
    | .getImagedHash imageID hashExists => some (imageID, hashExists)
    | _ => none

/-- The pages of a trace that the hash job goes on to handle: those of the
`SearchImages` calls that returned no error. -/
def queuedPages (t : List Event) : List (List ImageInformation) :=
  t.filterMap fun e => match e with
    | .searchImages _ _ result => if result.failed then none else some result.images
    | _ => none

/-- The records of the pages the hash job handles, in order. -/
def queuedRecords (t : List Event) : List ImageInformation := (queuedPages t).flatten

/-- The filter of the missing-only hash job, read off a trace: the lookups are
those of the records handled, one per record in order, and the units launched are
the records whose lookup found no hash. -/
def SkipsOnlyHashed (t : List Event) : Prop :=
  (hashLookups t).map Prod.fst = (queuedRecords t).map ImageInformation.ID ∧
  launchedHashes t =
    (((queuedRecords t).zip ((hashLookups t).map Prod.snd)).filter fun p => !p.2).map Prod.fst

/-- The full hash job, read off a trace: no lookup is made and every record
handled is launched, in order. -/
def LaunchesEveryRecord (t : List Event) : Prop :=
  hashLookups t = [] ∧ launchedHashes t = queuedRecords t

/-- The sample store with two records, the first with a stored hash. -/
def hashedStore : Store := { brokenStore with hashed := [1] }

/-- The `os.Stat` calls of a trace, in order: the path and the answer. -/
def statAnswers (t : List Event) : List (String × StatResult) :=
  t.filterMap fun e => match e with
    | .stat path result => some (path, result)
    | _ => none

/-- The filter of the missing-only thumbnail job, read off a trace for the
directory `dir` and the regular files `entries` of its listing: the thumbnail path
of each entry is stat-ed once, in order, and the paths removed and the units
launched are those of the entries whose stat reported that the path does not
exist. -/
def RegeneratesOnlyMissing (dir : String) (entries : List FileInfo) (t : List Event) : Prop :=
  (statAnswers t).map Prod.fst = entries.map (fun f => thumbNailPath dir f.name) ∧
  removedPaths t =
    ((entries.zip ((statAnswers t).map Prod.snd)).filter
      fun p => p.2 == StatResult.notExist).map (fun p => thumbNailPath dir p.1.name) ∧
  launchedThumbnails t =
    ((entries.zip ((statAnswers t).map Prod.snd)).filter
      fun p => p.2 == StatResult.notExist).map (fun p => p.1.name)

/-- The sample store with the thumbnail of `A` in place. -/
def thumbedStore : Store := { sampleStore with thumbs := ["A.png"] }

/-! ## The collection router (routers/collectionrouter.go): data and collaborators -/

/-- The loop of Go's `strconv.ParseUint` for base 10 over the bytes of the string,
from the value `n` read so far: a byte that is no decimal digit is a syntax error
with the value 0; a value that does not fit `uint64` or exceeds `maxVal` is a range
error with the value `maxVal`.  The result is the value and whether `err != nil`.
A character outside ASCII is a sequence of bytes that are no digits. -/
def parseUintDigits (maxVal : Nat) : List Char → Nat → Nat × Bool
  | [], n => (n, false)
  | c :: cs, n =>
    if '0' ≤ c ∧ c ≤ '9' then
      if n ≥ (uint64Size - 1) / 10 + 1 then
        (maxVal, true)
      else if n * 10 + (c.toNat - '0'.toNat) ≥ uint64Size
          ∨ n * 10 + (c.toNat - '0'.toNat) > maxVal then
        (maxVal, true)
      else
        parseUintDigits maxVal cs (n * 10 + (c.toNat - '0'.toNat))
    else
      (0, true)

/-- Go's `strconv.ParseUint(s, 10, bitSize)`: the value and whether `err != nil`.
The empty string is a syntax error; no sign and no underscore is allowed. -/
def parseUint (s : String) (bitSize : Nat) : Nat × Bool :=
  if s == "" then (0, true) else parseUintDigits (2 ^ bitSize - 1) s.data 0

/-- Go's conversion `int64(x)` of a `uint64`. -/
def toInt64 (x : Nat) : Int :=
  if x % uint64Size < 2 ^ 63 then (x % uint64Size : Nat) else (x % uint64Size : Nat) - 2 ^ 64

/-- The members of `interfaces.UserInformation` that the router reads. -/
structure UserInformation where
  Name : String
  ID : Nat
  deriving DecidableEq, Repr

/-- The permissions of `interfaces` that the router asks for. -/
inductive Permission where
  | ModifyCollectionMembers
  | AddCollections
  | ModifyCollections
  deriving DecidableEq, Repr

/-- The members of `interfaces.CollectionInformation` that the router reads;
`Members` is the number of images in the collection. -/
structure CollectionInformation where
  ID : Nat
  Name : String
  UploaderID : Nat
  Members : Nat
  deriving DecidableEq, Repr

/-- The members of the template input that the router reads or writes.
`UserPermissions` lists the permissions for which `HasPermission` is true; the
tags are their names. -/
structure TemplateInput where
  OldQuery : String
  Message : String
  ViewMode : String
  UserInformation : UserInformation
  UserPermissions : List Permission
  CollectionInfo : CollectionInformation
  ImageInfo : List ImageInformation
  TotalResults : Nat
  PageMenu : String
  Tags : List String
  deriving DecidableEq, Repr

/-- The method `UserPermissions.HasPermission`. -/
def TemplateInput.HasPermission (input : TemplateInput) (permission : Permission) : Bool :=
  input.UserPermissions.contains permission

/-- An error of the catalog: `sql.ErrNoRows` or another one, with its text. -/
inductive DBError where
  | errNoRows
  | other (text : String)
  deriving DecidableEq, Repr

/-- The method `err.Error()`. -/
def DBError.Error : DBError → String
  | .errNoRows => "sql: no rows in result set"
  | .other text => text

/-- The answer of a catalog call that returns a value and an error. -/
inductive DBResult (α : Type) where
  | ok (value : α)
  | error (err : DBError)
  deriving DecidableEq, Repr

/-- The form values of a request: `request.FormValue(key)`. -/
structure Request where
  FormValue : String → String

/-- Everything a handler of the collection router does to, or learns from, the
catalog, the session and the audit log. -/
inductive RouterEvent where
  | sessionSave (viewMode : String)
  | getCollection (collectionID : Nat) (result : DBResult CollectionInformation)
  | getCollectionByName (name : String) (result : DBResult CollectionInformation)
  | getCollectionMembers (collectionID pageStart pageStride : Nat)
      (result : DBResult (List ImageInformation × Nat))
  | getCollectionTags (collectionID : Nat) (tags : List String) (failed : Bool)
  | deleteCollection (collectionID : Nat) (err : Option DBError)
  | removeCollectionMember (collectionID imageID : Nat) (err : Option DBError)
  | newCollection (name description : String) (uploaderID : Nat) (result : DBResult Nat)
  | addCollectionMember (collectionID : Nat) (imageIDs : List Nat) (uploaderID : Nat)
      (err : Option DBError)
  | updateCollection (collectionID : Nat) (name description : String) (err : Option DBError)
  | goWriteAuditLogByName (userName action info : String)
  deriving DecidableEq, Repr

/-- How a handler answers the request. -/
inductive Response where
  | redirectWithFlash (redirectLink message flashName : String)
  | replyWithTemplate (templateName : String) (input : TemplateInput)
  deriving DecidableEq, Repr

/-- The collaborators of the collection router over a world `D`: the answers of
`database.DBInterface` in a world, how an event changes the world, and the helpers
`url.QueryEscape`, `strings.TrimSpace` and `generatePageMenu`. -/
structure RouterEnv (D : Type) where
  getCollection : D → Nat → DBResult CollectionInformation
  getCollectionByName : D → String → DBResult CollectionInformation
  getCollectionMembers : D → Nat → Nat → Nat → DBResult (List ImageInformation × Nat)
  getCollectionTags : D → Nat → List String × Bool
  deleteCollection : D → Nat → Option DBError
  removeCollectionMember : D → Nat → Nat → Option DBError
  newCollection : D → String → String → Nat → DBResult Nat
  addCollectionMember : D → Nat → List Nat → Nat → Option DBError
  updateCollection : D → Nat → String → String → Option DBError
  effect : D → RouterEvent → D
  queryEscape : String → String
  trimSpace : String → String
  generatePageMenu : Int → Int → Int → String → String → String

/-- The world reached by a handler so far and the events that led to it. -/
structure RouterRun (D : Type) where
  world : D
  trace : List RouterEvent

/-- What a handler has done when it returns: the world, the events and the
response. -/
structure Handled (D : Type) where
  world : D
  trace : List RouterEvent
  response : Response
  deriving DecidableEq

/-- Records an event of a handler and applies it to the world. -/
def record {D : Type} (env : RouterEnv D) (r : RouterRun D) (e : RouterEvent) : RouterRun D :=
  { world := env.effect r.world e, trace := r.trace ++ [e] }

/-- The handler answers and returns. -/
def respond {D : Type} (r : RouterRun D) (response : Response) : Handled D :=
  { world := r.world, trace := r.trace, response := response }

/-! ## The collection router: `CollectionGetRouter` -/

/-- The block "Change StremView if requested", collectionrouter.go:22-38: the view
mode written to the template input and saved in the session. -/
def changeViewMode {D : Type} (env : RouterEnv D) (input : TemplateInput) (request : Request)
    (r : RouterRun D) : TemplateInput × RouterRun D :=
  if request.FormValue "ViewMode" == "stream" then
    ({ input with ViewMode := "stream" }, record env r (.sessionSave "stream"))
  else if request.FormValue "ViewMode" == "slideshow" then
    ({ input with ViewMode := "slideshow" }, record env r (.sessionSave "slideshow"))
  else if request.FormValue "ViewMode" != "" then
    ({ input with ViewMode := "grid" }, record env r (.sessionSave "grid"))
  else
    (input, r)

/-- The part of `CollectionGetRouter` after the collection was fetched,
collectionrouter.go:62-79. -/
def showCollection {D : Type} (env : RouterEnv D) (cfg : ConfigurationSettings)
    (input : TemplateInput) (userQuery : String) (collectionID pageStart : Nat)
    (collectionInfo : CollectionInformation) (r : RouterRun D) : Handled D :=
  let pageStride := cfg.PageStride
  let input1 := { input with CollectionInfo := collectionInfo }
  let members := env.getCollectionMembers r.world collectionID pageStart pageStride
  let r1 := record env r (.getCollectionMembers collectionID pageStart pageStride members)
  match members with
  | .ok (imageInfo, maxCount) =>
    let pageMenu := env.generatePageMenu (toInt64 pageStart) (toInt64 pageStride)
      (toInt64 maxCount)
      ("SearchTerms=" ++ env.queryEscape userQuery ++ "&ID=" ++ toString collectionInfo.ID)
      "/collection"
    let tags := env.getCollectionTags r1.world collectionInfo.ID
    let r2 := record env r1 (.getCollectionTags collectionInfo.ID tags.1 tags.2)
    let input2 := { input1 with
      ImageInfo := imageInfo, TotalResults := maxCount, PageMenu := pageMenu, Tags := tags.1 }
    if tags.2 then
      respond r2 (.replyWithTemplate "collection.html"
        { input2 with Message := input2.Message ++ "Failed to get collection tags." })
    else
      respond r2 (.replyWithTemplate "collection.html" input2)
  | .error _ =>
    respond r1 (.replyWithTemplate "collection.html"
      { input1 with Message := input1.Message ++ "Failed to get collection members." })

/-- The handler `CollectionGetRouter`, collectionrouter.go:16-80, from the template
input of the request.  Log calls are not modelled. -/
def CollectionGetRouter {D : Type} (env : RouterEnv D) (cfg : ConfigurationSettings)
    (input : TemplateInput) (request : Request) (d : D) : Handled D :=
  let userQuery := input.OldQuery
  let viewed := changeViewMode env input request { world := d, trace := [] }
  let pageStart := (parseUint (request.FormValue "PageStart") 32).1
  let collectionID := parseUint (request.FormValue "ID") 32
  if collectionID.2 then
    respond viewed.2 (.redirectWithFlash
      ("/collections?SearchTerms=" ++ env.queryEscape userQuery)
      (viewed.1.Message ++ "Failed to parse requested collection ID.") "CollectionError")
  else
    let result := env.getCollection viewed.2.world collectionID.1
    let r1 := record env viewed.2 (.getCollection collectionID.1 result)
    match result with
    | .error _ =>
      respond r1 (.redirectWithFlash
        ("/collections?SearchTerms=" ++ env.queryEscape userQuery)
        (viewed.1.Message ++ "Failed to get the requested collection. ") "CollectionError")
    | .ok collectionInfo =>
      showCollection env cfg viewed.1 userQuery collectionID.1 pageStart collectionInfo r1

/-! ## The collection router: `CollectionPostRouter` -/

/-- The link `"/collection?ID=<id>&SearchTerms=<query>"` of the redirects. -/
def collectionLink {D : Type} (env : RouterEnv D) (collectionID : Nat) (userQuery : String) :
    String :=
  "/collection?ID=" ++ toString collectionID ++ "&SearchTerms=" ++ env.queryEscape userQuery

/-- The link `"/collections?SearchTerms=<query>"` of the redirects. -/
def collectionsLink {D : Type} (env : RouterEnv D) (userQuery : String) : String :=
  "/collections?SearchTerms=" ++ env.queryEscape userQuery

/-- The link `"/image?ID=<id>&SearchTerms=<query>"` of the redirects. -/
def imageLink {D : Type} (env : RouterEnv D) (imageID : Nat) (userQuery : String) : String :=
  "/image?ID=" ++ toString imageID ++ "&SearchTerms=" ++ env.queryEscape userQuery

/-- The end of the command `deletemember`, collectionrouter.go:129-152, once the
permission is validated. -/
def deleteValidated {D : Type} (env : RouterEnv D) (input : TemplateInput) (request : Request)
    (collectionID parsedImageID : Nat) (CollectionInfo : CollectionInformation)
    (r : RouterRun D) : Handled D :=
  let userQuery := input.OldQuery
  let userName := input.UserInformation.Name
  if CollectionInfo.Members ≤ 1 then
    let err := env.deleteCollection r.world collectionID
    let r1 := record env r (.deleteCollection collectionID err)
    match err with
    | some err =>
      respond
        (record env r1 (.goWriteAuditLogByName userName "REMOVE-COLLECTIONMEMBER"
          (userName ++ " failed to remove member from collection. " ++
            request.FormValue "ImageID" ++ " from " ++ request.FormValue "ID" ++ ", " ++
            err.Error)))
        (.redirectWithFlash (collectionLink env collectionID userQuery)
          (input.Message ++ "Failed to delete collection. SQL Error. ") "CollectionFailed")
    | none =>
      respond
        (record env r1 (.goWriteAuditLogByName userName "REMOVE-COLLECTIONMEMBER"
          (userName ++ " removed image from collection. " ++
            request.FormValue "ImageID" ++ " from " ++ request.FormValue "ID" ++ ", " ++
            CollectionInfo.Name)))
        (.redirectWithFlash (collectionsLink env userQuery)
          (input.Message ++
            "Successfully remove image from collection. Collection empty, so collection was also removed. ")
          "DeleteSuccess")
  else
    let err := env.removeCollectionMember r.world collectionID parsedImageID
    let r1 := record env r (.removeCollectionMember collectionID parsedImageID err)
    match err with
    | some err =>
      respond
        (record env r1 (.goWriteAuditLogByName userName "REMOVE-COLLECTIONMEMBER"
          (userName ++ " failed to remove member from collection. " ++
            request.FormValue "ImageID" ++ " from " ++ request.FormValue "ID" ++ ", " ++
            err.Error)))
        (.redirectWithFlash (collectionLink env collectionID userQuery)
          (input.Message ++ "Failed to delete collection member. SQL Error. ")
          "CollectionFailed")
    | none =>
      respond
        (record env r1 (.goWriteAuditLogByName userName "REMOVE-COLLECTIONMEMBER"
          (userName ++ " removed image from collection. " ++
            request.FormValue "ImageID" ++ " from " ++ request.FormValue "ID" ++ ", " ++
            CollectionInfo.Name)))
        (.redirectWithFlash (collectionLink env collectionID userQuery)
          (input.Message ++ "Successfully removed image from collection. ")
          "CollectionSuccess")

/-- The command `deletemember` of `CollectionPostRouter`, collectionrouter.go:89-152. -/
def deleteMember {D : Type} (env : RouterEnv D) (cfg : ConfigurationSettings)
    (input : TemplateInput) (request : Request) (d : D) : Handled D :=
  let userQuery := input.OldQuery
  let userName := input.UserInformation.Name
  let r0 : RouterRun D := { world := d, trace := [] }
  if userName == "" then
    respond r0 (.redirectWithFlash "/logon"
      "You must be logged in to remove collection members" "LogonRequired")
  else
    let collectionID := parseUint (request.FormValue "ID") 32
    if collectionID.2 then
      respond r0 (.redirectWithFlash (collectionsLink env userQuery)
        (input.Message ++ "Failed to get collection with that ID. ") "CollectionFailed")
    else
      let parsedImageID := parseUint (request.FormValue "ImageID") 32
      if parsedImageID.2 then
        respond r0 (.redirectWithFlash (collectionLink env collectionID.1 userQuery)
          (input.Message ++ "Failed to get image with that ID. ") "CollectionFailed")
      else
        let result := env.getCollection r0.world collectionID.1
        let r1 := record env r0 (.getCollection collectionID.1 result)
        match result with
        | .error err =>
          respond
            (record env r1 (.goWriteAuditLogByName userName "REMOVE-COLLECTIONMEMBER"
              (userName ++ " failed to delete collection. " ++ request.FormValue "ID" ++
                ", " ++ err.Error)))
            (.redirectWithFlash (collectionsLink env userQuery)
              (input.Message ++ "Failed to edit collection. SQL Error. ") "CollectionFailed")
        | .ok CollectionInfo =>
          if input.HasPermission .ModifyCollectionMembers != true
              && (cfg.UsersControlOwnObjects != true
                || CollectionInfo.UploaderID != input.UserInformation.ID) then
            respond
              (record env r1 (.goWriteAuditLogByName userName "REMOVE-COLLECTIONMEMBER"
                (userName ++ " failed to delete collection. Insufficient permissions. " ++
                  request.FormValue "ID")))
              (.redirectWithFlash (collectionLink env collectionID.1 userQuery)
                (input.Message ++ "You do not have edit member permission for collection. ")
                "CollectionFailed")
          else
            deleteValidated env input request collectionID.1 parsedImageID.1 CollectionInfo r1

/-- The branch of `addcollectionmember` for a collection name that does not exist
yet, collectionrouter.go:164-199. -/
def createCollection {D : Type} (env : RouterEnv D) (input : TemplateInput) (request : Request)
    (parsedImageID : Nat) (r : RouterRun D) : Handled D :=
  let userQuery := input.OldQuery
  let userName := input.UserInformation.Name
  if input.HasPermission .AddCollections != true then
    respond
      (record env r (.goWriteAuditLogByName userName "ADD-COLLECTIONMEMBER"
        (userName ++ " failed to create a collection. Insufficient permissions. " ++
          request.FormValue "CollectionName")))
      (.redirectWithFlash (imageLink env parsedImageID userQuery)
        (input.Message ++ "You do not have create collection permissions. ")
        "CollectionFailed")
  else if (request.FormValue "CollectionName").utf8ByteSize < 3
      || (request.FormValue "CollectionName").utf8ByteSize > 255 then
    respond r (.redirectWithFlash (imageLink env parsedImageID userQuery)
      (input.Message ++ "CollectionName should be longer than 3 characters but less than 255. ")
      "CollectionFailed")
  else
    let created := env.newCollection r.world (request.FormValue "CollectionName") ""
      input.UserInformation.ID
    let r1 := record env r (.newCollection (request.FormValue "CollectionName") ""
      input.UserInformation.ID created)
    match created with
    | .error _ =>
      respond r1 (.redirectWithFlash (imageLink env parsedImageID userQuery)
        (input.Message ++ "Failed to create new collection. SQL Error. ") "CollectionFailed")
    | .ok collectionID =>
      let err := env.addCollectionMember r1.world collectionID [parsedImageID]
        input.UserInformation.ID
      let r2 := record env r1 (.addCollectionMember collectionID [parsedImageID]
        input.UserInformation.ID err)
      match err with
      | some _ =>
        respond r2 (.redirectWithFlash (imageLink env parsedImageID userQuery)
          (input.Message ++ "New collection created successfully. " ++
            "Failed to add image to new collection. SQL Error. ") "CollectionFailed")
      | none =>
        respond r2 (.redirectWithFlash (imageLink env parsedImageID userQuery)
          (input.Message ++ "New collection created successfully. " ++
            "Image added to new collection. ") "CollectionSucceeded")

/-- The command `addcollectionmember` of `CollectionPostRouter`,
collectionrouter.go:153-222. -/
def addCollectionMember {D : Type} (env : RouterEnv D) (cfg : ConfigurationSettings)
    (input : TemplateInput) (request : Request) (d : D) : Handled D :=
  let userQuery := input.OldQuery
  let userName := input.UserInformation.Name
  let r0 : RouterRun D := { world := d, trace := [] }
  let parsedImageID := parseUint (request.FormValue "ImageID") 32
  if parsedImageID.2 then
    respond r0 (.redirectWithFlash ("/images?SearchTerms=" ++ env.queryEscape userQuery)
      (input.Message ++ "Failed to get image with that ID to add to collection.")
      "CollectionFailed")
  else
    let result := env.getCollectionByName r0.world (request.FormValue "CollectionName")
    let r1 := record env r0 (.getCollectionByName (request.FormValue "CollectionName") result)
    match result with
    | .error .errNoRows => createCollection env input request parsedImageID.1 r1
    | .error (.other _) =>
      respond r1 (.redirectWithFlash (imageLink env parsedImageID.1 userQuery)
        (input.Message ++ "Failed to query collection. ") "CollectionFailed")
    | .ok collection =>
      if input.HasPermission .ModifyCollectionMembers != true
          && (cfg.UsersControlOwnObjects != true
            || collection.UploaderID != input.UserInformation.ID) then
        respond
          (record env r1 (.goWriteAuditLogByName userName "ADD-COLLECTIONMEMBER"
            (userName ++ " failed to add a collection member. Insufficient permissions. " ++
              collection.Name)))
          (.redirectWithFlash (imageLink env parsedImageID.1 userQuery)
            (input.Message ++ "You do not have edit member permission for this collection. ")
            "CollectionFailed")
      else
        let err := env.addCollectionMember r1.world collection.ID [parsedImageID.1]
          input.UserInformation.ID
        let r2 := record env r1 (.addCollectionMember collection.ID [parsedImageID.1]
          input.UserInformation.ID err)
        match err with
        | some _ =>
          respond r2 (.redirectWithFlash (imageLink env parsedImageID.1 input.OldQuery)
            (input.Message ++
              "Failed to add image to collection. SQL error. Check if image is already part of the collection. "
              ++ "Image added to collection. ")
            "CollectionSuccess")
        | none =>
          respond r2 (.redirectWithFlash (imageLink env parsedImageID.1 input.OldQuery)
            (input.Message ++ "Image added to collection. ") "CollectionSuccess")

/-- The end of the command `modify`, collectionrouter.go:253-288, once the new name
and the new description have a supported length. -/
def modifyValidated {D : Type} (env : RouterEnv D) (cfg : ConfigurationSettings)
    (input : TemplateInput) (request : Request) (collectionID : Nat)
    (newName newDesc : String) (r0 : RouterRun D) : Handled D :=
  let userQuery := input.OldQuery
  let userName := input.UserInformation.Name
  let result := env.getCollection r0.world collectionID
  let r1 := record env r0 (.getCollection collectionID result)
  match result with
  | .error err =>
    respond
      (record env r1 (.goWriteAuditLogByName userName "MODIFY-COLLECTION"
        (userName ++ " failed to modify collection. " ++ request.FormValue "ID" ++ ", " ++
          err.Error)))
      (.redirectWithFlash (collectionsLink env userQuery)
        (input.Message ++ "Failed to edit collection. SQL Error. ") "CollectionFailed")
  | .ok CollectionInfo =>
    let named := env.getCollectionByName r1.world newName
    let r2 := record env r1 (.getCollectionByName newName named)
    let nameInUse := match named with
      | .ok newNameCollection => newNameCollection.ID != CollectionInfo.ID
      | .error _ => false
    if nameInUse then
      respond r2 (.redirectWithFlash (collectionLink env collectionID userQuery)
        (input.Message ++ newName ++ " is already in use, plese select a different name. ")
        "CollectionFailed")
    else if input.HasPermission .ModifyCollections != true
        && (cfg.UsersControlOwnObjects != true
          || CollectionInfo.UploaderID != input.UserInformation.ID) then
      respond
        (record env r2 (.goWriteAuditLogByName userName "MODIFY-COLLECTION"
          (userName ++ " failed to modify collection. Insufficient permissions. " ++
            request.FormValue "ID")))
        (.redirectWithFlash (collectionLink env collectionID userQuery)
          (input.Message ++ "You do not have edit member permission for collection. ")
          "CollectionFailed")
    else
      let err := env.updateCollection r2.world collectionID newName newDesc
      let r3 := record env r2 (.updateCollection collectionID newName newDesc err)
      match err with
      | some err =>
        respond
          (record env r3 (.goWriteAuditLogByName userName "MODIFY-COLLECTION"
            (userName ++ " failed to modify collection. " ++ request.FormValue "ID" ++ ", " ++
              err.Error)))
          (.redirectWithFlash (collectionLink env collectionID userQuery)
            (input.Message ++ "Failed to modify collection. SQL Error. ") "CollectionFailed")
      | none =>
        respond
          (record env r3 (.goWriteAuditLogByName userName "MODIFY-COLLECTION"
            (userName ++ " modified collection (" ++ request.FormValue "ID" ++ ")")))
          (.redirectWithFlash (collectionLink env collectionID userQuery)
            (input.Message ++ "Successfully modified collection.") "CollectionSuccess")

/-- The command `modify` of `CollectionPostRouter`, collectionrouter.go:223-288.
`len` is the number of bytes of a string. -/
def modify {D : Type} (env : RouterEnv D) (cfg : ConfigurationSettings)
    (input : TemplateInput) (request : Request) (d : D) : Handled D :=
  let userQuery := input.OldQuery
  let r0 : RouterRun D := { world := d, trace := [] }
  if input.UserInformation.Name == "" then
    respond r0 (.redirectWithFlash "/logon"
      "You must be logged in to modify a collection" "LogonRequired")
  else
    let collectionID := parseUint (request.FormValue "ID") 32
    if collectionID.2 then
      respond r0 (.redirectWithFlash (collectionsLink env userQuery)
        (input.Message ++ "Failed to get collection with that ID. ") "CollectionFailed")
    else
      let newName := env.trimSpace (request.FormValue "NewName")
      if newName.utf8ByteSize < 3 || newName.utf8ByteSize > 255 then
        respond r0 (.redirectWithFlash (collectionLink env collectionID.1 userQuery)
          (input.Message ++
            "New Name is an unsupported length. Please ensure it is longer than 3 characters but shorter than 255. ")
          "CollectionFailed")
      else
        let newDesc := env.trimSpace (request.FormValue "NewDescription")
        if newDesc.utf8ByteSize > 255 then
          respond r0 (.redirectWithFlash (collectionLink env collectionID.1 userQuery)
            (input.Message ++ "Description cannot be longer than 255 characters. ")
            "CollectionFailed")
        else
          modifyValidated env cfg input request collectionID.1 newName newDesc r0

/-- The handler `CollectionPostRouter`, collectionrouter.go:83-293, from the
template input of the request. -/
def CollectionPostRouter {D : Type} (env : RouterEnv D) (cfg : ConfigurationSettings)
    (input : TemplateInput) (request : Request) (d : D) : Handled D :=
  if request.FormValue "command" == "deletemember" then
    deleteMember env cfg input request d
  else if request.FormValue "command" == "addcollectionmember" then
    addCollectionMember env cfg input request d
  else if request.FormValue "command" == "modify" then
    modify env cfg input request d
  else
    respond { world := d, trace := [] } (.redirectWithFlash
      (collectionsLink env input.OldQuery)
      (input.Message ++ "Invalid or unknown command. ") "CollectionError")

/-- Whether a response is the refusal for insufficient permission of the commands
`deletemember` and `modify`: the redirect with the message "You do not have edit
member permission for collection. " added to the message of the template input and
the flash `CollectionFailed`. -/
def Response.isPermissionRefusal (input : TemplateInput) : Response → Bool
  | .redirectWithFlash _ message flashName =>
    message == input.Message ++ "You do not have edit member permission for collection. "
      && flashName == "CollectionFailed"
  | .replyWithTemplate _ _ => false

/-! ## A catalog of collections to run the router on -/

/-- A collection of the sample catalog: its images are listed by ID. -/
structure Collection where
  ID : Nat
  Name : String
  UploaderID : Nat
  images : List Nat
  deriving DecidableEq, Repr

/-- The sample catalog: its collections and the ID of the next new collection. -/
structure Library where
  collections : List Collection
  nextID : Nat
  deriving DecidableEq, Repr

/-- The `interfaces.CollectionInformation` of a collection. -/
def Collection.info (c : Collection) : CollectionInformation :=
  { ID := c.ID, Name := c.Name, UploaderID := c.UploaderID, Members := c.images.length }

/-- Modelled from the spec: the catalog behind `database.DBInterface` is an external
collaborator that is not in the sources at hand.  In this one a call that returned
no error did what its name says: `DeleteCollection` removes the collection,
`RemoveCollectionMember` removes the image from it, `NewCollection` adds an empty
collection, `AddCollectionMember` adds the images, `UpdateCollection` renames. -/
def Library.effect (d : Library) : RouterEvent → Library
  | .deleteCollection collectionID none =>
    { d with collections := d.collections.filter fun c => c.ID != collectionID }
  | .removeCollectionMember collectionID imageID none =>
    { d with collections := d.collections.map fun c =>
        if c.ID == collectionID then { c with images := c.images.erase imageID } else c }
  | .newCollection name _ uploaderID (.ok collectionID) =>
    { collections := d.collections ++ [⟨collectionID, name, uploaderID, []⟩],
      nextID := collectionID + 1 }
  | .addCollectionMember collectionID imageIDs _ none =>
    { d with collections := d.collections.map fun c =>
        if c.ID == collectionID then { c with images := c.images ++ imageIDs } else c }
  | .updateCollection collectionID name _ none =>
    { d with collections := d.collections.map fun c =>
        if c.ID == collectionID then { c with Name := name } else c }
  | _ => d

/-- Go's `unicode.IsSpace`: the characters with the Unicode property White Space. -/
def isSpace (c : Char) : Bool :=
  c == '\t' || c == '\n' || c.toNat == 0x0B || c.toNat == 0x0C || c == '\r' || c == ' '
    || c.toNat == 0x85 || c.toNat == 0xA0 || c.toNat == 0x1680
    || (0x2000 ≤ c.toNat && c.toNat ≤ 0x200A)
    || c.toNat == 0x2028 || c.toNat == 0x2029 || c.toNat == 0x202F || c.toNat == 0x205F
    || c.toNat == 0x3000

/-- Go's `strings.TrimSpace`: the string without its leading and trailing white
space. -/
def trimSpace (s : String) : String :=
  ⟨((s.data.dropWhile isSpace).reverse.dropWhile isSpace).reverse⟩

/-- Modelled from the spec: the adapters over the sample catalog.  A collection
that does not exist is answered with `sql.ErrNoRows`; the other calls return no
error.  `url.QueryEscape` is the identity (the sample queries need no escaping);
no page menu is built. -/
def libraryEnv : RouterEnv Library where
  getCollection d collectionID :=
    match d.collections.find? fun c => c.ID == collectionID with
    | some c => .ok c.info
    | none => .error .errNoRows
  getCollectionByName d name :=
    match d.collections.find? fun c => c.Name == name with
    | some c => .ok c.info
    | none => .error .errNoRows
  getCollectionMembers d collectionID pageStart pageStride :=
    match d.collections.find? fun c => c.ID == collectionID with
    | some c =>
      .ok (((c.images.drop pageStart).take pageStride).map fun i => ⟨i, ""⟩, c.images.length)
    | none => .error .errNoRows
  getCollectionTags _ _ := ([], false)
  deleteCollection _ _ := none
  removeCollectionMember _ _ _ := none
  newCollection d _ _ _ := .ok d.nextID
  addCollectionMember _ _ _ _ := none
  updateCollection _ _ _ _ := none
  effect := Library.effect
  queryEscape s := s
  trimSpace := trimSpace
  generatePageMenu _ _ _ _ _ := ""

/-- A catalog with the collection 7 "Holiday" of user 1, which holds the image 5
only. -/
def sampleLibrary : Library :=
  { collections := [⟨7, "Holiday", 1, [5]⟩], nextID := 8 }

/-- A request with the given form values; every other form value is empty. -/
def requestOf (values : List (String × String)) : Request :=
  { FormValue := fun key => ((values.find? fun p => p.1 == key).map Prod.snd).getD "" }

/-- The template input of a request by the user `user` with the permissions
`permissions`, with no message yet. -/
def inputOf (user : UserInformation) (permissions : List Permission) : TemplateInput :=
  { OldQuery := "", Message := "", ViewMode := "", UserInformation := user,
    UserPermissions := permissions, CollectionInfo := ⟨0, "", 0, 0⟩, ImageInfo := [],
    TotalResults := 0, PageMenu := "", Tags := [] }

/-- The request reaches the permission check of `deletemember` with the collection
`info`, collectionrouter.go:90-119: the user is logged in, the form values `ID` and
`ImageID` parse, and the collection is fetched. -/
def ReachesDeleteCheck {D : Type} (env : RouterEnv D) (input : TemplateInput)
    (request : Request) (d : D) (info : CollectionInformation) : Prop :=
  input.UserInformation.Name ≠ "" ∧
  (parseUint (request.FormValue "ID") 32).2 = false ∧
  (parseUint (request.FormValue "ImageID") 32).2 = false ∧
  env.getCollection d (parseUint (request.FormValue "ID") 32).1 = .ok info

/-- The request reaches the permission check of `modify` with the collection
`info`, collectionrouter.go:224-268: the user is logged in, the form value `ID`
parses, the trimmed new name and description pass the length tests, the collection
is fetched, and no other collection has the new name. -/
def ReachesModifyCheck {D : Type} (env : RouterEnv D) (input : TemplateInput)
    (request : Request) (d : D) (info : CollectionInformation) : Prop :=
  input.UserInformation.Name ≠ "" ∧
  (parseUint (request.FormValue "ID") 32).2 = false ∧
  ((env.trimSpace (request.FormValue "NewName")).utf8ByteSize < 3
    || (env.trimSpace (request.FormValue "NewName")).utf8ByteSize > 255) = false ∧
  ¬ (env.trimSpace (request.FormValue "NewDescription")).utf8ByteSize > 255 ∧
  env.getCollection d (parseUint (request.FormValue "ID") 32).1 = .ok info ∧
  ∀ other, env.getCollectionByName
      (env.effect d (.getCollection (parseUint (request.FormValue "ID") 32).1 (.ok info)))
      (env.trimSpace (request.FormValue "NewName")) = .ok other → other.ID = info.ID

/-- The sample configuration with `UsersControlOwnObjects` set. -/
def ownObjectsConfig : ConfigurationSettings :=
  { sampleConfig with UsersControlOwnObjects := true }

/-- A catalog with the collection 7 of two images and the empty collection 8. -/
def largerLibrary : Library :=
  { collections := [⟨7, "Holiday", 1, [5, 6]⟩, ⟨8, "Empty", 1, []⟩], nextID := 9 }

/-! ## The keys after `CreateSessionStore` -/

/-- The condition under which the session keys are replaced, in words: there are
fewer than two keys (a nil slice has none), or the first key is not 64 bytes long,
or the second is not 32 bytes long. -/
def sessionKeysInvalid (cfg : ConfigurationSettings) : Bool :=
  cfg.SessionStoreKey.length < 2
    || (cfg.SessionStoreKey.getD 0 []).length != 64
    || (cfg.SessionStoreKey.getD 1 []).length != 32

/-- The lengths asked of `securecookie.GenerateRandomKey` in a trace, in order. -/
def generatedLengths (t : List Event) : List Nat :=
  t.filterMap fun e => match e with
    | .generateRandomKey length _ => some length
    | _ => none

/-- The sample configuration with no keys. -/
def keylessConfig : ConfigurationSettings :=
  { sampleConfig with SessionStoreKey := [], CSRFKey := [] }

/-- The sample configuration as loaded from a file that gives no page stride. -/
def strideLessConfig : ConfigurationSettings := { sampleConfig with PageStride := 0 }

/-- The flags of a thumbnail regeneration run. -/
def thumbsMode : Flags where
  thumbsonly := true
  dhashonly := false
  missingonly := false
  renameonly := false
  removeorphanfiles := false

/-- The entries of a listing that are not directories, in listing order. -/
def regularFiles (files : List FileInfo) : List FileInfo :=
  files.filter fun file => !file.isDir

/-- What a pass of the sweep does for one regular file: the lookup under `key`
with its answer, and right after it the removal of `path` when the answer is
`sql.ErrNoRows`. -/
def lookupThenRemove (key : List Nat) (path : String) (answer : LookupResult) : List Event :=
  .getImageByFileName key answer ::
    (if answer == LookupResult.errNoRows then [.remove path] else [])

/-- The events of a pass of the sweep over regular files with the answers of their
lookups, for the name `key` a file is looked up under and the path `path` it is
removed at. -/
def passEvents (key : FileInfo → List Nat) (path : FileInfo → String)
    (steps : List (FileInfo × LookupResult)) : List Event :=
  steps.flatMap fun step => lookupThenRemove (key step.1) (path step.1) step.2

/-- The answers of a pass are those of the catalog: each is what
`GetImageByFileName` answers for the file in the world reached from `w` by the
events of the pass before it. -/
def CatalogAnswers {W : Type} (env : Env W) (w : W) (key : FileInfo → List Nat)
    (path : FileInfo → String) (steps : List (FileInfo × LookupResult)) : Prop :=
  ∀ pre file answer post, steps = pre ++ (file, answer) :: post →
    answer = env.getImageByFileName ((passEvents key path pre).foldl env.effect w) (key file)

/-- The flags of `gib -removeorphanfiles`. -/
def sweepMode : Flags where
  thumbsonly := false
  dhashonly := false
  missingonly := false
  renameonly := false
  removeorphanfiles := true

/-- The adapters of a catalog of more than `2 ^ 63` records that is emptied while
the hash job runs: the first two `SearchImages` calls are answered a page with a
record, whatever the offset, every later one an empty page.  The world counts the
calls answered. -/
def shrinkingEnv : Env Nat where
  readDir _ _ := none
  stat _ _ := .notExist
  generateRandomKey _ length := List.replicate length 0
  initDatabase _ := true
  searchImages w _ _ := if w < 2 then ⟨[⟨1, "A"⟩], 1, false⟩ else ⟨[], 0, false⟩
  getImagedHash _ _ := true
  getImageByFileName _ _ := .found
  effect w e :=
    match e with
    | .searchImages _ _ _ => w + 1
    | _ => w

/-- The sample configuration with a page stride of `2 ^ 63`. -/
def wideStrideConfig : ConfigurationSettings := { sampleConfig with PageStride := 2 ^ 63 }

/-! ## Lemmas on traces -/

theorem emit_trace {W : Type} (env : Env W) (r : Run W) (e : Event) :
    (emit env r e).trace = r.trace ++ [e] := rfl

theorem emit_world {W : Type} (env : Env W) (r : Run W) (e : Event) :
    (emit env r e).world = env.effect r.world e := rfl

theorem inFlight_concat (t : List Event) (e : Event) :
    inFlight (t ++ [e]) = inFlightStep (inFlight t) e := by
  simp [inFlight, List.foldl_append]

/-- A bound on the in-flight count at every point of a trace extends over one more
event when it holds at the new end. -/
theorem inFlight_bound_concat {n : Nat} {t : List Event} {e : Event}
    (h : ∀ p, p <+: t → inFlight p ≤ n) (he : inFlight (t ++ [e]) ≤ n) :
    ∀ p, p <+: t ++ [e] → inFlight p ≤ n := by
  intro p hp
  rcases List.prefix_concat_iff.mp hp with rfl | hp
  · exact he
  · exact h p hp

theorem succ_mod_of_ne_zero (g n : Nat) (h : (g + 1) % n ≠ 0) : (g + 1) % n = g % n + 1 := by
  rcases Nat.eq_zero_or_pos n with rfl | hn
  · simp
  · have hlt := Nat.mod_lt g hn
    have hdiv := Nat.div_add_mod g n
    by_cases hc : g % n + 1 = n
    · exfalso
      apply h
      have : g + 1 = n * (g / n + 1) := by rw [Nat.mul_add]; omega
      rw [this]; exact Nat.mul_mod_right _ _
    · have : g + 1 = (g % n + 1) + n * (g / n) := by omega
      rw [this, Nat.add_mul_mod_self_left]
      exact Nat.mod_eq_of_lt (by omega)

/-! ## Thumbnail job: the throttle -/

/-- One iteration of the thumbnail loop does not panic for a stride of at least 1,
only extends the trace and keeps the throttle invariant. -/
theorem thumbsStep_throttled {W : Type} (env : Env W) (cfg : ConfigurationSettings)
    (missingOnly : Bool) (s : ThumbState W) (file : FileInfo) (hstride : 1 ≤ cfg.PageStride)
    (hs : s.Throttled cfg.PageStride) :
    ∃ s', thumbsStep env cfg missingOnly s file = .ok s' ∧
      s.run.trace <+: s'.run.trace ∧ s'.Throttled cfg.PageStride := by
  obtain ⟨hrange, hmod, hmax⟩ := hs
  have hpos : cfg.PageStride ≠ 0 := by omega
  have hlt : s.generatedThumbnails % cfg.PageStride < cfg.PageStride :=
    Nat.mod_lt _ (by omega)
  have hu : 0 < uint64Size := by unfold uint64Size; positivity
  unfold thumbsStep
  by_cases hdir : file.isDir = true
  · simp only [hdir, if_true]
    exact ⟨s, rfl, List.prefix_refl _, hrange, hmod, hmax⟩
  · simp only [hdir, Bool.false_eq_true, if_false, hpos]
    have hstat : ∀ p, p <+: s.run.trace ++
        [Event.stat (thumbNailPath cfg.ImageDirectory file.name)
          (env.stat s.run.world (thumbNailPath cfg.ImageDirectory file.name))] →
        inFlight p ≤ cfg.PageStride :=
      inFlight_bound_concat hmax (by rw [inFlight_concat]; simp only [inFlightStep]; omega)
    by_cases hgo : (missingOnly == false ||
        env.stat s.run.world (thumbNailPath cfg.ImageDirectory file.name)
          == StatResult.notExist) = true
    · simp only [hgo, if_true]
      have hrem := inFlight_bound_concat (e := Event.remove
        (thumbNailPath cfg.ImageDirectory file.name)) hstat
        (by simp only [inFlight_concat, inFlightStep]; omega)
      have hgoEv := inFlight_bound_concat (e := Event.goGenerateThumbnail file.name) hrem
        (by simp only [inFlight_concat, inFlightStep]; omega)
      by_cases hz : (s.generatedThumbnails + 1) % uint64Size % cfg.PageStride = 0
      · simp only [hz, if_true]
        refine ⟨_, rfl, ?_, Nat.mod_lt _ hu, ?_, ?_⟩
        · simp only [emit_trace, List.append_assoc]
          exact List.prefix_append _ _
        · simp only [emit_trace, inFlight_concat, inFlightStep, hz]
        · simp only [emit_trace]
          exact inFlight_bound_concat hgoEv (by simp only [inFlight_concat, inFlightStep]; omega)
      · simp only [hz, if_false]
        refine ⟨_, rfl, ?_, Nat.mod_lt _ hu, ?_, ?_⟩
        · simp only [emit_trace, List.append_assoc]
          exact List.prefix_append _ _
        · simp only [emit_trace, inFlight_concat, inFlightStep, hmod]
          -- no wrap-around here: a wrapped counter is 0 and would have hit the barrier
          have hnw : (s.generatedThumbnails + 1) % uint64Size = s.generatedThumbnails + 1 := by
            apply Nat.mod_eq_of_lt
            rcases Nat.lt_or_ge (s.generatedThumbnails + 1) uint64Size with h | h
            · exact h
            · exfalso
              apply hz
              have : s.generatedThumbnails + 1 = uint64Size := by omega
              rw [this, Nat.mod_self, Nat.zero_mod]
          rw [hnw] at hz ⊢
          exact (succ_mod_of_ne_zero _ _ hz).symm
        · simp only [emit_trace]
          exact hgoEv
    · simp only [hgo, Bool.false_eq_true, if_false]
      by_cases hz : s.generatedThumbnails % cfg.PageStride = 0
      · simp only [hz, if_true]
        refine ⟨_, rfl, ?_, hrange, ?_, ?_⟩
        · simp only [emit_trace, List.append_assoc]
          exact List.prefix_append _ _
        · simp only [emit_trace, inFlight_concat, inFlightStep, hz]
        · simp only [emit_trace]
          exact inFlight_bound_concat hstat (by simp only [inFlight_concat, inFlightStep]; omega)
      · simp only [hz, if_false]
        refine ⟨_, rfl, ?_, hrange, ?_, ?_⟩
        · simp only [emit_trace]
          exact List.prefix_append _ _
        · simp only [emit_trace, inFlight_concat, inFlightStep, hmod]
        · simp only [emit_trace]
          exact hstat

/-- The thumbnail loop over any listing does not panic for a stride of at least 1,
only extends the trace and keeps the throttle invariant. -/
theorem thumbsLoop_throttled {W : Type} (env : Env W) (cfg : ConfigurationSettings)
    (missingOnly : Bool) (hstride : 1 ≤ cfg.PageStride) (files : List FileInfo) :
    ∀ s : ThumbState W, s.Throttled cfg.PageStride →
      ∃ s', thumbsLoop env cfg missingOnly s files = .ok s' ∧
        s.run.trace <+: s'.run.trace ∧ s'.Throttled cfg.PageStride := by
  induction files with
  | nil => intro s hs; exact ⟨s, rfl, List.prefix_refl _, hs⟩
  | cons file files ih =>
    intro s hs
    obtain ⟨s1, h1, hp1, hs1⟩ := thumbsStep_throttled env cfg missingOnly s file hstride hs
    obtain ⟨s2, h2, hp2, hs2⟩ := ih s1 hs1
    refine ⟨s2, ?_, hp1.trans hp2, hs2⟩
    simp only [thumbsLoop, h1, h2]

/-- The loop over a listing is the loop over a first part followed by the loop over
the rest. -/
theorem thumbsLoop_append {W : Type} (env : Env W) (cfg : ConfigurationSettings)
    (missingOnly : Bool) (xs ys : List FileInfo) :
    ∀ s : ThumbState W, thumbsLoop env cfg missingOnly s (xs ++ ys) =
      match thumbsLoop env cfg missingOnly s xs with
      | .error f => .error f
      | .ok s' => thumbsLoop env cfg missingOnly s' ys := by
  induction xs with
  | nil => intro s; rfl
  | cons x xs ih =>
    intro s
    simp only [List.cons_append, thumbsLoop]
    cases thumbsStep env cfg missingOnly s x with
    | error f => rfl
    | ok s1 => exact ih s1

/-- C1: in the thumbnail job, for every listing, every value of the missing-only
flag and every PageStride of at least 1, the job does not panic, at no point of its
trace are more than PageStride units launched since the last `wg.Wait()`, and the
state after any number `k` of iterations of the loop is a point of that trace at
which the number of such units is the attempted count modulo PageStride. -/
theorem thumbsJob_inFlight_le_pageStride {W : Type} (env : Env W)
    (cfg : ConfigurationSettings) (missingOnly : Bool) (w : W) (files : List FileInfo)
    (hstride : 1 ≤ cfg.PageStride)
    (hlist : env.readDir w cfg.ImageDirectory = some files) :
    ∃ s, thumbsJob env cfg missingOnly ⟨w, []⟩ = .ok s ∧
      (∀ p, p <+: s.run.trace → inFlight p ≤ cfg.PageStride) ∧
      ∀ k, ∃ sk,
        thumbsLoop env cfg missingOnly
          ⟨emit env ⟨w, []⟩ (.readDir cfg.ImageDirectory (some files)), 0⟩
          (files.take k) = .ok sk ∧
        sk.run.trace <+: s.run.trace ∧
        inFlight sk.run.trace = sk.generatedThumbnails % cfg.PageStride := by
  have hu : 0 < uint64Size := by unfold uint64Size; positivity
  have h0 : (⟨emit env ⟨w, []⟩ (.readDir cfg.ImageDirectory (some files)), 0⟩ :
      ThumbState W).Throttled cfg.PageStride := by
    refine ⟨hu, ?_, ?_⟩
    · simp [emit_trace, inFlight, inFlightStep]
    · intro p hp
      have hp' : p <+: [] ++ [Event.readDir cfg.ImageDirectory (some files)] := hp
      rcases List.prefix_concat_iff.mp hp' with rfl | hp'
      · simp [inFlight, inFlightStep]
      · rw [List.prefix_nil.mp hp']; simp [inFlight]
  obtain ⟨s, hs, _, hrange, hmod, hmax⟩ :=
    thumbsLoop_throttled env cfg missingOnly hstride files _ h0
  refine ⟨{ s with run := emit env s.run .wgWait }, ?_, ?_, ?_⟩
  · simp only [thumbsJob, hlist, hs]
  · exact inFlight_bound_concat hmax (by simp [inFlight_concat, inFlightStep])
  · intro k
    obtain ⟨sk, hsk, _, hk⟩ :=
      thumbsLoop_throttled env cfg missingOnly hstride (files.take k) _ h0
    refine ⟨sk, hsk, ?_, hk.2.1⟩
    have happ := thumbsLoop_append env cfg missingOnly (files.take k) (files.drop k)
      ⟨emit env ⟨w, []⟩ (.readDir cfg.ImageDirectory (some files)), 0⟩
    rw [List.take_append_drop, hs, hsk] at happ
    obtain ⟨s', hs', hp', _⟩ :=
      thumbsLoop_throttled env cfg missingOnly hstride (files.drop k) sk hk
    have hss : s = s' := by
      have := happ.trans hs'
      injection this
    subst hss
    exact hp'.trans (List.prefix_append _ _)

/-- C1 at a store with three image files and a stride of 2. -/
theorem thumbsJob_inFlight_le_pageStride_witness :
    ∃ s, thumbsJob storeEnv sampleConfig false ⟨sampleStore, []⟩ = .ok s ∧
      (∀ p, p <+: s.run.trace → inFlight p ≤ sampleConfig.PageStride) ∧
      ∀ k, ∃ sk,
        thumbsLoop storeEnv sampleConfig false
          ⟨emit storeEnv ⟨sampleStore, []⟩ (.readDir sampleConfig.ImageDirectory
            (some [⟨"A", false⟩, ⟨"B", false⟩, ⟨"C", false⟩, ⟨"thumbs", true⟩])), 0⟩
          (List.take k [⟨"A", false⟩, ⟨"B", false⟩, ⟨"C", false⟩, ⟨"thumbs", true⟩]) = .ok sk ∧
        sk.run.trace <+: s.run.trace ∧
        inFlight sk.run.trace = sk.generatedThumbnails % sampleConfig.PageStride :=
  thumbsJob_inFlight_le_pageStride storeEnv sampleConfig false sampleStore
    [⟨"A", false⟩, ⟨"B", false⟩, ⟨"C", false⟩, ⟨"thumbs", true⟩] (by decide) (by decide)

/-! ## Hash job: the barrier between pages -/

theorem currentPage_concat (t : List Event) (e : Event) :
    currentPage (t ++ [e]) =
      match e with
      | .searchImages _ _ result => result.images
      | _ => currentPage t := by
  simp only [currentPage, List.foldl_append, List.foldl_cons, List.foldl_nil]

theorem joinedAtQueries_concat {t : List Event} {e : Event} (h : JoinedAtQueries t)
    (he : (∀ page stride result, e = .searchImages page stride result → inFlight t = 0)) :
    JoinedAtQueries (t ++ [e]) := by
  intro p page stride result hp
  rcases List.prefix_concat_iff.mp hp with heq | hp
  · obtain ⟨hpt, hev⟩ := List.append_inj' heq rfl
    rw [hpt]
    exact he page stride result (by simpa using hev.symm)
  · exact h p page stride result hp

theorem withinPage_concat {t : List Event} {e : Event} (h : WithinPage t)
    (he : inFlight (t ++ [e]) ≤ (currentPage (t ++ [e])).length) :
    WithinPage (t ++ [e]) := by
  intro p hp
  rcases List.prefix_concat_iff.mp hp with rfl | hp
  · exact he
  · exact h p hp

/-- The inner loop of the hash job launches at most the records it is given and
calls no `SearchImages`. -/
theorem dhashImages_barrier {W : Type} (env : Env W) (missingOnly : Bool)
    (images : List ImageInformation) :
    ∀ s : HashState W, JoinedAtQueries s.run.trace → WithinPage s.run.trace →
      inFlight s.run.trace + images.length ≤ (currentPage s.run.trace).length →
      JoinedAtQueries (dhashImages env missingOnly s images).run.trace ∧
      WithinPage (dhashImages env missingOnly s images).run.trace := by
  induction images with
  | nil => intro s hj hw _; exact ⟨hj, hw⟩
  | cons image images ih =>
    intro s hj hw hlen
    simp only [List.length_cons] at hlen
    unfold dhashImages
    cases missingOnly with
    | false =>
      simp only [Bool.false_eq_true, if_false, beq_self_eq_true, Bool.true_or, if_true]
      apply ih
      · exact joinedAtQueries_concat hj (by intro _ _ _ h; cases h)
      · exact withinPage_concat hw (by
          simp only [inFlight_concat, currentPage_concat, inFlightStep]; omega)
      · simp only [emit_trace, inFlight_concat, currentPage_concat, inFlightStep]; omega
    | true =>
      simp only [if_true, Bool.true_eq_false, Bool.false_or, Bool.not_eq_true']
      have hj1 : ∀ b, JoinedAtQueries (s.run.trace ++ [Event.getImagedHash image.ID b]) :=
        fun b => joinedAtQueries_concat hj (by intro _ _ _ h; cases h)
      have hw1 : ∀ b, WithinPage (s.run.trace ++ [Event.getImagedHash image.ID b]) :=
        fun b => withinPage_concat hw (by
          simp only [inFlight_concat, currentPage_concat, inFlightStep]; omega)
      cases env.getImagedHash s.run.world image.ID with
      | false =>
        apply ih
        · exact joinedAtQueries_concat (hj1 false) (by intro _ _ _ h; cases h)
        · exact withinPage_concat (hw1 false) (by
            simp only [emit_trace, inFlight_concat, currentPage_concat, inFlightStep]; omega)
        · simp only [emit_trace, inFlight_concat, currentPage_concat, inFlightStep]; omega
      | true =>
        apply ih
        · exact hj1 true
        · exact hw1 true
        · simp only [emit_trace, inFlight_concat, currentPage_concat, inFlightStep]; omega

/-- The page loop of the hash job joins every unit before the next query, for any
number of iterations. -/
theorem dhashLoop_barrier {W : Type} (env : Env W) (cfg : ConfigurationSettings)
    (missingOnly : Bool) (fuel : Nat) :
    ∀ s : HashState W, JoinedAtQueries s.run.trace → WithinPage s.run.trace →
      inFlight s.run.trace = 0 →
      JoinedAtQueries (dhashLoop env cfg missingOnly fuel s).1.run.trace ∧
      WithinPage (dhashLoop env cfg missingOnly fuel s).1.run.trace ∧
      inFlight (dhashLoop env cfg missingOnly fuel s).1.run.trace = 0 := by
  induction fuel with
  | zero => intro s hj hw h0; exact ⟨hj, hw, h0⟩
  | succ fuel ih =>
    intro s hj hw h0
    have hj1 : JoinedAtQueries (s.run.trace ++ [Event.searchImages s.page cfg.PageStride
        (env.searchImages s.run.world s.page cfg.PageStride)]) :=
      joinedAtQueries_concat hj (fun _ _ _ _ => h0)
    have hw1 : WithinPage (s.run.trace ++ [Event.searchImages s.page cfg.PageStride
        (env.searchImages s.run.world s.page cfg.PageStride)]) :=
      withinPage_concat hw (by
        simp only [inFlight_concat, currentPage_concat, inFlightStep]; omega)
    have h1 : inFlight (s.run.trace ++ [Event.searchImages s.page cfg.PageStride
        (env.searchImages s.run.world s.page cfg.PageStride)]) = 0 := by
      simp only [inFlight_concat, inFlightStep, h0]
    unfold dhashLoop
    simp only []
    split
    · exact ⟨hj1, hw1, h1⟩
    · split
      · exact ⟨hj1, hw1, h1⟩
      · have hin := dhashImages_barrier env missingOnly
          (env.searchImages s.run.world s.page cfg.PageStride).images
          { run := emit env s.run (.searchImages s.page cfg.PageStride
              (env.searchImages s.run.world s.page cfg.PageStride)),
            page := (s.page + cfg.PageStride) % uint64Size,
            processedImages := s.processedImages } hj1 hw1
          (by simp only [emit_trace, h1, currentPage_concat]; omega)
        apply ih
        · exact joinedAtQueries_concat hin.1 (by intro _ _ _ h; cases h)
        · exact withinPage_concat hin.2 (by simp only [inFlight_concat, inFlightStep]; omega)
        · simp only [emit_trace, inFlight_concat, inFlightStep]

/-- C2: in the hash job no unit is in flight at any `SearchImages` call, and at
every point the units in flight are at most the records of the page last returned;
this holds for the trace of any number of iterations of the page loop (so also for
a job that never ends) and for the trace of every completed job. -/
theorem dhashJob_units_joined_before_next_page {W : Type} (env : Env W)
    (cfg : ConfigurationSettings) (missingOnly : Bool) (w : W) :
    (∀ fuel,
      JoinedAtQueries (dhashLoop env cfg missingOnly fuel ⟨⟨w, []⟩, 0, 0⟩).1.run.trace ∧
      WithinPage (dhashLoop env cfg missingOnly fuel ⟨⟨w, []⟩, 0, 0⟩).1.run.trace) ∧
    (∀ fuel s, dhashJob env cfg missingOnly fuel ⟨w, []⟩ = .ok s →
      JoinedAtQueries s.run.trace ∧ WithinPage s.run.trace) := by
  have hj0 : JoinedAtQueries ([] : List Event) := by
    intro p _ _ _ hp
    have := List.prefix_nil.mp hp
    simp at this
  have hw0 : WithinPage ([] : List Event) := by
    intro p hp
    rw [List.prefix_nil.mp hp]; simp [inFlight]
  constructor
  · intro fuel
    have h := dhashLoop_barrier env cfg missingOnly fuel ⟨⟨w, []⟩, 0, 0⟩ hj0 hw0 rfl
    exact ⟨h.1, h.2.1⟩
  · intro fuel s hs
    have h := dhashLoop_barrier env cfg missingOnly fuel ⟨⟨w, []⟩, 0, 0⟩ hj0 hw0 rfl
    unfold dhashJob at hs
    split at hs
    · cases hs
    · rename_i s' heq
      injection hs with hs
      subst hs
      rw [heq] at h
      exact ⟨joinedAtQueries_concat h.1 (by intro _ _ _ h; cases h),
        withinPage_concat h.2.1 (by simp only [inFlight_concat, inFlightStep]; omega)⟩

/-- C2 on the sample store: the job completes and its trace has the barrier. -/
theorem dhashJob_units_joined_before_next_page_witness :
    ∃ s, dhashJob storeEnv sampleConfig false 5 ⟨sampleStore, []⟩ = .ok s ∧
      JoinedAtQueries s.run.trace ∧ WithinPage s.run.trace :=
  ⟨_, rfl, (dhashJob_units_joined_before_next_page storeEnv sampleConfig false sampleStore).2
    5 _ rfl⟩

/-! ## Bootstrap: a catalog that refuses `K` connection attempts -/

theorem connectionAttempts_failedRetries (n : Nat) :
    connectionAttempts (failedRetries n) = List.replicate n false := by
  induction n with
  | zero => rfl
  | succ n ih =>
    simp only [failedRetries, connectionAttempts, List.filterMap_cons, List.replicate_succ] at ih ⊢
    rw [ih]

theorem failedRetries_mem (n : Nat) :
    ∀ e ∈ failedRetries n, e = .sleep ∨ e = .initDatabase false := by
  induction n with
  | zero => intro e he; cases he
  | succ n ih =>
    intro e he
    simp only [failedRetries, List.mem_cons] at he
    rcases he with h | h | h
    · exact Or.inl h
    · exact Or.inr h
    · exact ih e h

/-- The retry loop entered with `d` refusals left runs `d` refused rounds and one
accepted round, given fuel for them. -/
theorem retryLoop_trace {W : Type} (env : Env W) (refusals : W → Nat)
    (hcat : FailsThenConnects env refusals) (d : Nat) :
    ∀ (fuel : Nat) (r : Run W), refusals r.world = d → d < fuel →
      ∃ r', retryLoop env fuel r = .ok r' ∧
        r'.trace = r.trace ++ failedRetries d ++ [.sleep, .initDatabase true] := by
  obtain ⟨hinit, hdec, hkeep⟩ := hcat
  induction d with
  | zero =>
    intro fuel r ha hf
    obtain ⟨fuel, rfl⟩ : ∃ n, fuel = n + 1 := ⟨fuel - 1, by omega⟩
    have hs : refusals (emit env r .sleep).world = refusals r.world :=
      hkeep _ _ (by intro c h; cases h)
    have hc : env.initDatabase (emit env r .sleep).world = true := by
      rw [hinit, hs]; simp; omega
    refine ⟨_, by simp only [retryLoop, hc, if_true]; rfl, ?_⟩
    simp [emit_trace, failedRetries]
  | succ d ih =>
    intro fuel r ha hf
    obtain ⟨fuel, rfl⟩ : ∃ n, fuel = n + 1 := ⟨fuel - 1, by omega⟩
    have hs : refusals (emit env r .sleep).world = refusals r.world :=
      hkeep _ _ (by intro c h; cases h)
    have hc : env.initDatabase (emit env r .sleep).world = false := by
      rw [hinit, hs]; simp; omega
    obtain ⟨r', hr', ht⟩ := ih fuel
      (emit env (emit env r .sleep) (.initDatabase false))
      (by rw [emit_world, hdec, hs]; omega) (by omega)
    refine ⟨r', by simp only [retryLoop, hc]; exact hr', ?_⟩
    rw [ht]
    simp [emit_trace, failedRetries]

/-- The trace of the bootstrap against a catalog that refuses exactly `K` attempts. -/
theorem bootstrap_trace {W : Type} (env : Env W) (refusals : W → Nat)
    (cfg : ConfigurationSettings) (K fuel : Nat) (w : W)
    (hdb : cfg.DBName ≠ "" ∧ cfg.DBPassword ≠ "" ∧ cfg.DBUser ≠ "" ∧ cfg.DBHost ≠ "")
    (hcat : FailsThenConnects env refusals) (h0 : refusals w = K) (hfuel : K ≤ fuel) :
    ∃ b, bootstrap env cfg fuel ⟨w, []⟩ = .ok b ∧ b.configConfirmed = true ∧
      b.run.trace =
        if K = 0 then [.initDatabase true, .databaseConnected]
        else [.initDatabase false, .goBadConfigServer badConfigRoutes] ++
          failedRetries (K - 1) ++
          [.sleep, .initDatabase true, .shutdownBadConfigServer, .databaseConnected] := by
  obtain ⟨h1, h2, h3, h4⟩ := hdb
  have hcond : (cfg.DBName == "" || cfg.DBPassword == "" || cfg.DBUser == "" ||
      cfg.DBHost == "") = false := by simp [h1, h2, h3, h4]
  unfold bootstrap
  simp only [hcond, Bool.false_eq_true, if_false]
  rcases Nat.eq_zero_or_pos K with hK | hK
  · have hc : env.initDatabase w = true := by rw [hcat.1, h0]; simp [hK]
    simp only [hc, if_true, hK]
    exact ⟨_, rfl, rfl, rfl⟩
  · have hc : env.initDatabase w = false := by rw [hcat.1, h0]; simp; omega
    simp only [hc, Bool.false_eq_true, if_false]
    obtain ⟨r', hr', ht⟩ := retryLoop_trace env refusals hcat (K - 1) fuel
      (emit env (emit env ⟨w, []⟩ (.initDatabase false)) (.goBadConfigServer badConfigRoutes))
      (by
        rw [emit_world, hcat.2.2 _ _ (by intro c h; cases h), emit_world, hcat.2.1, h0])
      (by omega)
    refine ⟨_, by rw [hr'], rfl, ?_⟩
    have hK' : K ≠ 0 := by omega
    simp only [emit_trace, ht, hK', if_false]
    simp

/-- C3: with complete database settings and a catalog that refuses exactly the
first `K` connection attempts, the bootstrap (given fuel for `K` rounds of the retry
loop) returns after exactly `K + 1` attempts, of which only the last is accepted,
has started the temporary server once if `K ≥ 1` and never if `K = 0`, has marked
the configuration confirmed exactly once, and starts no temporary server from the
accepted attempt on. -/
theorem bootstrap_after_K_failures {W : Type} (env : Env W) (refusals : W → Nat)
    (cfg : ConfigurationSettings) (K fuel : Nat) (w : W)
    (hdb : cfg.DBName ≠ "" ∧ cfg.DBPassword ≠ "" ∧ cfg.DBUser ≠ "" ∧ cfg.DBHost ≠ "")
    (hcat : FailsThenConnects env refusals) (h0 : refusals w = K) (hfuel : K ≤ fuel) :
    ∃ b, bootstrap env cfg fuel ⟨w, []⟩ = .ok b ∧
      (connectionAttempts b.run.trace).length = K + 1 ∧
      connectionAttempts b.run.trace = List.replicate K false ++ [true] ∧
      placeholderStarts b.run.trace = (if 1 ≤ K then 1 else 0) ∧
      b.configConfirmed = true ∧
      confirmations b.run.trace = 1 ∧
      placeholderStarts (afterConnect b.run.trace) = 0 := by
  obtain ⟨b, hb, hconf, ht⟩ := bootstrap_trace env refusals cfg K fuel w hdb hcat h0 hfuel
  have hatt : connectionAttempts b.run.trace = List.replicate K false ++ [true] := by
    rw [ht]
    rcases Nat.eq_zero_or_pos K with hK | hK
    · subst hK; rfl
    · obtain ⟨n, rfl⟩ : ∃ n, K = n + 1 := ⟨K - 1, by omega⟩
      simp only [Nat.add_one_ne_zero, if_false, Nat.add_sub_cancel, connectionAttempts,
        List.filterMap_append]
      have := connectionAttempts_failedRetries n
      simp only [connectionAttempts] at this
      rw [this]
      simp [List.replicate_succ]
  have hnone : ∀ n, placeholderStarts (failedRetries n) = 0 ∧
      confirmations (failedRetries n) = 0 := by
    intro n
    simp only [placeholderStarts, confirmations, List.countP_eq_zero]
    constructor <;> intro e he <;> rcases failedRetries_mem n e he with rfl | rfl <;> simp
  refine ⟨b, hb, by rw [hatt]; simp, hatt, ?_, hconf, ?_, ?_⟩
  · rw [ht]
    rcases Nat.eq_zero_or_pos K with hK | hK
    · subst hK; rfl
    · have hK' : K ≠ 0 := by omega
      have h1 : 1 ≤ K := hK
      simp only [hK', if_false, h1, if_true, placeholderStarts, List.countP_append]
      have := (hnone (K - 1)).1
      simp only [placeholderStarts] at this
      rw [this]
      rfl
  · rw [ht]
    rcases Nat.eq_zero_or_pos K with hK | hK
    · subst hK; rfl
    · have hK' : K ≠ 0 := by omega
      simp only [hK', if_false, confirmations, List.countP_append]
      have := (hnone (K - 1)).2
      simp only [confirmations] at this
      rw [this]
      rfl
  · rw [ht]
    rcases Nat.eq_zero_or_pos K with hK | hK
    · subst hK; rfl
    · have hK' : K ≠ 0 := by omega
      simp only [hK', if_false, afterConnect]
      rw [List.dropWhile_append_of_pos]
      · rfl
      · intro e he
        simp only [List.mem_append, List.mem_cons, List.mem_singleton, List.not_mem_nil,
          or_false] at he
        rcases he with (rfl | rfl) | he
        · rfl
        · rfl
        · rcases failedRetries_mem _ e he with rfl | rfl <;> rfl

/-- The catalog of a store refuses as many attempts as its outage lasts. -/
theorem storeEnv_failsThenConnects : FailsThenConnects storeEnv Store.outage := by
  refine ⟨fun w => ?_, fun w c => rfl, fun w e he => ?_⟩
  · simp only [storeEnv]
    cases w.outage <;> rfl
  · cases e <;> first | rfl | (exfalso; exact he _ rfl) | skip
    all_goals (simp only [storeEnv, Store.effect]; split <;> rfl)

/-- C3 on a store whose catalog is out for two connection attempts. -/
theorem bootstrap_after_K_failures_witness :
    ∃ b, bootstrap storeEnv sampleConfig 2 ⟨{ sampleStore with outage := 2 }, []⟩ = .ok b ∧
      (connectionAttempts b.run.trace).length = 2 + 1 ∧
      connectionAttempts b.run.trace = List.replicate 2 false ++ [true] ∧
      placeholderStarts b.run.trace = (if 1 ≤ 2 then 1 else 0) ∧
      b.configConfirmed = true ∧
      confirmations b.run.trace = 1 ∧
      placeholderStarts (afterConnect b.run.trace) = 0 :=
  bootstrap_after_K_failures storeEnv Store.outage sampleConfig 2 2
    { sampleStore with outage := 2 } (by decide) storeEnv_failsThenConnects rfl (by decide)

/-! ## Configuration defaults keep the TLS settings -/

theorem setIfMissing_tls (missing : ConfigurationSettings → Bool)
    (set : ConfigurationSettings → ConfigurationSettings) (x cfg : ConfigurationSettings)
    (h : ∀ c, (set c).UseTLS = c.UseTLS ∧ (set c).TLSCertPath = c.TLSCertPath ∧
      (set c).TLSKeyPath = c.TLSKeyPath)
    (hx : x.UseTLS = cfg.UseTLS ∧ x.TLSCertPath = cfg.TLSCertPath ∧
      x.TLSKeyPath = cfg.TLSKeyPath) :
    (setIfMissing missing set x).UseTLS = cfg.UseTLS ∧
    (setIfMissing missing set x).TLSCertPath = cfg.TLSCertPath ∧
    (setIfMissing missing set x).TLSKeyPath = cfg.TLSKeyPath := by
  unfold setIfMissing
  split
  · exact ⟨(h x).1.trans hx.1, (h x).2.1.trans hx.2.1, (h x).2.2.trans hx.2.2⟩
  · exact hx

theorem fixMissingFields_tls (cfg : ConfigurationSettings) :
    (fixMissingFields cfg).UseTLS = cfg.UseTLS ∧
    (fixMissingFields cfg).TLSCertPath = cfg.TLSCertPath ∧
    (fixMissingFields cfg).TLSKeyPath = cfg.TLSKeyPath := by
  unfold fixMissingFields
  iterate 10
    apply setIfMissing_tls
    · intro c; exact ⟨rfl, rfl, rfl⟩
  exact ⟨rfl, rfl, rfl⟩

theorem CreateSessionStore_tls {W : Type} (env : Env W) (cfg : ConfigurationSettings)
    (r : Run W) :
    (CreateSessionStore env cfg r).1.UseTLS = cfg.UseTLS ∧
    (CreateSessionStore env cfg r).1.TLSCertPath = cfg.TLSCertPath ∧
    (CreateSessionStore env cfg r).1.TLSKeyPath = cfg.TLSKeyPath := by
  unfold CreateSessionStore
  simp only []
  split <;> exact ⟨rfl, rfl, rfl⟩

theorem fixMissingConfigs_tls {W : Type} (env : Env W) (cfg : ConfigurationSettings)
    (r : Run W) :
    (fixMissingConfigs env cfg r).1.UseTLS = cfg.UseTLS ∧
    (fixMissingConfigs env cfg r).1.TLSCertPath = cfg.TLSCertPath ∧
    (fixMissingConfigs env cfg r).1.TLSKeyPath = cfg.TLSKeyPath := by
  unfold fixMissingConfigs
  obtain ⟨g1, g2, g3⟩ := fixMissingFields_tls cfg
  generalize fixMissingFields cfg = x at g1 g2 g3 ⊢
  obtain ⟨h1, h2, h3⟩ := CreateSessionStore_tls env x r
  exact ⟨h1.trans g1, h2.trans g2, h3.trans g3⟩

/-! ## Which events each part of `main` adds to the trace -/

theorem freshSessionKeys_events {W : Type} (env : Env W) (r : Run W) :
    ∀ e ∈ (freshSessionKeys env r).2.trace,
      e ∈ r.trace ∨ ∃ n key, e = .generateRandomKey n key := by
  intro e he
  simp only [freshSessionKeys, emit_trace, List.mem_append, List.mem_singleton] at he
  rcases he with (he | he) | he
  · exact Or.inl he
  · exact Or.inr ⟨_, _, he⟩
  · exact Or.inr ⟨_, _, he⟩

theorem sessionStoreKeys_events {W : Type} (env : Env W) (cfg : ConfigurationSettings)
    (r : Run W) :
    ∀ e ∈ (sessionStoreKeys env cfg r).2.trace,
      e ∈ r.trace ∨ ∃ n key, e = .generateRandomKey n key := by
  intro e he
  unfold sessionStoreKeys at he
  split at he
  · split at he
    · exact freshSessionKeys_events env r e he
    · exact Or.inl he
  · exact freshSessionKeys_events env r e he

theorem CreateSessionStore_events {W : Type} (env : Env W) (cfg : ConfigurationSettings)
    (r : Run W) :
    ∀ e ∈ (CreateSessionStore env cfg r).2.trace,
      e ∈ r.trace ∨ ∃ n key, e = .generateRandomKey n key := by
  intro e he
  unfold CreateSessionStore at he
  simp only [] at he
  split at he
  · simp only [emit_trace, List.mem_append, List.mem_singleton] at he
    rcases he with he | he
    · exact sessionStoreKeys_events env cfg r e he
    · exact Or.inr ⟨_, _, he⟩
  · exact sessionStoreKeys_events env cfg r e he

theorem fixMissingConfigs_events {W : Type} (env : Env W) (cfg : ConfigurationSettings)
    (r : Run W) :
    ∀ e ∈ (fixMissingConfigs env cfg r).2.trace,
      e ∈ r.trace ∨ ∃ n key, e = .generateRandomKey n key := by
  unfold fixMissingConfigs
  generalize fixMissingFields cfg = x
  exact CreateSessionStore_events env x r

theorem retryLoop_events {W : Type} (env : Env W) (fuel : Nat) :
    ∀ (r r' : Run W), retryLoop env fuel r = .ok r' →
      ∀ e ∈ r'.trace, e ∈ r.trace ∨ e = .sleep ∨ ∃ c, e = .initDatabase c := by
  induction fuel with
  | zero => intro r r' h; cases h
  | succ fuel ih =>
    intro r r' h e he
    unfold retryLoop at h
    simp only [] at h
    split at h
    · injection h with h
      subst h
      simp only [emit_trace, List.mem_append, List.mem_singleton] at he
      rcases he with (he | he) | he
      · exact Or.inl he
      · exact Or.inr (Or.inl he)
      · exact Or.inr (Or.inr ⟨_, he⟩)
    · rcases ih _ _ h e he with he | he | he
      · simp only [emit_trace, List.mem_append, List.mem_singleton] at he
        rcases he with (he | he) | he
        · exact Or.inl he
        · exact Or.inr (Or.inl he)
        · exact Or.inr (Or.inr ⟨_, he⟩)
      · exact Or.inr (Or.inl he)
      · exact Or.inr (Or.inr he)

/-- The bootstrap adds connection attempts, sleeps, the start and the shutdown of
the temporary server and the confirmation, and nothing else. -/
theorem bootstrap_events {W : Type} (env : Env W) (cfg : ConfigurationSettings) (fuel : Nat)
    (r : Run W) (b : BootState W) (h : bootstrap env cfg fuel r = .ok b) :
    ∀ e ∈ b.run.trace, e ∈ r.trace ∨ e = .sleep ∨ (∃ c, e = .initDatabase c) ∨
      e = .goBadConfigServer badConfigRoutes ∨ e = .shutdownBadConfigServer ∨
      e = .databaseConnected := by
  intro e he
  unfold bootstrap at h
  simp only [] at h
  split at h
  · injection h with h; subst h; exact Or.inl he
  · split at h
    · injection h with h; subst h
      simp only [emit_trace, List.mem_append, List.mem_singleton] at he
      rcases he with (he | he) | he
      · exact Or.inl he
      · exact Or.inr (Or.inr (Or.inl ⟨_, he⟩))
      · exact Or.inr (Or.inr (Or.inr (Or.inr (Or.inr he))))
    · split at h
      · cases h
      · rename_i r3 hr3
        injection h with h; subst h
        simp only [emit_trace, List.mem_append, List.mem_singleton] at he
        rcases he with (he | he) | he
        · rcases retryLoop_events env fuel _ _ hr3 e he with he | he | he
          · simp only [emit_trace, List.mem_append, List.mem_singleton] at he
            rcases he with (he | he) | he
            · exact Or.inl he
            · exact Or.inr (Or.inr (Or.inl ⟨_, he⟩))
            · exact Or.inr (Or.inr (Or.inr (Or.inl he)))
          · exact Or.inr (Or.inl he)
          · exact Or.inr (Or.inr (Or.inl he))
        · exact Or.inr (Or.inr (Or.inr (Or.inr (Or.inl he))))
        · exact Or.inr (Or.inr (Or.inr (Or.inr (Or.inr he))))

theorem extends_refl {W : Type} (env : Env W) (kind : Event → Bool) (r : Run W) :
    Extends env kind r r :=
  ⟨[], by simp, rfl, fun _ he => by cases he⟩

theorem Extends.emit {W : Type} {env : Env W} {kind : Event → Bool} {r r' : Run W}
    (h : Extends env kind r r') (x : Event) (hx : kind x = true) :
    Extends env kind r (emit env r' x) := by
  obtain ⟨ext, ht, hw, hk⟩ := h
  refine ⟨ext ++ [x], by rw [emit_trace, ht, List.append_assoc], ?_, ?_⟩
  · rw [emit_world, hw, List.foldl_append]; rfl
  · intro e he
    rcases List.mem_append.mp he with he | he
    · exact hk e he
    · rw [List.mem_singleton.mp he]; exact hx

theorem Extends.trans {W : Type} {env : Env W} {kind : Event → Bool} {r r' r'' : Run W}
    (h : Extends env kind r r') (h' : Extends env kind r' r'') : Extends env kind r r'' := by
  obtain ⟨ext, ht, hw, hk⟩ := h
  obtain ⟨ext', ht', hw', hk'⟩ := h'
  refine ⟨ext ++ ext', by rw [ht', ht, List.append_assoc], ?_, ?_⟩
  · rw [hw', hw, List.foldl_append]
  · intro e he
    rcases List.mem_append.mp he with he | he
    · exact hk e he
    · exact hk' e he

/-- The world of a continued run is the old world after the added events. -/
theorem Extends.world_eq {W : Type} {env : Env W} {kind : Event → Bool} {r r' : Run W}
    (h : Extends env kind r r') (ext : List Event) (ht : r'.trace = r.trace ++ ext) :
    r'.world = ext.foldl env.effect r.world := by
  obtain ⟨ext', ht', hw, _⟩ := h
  rw [ht'] at ht
  rw [hw, List.append_cancel_left ht]

theorem thumbsStep_extends {W : Type} (env : Env W) (cfg : ConfigurationSettings)
    (missingOnly : Bool) (s s' : ThumbState W) (file : FileInfo)
    (h : thumbsStep env cfg missingOnly s file = .ok s') :
    Extends env Event.ofThumbsJob s.run s'.run := by
  unfold thumbsStep at h
  by_cases hdir : file.isDir = true
  · simp only [hdir, if_true] at h
    injection h with h; subst h; exact extends_refl _ _ _
  · by_cases hps : cfg.PageStride = 0
    · simp only [hdir, Bool.false_eq_true, if_false, hps, if_true] at h
      cases h
    · have h1 := (extends_refl env Event.ofThumbsJob s.run).emit
        (.stat (thumbNailPath cfg.ImageDirectory file.name)
          (env.stat s.run.world (thumbNailPath cfg.ImageDirectory file.name))) rfl
      by_cases hgo : (missingOnly == false ||
          env.stat s.run.world (thumbNailPath cfg.ImageDirectory file.name)
            == StatResult.notExist) = true
      · by_cases hz : (s.generatedThumbnails + 1) % uint64Size % cfg.PageStride = 0
        · simp only [hdir, Bool.false_eq_true, if_false, hps, hgo, if_true, hz] at h
          injection h with h; subst h
          exact (((h1.emit _ (by rfl)).emit _ (by rfl))).emit _ (by rfl)
        · simp only [hdir, Bool.false_eq_true, if_false, hps, hgo, if_true, hz] at h
          injection h with h; subst h
          exact (h1.emit _ (by rfl)).emit _ (by rfl)
      · by_cases hz : s.generatedThumbnails % cfg.PageStride = 0
        · simp only [hdir, Bool.false_eq_true, if_false, hps, hgo, if_true, hz] at h
          injection h with h; subst h
          exact h1.emit _ (by rfl)
        · simp only [hdir, Bool.false_eq_true, if_false, hps, hgo, hz] at h
          injection h with h; subst h
          exact h1

theorem thumbsLoop_extends {W : Type} (env : Env W) (cfg : ConfigurationSettings)
    (missingOnly : Bool) (files : List FileInfo) :
    ∀ s s' : ThumbState W, thumbsLoop env cfg missingOnly s files = .ok s' →
      Extends env Event.ofThumbsJob s.run s'.run := by
  induction files with
  | nil => intro s s' h; injection h with h; subst h; exact extends_refl _ _ _
  | cons file files ih =>
    intro s s' h
    unfold thumbsLoop at h
    split at h
    · cases h
    · rename_i s1 h1
      exact (thumbsStep_extends env cfg missingOnly s s1 file h1).trans (ih s1 s' h)

theorem thumbsJob_extends {W : Type} (env : Env W) (cfg : ConfigurationSettings)
    (missingOnly : Bool) (r : Run W) (s : ThumbState W)
    (h : thumbsJob env cfg missingOnly r = .ok s) : Extends env Event.ofThumbsJob r s.run := by
  unfold thumbsJob at h
  have h1 := (extends_refl env Event.ofThumbsJob r).emit
    (.readDir cfg.ImageDirectory (env.readDir r.world cfg.ImageDirectory)) rfl
  cases hfiles : env.readDir r.world cfg.ImageDirectory with
  | none =>
    simp only [hfiles] at h h1
    injection h with h; subst h
    exact h1
  | some files =>
    simp only [hfiles] at h h1
    cases hloop : thumbsLoop env cfg missingOnly
        { run := emit env r (.readDir cfg.ImageDirectory (some files)),
          generatedThumbnails := 0 } files with
    | error f => rw [hloop] at h; cases h
    | ok s1 =>
      rw [hloop] at h
      injection h with h; subst h
      exact (h1.trans (thumbsLoop_extends env cfg missingOnly files _ s1 hloop)).emit _ (by rfl)

theorem dhashImages_extends {W : Type} (env : Env W) (missingOnly : Bool)
    (images : List ImageInformation) :
    ∀ s : HashState W, Extends env Event.ofHashJob s.run (dhashImages env missingOnly s images).run := by
  induction images with
  | nil => intro s; exact extends_refl _ _ _
  | cons image images ih =>
    intro s
    unfold dhashImages
    cases missingOnly with
    | false =>
      simp only [Bool.false_eq_true, if_false, beq_self_eq_true, Bool.true_or, if_true]
      exact ((extends_refl _ _ _).emit _ (by rfl)).trans (ih _)
    | true =>
      simp only [if_true, Bool.true_eq_false, Bool.false_or, Bool.not_eq_true']
      cases env.getImagedHash s.run.world image.ID with
      | false =>
        exact (((extends_refl _ _ _).emit _ (by rfl)).emit _ (by rfl)).trans (ih _)
      | true =>
        exact ((extends_refl _ _ _).emit _ (by rfl)).trans (ih _)

theorem dhashLoop_extends {W : Type} (env : Env W) (cfg : ConfigurationSettings)
    (missingOnly : Bool) (fuel : Nat) :
    ∀ s : HashState W,
      Extends env Event.ofHashJob s.run (dhashLoop env cfg missingOnly fuel s).1.run := by
  induction fuel with
  | zero => intro s; exact extends_refl _ _ _
  | succ fuel ih =>
    intro s
    have h1 := (extends_refl env Event.ofHashJob s.run).emit
      (.searchImages s.page cfg.PageStride
        (env.searchImages s.run.world s.page cfg.PageStride)) (by rfl)
    unfold dhashLoop
    simp only []
    split
    · exact h1
    · split
      · exact h1
      · exact ((h1.trans (dhashImages_extends env missingOnly _ _)).emit _ (by rfl)).trans
          (ih _)

theorem dhashJob_extends {W : Type} (env : Env W) (cfg : ConfigurationSettings)
    (missingOnly : Bool) (fuel : Nat) (r : Run W) (s : HashState W)
    (h : dhashJob env cfg missingOnly fuel r = .ok s) : Extends env Event.ofHashJob r s.run := by
  have h1 := dhashLoop_extends env cfg missingOnly fuel
    { run := r, page := 0, processedImages := 0 }
  unfold dhashJob at h
  split at h
  · cases h
  · rename_i s1 heq
    injection h with h; subst h
    rw [heq] at h1
    exact h1.emit _ (by rfl)

theorem orphanImagesLoop_extends {W : Type} (env : Env W) (cfg : ConfigurationSettings)
    (files : List FileInfo) :
    ∀ r : Run W, Extends env Event.ofSweep r (orphanImagesLoop env cfg r files) := by
  induction files with
  | nil => intro r; exact extends_refl _ _ _
  | cons file files ih =>
    intro r
    refine Extends.trans ?_ (ih (orphanImagesStep env cfg r file))
    unfold orphanImagesStep
    simp only []
    split
    · exact extends_refl _ _ _
    · split
      · exact ((extends_refl _ _ _).emit _ (by rfl)).emit _ (by rfl)
      · exact (extends_refl _ _ _).emit _ (by rfl)

theorem orphanThumbsLoop_extends {W : Type} (env : Env W) (cfg : ConfigurationSettings)
    (files : List FileInfo) :
    ∀ r : Run W, Extends env Event.ofSweep r (orphanThumbsLoop env cfg r files) := by
  induction files with
  | nil => intro r; exact extends_refl _ _ _
  | cons file files ih =>
    intro r
    refine Extends.trans ?_ (ih (orphanThumbsStep env cfg r file))
    unfold orphanThumbsStep
    simp only []
    split
    · exact extends_refl _ _ _
    · split
      · exact ((extends_refl _ _ _).emit _ (by rfl)).emit _ (by rfl)
      · exact (extends_refl _ _ _).emit _ (by rfl)

theorem removeOrphanFiles_extends {W : Type} (env : Env W) (cfg : ConfigurationSettings)
    (r : Run W) : Extends env Event.ofSweep r (removeOrphanFiles env cfg r) := by
  unfold removeOrphanFiles
  simp only []
  have h1 := (extends_refl env Event.ofSweep r).emit
    (.readDir cfg.ImageDirectory (env.readDir r.world cfg.ImageDirectory)) (by rfl)
  cases hfiles : env.readDir r.world cfg.ImageDirectory with
  | none => simp only [hfiles] at h1 ⊢; exact h1
  | some files =>
    simp only [hfiles] at h1 ⊢
    have h2 := h1.trans (orphanImagesLoop_extends env cfg files _)
    have h3 := h2.emit (.readDir (pathJoin cfg.ImageDirectory "thumbs")
      (env.readDir (orphanImagesLoop env cfg
        (emit env r (.readDir cfg.ImageDirectory (some files))) files).world
        (pathJoin cfg.ImageDirectory "thumbs"))) (by rfl)
    cases hthumbs : env.readDir (orphanImagesLoop env cfg
        (emit env r (.readDir cfg.ImageDirectory (some files))) files).world
        (pathJoin cfg.ImageDirectory "thumbs") with
    | none => simp only [hthumbs] at h3 ⊢; exact h3
    | some thumbs =>
      simp only [hthumbs] at h3 ⊢
      exact h3.trans (orphanThumbsLoop_extends env cfg thumbs _)

/-- A step guarded by the test that `database.DBInterface` was assigned returns
only when it was. -/
theorem assigned_of_ok {α : Type} (c : Bool) (x : Except Fault α) (r : α)
    (h : (if c = true then x else .error .nilDereference) = .ok r) :
    c = true ∧ x = .ok r := by
  cases c with
  | true => exact ⟨rfl, by simpa using h⟩
  | false => simp at h

/-- The sweep without a catalog adds events of the sweep only, when it returns. -/
theorem removeOrphanFilesUnassigned_extends {W : Type} (env : Env W)
    (cfg : ConfigurationSettings) (r r' : Run W)
    (h : removeOrphanFilesUnassigned env cfg r = .ok r') : Extends env Event.ofSweep r r' := by
  unfold removeOrphanFilesUnassigned at h
  simp only [] at h
  have h1 := (extends_refl env Event.ofSweep r).emit
    (.readDir cfg.ImageDirectory (env.readDir r.world cfg.ImageDirectory)) (by rfl)
  cases hfiles : env.readDir r.world cfg.ImageDirectory with
  | none =>
    simp only [hfiles] at h1 h
    injection h with h; subst h; exact h1
  | some files =>
    simp only [hfiles] at h1 h
    split at h
    · cases h
    · have h3 := h1.emit (.readDir (pathJoin cfg.ImageDirectory "thumbs")
        (env.readDir (emit env r (.readDir cfg.ImageDirectory (some files))).world
          (pathJoin cfg.ImageDirectory "thumbs"))) (by rfl)
      cases hthumbs : env.readDir (emit env r (.readDir cfg.ImageDirectory (some files))).world
          (pathJoin cfg.ImageDirectory "thumbs") with
      | none =>
        simp only [hthumbs] at h3 h
        injection h with h; subst h; exact h3
      | some thumbs =>
        simp only [hthumbs] at h3 h
        split at h
        · cases h
        · injection h with h; subst h; exact h3

/-- The sweep branch of `main` adds events of the sweep only, when it returns. -/
theorem sweepBranch_extends {W : Type} (env : Env W) (cfg : ConfigurationSettings)
    (r r' : Run W)
    (h : (if databaseAssigned cfg = true then .ok (removeOrphanFiles env cfg r)
      else removeOrphanFilesUnassigned env cfg r) = .ok r') :
    Extends env Event.ofSweep r r' := by
  by_cases hdb : databaseAssigned cfg = true
  · simp only [hdb, if_true] at h
    injection h with h; subst h
    exact removeOrphanFiles_extends env cfg r
  · simp only [hdb, Bool.false_eq_true, if_false] at h
    exact removeOrphanFilesUnassigned_extends env cfg r r' h

/-! ## The TLS check and the final server -/

/-- With TLS configured and the certificate or the key not stat-accessible, the TLS
check leaves the configuration unconfirmed and adds only `os.Stat` calls. -/
theorem verifyTLS_unverified {W : Type} (env : Env W) (cfg : ConfigurationSettings)
    (b : BootState W) (htls : cfg.UseTLS = true)
    (hstat : (∀ w, env.stat w cfg.TLSCertPath ≠ .ok) ∨ (∀ w, env.stat w cfg.TLSKeyPath ≠ .ok)) :
    (verifyTLS env cfg b).configConfirmed = false ∧
    Extends env Event.ofThumbsJob b.run (verifyTLS env cfg b).run := by
  unfold verifyTLS
  simp only [htls, if_true]
  by_cases hc : env.stat b.run.world cfg.TLSCertPath = .ok
  · have hk : ∀ w, env.stat w cfg.TLSKeyPath ≠ .ok := by
      rcases hstat with h | h
      · exact absurd hc (h _)
      · exact h
    have hk' := hk (emit env b.run (.stat cfg.TLSCertPath (env.stat b.run.world cfg.TLSCertPath))).world
    simp only [hc, bne_self_eq_false, Bool.false_eq_true, if_false] at hk' ⊢
    have : (env.stat (emit env b.run (.stat cfg.TLSCertPath .ok)).world cfg.TLSKeyPath
        != StatResult.ok) = true := by
      simp only [bne_iff_ne, ne_eq]; exact hk'
    simp only [this, if_true]
    exact ⟨trivial, ((extends_refl _ _ _).emit _ (by rfl)).emit _ (by rfl)⟩
  · have : (env.stat b.run.world cfg.TLSCertPath != StatResult.ok) = true := by
      simp only [bne_iff_ne, ne_eq]; exact hc
    simp only [this, if_true]
    exact ⟨trivial, (extends_refl _ _ _).emit _ (by rfl)⟩

theorem Extends.forall {W : Type} {env : Env W} {kind : Event → Bool} {r r' : Run W}
    (h : Extends env kind r r') (P : Event → Prop) (hk : ∀ e, kind e = true → P e)
    (hr : ∀ e ∈ r.trace, P e) : ∀ e ∈ r'.trace, P e := by
  obtain ⟨ext, ht, _, hext⟩ := h
  intro e he
  rw [ht] at he
  rcases List.mem_append.mp he with he | he
  · exact hr e he
  · exact hk e (hext e he)

/-- No event up to and including the bootstrap starts the final server. -/
theorem startup_no_final_server {W : Type} (env : Env W) (cfg : ConfigurationSettings)
    (fuel : Nat) (r0 : Run W) (b : BootState W)
    (h0 : ∀ e ∈ r0.trace, e.startsFinalServer = false)
    (hb : bootstrap env cfg fuel
      (emit env (emit env (emit env r0 .saveConfiguration) .cacheTemplates) .throttleInit)
      = .ok b) :
    ∀ e ∈ b.run.trace, e.startsFinalServer = false := by
  intro e he
  rcases bootstrap_events env _ fuel _ b hb e he with he | rfl | ⟨c, rfl⟩ | rfl | rfl | rfl
  · simp only [emit_trace, List.mem_append, List.mem_singleton] at he
    rcases he with ((he | rfl) | rfl) | rfl
    · exact h0 e he
    · rfl
    · rfl
    · rfl
  all_goals rfl

/-- The statement of C4 for the part of `main` after the configuration defaults. -/
theorem runMode_unverified_tls {W : Type} (env : Env W) (flags : Flags)
    (cfg : ConfigurationSettings) (fuel : Nat) (r0 r : Run W)
    (h0 : ∀ e ∈ r0.trace, e.startsFinalServer = false)
    (htls : cfg.UseTLS = true)
    (hstat : (∀ w, env.stat w cfg.TLSCertPath ≠ .ok) ∨ (∀ w, env.stat w cfg.TLSKeyPath ≠ .ok))
    (hr : runMode env flags cfg fuel r0 = .ok r) :
    (∀ e ∈ r.trace, e.startsFinalServer = true → e = .listenAndServe badConfigRoutes) ∧
    (flags.thumbsonly = false → flags.dhashonly = false → flags.removeorphanfiles = false →
      ∃ t, r.trace = t ++ [.listenAndServe badConfigRoutes] ∧
        ∀ e ∈ t, e.startsFinalServer = false) := by
  unfold runMode at hr
  by_cases hth : flags.thumbsonly = true
  · -- thumbnail mode: no server at all
    simp only [hth, if_true] at hr
    cases hjob : thumbsJob env cfg flags.missingonly r0 with
    | error f => rw [hjob] at hr; cases hr
    | ok s =>
      rw [hjob] at hr
      injection hr with hr; subst hr
      have hno := (thumbsJob_extends env _ _ _ s hjob).forall
        (fun e => e.startsFinalServer = false)
        (by intro e he; cases e <;> first | rfl | cases he) h0
      refine ⟨fun e he hs => ?_, fun h => ?_⟩
      · rw [hno e he] at hs; cases hs
      · rw [hth] at h; cases h
  · simp only [hth, Bool.false_eq_true, if_false] at hr
    cases hboot : bootstrap env cfg fuel
        (emit env (emit env (emit env r0 .saveConfiguration) .cacheTemplates) .throttleInit) with
    | error f => rw [hboot] at hr; cases hr
    | ok b =>
      rw [hboot] at hr
      have hb := startup_no_final_server env cfg fuel r0 b h0 hboot
      by_cases hdh : flags.dhashonly = true
      · -- hash mode: no final server
        simp only [hdh, if_true] at hr
        obtain ⟨_, hr⟩ := assigned_of_ok _ _ _ hr
        cases hjob : dhashJob env cfg flags.missingonly fuel b.run with
        | error f => rw [hjob] at hr; cases hr
        | ok s =>
          rw [hjob] at hr
          injection hr with hr; subst hr
          have hno := (dhashJob_extends env _ _ _ _ s hjob).forall
            (fun e => e.startsFinalServer = false)
            (by intro e he; cases e <;> first | rfl | cases he) hb
          refine ⟨fun e he hs => ?_, fun _ h => ?_⟩
          · rw [hno e he] at hs; cases hs
          · rw [hdh] at h; cases h
      · simp only [hdh, Bool.false_eq_true, if_false] at hr
        by_cases hro : flags.removeorphanfiles = true
        · -- sweep mode: no final server
          simp only [hro, if_true] at hr
          have hno := (sweepBranch_extends env cfg b.run r hr).forall
            (fun e => e.startsFinalServer = false)
            (by intro e he; cases e <;> first | rfl | cases he) hb
          refine ⟨fun e he hs => ?_, fun _ _ h => ?_⟩
          · rw [hno e he] at hs; cases hs
          · rw [hro] at h; cases h
        · -- server mode: the TLS check fails, the degraded server is served
          simp only [hro, Bool.false_eq_true, if_false] at hr
          injection hr with hr; subst hr
          obtain ⟨hconf, hext⟩ := verifyTLS_unverified env cfg b htls hstat
          have hno := hext.forall (fun e => e.startsFinalServer = false)
            (by intro e he; cases e <;> first | rfl | cases he) hb
          have htrace : (serve env cfg flags (verifyTLS env cfg b)).trace =
              (verifyTLS env cfg b).run.trace ++ [.listenAndServe badConfigRoutes] := by
            simp only [serve, listen, hconf, Bool.false_eq_true, if_false, beq_self_eq_true,
              Bool.or_true, if_true]
            rfl
          refine ⟨fun e he hs => ?_, fun _ _ _ => ⟨_, htrace, hno⟩⟩
          rw [htrace, List.mem_append, List.mem_singleton] at he
          rcases he with he | rfl
          · rw [hno e he] at hs; cases hs
          · rfl

/-- The configuration defaults start no server. -/
theorem fixMissingConfigs_no_server {W : Type} (env : Env W) (loaded : ConfigurationSettings)
    (w : W) :
    ∀ e ∈ (fixMissingConfigs env loaded ⟨w, []⟩).2.trace,
      e.startsFinalServer = false ∧ e.startsServer = false := by
  intro e he
  rcases fixMissingConfigs_events env loaded ⟨w, []⟩ e he with he | ⟨n, key, rfl⟩
  · cases he
  · exact ⟨rfl, rfl⟩

/-- C4: when TLS is configured and stat of the certificate file fails, or stat of
the key file fails, no run of `main` starts the full server, whatever the catalog
does: the only final server a run starts is the one with the two routes `/`
(degraded notice) and `/resources/{file}`, served without TLS; and in server mode
(none of the flags `thumbsonly`, `dhashonly`, `removeorphanfiles`) a run that gets
past the bootstrap ends by serving exactly that server. -/
theorem main_unverified_tls_serves_degraded {W : Type} (env : Env W) (flags : Flags)
    (loaded : ConfigurationSettings) (fuel : Nat) (w : W) (r : Run W)
    (htls : loaded.UseTLS = true)
    (hstat : (∀ w, env.stat w loaded.TLSCertPath ≠ .ok) ∨
      (∀ w, env.stat w loaded.TLSKeyPath ≠ .ok))
    (hr : main env flags loaded fuel w = .ok r) :
    (∀ e ∈ r.trace, e.startsFinalServer = true →
      e = .listenAndServe [⟨"/", "routers.BadConfigRouter"⟩,
        ⟨"/resources/{file}", "routers.ResourceRouter"⟩]) ∧
    (flags.thumbsonly = false → flags.dhashonly = false → flags.removeorphanfiles = false →
      ∃ t, r.trace = t ++ [.listenAndServe [⟨"/", "routers.BadConfigRouter"⟩,
        ⟨"/resources/{file}", "routers.ResourceRouter"⟩]] ∧
        ∀ e ∈ t, e.startsFinalServer = false) := by
  obtain ⟨c1, c2, c3⟩ := fixMissingConfigs_tls env loaded ⟨w, []⟩
  unfold main at hr
  exact runMode_unverified_tls env flags _ fuel _ r
    (fun e he => (fixMissingConfigs_no_server env loaded w e he).1)
    (c1.trans htls) (by rw [c2, c3]; exact hstat) hr

/-- The path of a file in a directory has a slash in it. -/
theorem slashJoin_has_slash (dir name : String) : '/' ∈ (slashJoin dir name).data := by
  simp [slashJoin, String.data_append]

/-- A store has no file at a path without a slash. -/
theorem storeEnv_stat_of_no_slash (w : Store) (path : String) (h : '/' ∉ path.data) :
    storeEnv.stat w path ≠ .ok := by
  have hno : w.hasFile path = false := by
    simp only [Store.hasFile, Bool.or_eq_false_iff, List.contains_eq_any_beq,
      List.any_eq_false, List.mem_map, beq_iff_eq, forall_exists_index, and_imp]
    constructor <;>
    · intro p n _ hp heq
      subst heq; subst hp
      exact h (slashJoin_has_slash _ _)
  simp [storeEnv, hno]

/-- C4 on the sample store, whose catalog connects at once, with TLS configured
and no certificate file: `main` ends in the degraded server. -/
theorem main_unverified_tls_serves_degraded_witness :
    ∃ r, main storeEnv serverMode sampleTLSConfig 0 sampleStore = .ok r ∧
      (∀ e ∈ r.trace, e.startsFinalServer = true →
        e = .listenAndServe [⟨"/", "routers.BadConfigRouter"⟩,
          ⟨"/resources/{file}", "routers.ResourceRouter"⟩]) ∧
      (serverMode.thumbsonly = false → serverMode.dhashonly = false →
        serverMode.removeorphanfiles = false →
        ∃ t, r.trace = t ++ [.listenAndServe [⟨"/", "routers.BadConfigRouter"⟩,
          ⟨"/resources/{file}", "routers.ResourceRouter"⟩]] ∧
          ∀ e ∈ t, e.startsFinalServer = false) :=
  ⟨_, rfl, main_unverified_tls_serves_degraded storeEnv serverMode sampleTLSConfig 0
    sampleStore _ rfl (Or.inl fun w => storeEnv_stat_of_no_slash w _ (by decide)) rfl⟩

/-! ## Orphan sweep: the image pass -/

theorem foldl_emit {W : Type} (env : Env W) (es : List Event) : ∀ r : Run W,
    (es.foldl (emit env) r).trace = r.trace ++ es ∧
    (es.foldl (emit env) r).world = es.foldl env.effect r.world := by
  induction es with
  | nil => intro r; simp
  | cons e es ih =>
    intro r
    obtain ⟨h1, h2⟩ := ih (emit env r e)
    simp only [List.foldl_cons]
    rw [h1, h2]
    simp [emit_trace, emit_world]

theorem passEvents_cons (key : FileInfo → List Nat) (path : FileInfo → String)
    (step : FileInfo × LookupResult) (steps : List (FileInfo × LookupResult)) :
    passEvents key path (step :: steps) =
      lookupThenRemove (key step.1) (path step.1) step.2 ++ passEvents key path steps := by
  simp [passEvents]

/-- A loop whose iteration skips directories and otherwise looks the file up and
removes it on a no-rows answer does, over a listing, the events of a pass with
the answers of the catalog. -/
theorem passLoop_spec {W : Type} (env : Env W) (key : FileInfo → List Nat)
    (path : FileInfo → String) (step : Run W → FileInfo → Run W)
    (hstep : ∀ r file, step r file =
      if file.isDir then r
      else (lookupThenRemove (key file) (path file)
        (env.getImageByFileName r.world (key file))).foldl (emit env) r)
    (files : List FileInfo) :
    ∀ r : Run W, ∃ answers : List LookupResult,
      answers.length = (regularFiles files).length ∧
      (files.foldl step r).trace =
        r.trace ++ passEvents key path ((regularFiles files).zip answers) ∧
      (files.foldl step r).world =
        (passEvents key path ((regularFiles files).zip answers)).foldl env.effect r.world ∧
      CatalogAnswers env r.world key path ((regularFiles files).zip answers) := by
  induction files with
  | nil =>
    intro r
    refine ⟨[], rfl, by simp [regularFiles, passEvents], by simp [regularFiles, passEvents], ?_⟩
    intro pre file answer post h
    simp [regularFiles] at h
  | cons file files ih =>
    intro r
    obtain ⟨answers, h1, h2, h3, h4⟩ := ih (step r file)
    by_cases hdir : file.isDir = true
    · have hs : step r file = r := by rw [hstep]; simp [hdir]
      have hreg : regularFiles (file :: files) = regularFiles files := by
        simp [regularFiles, hdir]
      rw [hs] at h2 h3 h4
      rw [List.foldl_cons, hs, hreg]
      exact ⟨answers, h1, h2, h3, h4⟩
    · have hdir' : file.isDir = false := by simpa using hdir
      obtain ⟨a, ha⟩ : ∃ a, a = env.getImageByFileName r.world (key file) := ⟨_, rfl⟩
      have hs : step r file =
          (lookupThenRemove (key file) (path file) a).foldl (emit env) r := by
        rw [hstep, ha]; simp [hdir']
      obtain ⟨e1, e2⟩ := foldl_emit env (lookupThenRemove (key file) (path file) a) r
      have hreg : regularFiles (file :: files) = file :: regularFiles files := by
        simp [regularFiles, hdir']
      have hz : (regularFiles (file :: files)).zip (a :: answers) =
          (file, a) :: (regularFiles files).zip answers := by rw [hreg]; rfl
      rw [hs] at h2 h3 h4
      rw [e1] at h2
      rw [e2] at h3 h4
      refine ⟨a :: answers, by simp [hreg, h1], ?_, ?_, ?_⟩
      · rw [List.foldl_cons, hs, h2, hz, passEvents_cons, List.append_assoc]
      · rw [List.foldl_cons, hs, h3, hz, passEvents_cons, List.foldl_append]
      · rw [hz]
        intro pre f ans post h
        cases pre with
        | nil =>
          simp only [List.nil_append, List.cons.injEq, Prod.mk.injEq] at h
          obtain ⟨⟨rfl, rfl⟩, _⟩ := h
          simpa [passEvents] using ha
        | cons y pre =>
          simp only [List.cons_append, List.cons.injEq] at h
          obtain ⟨rfl, h⟩ := h
          rw [h4 pre f ans post h, passEvents_cons, List.foldl_append]

theorem orphanImagesStep_eq {W : Type} (env : Env W) (cfg : ConfigurationSettings)
    (r : Run W) (file : FileInfo) :
    orphanImagesStep env cfg r file =
      if file.isDir then r
      else (lookupThenRemove (utf8Bytes file.name) (pathJoin cfg.ImageDirectory file.name)
        (env.getImageByFileName r.world (utf8Bytes file.name))).foldl (emit env) r := by
  unfold orphanImagesStep lookupThenRemove
  by_cases hdir : file.isDir = true
  · simp [hdir]
  · by_cases hrow : (env.getImageByFileName r.world (utf8Bytes file.name) ==
        LookupResult.errNoRows) = true
    · simp [hdir, hrow]
    · simp [hdir, hrow]

theorem orphanThumbsStep_eq {W : Type} (env : Env W) (cfg : ConfigurationSettings)
    (r : Run W) (file : FileInfo) :
    orphanThumbsStep env cfg r file =
      if file.isDir then r
      else (lookupThenRemove (stripPng file.name)
        (pathJoin (pathJoin cfg.ImageDirectory "thumbs") file.name)
        (env.getImageByFileName r.world (stripPng file.name))).foldl (emit env) r := by
  unfold orphanThumbsStep lookupThenRemove
  by_cases hdir : file.isDir = true
  · simp [hdir]
  · by_cases hrow : (env.getImageByFileName r.world (stripPng file.name) ==
        LookupResult.errNoRows) = true
    · simp [hdir, hrow]
    · simp [hdir, hrow]

theorem lookups_passEvents (key : FileInfo → List Nat) (path : FileInfo → String)
    (steps : List (FileInfo × LookupResult)) :
    lookups (passEvents key path steps) = steps.map fun step => (key step.1, step.2) := by
  induction steps with
  | nil => rfl
  | cons step steps ih =>
    rw [passEvents_cons, List.map_cons, ← ih]
    unfold lookups lookupThenRemove
    by_cases hrow : (step.2 == LookupResult.errNoRows) = true
    · simp [hrow, List.filterMap_append, List.filterMap_cons]
    · simp [hrow, List.filterMap_append, List.filterMap_cons]

theorem removedPaths_passEvents (key : FileInfo → List Nat) (path : FileInfo → String)
    (steps : List (FileInfo × LookupResult)) :
    removedPaths (passEvents key path steps) =
      (steps.filter fun step => step.2 == LookupResult.errNoRows).map
        fun step => path step.1 := by
  induction steps with
  | nil => rfl
  | cons step steps ih =>
    rw [passEvents_cons]
    unfold removedPaths at ih ⊢
    unfold lookupThenRemove
    by_cases hrow : (step.2 == LookupResult.errNoRows) = true
    · simp [hrow, List.filterMap_append, List.filterMap_cons, List.filter_cons, ih]
    · simp [hrow, List.filterMap_append, List.filterMap_cons, List.filter_cons, ih]

/-- The cleaning of `path.Join` on the default image directory and on paths with
`..` in them. -/
theorem pathJoin_examples :
    pathJoin "./images" "B" = "images/B" ∧
    pathJoin "images" "thumbs" = "images/thumbs" ∧
    pathJoin (pathJoin "./images" "thumbs") "B.png" = "images/thumbs/B.png" ∧
    pathJoin "/srv//gib/" "a.jpg" = "/srv/gib/a.jpg" ∧
    pathJoin "../a/../.." "b" = "../../b" ∧
    pathJoin "/a/../.." "b" = "/b" ∧
    pathJoin "" "" = "" ∧
    pathJoin "" "x" = "x" ∧
    pathJoin "a" "" = "a" ∧
    pathJoin "a" ".." = "." := by
  decide

/-- The name a thumbnail is looked up under is cut by bytes: the five bytes of
`ab日` leave the one byte of `a`, and `A.png` leaves `A`. -/
theorem stripPng_examples :
    stripPng "ab日" = utf8Bytes "a" ∧
    stripPng "A.png" = utf8Bytes "A" ∧
    stripPng "A.jpeg" = utf8Bytes "A." ∧
    stripPng ".png" = utf8Bytes ".png" ∧
    utf8Bytes "日" = [0xE6, 0x97, 0xA5] := by
  decide

/-- In sweep mode with complete database settings `main` is the start-up followed
by the sweep. -/
theorem runMode_sweep {W : Type} (env : Env W) (flags : Flags) (cfg : ConfigurationSettings)
    (fuel : Nat) (r0 : Run W) (b : BootState W)
    (hthumbs : flags.thumbsonly = false) (hhash : flags.dhashonly = false)
    (hsweep : flags.removeorphanfiles = true) (hdb : databaseAssigned cfg = true)
    (hboot : bootstrap env cfg fuel
      (emit env (emit env (emit env r0 .saveConfiguration) .cacheTemplates) .throttleInit) =
        .ok b) :
    runMode env flags cfg fuel r0 = .ok (removeOrphanFiles env cfg b.run) := by
  unfold runMode
  simp only [hthumbs, hhash, hsweep, hdb, Bool.false_eq_true, if_false, if_true]
  rw [hboot]

/-- C5: for every listing `files` that `ioutil.ReadDir` answers for the image
directory and every catalog, the orphan sweep looks up each non-directory file of
the listing once, in listing order, under its file name, each answer being the
catalog's at that moment, and calls `os.Remove(path.Join(ImageDirectory, name))`
right after the lookup on exactly the files whose lookup answered `sql.ErrNoRows`:
none with a record, none whose lookup failed with another error; the thumbnail
pass that follows does the same to the regular files of the `thumbs` directory and
touches nothing else.  `main` with `-removeorphanfiles` and complete database
settings is the start-up followed by this sweep, and on the store {A, B, C} with a
catalog holding only A it removes B and C and leaves A. -/
theorem orphanSweep_removes_exactly_unrecorded {W : Type} (env : Env W)
    (cfg : ConfigurationSettings) (r : Run W) (files : List FileInfo)
    (hlist : env.readDir r.world cfg.ImageDirectory = some files) :
    (∃ (answers : List LookupResult) (thumbsListing : Option (List FileInfo))
        (thumbAnswers : List LookupResult),
      answers.length = (regularFiles files).length ∧
      (removeOrphanFiles env cfg r).trace =
        r.trace ++ [.readDir cfg.ImageDirectory (some files)] ++
          passEvents (fun file => utf8Bytes file.name)
            (fun file => pathJoin cfg.ImageDirectory file.name)
            ((regularFiles files).zip answers) ++
          [.readDir (pathJoin cfg.ImageDirectory "thumbs") thumbsListing] ++
          passEvents (fun file => stripPng file.name)
            (fun file => pathJoin (pathJoin cfg.ImageDirectory "thumbs") file.name)
            ((regularFiles (thumbsListing.getD [])).zip thumbAnswers) ∧
      CatalogAnswers env (env.effect r.world (.readDir cfg.ImageDirectory (some files)))
        (fun file => utf8Bytes file.name) (fun file => pathJoin cfg.ImageDirectory file.name)
        ((regularFiles files).zip answers) ∧
      lookups (passEvents (fun file => utf8Bytes file.name)
          (fun file => pathJoin cfg.ImageDirectory file.name)
          ((regularFiles files).zip answers)) =
        ((regularFiles files).zip answers).map (fun step => (utf8Bytes step.1.name, step.2)) ∧
      removedPaths (passEvents (fun file => utf8Bytes file.name)
          (fun file => pathJoin cfg.ImageDirectory file.name)
          ((regularFiles files).zip answers)) =
        (((regularFiles files).zip answers).filter
          fun step => step.2 == LookupResult.errNoRows).map
          (fun step => pathJoin cfg.ImageDirectory step.1.name)) ∧
    (∀ (flags : Flags) (loaded : ConfigurationSettings) (fuel : Nat) (world : W)
        (b : BootState W),
      flags.thumbsonly = false → flags.dhashonly = false → flags.removeorphanfiles = true →
      databaseAssigned (fixMissingConfigs env loaded ⟨world, []⟩).1 = true →
      bootstrap env (fixMissingConfigs env loaded ⟨world, []⟩).1 fuel
        (emit env (emit env (emit env (fixMissingConfigs env loaded ⟨world, []⟩).2
          .saveConfiguration) .cacheTemplates) .throttleInit) = .ok b →
      main env flags loaded fuel world =
        .ok (removeOrphanFiles env (fixMissingConfigs env loaded ⟨world, []⟩).1 b.run)) ∧
    (∃ out, main storeEnv sweepMode sampleConfig 0 sampleStore = .ok out ∧
      removedPaths out.trace = ["images/B", "images/C"] ∧
      out.world.images = ["A"]) := by
  refine ⟨?_, ?_, ⟨_, rfl, by decide, by decide⟩⟩
  · obtain ⟨answers, a1, a2, a3, a4⟩ := passLoop_spec env (fun file => utf8Bytes file.name)
      (fun file => pathJoin cfg.ImageDirectory file.name) (orphanImagesStep env cfg)
      (orphanImagesStep_eq env cfg) files (emit env r (.readDir cfg.ImageDirectory (some files)))
    have hres : ∃ (thumbsListing : Option (List FileInfo)) (thumbAnswers : List LookupResult),
        (removeOrphanFiles env cfg r).trace =
          (orphanImagesLoop env cfg (emit env r (.readDir cfg.ImageDirectory (some files)))
            files).trace ++
          [.readDir (pathJoin cfg.ImageDirectory "thumbs") thumbsListing] ++
          passEvents (fun file => stripPng file.name)
            (fun file => pathJoin (pathJoin cfg.ImageDirectory "thumbs") file.name)
            ((regularFiles (thumbsListing.getD [])).zip thumbAnswers) := by
      unfold removeOrphanFiles
      simp only [hlist]
      cases hthumbs : env.readDir (orphanImagesLoop env cfg
          (emit env r (.readDir cfg.ImageDirectory (some files))) files).world
          (pathJoin cfg.ImageDirectory "thumbs") with
      | none =>
        refine ⟨none, [], ?_⟩
        simp [emit_trace, passEvents, regularFiles]
      | some thumbs =>
        obtain ⟨thumbAnswers, _, t2, _, _⟩ := passLoop_spec env (fun file => stripPng file.name)
          (fun file => pathJoin (pathJoin cfg.ImageDirectory "thumbs") file.name)
          (orphanThumbsStep env cfg) (orphanThumbsStep_eq env cfg) thumbs
          (emit env (orphanImagesLoop env cfg
            (emit env r (.readDir cfg.ImageDirectory (some files))) files)
            (.readDir (pathJoin cfg.ImageDirectory "thumbs") (some thumbs)))
        refine ⟨some thumbs, thumbAnswers, ?_⟩
        simp only [orphanThumbsLoop, Option.getD_some]
        rw [t2, emit_trace]
    obtain ⟨thumbsListing, thumbAnswers, hres⟩ := hres
    refine ⟨answers, thumbsListing, thumbAnswers, a1, ?_, a4,
      lookups_passEvents _ _ _, removedPaths_passEvents _ _ _⟩
    rw [hres]
    have : (orphanImagesLoop env cfg (emit env r (.readDir cfg.ImageDirectory (some files)))
        files).trace = r.trace ++ [.readDir cfg.ImageDirectory (some files)] ++
          passEvents (fun file => utf8Bytes file.name)
            (fun file => pathJoin cfg.ImageDirectory file.name)
            ((regularFiles files).zip answers) := by
      unfold orphanImagesLoop
      rw [a2, emit_trace]
    rw [this]
  · intro flags loaded fuel world b hthumbs hhash hsweep hdb hboot
    have hmain : main env flags loaded fuel world =
        runMode env flags (fixMissingConfigs env loaded ⟨world, []⟩).1 fuel
          (fixMissingConfigs env loaded ⟨world, []⟩).2 := rfl
    rw [hmain]
    exact runMode_sweep env flags _ fuel _ b hthumbs hhash hsweep hdb hboot

/-- C5 on the sample store: the listing of `images` is A, B, C and the directory
`thumbs`; the three files are looked up and the sweep's trace is as stated. -/
theorem orphanSweep_removes_exactly_unrecorded_witness :
    storeEnv.readDir sampleStore sampleConfig.ImageDirectory =
        some [⟨"A", false⟩, ⟨"B", false⟩, ⟨"C", false⟩, ⟨"thumbs", true⟩] ∧
    ∃ (answers : List LookupResult) (thumbsListing : Option (List FileInfo))
        (thumbAnswers : List LookupResult),
      answers.length = 3 ∧
      (removeOrphanFiles storeEnv sampleConfig ⟨sampleStore, []⟩).trace =
        [] ++ [.readDir "images"
            (some [⟨"A", false⟩, ⟨"B", false⟩, ⟨"C", false⟩, ⟨"thumbs", true⟩])] ++
          passEvents (fun file => utf8Bytes file.name)
            (fun file => pathJoin "images" file.name)
            ([⟨"A", false⟩, ⟨"B", false⟩, ⟨"C", false⟩].zip answers) ++
          [.readDir (pathJoin "images" "thumbs") thumbsListing] ++
          passEvents (fun file => stripPng file.name)
            (fun file => pathJoin (pathJoin "images" "thumbs") file.name)
            ((regularFiles (thumbsListing.getD [])).zip thumbAnswers) :=
  ⟨rfl, by
    obtain ⟨answers, thumbsListing, thumbAnswers, h1, h2, _⟩ :=
      (orphanSweep_removes_exactly_unrecorded storeEnv sampleConfig ⟨sampleStore, []⟩
        [⟨"A", false⟩, ⟨"B", false⟩, ⟨"C", false⟩, ⟨"thumbs", true⟩] rfl).1
    exact ⟨answers, thumbsListing, thumbAnswers, h1, h2⟩⟩

/-! ## Thumbnail job: what one iteration does -/

/-- One iteration of the thumbnail loop on a regular file, for a non-zero stride:
the stat call, then the removal and the launch if the file is to be regenerated,
then the barrier if the counter is a multiple of the stride. -/
theorem thumbsStep_file {W : Type} (env : Env W) (cfg : ConfigurationSettings)
    (missingOnly : Bool) (s : ThumbState W) (file : FileInfo)
    (hstride : cfg.PageStride ≠ 0) (hdir : file.isDir = false) :
    ∃ s', thumbsStep env cfg missingOnly s file = .ok s' ∧
      s'.generatedThumbnails =
        (if (missingOnly == false ||
            env.stat s.run.world (thumbNailPath cfg.ImageDirectory file.name)
              == StatResult.notExist) = true
          then (s.generatedThumbnails + 1) % uint64Size else s.generatedThumbnails) ∧
      s'.run.trace = s.run.trace ++
        [.stat (thumbNailPath cfg.ImageDirectory file.name)
          (env.stat s.run.world (thumbNailPath cfg.ImageDirectory file.name))] ++
        (if (missingOnly == false ||
            env.stat s.run.world (thumbNailPath cfg.ImageDirectory file.name)
              == StatResult.notExist) = true
          then regeneration cfg.ImageDirectory file else []) ++
        (if s'.generatedThumbnails % cfg.PageStride = 0 then [.wgWait] else []) := by
  unfold thumbsStep
  simp only [hdir, Bool.false_eq_true, if_false, hstride]
  by_cases hgo : (missingOnly == false ||
      env.stat s.run.world (thumbNailPath cfg.ImageDirectory file.name)
        == StatResult.notExist) = true
  · by_cases hz : (s.generatedThumbnails + 1) % uint64Size % cfg.PageStride = 0
    · simp only [hgo, if_true, hz]
      exact ⟨_, rfl, rfl, by simp [emit_trace, regeneration, hz]⟩
    · simp only [hgo, if_true, hz, if_false]
      exact ⟨_, rfl, rfl, by simp [emit_trace, regeneration, hz]⟩
  · by_cases hz : s.generatedThumbnails % cfg.PageStride = 0
    · simp only [hgo, Bool.false_eq_true, if_false, hz, if_true]
      exact ⟨_, rfl, rfl, by simp [emit_trace, hz]⟩
    · simp only [hgo, Bool.false_eq_true, if_false, hz]
      exact ⟨_, rfl, rfl, by simp [emit_trace, hz]⟩

theorem regenerationEvents_append (t t' : List Event) :
    regenerationEvents (t ++ t') = regenerationEvents t ++ regenerationEvents t' := by
  simp [regenerationEvents]

/-- Without missing-only the loop regenerates every regular file of the listing, in
order, and counts each. -/
theorem thumbsLoop_regenerates_all {W : Type} (env : Env W) (cfg : ConfigurationSettings)
    (hstride : cfg.PageStride ≠ 0) (files : List FileInfo) :
    ∀ s : ThumbState W, s.generatedThumbnails < uint64Size →
      ∃ s', thumbsLoop env cfg false s files = .ok s' ∧
      regenerationEvents s'.run.trace = regenerationEvents s.run.trace ++
        (files.filter fun f => !f.isDir).flatMap (regeneration cfg.ImageDirectory) ∧
      s'.generatedThumbnails =
        (s.generatedThumbnails + (files.filter fun f => !f.isDir).length) % uint64Size := by
  induction files with
  | nil =>
    intro s hs
    exact ⟨s, rfl, by simp, by simp [Nat.mod_eq_of_lt hs]⟩
  | cons file files ih =>
    intro s hs
    have hu : 0 < uint64Size := by unfold uint64Size; positivity
    by_cases hdir : file.isDir = true
    · obtain ⟨s', h1, h2, h3⟩ := ih s hs
      refine ⟨s', ?_, ?_, ?_⟩
      · simp only [thumbsLoop, thumbsStep, hdir, if_true]; exact h1
      · rw [h2]; simp [List.filter_cons, hdir]
      · rw [h3]; simp [List.filter_cons, hdir]
    · have hdir' : file.isDir = false := by simpa using hdir
      obtain ⟨s1, hs1, hg1, ht1⟩ := thumbsStep_file env cfg false s file hstride hdir'
      simp only [beq_self_eq_true, Bool.true_or, if_true] at hg1 ht1
      obtain ⟨s', h1, h2, h3⟩ := ih s1 (by rw [hg1]; exact Nat.mod_lt _ hu)
      refine ⟨s', ?_, ?_, ?_⟩
      · simp only [thumbsLoop, hs1]; exact h1
      · rw [h2, ht1]
        simp only [regenerationEvents_append, List.filter_cons, hdir', Bool.not_false, if_true,
          List.flatMap_cons, List.append_assoc]
        have e1 : ∀ p r, regenerationEvents [Event.stat p r] = [] := fun _ _ => rfl
        have e2 : regenerationEvents (regeneration cfg.ImageDirectory file) =
            regeneration cfg.ImageDirectory file := rfl
        have e3 : regenerationEvents
            (if s1.generatedThumbnails % cfg.PageStride = 0 then [Event.wgWait] else []) = [] := by
          split <;> rfl
        rw [e1, e2, e3]
        simp
      · rw [h3, hg1]
        simp only [List.filter_cons, hdir', Bool.not_false, if_true, List.length_cons]
        rw [Nat.mod_add_mod]
        congr 1
        omega


/-- C7: without missing-only, for every listing (a Go slice, so shorter than
`2 ^ 64`), every stat answer and every PageStride of at least 1, the thumbnail job
returns, and what it removes and launches is, for each non-directory entry of the
listing in order, the removal of its thumbnail path followed by one launch on the
entry: each regular file once, no directory; the reported count is the number of
non-directory entries. -/
theorem thumbsJob_regenerates_every_file {W : Type} (env : Env W)
    (cfg : ConfigurationSettings) (w : W) (files : List FileInfo)
    (hstride : 1 ≤ cfg.PageStride)
    (hlist : env.readDir w cfg.ImageDirectory = some files)
    (hlen : files.length < uint64Size) :
    ∃ s, thumbsJob env cfg false ⟨w, []⟩ = .ok s ∧
      regenerationEvents s.run.trace =
        (files.filter fun f => !f.isDir).flatMap (regeneration cfg.ImageDirectory) ∧
      launchedThumbnails s.run.trace = (files.filter fun f => !f.isDir).map FileInfo.name ∧
      removedPaths s.run.trace =
        (files.filter fun f => !f.isDir).map (fun f => thumbNailPath cfg.ImageDirectory f.name) ∧
      s.generatedThumbnails = (files.filter fun f => !f.isDir).length := by
  have hu : 0 < uint64Size := by unfold uint64Size; positivity
  obtain ⟨s, hs, ht, hg⟩ := thumbsLoop_regenerates_all env cfg (by omega) files
    ⟨emit env ⟨w, []⟩ (.readDir cfg.ImageDirectory (some files)), 0⟩ hu
  have hreg : regenerationEvents (emit env s.run .wgWait).trace =
      (files.filter fun f => !f.isDir).flatMap (regeneration cfg.ImageDirectory) := by
    rw [emit_trace, regenerationEvents_append, ht]
    simp [emit_trace, regenerationEvents]
  have hflat : ∀ l : List FileInfo,
      launchedThumbnails (l.flatMap (regeneration cfg.ImageDirectory)) = l.map FileInfo.name ∧
      removedPaths (l.flatMap (regeneration cfg.ImageDirectory)) =
        l.map (fun f => thumbNailPath cfg.ImageDirectory f.name) := by
    intro l
    induction l with
    | nil => exact ⟨rfl, rfl⟩
    | cons f l ih =>
      simp only [launchedThumbnails, removedPaths, List.flatMap_cons, regeneration,
        List.filterMap_append, List.map_cons] at ih ⊢
      rw [ih.1, ih.2]
      exact ⟨rfl, rfl⟩
  have hsub : ∀ t : List Event,
      launchedThumbnails (regenerationEvents t) = launchedThumbnails t ∧
      removedPaths (regenerationEvents t) = removedPaths t := by
    intro t
    induction t with
    | nil => exact ⟨rfl, rfl⟩
    | cons e t ih =>
      obtain ⟨ih1, ih2⟩ := ih
      simp only [launchedThumbnails, removedPaths, regenerationEvents] at ih1 ih2 ⊢
      cases e <;> simp [List.filter_cons, List.filterMap_cons, ih1, ih2]
  refine ⟨{ s with run := emit env s.run .wgWait }, ?_, hreg, ?_, ?_, ?_⟩
  · simp only [thumbsJob, hlist, hs]
  · rw [← (hsub _).1, hreg, (hflat _).1]
  · rw [← (hsub _).2, hreg, (hflat _).2]
  · show s.generatedThumbnails = _
    rw [hg]
    have := List.length_filter_le (fun f : FileInfo => !f.isDir) files
    simp only [Nat.zero_add]
    exact Nat.mod_eq_of_lt (by omega)

/-- C7 on the sample store: three regular files and the `thumbs` directory. -/
theorem thumbsJob_regenerates_every_file_witness :
    ∃ s, thumbsJob storeEnv sampleConfig false ⟨sampleStore, []⟩ = .ok s ∧
      regenerationEvents s.run.trace =
        [.remove "images/thumbs/A.png", .goGenerateThumbnail "A",
         .remove "images/thumbs/B.png", .goGenerateThumbnail "B",
         .remove "images/thumbs/C.png", .goGenerateThumbnail "C"] ∧
      launchedThumbnails s.run.trace = ["A", "B", "C"] ∧
      removedPaths s.run.trace =
        ["images/thumbs/A.png", "images/thumbs/B.png", "images/thumbs/C.png"] ∧
      s.generatedThumbnails = 3 :=
  thumbsJob_regenerates_every_file storeEnv sampleConfig sampleStore
    [⟨"A", false⟩, ⟨"B", false⟩, ⟨"C", false⟩, ⟨"thumbs", true⟩]
    (by decide) (by decide) (by unfold uint64Size; decide)

/-! ## Batch modes and HTTP servers -/

theorem retryLoop_extends {W : Type} (env : Env W) (fuel : Nat) :
    ∀ (r r' : Run W), retryLoop env fuel r = .ok r' → Extends env Event.ofRetry r r' := by
  induction fuel with
  | zero => intro r r' h; cases h
  | succ fuel ih =>
    intro r r' h
    unfold retryLoop at h
    simp only [] at h
    have h1 := ((extends_refl env Event.ofRetry r).emit .sleep (by rfl)).emit
      (.initDatabase (env.initDatabase (emit env r .sleep).world)) (by rfl)
    split at h
    · injection h with h; subst h; exact h1
    · exact h1.trans (ih _ _ h)

/-- What the bootstrap adds to the trace: no final server, at most one start of the
temporary server with the routes of the degraded notice, and as many shutdowns as
starts. -/
theorem bootstrap_shape {W : Type} (env : Env W) (cfg : ConfigurationSettings) (fuel : Nat)
    (r : Run W) (b : BootState W) (h : bootstrap env cfg fuel r = .ok b) :
    ∃ ext, b.run.trace = r.trace ++ ext ∧
      placeholderStarts ext ≤ 1 ∧
      placeholderStarts ext = placeholderShutdowns ext ∧
      (∀ e ∈ ext, e.startsFinalServer = false) ∧
      (∀ e ∈ ext, e.startsServer = true → e = .goBadConfigServer badConfigRoutes) := by
  unfold bootstrap at h
  by_cases hdb : (cfg.DBName == "" || cfg.DBPassword == "" || cfg.DBUser == "" ||
      cfg.DBHost == "") = true
  · simp only [hdb, if_true] at h
    injection h with h; subst h
    exact ⟨[], by simp, by simp [placeholderStarts], rfl, by simp, by simp⟩
  · simp only [hdb, Bool.false_eq_true, if_false] at h
    by_cases hc : env.initDatabase r.world = true
    · simp only [hc, if_true] at h
      injection h with h; subst h
      refine ⟨[.initDatabase true, .databaseConnected], by simp [emit_trace], by decide,
        by decide, ?_, ?_⟩ <;>
      · intro e he
        simp only [List.mem_cons, List.mem_singleton, List.not_mem_nil, or_false] at he
        rcases he with rfl | rfl <;> simp [Event.startsFinalServer, Event.startsServer]
    · have hc' : env.initDatabase r.world = false := by simpa using hc
      simp only [hc', Bool.false_eq_true, if_false] at h
      cases hloop : retryLoop env fuel
          (emit env (emit env r (.initDatabase false))
            (.goBadConfigServer badConfigRoutes)) with
      | error f => simp only [hloop] at h; cases h
      | ok r3 =>
        simp only [hloop] at h
        injection h with h; subst h
        obtain ⟨mid, hmid, _, hk⟩ := retryLoop_extends env fuel _ _ hloop
        have hstarts : placeholderStarts mid = 0 := by
          simp only [placeholderStarts, List.countP_eq_zero]
          intro e he
          have := hk e he
          cases e <;> simp_all [Event.ofRetry]
        have hshut : placeholderShutdowns mid = 0 := by
          simp only [placeholderShutdowns, List.countP_eq_zero]
          intro e he
          have := hk e he
          cases e <;> simp_all [Event.ofRetry]
        refine ⟨[.initDatabase false,
          .goBadConfigServer badConfigRoutes] ++ mid ++
          [.shutdownBadConfigServer, .databaseConnected], ?_, ?_, ?_, ?_, ?_⟩
        · simp [emit_trace, hmid]
        · simp only [placeholderStarts, List.countP_append] at hstarts ⊢
          rw [hstarts]; simp
        · simp only [placeholderStarts, placeholderShutdowns, List.countP_append]
            at hstarts hshut ⊢
          rw [hstarts, hshut]; simp
        · intro e he
          simp only [List.mem_append, List.mem_cons, List.mem_singleton, List.not_mem_nil,
            or_false] at he
          rcases he with ((rfl | rfl) | he) | rfl | rfl
          · rfl
          · rfl
          · have := hk e he
            cases e <;> simp_all [Event.ofRetry, Event.startsFinalServer]
          · rfl
          · rfl
        · intro e he hs
          simp only [List.mem_append, List.mem_cons, List.mem_singleton, List.not_mem_nil,
            or_false] at he
          rcases he with ((rfl | rfl) | he) | rfl | rfl
          · cases hs
          · rfl
          · have := hk e he
            cases e <;> simp_all [Event.ofRetry, Event.startsServer]
          · cases hs
          · cases hs

/-- The servers of the batch modes, for the part of `main` after the configuration
defaults. -/
theorem runMode_batch_servers {W : Type} (env : Env W) (flags : Flags)
    (cfg : ConfigurationSettings) (fuel : Nat) (r0 r : Run W)
    (h0 : ∀ e ∈ r0.trace, ∃ n key, e = .generateRandomKey n key)
    (hr : runMode env flags cfg fuel r0 = .ok r) :
    (flags.thumbsonly = true → ∀ e ∈ r.trace, e.startsServer = false) ∧
    (flags.dhashonly = true →
      ∃ pre job, r.trace = pre ++ job ∧
        (∀ e ∈ job, e.ofHashJob = true) ∧
        (∀ e ∈ r.trace, e.startsFinalServer = false) ∧
        (∀ e ∈ r.trace, e.startsServer = true → e = .goBadConfigServer badConfigRoutes) ∧
        placeholderStarts pre ≤ 1 ∧
        placeholderStarts pre = placeholderShutdowns pre) := by
  have hkeys : ∀ e ∈ r0.trace, e.startsFinalServer = false ∧ e.startsServer = false ∧
      (match e with | .goBadConfigServer _ => true | _ => false) = false ∧
      (match e with | .shutdownBadConfigServer => true | _ => false) = false := by
    intro e he
    obtain ⟨n, key, rfl⟩ := h0 e he
    exact ⟨rfl, rfl, rfl, rfl⟩
  have hcount0 : placeholderStarts r0.trace = 0 ∧ placeholderShutdowns r0.trace = 0 := by
    simp only [placeholderStarts, placeholderShutdowns, List.countP_eq_zero]
    constructor <;> intro e he
    · simp [(hkeys e he).2.2.1]
    · simp [(hkeys e he).2.2.2]
  unfold runMode at hr
  by_cases hth : flags.thumbsonly = true
  · simp only [hth, if_true] at hr
    cases hjob : thumbsJob env cfg flags.missingonly r0 with
    | error f => rw [hjob] at hr; cases hr
    | ok s =>
      rw [hjob] at hr
      injection hr with hr; subst hr
      have hno := (thumbsJob_extends env _ _ _ s hjob).forall
        (fun e => e.startsFinalServer = false ∧ e.startsServer = false)
        (by intro e he; cases e <;> first | exact ⟨rfl, rfl⟩ | cases he)
        (fun e he => ⟨(hkeys e he).1, (hkeys e he).2.1⟩)
      obtain ⟨ext, hext, _, hk⟩ := thumbsJob_extends env _ _ _ s hjob
      have hc : placeholderStarts ext = 0 ∧ placeholderShutdowns ext = 0 := by
        simp only [placeholderStarts, placeholderShutdowns, List.countP_eq_zero]
        constructor <;> intro e he <;> have := hk e he <;> cases e <;>
          simp_all [Event.ofThumbsJob]
      refine ⟨fun _ e he => (hno e he).2, fun _ => ⟨s.run.trace, [], by simp, by simp,
        fun e he => (hno e he).1, fun e he hs => ?_, ?_, ?_⟩⟩
      · rw [(hno e he).2] at hs; cases hs
      · rw [hext]
        simp only [placeholderStarts, List.countP_append] at hcount0 hc ⊢
        omega
      · rw [hext]
        simp only [placeholderStarts, placeholderShutdowns, List.countP_append] at hcount0 hc ⊢
        omega
  · refine ⟨fun h => absurd h hth, fun hdh => ?_⟩
    simp only [hth, Bool.false_eq_true, if_false] at hr
    cases hboot : bootstrap env cfg fuel
        (emit env (emit env (emit env r0 .saveConfiguration) .cacheTemplates) .throttleInit) with
    | error f => rw [hboot] at hr; cases hr
    | ok b =>
      rw [hboot] at hr
      simp only [hdh, if_true] at hr
      obtain ⟨_, hr⟩ := assigned_of_ok _ _ _ hr
      cases hjob : dhashJob env cfg flags.missingonly fuel b.run with
      | error f => rw [hjob] at hr; cases hr
      | ok s =>
        rw [hjob] at hr
        injection hr with hr; subst hr
        obtain ⟨bext, hbext, hb1, hb2, hb3, hb4⟩ := bootstrap_shape env cfg fuel _ b hboot
        obtain ⟨job, hjobt, _, hjk⟩ := dhashJob_extends env _ _ _ _ s hjob
        have hpre : b.run.trace = r0.trace ++
            [.saveConfiguration, .cacheTemplates, .throttleInit] ++ bext := by
          rw [hbext]; simp [emit_trace]
        have hjobP : ∀ e ∈ job, e.startsFinalServer = false ∧ e.startsServer = false := by
          intro e he
          have := hjk e he
          cases e <;> first | exact ⟨rfl, rfl⟩ | cases this
        have hpreP : ∀ e ∈ b.run.trace, e.startsFinalServer = false ∧
            (e.startsServer = true → e = .goBadConfigServer badConfigRoutes) := by
          intro e he
          rw [hpre] at he
          simp only [List.mem_append, List.mem_cons, List.mem_singleton, List.not_mem_nil,
            or_false] at he
          rcases he with (he | rfl | rfl | rfl) | he
          · exact ⟨(hkeys e he).1, fun hs => by rw [(hkeys e he).2.1] at hs; cases hs⟩
          · exact ⟨rfl, fun hs => by cases hs⟩
          · exact ⟨rfl, fun hs => by cases hs⟩
          · exact ⟨rfl, fun hs => by cases hs⟩
          · exact ⟨hb3 e he, hb4 e he⟩
        refine ⟨b.run.trace, job, hjobt, hjk, ?_, ?_, ?_, ?_⟩
        · intro e he
          rw [hjobt] at he
          rcases List.mem_append.mp he with he | he
          · exact (hpreP e he).1
          · exact (hjobP e he).1
        · intro e he hs
          rw [hjobt] at he
          rcases List.mem_append.mp he with he | he
          · exact (hpreP e he).2 hs
          · rw [(hjobP e he).2] at hs; cases hs
        · rw [hpre]
          simp only [placeholderStarts, List.countP_append] at hcount0 hb1 ⊢
          simp only [List.countP_cons, List.countP_nil]
          simp only [Bool.false_eq_true, if_false]
          omega
        · rw [hpre]
          simp only [placeholderStarts, placeholderShutdowns, List.countP_append]
            at hcount0 hb2 ⊢
          simp only [List.countP_cons, List.countP_nil]
          simp only [Bool.false_eq_true, if_false]
          omega

/-- C9: a batch run is to return without having started an HTTP server, as the
log line at gib.go:142 ("Server will not start") and the comment at gib.go:180
say, and the code departs from it: `gib -dhashonly` with complete database
settings on a store whose catalog refuses the first connection attempt starts the
temporary HTTP server, gib.go:107-124, before the hash job makes its first query,
and returns; `gib -thumbsonly` on the same store starts no server at all. -/
theorem dhashonly_run_starts_temporary_server :
    (∃ r, main storeEnv hashMode sampleConfig 2 { sampleStore with outage := 1 } = .ok r ∧
      .goBadConfigServer [⟨"/", "routers.BadConfigRouter"⟩,
        ⟨"/resources/{file}", "routers.ResourceRouter"⟩] ∈ r.trace ∧
      r.trace.any Event.startsServer = true ∧
      ∃ before job, r.trace = before ++
        .goBadConfigServer [⟨"/", "routers.BadConfigRouter"⟩,
          ⟨"/resources/{file}", "routers.ResourceRouter"⟩] :: job ∧
        searchOffsets before = [] ∧ searchOffsets job = [0, 2]) ∧
    (∃ r, main storeEnv thumbsMode sampleConfig 2 { sampleStore with outage := 1 } = .ok r ∧
      r.trace.any Event.startsServer = false) := by
  refine ⟨⟨_, rfl, by decide, by decide, ?_⟩, ⟨_, rfl, by decide⟩⟩
  refine ⟨[.saveConfiguration, .cacheTemplates, .throttleInit, .initDatabase false], _, rfl,
    by decide, by decide⟩

/-- What the batch modes do hold to, for every store and catalog: a run with the
thumbnail flag starts no HTTP server at all; a run with the hash flag never starts
the final server, the only server it starts is the temporary server of the
bootstrap, at most once, and over the whole run every start of the temporary
server has its shutdown. -/
theorem batch_modes_start_no_final_server {W : Type} (env : Env W) (flags : Flags)
    (loaded : ConfigurationSettings) (fuel : Nat) (w : W) (r : Run W)
    (hr : main env flags loaded fuel w = .ok r) :
    (flags.thumbsonly = true → ∀ e ∈ r.trace, e.startsServer = false) ∧
    (flags.dhashonly = true →
      ∃ pre job, r.trace = pre ++ job ∧
        (∀ e ∈ job, e.ofHashJob = true) ∧
        (∀ e ∈ r.trace, e.startsFinalServer = false) ∧
        (∀ e ∈ r.trace, e.startsServer = true →
          e = .goBadConfigServer [⟨"/", "routers.BadConfigRouter"⟩,
            ⟨"/resources/{file}", "routers.ResourceRouter"⟩]) ∧
        placeholderStarts pre ≤ 1 ∧
        placeholderStarts pre = placeholderShutdowns pre) := by
  unfold main at hr
  exact runMode_batch_servers env flags _ fuel _ r
    (fun e he => by
      rcases fixMissingConfigs_events env loaded ⟨w, []⟩ e he with he | h
      · cases he
      · exact h) hr

/-- The same on the hash run of the sample store whose catalog refuses the first
connection attempt. -/
theorem batch_modes_start_no_final_server_witness :
    ∃ r, main storeEnv hashMode sampleConfig 2 { sampleStore with outage := 1 } = .ok r ∧
      (hashMode.thumbsonly = true → ∀ e ∈ r.trace, e.startsServer = false) ∧
      (hashMode.dhashonly = true →
        ∃ pre job, r.trace = pre ++ job ∧
          (∀ e ∈ job, e.ofHashJob = true) ∧
          (∀ e ∈ r.trace, e.startsFinalServer = false) ∧
          (∀ e ∈ r.trace, e.startsServer = true →
            e = .goBadConfigServer [⟨"/", "routers.BadConfigRouter"⟩,
              ⟨"/resources/{file}", "routers.ResourceRouter"⟩]) ∧
          placeholderStarts pre ≤ 1 ∧
          placeholderStarts pre = placeholderShutdowns pre) :=
  ⟨_, rfl, batch_modes_start_no_final_server storeEnv hashMode sampleConfig 2
    { sampleStore with outage := 1 } _ rfl⟩

/-! ## Hash job: paging -/

theorem searchOffsets_concat (t : List Event) (e : Event) :
    searchOffsets (t ++ [e]) = searchOffsets t ++
      match e with
      | .searchImages page _ _ => [page]
      | _ => [] := by
  cases e <;> simp [searchOffsets, List.filterMap_append]

theorem searchStrides_concat (t : List Event) (e : Event) :
    searchStrides (t ++ [e]) = searchStrides t ++
      match e with
      | .searchImages _ stride _ => [stride]
      | _ => [] := by
  cases e <;> simp [searchStrides, List.filterMap_append]

theorem returnedPages_concat (t : List Event) (e : Event) :
    returnedPages (t ++ [e]) = returnedPages t ++
      match e with
      | .searchImages _ _ result => [result.images]
      | _ => [] := by
  cases e <;> simp [returnedPages, List.filterMap_append]

theorem launchedHashes_concat (t : List Event) (e : Event) :
    launchedHashes (t ++ [e]) = launchedHashes t ++
      match e with
      | .goGeneratedHash fileName imageID => [⟨imageID, fileName⟩]
      | _ => [] := by
  cases e <;> simp [launchedHashes, List.filterMap_append]

/-- The inner loop of the hash job queries no page, keeps the page offset and
launches units for some of the records it is given, in their order. -/
theorem dhashImages_launches {W : Type} (env : Env W) (missingOnly : Bool)
    (images : List ImageInformation) :
    ∀ s : HashState W, ∃ launched, launched.Sublist images ∧
      launchedHashes (dhashImages env missingOnly s images).run.trace =
        launchedHashes s.run.trace ++ launched ∧
      searchOffsets (dhashImages env missingOnly s images).run.trace =
        searchOffsets s.run.trace ∧
      searchStrides (dhashImages env missingOnly s images).run.trace =
        searchStrides s.run.trace ∧
      returnedPages (dhashImages env missingOnly s images).run.trace =
        returnedPages s.run.trace ∧
      (dhashImages env missingOnly s images).page = s.page := by
  induction images with
  | nil => intro s; exact ⟨[], List.Sublist.slnil, by simp [dhashImages], rfl, rfl, rfl, rfl⟩
  | cons image images ih =>
    intro s
    unfold dhashImages
    cases missingOnly with
    | false =>
      simp only [Bool.false_eq_true, if_false, beq_self_eq_true, Bool.true_or, if_true]
      obtain ⟨l, hl, h1, h2, h3, h4, h5⟩ := ih
        { run := emit env s.run (.goGeneratedHash image.Location image.ID),
          page := s.page, processedImages := (s.processedImages + 1) % uint64Size }
      refine ⟨image :: l, hl.cons₂ image, ?_, ?_, ?_, ?_, h5⟩
      · exact h1.trans (by simp [emit_trace, launchedHashes, List.filterMap_append])
      · exact h2.trans (by simp [emit_trace, searchOffsets, List.filterMap_append])
      · exact h3.trans (by simp [emit_trace, searchStrides, List.filterMap_append])
      · exact h4.trans (by simp [emit_trace, returnedPages, List.filterMap_append])
    | true =>
      simp only [if_true, Bool.true_eq_false, Bool.false_or, Bool.not_eq_true']
      cases env.getImagedHash s.run.world image.ID with
      | false =>
        obtain ⟨l, hl, h1, h2, h3, h4, h5⟩ := ih
          { run := emit env (emit env s.run (.getImagedHash image.ID false))
              (.goGeneratedHash image.Location image.ID),
            page := s.page, processedImages := (s.processedImages + 1) % uint64Size }
        refine ⟨image :: l, hl.cons₂ image, ?_, ?_, ?_, ?_, h5⟩
        · exact h1.trans (by simp [emit_trace, launchedHashes, List.filterMap_append])
        · exact h2.trans (by simp [emit_trace, searchOffsets, List.filterMap_append])
        · exact h3.trans (by simp [emit_trace, searchStrides, List.filterMap_append])
        · exact h4.trans (by simp [emit_trace, returnedPages, List.filterMap_append])
      | true =>
        obtain ⟨l, hl, h1, h2, h3, h4, h5⟩ := ih
          { s with run := emit env s.run (.getImagedHash image.ID true) }
        refine ⟨l, hl.cons image, ?_, ?_, ?_, ?_, h5⟩
        · exact h1.trans (by simp [emit_trace, launchedHashes, List.filterMap_append])
        · exact h2.trans (by simp [emit_trace, searchOffsets, List.filterMap_append])
        · exact h3.trans (by simp [emit_trace, searchStrides, List.filterMap_append])
        · exact h4.trans (by simp [emit_trace, returnedPages, List.filterMap_append])

/-- A property of the world that every event keeps holds after the inner loop. -/
theorem dhashImages_world {W : Type} (env : Env W) (missingOnly : Bool) (Inv : W → Prop)
    (hinv : ∀ w e, Inv w → Inv (env.effect w e)) (images : List ImageInformation) :
    ∀ s : HashState W, Inv s.run.world →
      Inv (dhashImages env missingOnly s images).run.world := by
  induction images with
  | nil => intro s hs; exact hs
  | cons image images ih =>
    intro s hs
    unfold dhashImages
    cases missingOnly with
    | false => exact ih _ (hinv _ _ hs)
    | true =>
      cases hh : env.getImagedHash s.run.world image.ID with
      | false =>
        simp only [if_true, hh, Bool.not_false, Bool.or_true]
        exact ih _ (hinv _ _ (hinv _ _ hs))
      | true =>
        simp only [if_true, hh, Bool.not_true, Bool.or_false, Bool.true_eq_false, if_false,
          beq_iff_eq]
        exact ih _ (hinv _ _ hs)

/-- The page loop on a catalog with `n` more non-empty pages and then an empty
page, from the `j`-th page on: it breaks after `n + 1` queries at consecutive
multiples of the stride and launches units for records of the `n` pages only. -/
theorem dhashLoop_pages {W : Type} (env : Env W) (cfg : ConfigurationSettings)
    (missingOnly : Bool) (Inv : W → Prop) (hinv : ∀ w e, Inv w → Inv (env.effect w e))
    (n : Nat) :
    ∀ (j fuel : Nat) (s : HashState W),
      s.page = (j * cfg.PageStride) % uint64Size → Inv s.run.world →
      (∀ w k, Inv w → k < n →
        (env.searchImages w (((j + k) * cfg.PageStride) % uint64Size) cfg.PageStride).failed
          = false ∧
        (env.searchImages w (((j + k) * cfg.PageStride) % uint64Size) cfg.PageStride).images
          ≠ []) →
      (∀ w, Inv w →
        (env.searchImages w (((j + n) * cfg.PageStride) % uint64Size) cfg.PageStride).failed
          = false ∧
        (env.searchImages w (((j + n) * cfg.PageStride) % uint64Size) cfg.PageStride).images
          = []) →
      n < fuel →
      ∃ s' pages launched,
        dhashLoop env cfg missingOnly fuel s = (s', true) ∧
        searchOffsets s'.run.trace = searchOffsets s.run.trace ++
          (List.range (n + 1)).map (fun k => ((j + k) * cfg.PageStride) % uint64Size) ∧
        searchStrides s'.run.trace = searchStrides s.run.trace ++
          List.replicate (n + 1) cfg.PageStride ∧
        returnedPages s'.run.trace = returnedPages s.run.trace ++ pages ++ [[]] ∧
        pages.length = n ∧ (∀ p ∈ pages, p ≠ []) ∧
        launchedHashes s'.run.trace = launchedHashes s.run.trace ++ launched ∧
        launched.Sublist pages.flatten := by
  induction n with
  | zero =>
    intro j fuel s hpage hw _ hempty hfuel
    obtain ⟨fuel, rfl⟩ : ∃ f, fuel = f + 1 := ⟨fuel - 1, by omega⟩
    have he := hempty s.run.world hw
    simp only [Nat.add_zero, ← hpage] at he
    refine ⟨HashState.mk (emit env s.run (.searchImages s.page cfg.PageStride
          (env.searchImages s.run.world s.page cfg.PageStride)))
        ((s.page + cfg.PageStride) % uint64Size) s.processedImages,
      [], [], ?_, ?_, ?_, ?_, rfl, by simp, ?_, List.Sublist.slnil⟩
    · unfold dhashLoop
      simp only [he.1, Bool.false_eq_true, if_false, he.2, List.length_nil, Nat.le_refl,
        if_true]
    · simp [emit_trace, searchOffsets, List.filterMap_append, hpage, List.range_succ]
    · simp [emit_trace, searchStrides, List.filterMap_append]
    · simp [emit_trace, returnedPages, List.filterMap_append, he.2]
    · simp [emit_trace, launchedHashes, List.filterMap_append]
  | succ n ih =>
    intro j fuel s hpage hw hpages hempty hfuel
    obtain ⟨fuel, rfl⟩ : ∃ f, fuel = f + 1 := ⟨fuel - 1, by omega⟩
    have hp := hpages s.run.world 0 hw (by omega)
    simp only [Nat.add_zero, ← hpage] at hp
    have hlen : ¬ (env.searchImages s.run.world s.page cfg.PageStride).images.length ≤ 0 := by
      have := List.length_pos.mpr hp.2
      omega
    obtain ⟨l, hl, i1, i2, i3, i4, i5⟩ := dhashImages_launches env missingOnly
      (env.searchImages s.run.world s.page cfg.PageStride).images
      { run := emit env s.run (.searchImages s.page cfg.PageStride
          (env.searchImages s.run.world s.page cfg.PageStride)),
        page := (s.page + cfg.PageStride) % uint64Size,
        processedImages := s.processedImages }
    obtain ⟨s', pages, launched, h1, h2, h3, h4, h5, h6, h7, h8⟩ := ih (j + 1) fuel
      { dhashImages env missingOnly
          { run := emit env s.run (.searchImages s.page cfg.PageStride
              (env.searchImages s.run.world s.page cfg.PageStride)),
            page := (s.page + cfg.PageStride) % uint64Size,
            processedImages := s.processedImages }
          (env.searchImages s.run.world s.page cfg.PageStride).images with
        run := emit env (dhashImages env missingOnly
          { run := emit env s.run (.searchImages s.page cfg.PageStride
              (env.searchImages s.run.world s.page cfg.PageStride)),
            page := (s.page + cfg.PageStride) % uint64Size,
            processedImages := s.processedImages }
          (env.searchImages s.run.world s.page cfg.PageStride).images).run .wgWait }
      (by
        show (dhashImages env missingOnly _ _).page = _
        rw [i5, hpage, Nat.mod_add_mod, Nat.add_mul, Nat.one_mul])
      (hinv _ _ (dhashImages_world env missingOnly Inv hinv _ _ (hinv _ _ hw)))
      (by
        intro w k hw' hk
        have := hpages w (k + 1) hw' (by omega)
        rwa [show j + (k + 1) = j + 1 + k by omega] at this)
      (by
        intro w hw'
        have := hempty w hw'
        rwa [show j + (n + 1) = j + 1 + n by omega] at this)
      (by omega)
    refine ⟨s', (env.searchImages s.run.world s.page cfg.PageStride).images :: pages,
      l ++ launched, ?_, ?_, ?_, ?_, by simp [h5], ?_, ?_, ?_⟩
    · rw [← h1]
      conv_lhs => unfold dhashLoop
      simp only [hp.1, Bool.false_eq_true, if_false, hlen]
    · rw [h2]
      simp only [emit_trace, searchOffsets_concat, i2]
      rw [List.range_succ_eq_map (n + 1)]
      simp only [List.map_cons, List.map_map, Nat.add_zero, ← hpage, List.append_assoc,
        List.singleton_append, List.nil_append, List.append_nil]
      congr 2
      apply List.map_congr_left
      intro k _
      simp only [Function.comp, Nat.succ_eq_add_one]
      congr 2
      omega
    · rw [h3]
      simp only [emit_trace, searchStrides_concat, i3]
      simp [List.replicate_succ]
    · rw [h4]
      simp only [emit_trace, returnedPages_concat, i4]
      simp
    · intro p hp'
      rcases List.mem_cons.mp hp' with rfl | hp'
      · exact hp.2
      · exact h6 p hp'
    · rw [h7]
      simp only [emit_trace, launchedHashes_concat, i1]
      simp
    · simp only [List.flatten_cons]
      exact hl.append h8

/-- C10: on a catalog that answers `n` non-empty pages and then an empty page at the
offsets `0, PageStride, 2 * PageStride, ...` (computed in `uint64`), in every world
the job can reach, the hash job returns, given fuel for `n + 1` pages: it has queried
exactly these `n + 1` offsets in that order, each with stride PageStride, the empty
page was the last query, and the units it launched are records of the `n` non-empty
pages, in page order. -/
theorem dhashJob_pages_until_first_empty {W : Type} (env : Env W)
    (cfg : ConfigurationSettings) (missingOnly : Bool) (Inv : W → Prop) (w : W)
    (n fuel : Nat)
    (hinv : ∀ w e, Inv w → Inv (env.effect w e)) (hw : Inv w)
    (hpages : ∀ w k, Inv w → k < n →
      (env.searchImages w ((k * cfg.PageStride) % uint64Size) cfg.PageStride).failed = false ∧
      (env.searchImages w ((k * cfg.PageStride) % uint64Size) cfg.PageStride).images ≠ [])
    (hempty : ∀ w, Inv w →
      (env.searchImages w ((n * cfg.PageStride) % uint64Size) cfg.PageStride).failed = false ∧
      (env.searchImages w ((n * cfg.PageStride) % uint64Size) cfg.PageStride).images = [])
    (hfuel : n < fuel) :
    ∃ s pages, dhashJob env cfg missingOnly fuel ⟨w, []⟩ = .ok s ∧
      searchOffsets s.run.trace =
        (List.range (n + 1)).map (fun k => (k * cfg.PageStride) % uint64Size) ∧
      (n * cfg.PageStride < uint64Size →
        searchOffsets s.run.trace = (List.range (n + 1)).map (fun k => k * cfg.PageStride)) ∧
      searchStrides s.run.trace = List.replicate (n + 1) cfg.PageStride ∧
      returnedPages s.run.trace = pages ++ [[]] ∧
      pages.length = n ∧ (∀ p ∈ pages, p ≠ []) ∧
      (launchedHashes s.run.trace).Sublist pages.flatten := by
  obtain ⟨s, pages, launched, h1, h2, h3, h4, h5, h6, h7, h8⟩ :=
    dhashLoop_pages env cfg missingOnly Inv hinv n 0 fuel ⟨⟨w, []⟩, 0, 0⟩
      (by simp) hw
      (by intro w k hw' hk; simpa using hpages w k hw' hk)
      (by intro w hw'; simpa using hempty w hw')
      hfuel
  have hoff : searchOffsets (emit env s.run .wgWait).trace =
      (List.range (n + 1)).map (fun k => (k * cfg.PageStride) % uint64Size) := by
    rw [emit_trace, searchOffsets_concat, h2]
    simp [searchOffsets]
  refine ⟨{ s with run := emit env s.run .wgWait }, pages, ?_, hoff, ?_, ?_, ?_, h5, h6, ?_⟩
  · simp only [dhashJob, h1]
  · intro hn
    rw [hoff]
    apply List.map_congr_left
    intro k hk
    have hk' : k < n + 1 := List.mem_range.mp hk
    apply Nat.mod_eq_of_lt
    calc k * cfg.PageStride ≤ n * cfg.PageStride := Nat.mul_le_mul_right _ (by omega)
      _ < uint64Size := hn
  · show searchStrides (emit env s.run .wgWait).trace = _
    rw [emit_trace, searchStrides_concat, h3]
    simp [searchStrides]
  · show returnedPages (emit env s.run .wgWait).trace = _
    rw [emit_trace, returnedPages_concat, h4]
    simp [returnedPages]
  · show (launchedHashes (emit env s.run .wgWait).trace).Sublist _
    rw [emit_trace, launchedHashes_concat, h7]
    simpa [launchedHashes] using h8

/-- C10 on the sample store with a stride of 2: one page with the one record, then
the empty page. -/
theorem dhashJob_pages_until_first_empty_witness :
    ∃ s pages, dhashJob storeEnv sampleConfig false 2 ⟨sampleStore, []⟩ = .ok s ∧
      searchOffsets s.run.trace =
        (List.range (1 + 1)).map (fun k => (k * sampleConfig.PageStride) % uint64Size) ∧
      (1 * sampleConfig.PageStride < uint64Size →
        searchOffsets s.run.trace =
          (List.range (1 + 1)).map (fun k => k * sampleConfig.PageStride)) ∧
      searchStrides s.run.trace = List.replicate (1 + 1) sampleConfig.PageStride ∧
      returnedPages s.run.trace = pages ++ [[]] ∧
      pages.length = 1 ∧ (∀ p ∈ pages, p ≠ []) ∧
      (launchedHashes s.run.trace).Sublist pages.flatten :=
  dhashJob_pages_until_first_empty storeEnv sampleConfig false
    (fun w => w.records = [⟨1, "A"⟩]) sampleStore 1 2
    (by
      intro w e hw
      cases e <;> first | exact hw | skip
      all_goals (simp only [storeEnv, Store.effect]; split <;> exact hw))
    rfl
    (by
      intro w k hw hk
      obtain rfl : k = 0 := by omega
      simp [storeEnv, hw, sampleConfig])
    (by
      intro w hw
      simp [storeEnv, hw, sampleConfig, uint64Size])
    (by decide)

/-! ## The store: paths and effects -/

theorem string_append_left_cancel (a b c : String) (h : a ++ b = a ++ c) : b = c := by
  have := congrArg String.data h
  simp only [String.data_append, List.append_cancel_left_eq] at this
  exact String.ext this

theorem string_append_right_cancel (a b c : String) (h : a ++ c = b ++ c) : a = b := by
  have := congrArg String.data h
  simp only [String.data_append, List.append_cancel_right_eq] at this
  exact String.ext this

theorem thumbNailPath_eq_slashJoin (dir name : String) :
    thumbNailPath dir name = slashJoin (slashJoin dir "thumbs") (name ++ ".png") := by
  simp only [thumbNailPath, slashJoin, pathSeparator, String.append_assoc]

/-- A thumbnail path names a file of the store iff it is the path of an image file
or the thumbnail is in the thumbs directory. -/
theorem Store.hasFile_thumbNailPath (w : Store) (name : String) :
    w.hasFile (thumbNailPath w.imageDirectory name) = true ↔
      thumbNailPath w.imageDirectory name ∈ w.images.map (slashJoin w.imageDirectory) ∨
      name ++ ".png" ∈ w.thumbs := by
  simp only [Store.hasFile, Bool.or_eq_true, List.contains, List.elem_iff]
  constructor
  · rintro (h | h)
    · exact Or.inl h
    · right
      obtain ⟨t, ht, heq⟩ := List.mem_map.mp h
      rw [thumbNailPath_eq_slashJoin] at heq
      rw [← string_append_left_cancel _ _ _ heq]
      exact ht
  · rintro (h | h)
    · exact Or.inl h
    · right
      rw [thumbNailPath_eq_slashJoin]
      exact List.mem_map.mpr ⟨_, h, rfl⟩

/-- Removing a path that names no file leaves the store as it is. -/
theorem Store.effect_remove_absent (w : Store) (path : String) (h : w.hasFile path = false) :
    w.effect (.remove path) = w := by
  simp only [Store.hasFile, Bool.or_eq_false_iff, List.contains_eq_any_beq, List.any_eq_false,
    List.mem_map, beq_iff_eq, forall_exists_index, and_imp] at h
  have h1 : w.images.filter (fun n => slashJoin w.imageDirectory n != path) = w.images := by
    rw [List.filter_eq_self]
    intro n hn
    simp only [bne_iff_ne, ne_eq]
    exact fun heq => h.1 _ n hn heq rfl
  have h2 : w.thumbs.filter (fun n => slashJoin w.thumbsDirectory n != path) = w.thumbs := by
    rw [List.filter_eq_self]
    intro n hn
    simp only [bne_iff_ne, ne_eq]
    exact fun heq => h.2 _ n hn heq rfl
  simp only [Store.effect, h1, h2]

/-- A barrier with no unit running leaves the store as it is. -/
theorem Store.effect_wait_idle (w : Store) (h1 : w.pendingThumbs = [])
    (h2 : w.pendingHashes = []) : w.effect .wgWait = w := by
  cases w
  simp only at h1 h2
  simp [Store.effect, h1, h2]

theorem Store.grows_refl (w : Store) : w.Grows w := ⟨rfl, rfl, rfl, fun _ h => h⟩

theorem Store.Grows.andThen {w w' w'' : Store} (h : w.Grows w') (h' : w'.Grows w'') :
    w.Grows w'' :=
  ⟨h'.1.trans h.1, h'.2.1.trans h.2.1, h'.2.2.1.trans h.2.2.1, fun t ht => h'.2.2.2 t (h.2.2.2 t ht)⟩

theorem Store.Settled.grows {w w' : Store} {name : String} (h : w.Settled name)
    (hg : w.Grows w') : w'.Settled name := by
  obtain ⟨h1, h2, _, h4⟩ := hg
  unfold Store.Settled at h ⊢
  rw [h1, h2]
  rcases h with h | h | h
  · exact Or.inl h
  · exact Or.inr (h4 _ (Or.inl h))
  · exact Or.inr (h4 _ (Or.inr h))

theorem Store.grows_wait (w : Store) : w.Grows (w.effect .wgWait) := by
  refine ⟨rfl, rfl, rfl, fun t ht => ?_⟩
  left
  show t ∈ w.pendingThumbs ++ w.thumbs
  rw [List.mem_append]
  exact ht.symm

theorem Store.grows_launch (w : Store) (name : String) :
    w.Grows (w.effect (.goGenerateThumbnail name)) := by
  simp only [Store.effect]
  split
  · exact Store.grows_refl w
  · refine ⟨rfl, rfl, rfl, fun t ht => ?_⟩
    rcases ht with ht | ht
    · exact Or.inl ht
    · exact Or.inr (List.mem_cons_of_mem _ ht)

/-! ## Thumbnail job, missing-only, run twice on a store -/

theorem launchedThumbnails_append (t t' : List Event) :
    launchedThumbnails (t ++ t') = launchedThumbnails t ++ launchedThumbnails t' := by
  simp [launchedThumbnails]

/-- Regenerating a missing thumbnail of a file the encoder can read leaves the
thumbnail being written and nothing else changed. -/
theorem store_regenerate_absent (w : Store) (name : String) (result : StatResult)
    (habs : w.hasFile (thumbNailPath w.imageDirectory name) = false)
    (hok : name ∉ w.broken) :
    storeEnv.effect (storeEnv.effect (storeEnv.effect w
      (.stat (thumbNailPath w.imageDirectory name) result))
      (.remove (thumbNailPath w.imageDirectory name))) (.goGenerateThumbnail name) =
      { w with pendingThumbs := (name ++ ".png") :: w.pendingThumbs } := by
  show ((w.effect (.stat (thumbNailPath w.imageDirectory name) result)).effect
    (.remove (thumbNailPath w.imageDirectory name))).effect (.goGenerateThumbnail name) = _
  have e1 : w.effect (.stat (thumbNailPath w.imageDirectory name) result) = w := rfl
  rw [e1, Store.effect_remove_absent _ _ habs]
  simp [Store.effect, hok]

/-- One missing-only iteration on a regular file of a store: the store only grows,
and the thumbnail of the file exists or is being written afterwards, provided the
encoder can read the file if a unit was launched on it. -/
theorem store_thumbsStep_missing (cfg : ConfigurationSettings) (s s' : ThumbState Store)
    (file : FileInfo) (hdir : cfg.ImageDirectory = s.run.world.imageDirectory)
    (hstride : cfg.PageStride ≠ 0) (hfile : file.isDir = false)
    (hstep : thumbsStep storeEnv cfg true s file = .ok s')
    (hsucc : ∀ n ∈ launchedThumbnails s'.run.trace, n ∉ s.run.world.broken) :
    s.run.world.Grows s'.run.world ∧ s'.run.world.Settled file.name := by
  obtain ⟨s1, hs1, hg, ht⟩ := thumbsStep_file storeEnv cfg true s file hstride hfile
  rw [hs1] at hstep
  injection hstep with hstep; subst hstep
  have hw := (thumbsStep_extends storeEnv cfg true s s1 file hs1).world_eq _
    (by rw [ht, List.append_assoc, List.append_assoc])
  have hwait : ∀ w : Store, w.Grows
      ((if s1.generatedThumbnails % cfg.PageStride = 0 then [Event.wgWait] else []).foldl
        storeEnv.effect w) := by
    intro w
    split
    · exact Store.grows_wait w
    · exact Store.grows_refl w
  rw [hdir] at ht hw
  by_cases hhas : s.run.world.hasFile
      (thumbNailPath s.run.world.imageDirectory file.name) = true
  · -- the thumbnail exists: nothing is launched
    have hstat : storeEnv.stat s.run.world
        (thumbNailPath s.run.world.imageDirectory file.name) = .ok := by
      simp [storeEnv, hhas]
    simp only [hstat, List.foldl_append, List.foldl_cons, List.foldl_nil] at hw
    have hw' : s1.run.world =
        (if s1.generatedThumbnails % cfg.PageStride = 0 then [Event.wgWait] else []).foldl
          storeEnv.effect s.run.world := by
      rw [hw]; rfl
    have hgrow : s.run.world.Grows s1.run.world := by rw [hw']; exact hwait _
    refine ⟨hgrow, Store.Settled.grows ?_ hgrow⟩
    rcases (Store.hasFile_thumbNailPath _ _).mp hhas with h | h
    · exact Or.inl h
    · exact Or.inr (Or.inl h)
  · -- the thumbnail is missing: a unit is launched
    have hhas' : s.run.world.hasFile
        (thumbNailPath s.run.world.imageDirectory file.name) = false := by simpa using hhas
    have hstat : storeEnv.stat s.run.world
        (thumbNailPath s.run.world.imageDirectory file.name) = .notExist := by
      simp [storeEnv, hhas']
    simp only [hstat, beq_self_eq_true, Bool.or_true, if_true, regeneration] at ht hw
    have hok : file.name ∉ s.run.world.broken := by
      apply hsucc
      rw [ht]
      simp [launchedThumbnails, List.filterMap_append]
    simp only [List.foldl_append, List.foldl_cons, List.foldl_nil] at hw
    rw [store_regenerate_absent _ _ _ hhas' hok] at hw
    have hgrow1 : s.run.world.Grows { s.run.world with
        pendingThumbs := (file.name ++ ".png") :: s.run.world.pendingThumbs } :=
      ⟨rfl, rfl, rfl, fun t ht => by
        rcases ht with ht | ht
        · exact Or.inl ht
        · exact Or.inr (List.mem_cons_of_mem _ ht)⟩
    have hset1 : Store.Settled { s.run.world with
        pendingThumbs := (file.name ++ ".png") :: s.run.world.pendingThumbs } file.name :=
      Or.inr (Or.inr (List.mem_cons_self _ _))
    have hgrow2 := hwait { s.run.world with
        pendingThumbs := (file.name ++ ".png") :: s.run.world.pendingThumbs }
    rw [← hw] at hgrow2
    exact ⟨hgrow1.andThen hgrow2, hset1.grows hgrow2⟩

/-- The missing-only loop on a store: the store only grows, and afterwards the
thumbnail of every regular file of the listing exists or is being written, provided
the encoder can read every file a unit was launched on. -/
theorem store_thumbsLoop_missing (cfg : ConfigurationSettings) (hstride : cfg.PageStride ≠ 0)
    (files : List FileInfo) :
    ∀ s s' : ThumbState Store, cfg.ImageDirectory = s.run.world.imageDirectory →
      thumbsLoop storeEnv cfg true s files = .ok s' →
      (∀ n ∈ launchedThumbnails s'.run.trace, n ∉ s.run.world.broken) →
      s.run.world.Grows s'.run.world ∧
      ∀ f ∈ files, f.isDir = false → s'.run.world.Settled f.name := by
  induction files with
  | nil =>
    intro s s' _ h _
    injection h with h; subst h
    exact ⟨Store.grows_refl _, fun f hf => by cases hf⟩
  | cons file files ih =>
    intro s s' hdir h hsucc
    unfold thumbsLoop at h
    cases hstep : thumbsStep storeEnv cfg true s file with
    | error e => rw [hstep] at h; cases h
    | ok s1 =>
      rw [hstep] at h
      simp only [] at h
      obtain ⟨ext, hext, _, _⟩ := thumbsLoop_extends storeEnv cfg true files s1 s' h
      have hsub : ∀ n ∈ launchedThumbnails s1.run.trace, n ∈ launchedThumbnails s'.run.trace := by
        intro n hn
        rw [hext, launchedThumbnails_append]
        exact List.mem_append_left _ hn
      by_cases hfile : file.isDir = true
      · have hs1 : s1 = s := by
          simp only [thumbsStep, hfile, if_true] at hstep
          injection hstep with hstep
          exact hstep.symm
        subst hs1
        obtain ⟨hg, hall⟩ := ih s1 s' hdir h hsucc
        refine ⟨hg, fun f hf hfd => ?_⟩
        rcases List.mem_cons.mp hf with rfl | hf
        · rw [hfile] at hfd; cases hfd
        · exact hall f hf hfd
      · have hfile' : file.isDir = false := by simpa using hfile
        obtain ⟨hg1, hset1⟩ := store_thumbsStep_missing cfg s s1 file hdir hstride hfile' hstep
          (fun n hn => hsucc n (hsub n hn))
        obtain ⟨hg, hall⟩ := ih s1 s' (hdir.trans hg1.1.symm) h
          (fun n hn => by rw [hg1.2.2.1]; exact hsucc n hn)
        refine ⟨hg1.andThen hg, fun f hf hfd => ?_⟩
        rcases List.mem_cons.mp hf with rfl | hf
        · exact hset1.grows hg
        · exact hall f hf hfd

/-- The missing-only loop on a store with no unit running and the thumbnails of all
regular files of the listing in place: nothing is launched, nothing changes. -/
theorem store_thumbsLoop_settled (cfg : ConfigurationSettings) (w : Store)
    (hdir : cfg.ImageDirectory = w.imageDirectory) (hstride : cfg.PageStride ≠ 0)
    (hp1 : w.pendingThumbs = []) (hp2 : w.pendingHashes = []) (files : List FileInfo)
    (hall : ∀ f ∈ files, f.isDir = false →
      w.hasFile (thumbNailPath w.imageDirectory f.name) = true) :
    ∀ s : ThumbState Store, s.run.world = w →
      ∃ s', thumbsLoop storeEnv cfg true s files = .ok s' ∧ s'.run.world = w ∧
        s'.generatedThumbnails = s.generatedThumbnails ∧
        launchedThumbnails s'.run.trace = launchedThumbnails s.run.trace := by
  induction files with
  | nil => intro s hs; exact ⟨s, rfl, hs, rfl, rfl⟩
  | cons file files ih =>
    intro s hs
    have hrest : ∀ f ∈ files, f.isDir = false →
        w.hasFile (thumbNailPath w.imageDirectory f.name) = true :=
      fun f hf => hall f (List.mem_cons_of_mem _ hf)
    by_cases hfile : file.isDir = true
    · obtain ⟨s', h1, h2, h3, h4⟩ := ih hrest s hs
      exact ⟨s', by simp only [thumbsLoop, thumbsStep, hfile, if_true]; exact h1, h2, h3, h4⟩
    · have hfile' : file.isDir = false := by simpa using hfile
      obtain ⟨s1, hs1, hg, ht⟩ := thumbsStep_file storeEnv cfg true s file hstride hfile'
      have hw := (thumbsStep_extends storeEnv cfg true s s1 file hs1).world_eq _
        (by rw [ht, List.append_assoc, List.append_assoc])
      have hstat : storeEnv.stat s.run.world (thumbNailPath cfg.ImageDirectory file.name)
          = .ok := by
        rw [hs, hdir]
        simp [storeEnv, hall file (List.mem_cons_self _ _) hfile']
      have hnot : (true == false || StatResult.ok == StatResult.notExist) = false := rfl
      simp only [hstat, hnot, Bool.false_eq_true, if_false, List.append_nil] at hg ht hw
      have hw1 : s1.run.world = w := by
        rw [hw, hs]
        simp only [List.foldl_append, List.foldl_cons, List.foldl_nil]
        have e1 : storeEnv.effect w (.stat (thumbNailPath cfg.ImageDirectory file.name) .ok)
            = w := rfl
        rw [e1]
        split
        · exact Store.effect_wait_idle w hp1 hp2
        · rfl
      obtain ⟨s', h1, h2, h3, h4⟩ := ih hrest s1 hw1
      refine ⟨s', by simp only [thumbsLoop, hs1]; exact h1, h2, h3.trans hg, h4.trans ?_⟩
      rw [ht]
      simp only [launchedThumbnails_append]
      have : launchedThumbnails
          (if s1.generatedThumbnails % cfg.PageStride = 0 then [Event.wgWait] else []) = [] := by
        split <;> rfl
      rw [this]
      simp [launchedThumbnails]

/-- The thumbnail job run twice in missing-only mode on a store: when every unit of
the first run stored its thumbnail, the second run launches nothing. -/
theorem store_thumbsJob_rerun (cfg : ConfigurationSettings) (w : Store)
    (s1 : ThumbState Store) (hdir : cfg.ImageDirectory = w.imageDirectory)
    (hstride : 1 ≤ cfg.PageStride)
    (h1 : thumbsJob storeEnv cfg true ⟨w, []⟩ = .ok s1)
    (hsucc : ∀ n ∈ launchedThumbnails s1.run.trace, n ∉ w.broken) :
    ∃ s2, thumbsJob storeEnv cfg true ⟨s1.run.world, []⟩ = .ok s2 ∧
      s2.generatedThumbnails = 0 ∧ launchedThumbnails s2.run.trace = [] := by
  have hps : cfg.PageStride ≠ 0 := by omega
  have hlist : ∀ w' : Store, w'.imageDirectory = w.imageDirectory → w'.images = w.images →
      storeEnv.readDir w' cfg.ImageDirectory =
        some (w.images.map (fun n => ⟨n, false⟩) ++ [⟨"thumbs", true⟩]) := by
    intro w' h1 h2
    simp [storeEnv, hdir, h1, h2]
  unfold thumbsJob at h1
  simp only [hlist w rfl rfl] at h1
  cases hloop : thumbsLoop storeEnv cfg true
      { run := emit storeEnv ⟨w, []⟩ (.readDir cfg.ImageDirectory
          (some (w.images.map (fun n => ⟨n, false⟩) ++ [⟨"thumbs", true⟩]))),
        generatedThumbnails := 0 }
      (w.images.map (fun n => ⟨n, false⟩) ++ [⟨"thumbs", true⟩]) with
  | error e => rw [hloop] at h1; cases h1
  | ok s =>
    rw [hloop] at h1
    injection h1 with h1; subst h1
    obtain ⟨hg, hset⟩ := store_thumbsLoop_missing cfg hps _ _ s hdir hloop
      (fun n hn => hsucc n (by
        show n ∈ launchedThumbnails (emit storeEnv s.run .wgWait).trace
        rw [emit_trace, launchedThumbnails_append]
        exact List.mem_append_left _ hn))
    -- the store after the final barrier
    have hfin : s.run.world.Grows (emit storeEnv s.run .wgWait).world := Store.grows_wait _
    have hp1 : (emit storeEnv s.run .wgWait).world.pendingThumbs = [] := rfl
    have hp2 : (emit storeEnv s.run .wgWait).world.pendingHashes = [] := rfl
    have hgrow := hg.andThen hfin
    have hall : ∀ f ∈ w.images.map (fun n => (⟨n, false⟩ : FileInfo)) ++ [⟨"thumbs", true⟩],
        f.isDir = false →
        (emit storeEnv s.run .wgWait).world.hasFile
          (thumbNailPath (emit storeEnv s.run .wgWait).world.imageDirectory f.name) = true := by
      intro f hf hfd
      have := (hset f hf hfd).grows hfin
      rw [Store.hasFile_thumbNailPath]
      rcases this with h | h | h
      · exact Or.inl h
      · exact Or.inr h
      · rw [hp1] at h; cases h
    obtain ⟨s2, hs2, hw2, hg2, hl2⟩ := store_thumbsLoop_settled cfg
      (emit storeEnv s.run .wgWait).world (hdir.trans hgrow.1.symm) hps hp1 hp2 _ hall
      { run := emit storeEnv ⟨(emit storeEnv s.run .wgWait).world, []⟩
          (.readDir cfg.ImageDirectory
            (some (w.images.map (fun n => ⟨n, false⟩) ++ [⟨"thumbs", true⟩]))),
        generatedThumbnails := 0 } rfl
    refine ⟨{ s2 with run := emit storeEnv s2.run .wgWait }, ?_, hg2, ?_⟩
    · unfold thumbsJob
      simp only [hlist _ hgrow.1 hgrow.2.1, hs2]
    · show launchedThumbnails (emit storeEnv s2.run .wgWait).trace = []
      rw [emit_trace, launchedThumbnails_append, hl2]
      rfl

/-! ## Hash job, missing-only, run twice on a store -/

theorem launchedHashes_append (t t' : List Event) :
    launchedHashes (t ++ t') = launchedHashes t ++ launchedHashes t' := by
  simp [launchedHashes]

theorem Store.growsHashes_refl (w : Store) : w.GrowsHashes w := ⟨rfl, rfl, fun _ h => h⟩

theorem Store.GrowsHashes.andThenHashes {w w' w'' : Store} (h : w.GrowsHashes w')
    (h' : w'.GrowsHashes w'') : w.GrowsHashes w'' :=
  ⟨h'.1.trans h.1, h'.2.1.trans h.2.1, fun i hi => h'.2.2 i (h.2.2 i hi)⟩

theorem Store.growsHashes_wait (w : Store) : w.GrowsHashes (w.effect .wgWait) := by
  refine ⟨rfl, rfl, fun i hi => ?_⟩
  left
  show i ∈ w.pendingHashes ++ w.hashed
  rw [List.mem_append]
  exact hi.symm

/-- The inner loop of the missing-only hash job on a store: the hashes only grow,
and afterwards the hash of every record of the page is stored or being stored,
provided the encoder can read every file a unit was launched on. -/
theorem store_dhashImages_missing (images : List ImageInformation) :
    ∀ s : HashState Store,
      (∀ r ∈ launchedHashes (dhashImages storeEnv true s images).run.trace,
        r.Location ∉ s.run.world.broken) →
      s.run.world.GrowsHashes (dhashImages storeEnv true s images).run.world ∧
      ∀ r ∈ images, (dhashImages storeEnv true s images).run.world.SettledHash r.ID := by
  induction images with
  | nil => intro s _; exact ⟨Store.growsHashes_refl _, fun r hr => by cases hr⟩
  | cons image images ih =>
    intro s hsucc
    unfold dhashImages at hsucc ⊢
    simp only [if_true] at hsucc ⊢
    have hans : storeEnv.getImagedHash s.run.world image.ID =
        s.run.world.hashed.contains image.ID := rfl
    cases hh : s.run.world.hashed.contains image.ID with
    | true =>
      rw [hans, hh] at hsucc ⊢
      have c2 : (true == false || !true) = false := rfl
      simp only [c2, Bool.false_eq_true, if_false] at hsucc ⊢
      obtain ⟨hg, hall⟩ := ih { s with run := emit storeEnv s.run (.getImagedHash image.ID true) }
        hsucc
      refine ⟨hg, fun r hr => ?_⟩
      rcases List.mem_cons.mp hr with rfl | hr
      · exact hg.2.2 _ (Or.inl (by simpa [List.contains, List.elem_iff] using hh))
      · exact hall r hr
    | false =>
      rw [hans, hh] at hsucc ⊢
      have c1 : (true == false || !false) = true := rfl
      simp only [c1, if_true] at hsucc ⊢
      have hw : (emit storeEnv (emit storeEnv s.run (.getImagedHash image.ID false))
          (.goGeneratedHash image.Location image.ID)).world =
          s.run.world.effect (.goGeneratedHash image.Location image.ID) := rfl
      obtain ⟨ext, hext, _, _⟩ := dhashImages_extends storeEnv true images
        { run := emit storeEnv (emit storeEnv s.run (.getImagedHash image.ID false))
            (.goGeneratedHash image.Location image.ID),
          page := s.page, processedImages := (s.processedImages + 1) % uint64Size }
      have hok : image.Location ∉ s.run.world.broken := by
        apply hsucc ⟨image.ID, image.Location⟩
        rw [hext]
        simp [emit_trace, launchedHashes, List.filterMap_append]
      have hw' : s.run.world.effect (.goGeneratedHash image.Location image.ID) =
          { s.run.world with pendingHashes := image.ID :: s.run.world.pendingHashes } := by
        simp [Store.effect, hok]
      obtain ⟨hg, hall⟩ := ih
        { run := emit storeEnv (emit storeEnv s.run (.getImagedHash image.ID false))
            (.goGeneratedHash image.Location image.ID),
          page := s.page, processedImages := (s.processedImages + 1) % uint64Size }
        (fun r hr => by
          show r.Location ∉ (emit storeEnv (emit storeEnv s.run _) _).world.broken
          rw [hw, hw']
          exact hsucc r hr)
      have hg1 : s.run.world.GrowsHashes (emit storeEnv (emit storeEnv s.run
          (.getImagedHash image.ID false)) (.goGeneratedHash image.Location image.ID)).world := by
        rw [hw, hw']
        exact ⟨rfl, rfl, fun i hi => by
          rcases hi with hi | hi
          · exact Or.inl hi
          · exact Or.inr (List.mem_cons_of_mem _ hi)⟩
      refine ⟨hg1.andThenHashes hg, fun r hr => ?_⟩
      rcases List.mem_cons.mp hr with rfl | hr
      · apply hg.2.2
        show r.ID ∈ _ ∨ r.ID ∈ (emit storeEnv (emit storeEnv s.run _) _).world.pendingHashes
        rw [hw, hw']
        exact Or.inr (List.mem_cons_self _ _)
      · exact hall r hr

/-- One iteration of the page loop, by cases on the answer of the catalog. -/
theorem dhashLoop_succ {W : Type} (env : Env W) (cfg : ConfigurationSettings)
    (missingOnly : Bool) (fuel : Nat) (s : HashState W) :
    dhashLoop env cfg missingOnly (fuel + 1) s =
      if (env.searchImages s.run.world s.page cfg.PageStride).failed = true then
        (s.afterQuery env cfg, true)
      else if (env.searchImages s.run.world s.page cfg.PageStride).images.length ≤ 0 then
        (s.afterQuery env cfg, true)
      else dhashLoop env cfg missingOnly fuel (s.afterPage env cfg missingOnly) := rfl

theorem afterPage_extends {W : Type} (env : Env W) (cfg : ConfigurationSettings)
    (missingOnly : Bool) (s : HashState W) :
    Extends env Event.ofHashJob (s.afterQuery env cfg).run
      (s.afterPage env cfg missingOnly).run :=
  (dhashImages_extends env missingOnly _ _).emit _ (by rfl)

theorem afterPage_page {W : Type} (env : Env W) (cfg : ConfigurationSettings)
    (missingOnly : Bool) (s : HashState W) :
    (s.afterPage env cfg missingOnly).page = (s.page + cfg.PageStride) % uint64Size := by
  obtain ⟨_, _, _, _, _, _, h⟩ := dhashImages_launches env missingOnly
    (env.searchImages s.run.world s.page cfg.PageStride).images (s.afterQuery env cfg)
  exact h

/-- The page loop of the missing-only hash job on a store, when it ends: the hashes
only grow, and the hash of every record of the pages it went through is stored or
being stored, provided the encoder can read every file a unit was launched on. -/
theorem store_dhashLoop_missing (cfg : ConfigurationSettings) (fuel : Nat) :
    ∀ s s' : HashState Store, dhashLoop storeEnv cfg true fuel s = (s', true) →
      (∀ r ∈ launchedHashes s'.run.trace, r.Location ∉ s.run.world.broken) →
      s.run.world.GrowsHashes s'.run.world ∧
      ∃ visited, visitedRecords s.run.world.records cfg.PageStride fuel s.page = some visited ∧
        ∀ r ∈ visited, s'.run.world.SettledHash r.ID := by
  induction fuel with
  | zero => intro s s' h; cases h
  | succ fuel ih =>
    intro s s' h hsucc
    rw [dhashLoop_succ] at h
    have hfail : (storeEnv.searchImages s.run.world s.page cfg.PageStride).failed = false := rfl
    have himg : (storeEnv.searchImages s.run.world s.page cfg.PageStride).images =
        (s.run.world.records.drop s.page).take cfg.PageStride := rfl
    simp only [hfail, Bool.false_eq_true, if_false] at h
    by_cases hlen : (storeEnv.searchImages s.run.world s.page cfg.PageStride).images.length ≤ 0
    · simp only [hlen, if_true] at h
      injection h with h _
      subst h
      rw [himg] at hlen
      refine ⟨Store.growsHashes_refl _, [], ?_, fun r hr => by cases hr⟩
      simp only [visitedRecords, hlen, if_true]
    · simp only [hlen, if_false] at h
      obtain ⟨ext, hext, _, _⟩ := dhashLoop_extends storeEnv cfg true fuel
        (s.afterPage storeEnv cfg true)
      rw [h] at hext
      obtain ⟨ext2, hext2, _, _⟩ := afterPage_extends storeEnv cfg true s
      have hsub : ∀ r ∈ launchedHashes (dhashImages storeEnv true (s.afterQuery storeEnv cfg)
          (storeEnv.searchImages s.run.world s.page cfg.PageStride).images).run.trace,
          r ∈ launchedHashes s'.run.trace := by
        intro r hr
        have hext' : s'.run.trace = (s.afterPage storeEnv cfg true).run.trace ++ ext := hext
        rw [hext', launchedHashes_append]
        apply List.mem_append_left
        show r ∈ launchedHashes (emit storeEnv _ .wgWait).trace
        rw [emit_trace, launchedHashes_append]
        exact List.mem_append_left _ hr
      obtain ⟨hg1, hset1⟩ := store_dhashImages_missing
        (storeEnv.searchImages s.run.world s.page cfg.PageStride).images
        (s.afterQuery storeEnv cfg) (fun r hr => hsucc r (hsub r hr))
      have hg2 : s.run.world.GrowsHashes (s.afterPage storeEnv cfg true).run.world :=
        Store.GrowsHashes.andThenHashes hg1 (Store.growsHashes_wait _)
      obtain ⟨hg3, visited, hv, hset3⟩ := ih _ s' h
        (fun r hr => by rw [hg2.2.1]; exact hsucc r hr)
      rw [afterPage_page, hg2.1] at hv
      rw [himg] at hlen hset1
      refine ⟨hg2.andThenHashes hg3,
        (s.run.world.records.drop s.page).take cfg.PageStride ++ visited, ?_, ?_⟩
      · simp only [visitedRecords, hlen, if_false, hv, Option.map_some']
      · intro r hr
        rcases List.mem_append.mp hr with hr | hr
        · exact hg3.2.2 _ ((Store.growsHashes_wait _).2.2 _ (hset1 r hr))
        · exact hset3 r hr

/-- The inner loop of the missing-only hash job on a page whose records all have a
stored hash: nothing is launched, nothing changes. -/
theorem store_dhashImages_settled (images : List ImageInformation) :
    ∀ s : HashState Store, (∀ r ∈ images, r.ID ∈ s.run.world.hashed) →
      (dhashImages storeEnv true s images).run.world = s.run.world ∧
      (dhashImages storeEnv true s images).processedImages = s.processedImages ∧
      launchedHashes (dhashImages storeEnv true s images).run.trace =
        launchedHashes s.run.trace := by
  induction images with
  | nil => intro s _; exact ⟨rfl, rfl, rfl⟩
  | cons image images ih =>
    intro s hall
    have hh : storeEnv.getImagedHash s.run.world image.ID = true := by
      show s.run.world.hashed.contains image.ID = true
      simpa [List.contains, List.elem_iff] using hall image (List.mem_cons_self _ _)
    unfold dhashImages
    simp only [if_true, hh]
    have c2 : (true == false || !true) = false := rfl
    simp only [c2, Bool.false_eq_true, if_false]
    obtain ⟨h1, h2, h3⟩ := ih { s with run := emit storeEnv s.run (.getImagedHash image.ID true) }
      (fun r hr => hall r (List.mem_cons_of_mem _ hr))
    refine ⟨h1, h2, h3.trans ?_⟩
    simp [emit_trace, launchedHashes, List.filterMap_append]

/-- The page loop of the missing-only hash job on a store with no unit running
and a stored hash for every record of the pages it goes through: it ends, nothing is
launched, nothing changes. -/
theorem store_dhashLoop_settled (cfg : ConfigurationSettings) (w : Store)
    (hp1 : w.pendingThumbs = []) (hp2 : w.pendingHashes = []) (fuel : Nat) :
    ∀ (visited : List ImageInformation) (s : HashState Store), s.run.world = w →
      visitedRecords w.records cfg.PageStride fuel s.page = some visited →
      (∀ r ∈ visited, r.ID ∈ w.hashed) →
      ∃ s', dhashLoop storeEnv cfg true fuel s = (s', true) ∧ s'.run.world = w ∧
        s'.processedImages = s.processedImages ∧
        launchedHashes s'.run.trace = launchedHashes s.run.trace := by
  induction fuel with
  | zero => intro visited s _ hv; cases hv
  | succ fuel ih =>
    intro visited s hs hv hall
    rw [dhashLoop_succ]
    have hfail : (storeEnv.searchImages s.run.world s.page cfg.PageStride).failed = false := rfl
    have himg : (storeEnv.searchImages s.run.world s.page cfg.PageStride).images =
        (w.records.drop s.page).take cfg.PageStride := by rw [hs]; rfl
    have hq : (s.afterQuery storeEnv cfg).run.world = w := hs
    have hqt : launchedHashes (s.afterQuery storeEnv cfg).run.trace =
        launchedHashes s.run.trace := by
      simp [HashState.afterQuery, emit_trace, launchedHashes, List.filterMap_append]
    simp only [hfail, Bool.false_eq_true, if_false]
    by_cases hlen : ((w.records.drop s.page).take cfg.PageStride).length ≤ 0
    · simp only [himg, hlen, if_true]
      exact ⟨_, rfl, hq, rfl, hqt⟩
    · simp only [himg, hlen, if_false]
      simp only [visitedRecords, hlen, if_false, Option.map_eq_some'] at hv
      obtain ⟨rest, hrest, rfl⟩ := hv
      obtain ⟨i1, i2, i3⟩ := store_dhashImages_settled
        ((w.records.drop s.page).take cfg.PageStride) (s.afterQuery storeEnv cfg)
        (fun r hr => by rw [hq]; exact hall r (List.mem_append_left _ hr))
      have hpw : (s.afterPage storeEnv cfg true).run.world = w := by
        show (dhashImages storeEnv true (s.afterQuery storeEnv cfg) _).run.world.effect .wgWait = w
        rw [himg, i1, hq]
        exact Store.effect_wait_idle w hp1 hp2
      have hpp : (s.afterPage storeEnv cfg true).processedImages = s.processedImages := by
        show (dhashImages storeEnv true (s.afterQuery storeEnv cfg) _).processedImages = _
        rw [himg, i2]; rfl
      have hpl : launchedHashes (s.afterPage storeEnv cfg true).run.trace =
          launchedHashes s.run.trace := by
        show launchedHashes (emit storeEnv
          (dhashImages storeEnv true (s.afterQuery storeEnv cfg) _).run .wgWait).trace = _
        rw [emit_trace, launchedHashes_append, himg, i3, hqt]
        simp [launchedHashes]
      obtain ⟨s', h1, h2, h3, h4⟩ := ih rest (s.afterPage storeEnv cfg true) hpw
        (by rw [afterPage_page]; exact hrest)
        (fun r hr => hall r (List.mem_append_right _ hr))
      exact ⟨s', h1, h2, h3.trans hpp, h4.trans hpl⟩

/-- The hash job run twice in missing-only mode on a store: when every unit of the
first run stored its hash, the second run ends as well and launches nothing. -/
theorem store_dhashJob_rerun (cfg : ConfigurationSettings) (w : Store) (fuel : Nat)
    (s1 : HashState Store)
    (h1 : dhashJob storeEnv cfg true fuel ⟨w, []⟩ = .ok s1)
    (hsucc : ∀ r ∈ launchedHashes s1.run.trace, r.Location ∉ w.broken) :
    ∃ s2, dhashJob storeEnv cfg true fuel ⟨s1.run.world, []⟩ = .ok s2 ∧
      s2.processedImages = 0 ∧ launchedHashes s2.run.trace = [] := by
  unfold dhashJob at h1
  cases hloop : dhashLoop storeEnv cfg true fuel ⟨⟨w, []⟩, 0, 0⟩ with
  | mk s done =>
    rw [hloop] at h1
    cases done with
    | false => cases h1
    | true =>
      simp only [] at h1
      injection h1 with h1; subst h1
      obtain ⟨hg, visited, hv, hset⟩ := store_dhashLoop_missing cfg fuel _ s hloop
        (fun r hr => hsucc r (by
          show r ∈ launchedHashes (emit storeEnv s.run .wgWait).trace
          rw [emit_trace, launchedHashes_append]
          exact List.mem_append_left _ hr))
      have hfin := Store.growsHashes_wait s.run.world
      have hrec : (emit storeEnv s.run .wgWait).world.records = w.records :=
        (hg.andThenHashes hfin).1
      obtain ⟨s2, hs2, _, hp2, hl2⟩ := store_dhashLoop_settled cfg
        (emit storeEnv s.run .wgWait).world rfl rfl fuel visited
        ⟨⟨(emit storeEnv s.run .wgWait).world, []⟩, 0, 0⟩ rfl
        (by rw [hrec]; exact hv)
        (fun r hr => by
          rcases hfin.2.2 _ (hset r hr) with h | h
          · exact h
          · cases h)
      refine ⟨{ s2 with run := emit storeEnv s2.run .wgWait }, ?_, hp2, ?_⟩
      · unfold dhashJob
        simp only [hs2]
      · show launchedHashes (emit storeEnv s2.run .wgWait).trace = []
        rw [emit_trace, launchedHashes_append, hl2]
        rfl

/-- C6 as stated fails: on a store with a file the encoder fails on, the second
missing-only run attempts that file again, in the thumbnail job and in the hash
job, with nothing changed between the runs. -/
theorem missingOnly_rerun_attempts_failed_item :
    (∃ s1 s2, thumbsJob storeEnv sampleConfig true ⟨brokenStore, []⟩ = .ok s1 ∧
      thumbsJob storeEnv sampleConfig true ⟨s1.run.world, []⟩ = .ok s2 ∧
      s2.generatedThumbnails = 1 ∧ launchedThumbnails s2.run.trace = ["B"]) ∧
    (∃ s1 s2, dhashJob storeEnv sampleConfig true 3 ⟨brokenStore, []⟩ = .ok s1 ∧
      dhashJob storeEnv sampleConfig true 3 ⟨s1.run.world, []⟩ = .ok s2 ∧
      s2.processedImages = 1 ∧ launchedHashes s2.run.trace = [⟨2, "B"⟩]) :=
  ⟨⟨_, _, rfl, rfl, by decide, by decide⟩, ⟨_, _, rfl, rfl, by decide, by decide⟩⟩

/-- C6, amended: on a store and catalog that change only through the job, a
second missing-only run attempts no item, launches no unit and reports a count of
0, provided every unit the first run launched stored its artifact (the encoder
could read its file); this holds for the thumbnail job and for the hash job. -/
theorem missingOnly_rerun_attempts_nothing_after_success (cfg : ConfigurationSettings)
    (w : Store) (fuel : Nat) :
    (∀ s1, cfg.ImageDirectory = w.imageDirectory → 1 ≤ cfg.PageStride →
      thumbsJob storeEnv cfg true ⟨w, []⟩ = .ok s1 →
      (∀ n ∈ launchedThumbnails s1.run.trace, n ∉ w.broken) →
      ∃ s2, thumbsJob storeEnv cfg true ⟨s1.run.world, []⟩ = .ok s2 ∧
        s2.generatedThumbnails = 0 ∧ launchedThumbnails s2.run.trace = []) ∧
    (∀ s1, dhashJob storeEnv cfg true fuel ⟨w, []⟩ = .ok s1 →
      (∀ r ∈ launchedHashes s1.run.trace, r.Location ∉ w.broken) →
      ∃ s2, dhashJob storeEnv cfg true fuel ⟨s1.run.world, []⟩ = .ok s2 ∧
        s2.processedImages = 0 ∧ launchedHashes s2.run.trace = []) :=
  ⟨fun s1 hdir hstride h1 hsucc => store_thumbsJob_rerun cfg w s1 hdir hstride h1 hsucc,
   fun s1 h1 hsucc => store_dhashJob_rerun cfg w fuel s1 h1 hsucc⟩

/-- The amended C6 on the sample store, whose encoder fails on no file: both jobs
attempt nothing on the second run. -/
theorem missingOnly_rerun_attempts_nothing_after_success_witness :
    (∃ s1 s2, thumbsJob storeEnv sampleConfig true ⟨sampleStore, []⟩ = .ok s1 ∧
      thumbsJob storeEnv sampleConfig true ⟨s1.run.world, []⟩ = .ok s2 ∧
      s2.generatedThumbnails = 0 ∧ launchedThumbnails s2.run.trace = []) ∧
    (∃ s1 s2, dhashJob storeEnv sampleConfig true 3 ⟨sampleStore, []⟩ = .ok s1 ∧
      dhashJob storeEnv sampleConfig true 3 ⟨s1.run.world, []⟩ = .ok s2 ∧
      s2.processedImages = 0 ∧ launchedHashes s2.run.trace = []) :=
  ⟨((missingOnly_rerun_attempts_nothing_after_success sampleConfig sampleStore 3).1 _ rfl
      (by decide) rfl (fun _ _ => List.not_mem_nil _)).elim fun s2 h => ⟨_, s2, rfl, h⟩,
   ((missingOnly_rerun_attempts_nothing_after_success sampleConfig sampleStore 3).2 _ rfl
      (fun _ _ => List.not_mem_nil _)).elim fun s2 h => ⟨_, s2, rfl, h⟩⟩

/-! ## The attempted count is the number of units launched -/

/-- The thumbnail loop never faults for a non-zero stride, and its counter stays
the number of units launched (as a `uint64`). -/
theorem thumbsLoop_count {W : Type} (env : Env W) (cfg : ConfigurationSettings)
    (missingOnly : Bool) (hstride : cfg.PageStride ≠ 0) (files : List FileInfo) :
    ∀ s : ThumbState W,
      s.generatedThumbnails = (launchedThumbnails s.run.trace).length % uint64Size →
      ∃ s', thumbsLoop env cfg missingOnly s files = .ok s' ∧
        s'.generatedThumbnails = (launchedThumbnails s'.run.trace).length % uint64Size := by
  induction files with
  | nil => intro s hs; exact ⟨s, rfl, hs⟩
  | cons file files ih =>
    intro s hs
    by_cases hfile : file.isDir = true
    · obtain ⟨s', h1, h2⟩ := ih s hs
      exact ⟨s', by simp only [thumbsLoop, thumbsStep, hfile, if_true]; exact h1, h2⟩
    · have hfile' : file.isDir = false := by simpa using hfile
      obtain ⟨s1, hs1, hg, ht⟩ := thumbsStep_file env cfg missingOnly s file hstride hfile'
      have hwait : launchedThumbnails
          (if s1.generatedThumbnails % cfg.PageStride = 0 then [Event.wgWait] else []) = [] := by
        split <;> rfl
      have hcount : s1.generatedThumbnails =
          (launchedThumbnails s1.run.trace).length % uint64Size := by
        rw [ht, launchedThumbnails_append, launchedThumbnails_append, launchedThumbnails_append,
          hwait, hg]
        by_cases hgo : (missingOnly == false ||
            env.stat s.run.world (thumbNailPath cfg.ImageDirectory file.name)
              == StatResult.notExist) = true
        · simp only [hgo, if_true, launchedThumbnails, regeneration, List.filterMap_cons,
            List.filterMap_nil, List.length_append, List.length_cons, List.length_nil,
            List.append_nil, Nat.add_zero]
          rw [hs, Nat.mod_add_mod]
          rfl
        · simp only [hgo, Bool.false_eq_true, if_false, launchedThumbnails, List.filterMap_cons,
            List.filterMap_nil, List.append_nil]
          exact hs
      obtain ⟨s', h1, h2⟩ := ih s1 hcount
      exact ⟨s', by simp only [thumbsLoop, hs1]; exact h1, h2⟩

/-- The inner loop of the hash job keeps its counter the number of units launched. -/
theorem dhashImages_count {W : Type} (env : Env W) (missingOnly : Bool)
    (images : List ImageInformation) :
    ∀ s : HashState W,
      s.processedImages = (launchedHashes s.run.trace).length % uint64Size →
      (dhashImages env missingOnly s images).processedImages =
        (launchedHashes (dhashImages env missingOnly s images).run.trace).length
          % uint64Size := by
  induction images with
  | nil => intro s hs; exact hs
  | cons image images ih =>
    intro s hs
    unfold dhashImages
    cases missingOnly with
    | false =>
      simp only [Bool.false_eq_true, if_false, beq_self_eq_true, Bool.true_or, if_true]
      apply ih
      show (s.processedImages + 1) % uint64Size =
        (launchedHashes (s.run.trace ++ [Event.goGeneratedHash image.Location image.ID])).length
          % uint64Size
      rw [launchedHashes_concat, hs, Nat.mod_add_mod]
      simp
    | true =>
      simp only [if_true, Bool.true_eq_false, Bool.false_or, Bool.not_eq_true']
      cases env.getImagedHash s.run.world image.ID with
      | false =>
        apply ih
        show (s.processedImages + 1) % uint64Size =
          (launchedHashes (s.run.trace ++ [Event.getImagedHash image.ID false] ++
            [Event.goGeneratedHash image.Location image.ID])).length % uint64Size
        rw [launchedHashes_concat, launchedHashes_concat, hs, Nat.mod_add_mod]
        simp
      | true =>
        apply ih
        show s.processedImages =
          (launchedHashes (s.run.trace ++ [Event.getImagedHash image.ID true])).length
            % uint64Size
        rw [launchedHashes_concat, hs]
        simp

/-- The page loop of the hash job keeps its counter the number of units launched,
for any number of iterations. -/
theorem dhashLoop_count {W : Type} (env : Env W) (cfg : ConfigurationSettings)
    (missingOnly : Bool) (fuel : Nat) :
    ∀ s : HashState W,
      s.processedImages = (launchedHashes s.run.trace).length % uint64Size →
      (dhashLoop env cfg missingOnly fuel s).1.processedImages =
        (launchedHashes (dhashLoop env cfg missingOnly fuel s).1.run.trace).length
          % uint64Size := by
  induction fuel with
  | zero => intro s hs; exact hs
  | succ fuel ih =>
    intro s hs
    have hq : (s.afterQuery env cfg).processedImages =
        (launchedHashes (s.afterQuery env cfg).run.trace).length % uint64Size := by
      simp only [HashState.afterQuery, emit_trace, launchedHashes_concat, List.append_nil]
      exact hs
    rw [dhashLoop_succ]
    split
    · exact hq
    · split
      · exact hq
      · apply ih
        have := dhashImages_count env missingOnly
          (env.searchImages s.run.world s.page cfg.PageStride).images _ hq
        simp only [HashState.afterPage, emit_trace, launchedHashes_concat, List.append_nil]
        exact this

/-! ## The thumbnail job does not depend on which units fail -/

theorem Store.AgreeThumbs.weaken {V : List String} {w w' : Store} (h : Store.AgreeThumbs V w w')
    (t : String) : Store.AgreeThumbs (t :: V) w w' :=
  ⟨h.1, h.2.1, fun x hx => h.2.2 x (fun hv => hx (List.mem_cons_of_mem _ hv))⟩

theorem Store.AgreeThumbs.hasFile {V : List String} {w w' : Store}
    (h : Store.AgreeThumbs V w w') (name : String) (hname : name ++ ".png" ∉ V) :
    w.hasFile (thumbNailPath w.imageDirectory name) =
      w'.hasFile (thumbNailPath w'.imageDirectory name) := by
  rw [Bool.eq_iff_iff, Store.hasFile_thumbNailPath, Store.hasFile_thumbNailPath,
    ← h.1, ← h.2.1, (h.2.2 _ hname).1]

theorem Store.AgreeThumbs.remove {V : List String} {w w' : Store}
    (h : Store.AgreeThumbs V w w') (path : String) :
    Store.AgreeThumbs V (w.effect (.remove path)) (w'.effect (.remove path)) := by
  obtain ⟨h1, h2, h3⟩ := h
  refine ⟨h1, ?_, fun t ht => ⟨?_, (h3 t ht).2⟩⟩
  · show w.images.filter _ = w'.images.filter _
    rw [h1, h2]
  · show t ∈ w.thumbs.filter _ ↔ t ∈ w'.thumbs.filter _
    simp only [List.mem_filter, Store.thumbsDirectory, h1, (h3 t ht).1]

theorem Store.AgreeThumbs.wait {V : List String} {w w' : Store}
    (h : Store.AgreeThumbs V w w') :
    Store.AgreeThumbs V (w.effect .wgWait) (w'.effect .wgWait) := by
  obtain ⟨h1, h2, h3⟩ := h
  refine ⟨h1, h2, fun t ht => ⟨?_, Iff.rfl⟩⟩
  show t ∈ w.pendingThumbs ++ w.thumbs ↔ t ∈ w'.pendingThumbs ++ w'.thumbs
  rw [List.mem_append, List.mem_append, (h3 t ht).1, (h3 t ht).2]

theorem Store.AgreeThumbs.launch {V : List String} {w w' : Store}
    (h : Store.AgreeThumbs V w w') (name : String) :
    Store.AgreeThumbs ((name ++ ".png") :: V) (w.effect (.goGenerateThumbnail name))
      (w'.effect (.goGenerateThumbnail name)) := by
  obtain ⟨h1, h2, h3⟩ := h
  have key : ∀ x : Store, (x.effect (.goGenerateThumbnail name)).imageDirectory =
      x.imageDirectory ∧ (x.effect (.goGenerateThumbnail name)).images = x.images ∧
      (x.effect (.goGenerateThumbnail name)).thumbs = x.thumbs ∧
      ∀ t, t ≠ name ++ ".png" →
        (t ∈ (x.effect (.goGenerateThumbnail name)).pendingThumbs ↔ t ∈ x.pendingThumbs) := by
    intro x
    simp only [Store.effect]
    split
    · exact ⟨rfl, rfl, rfl, fun _ _ => Iff.rfl⟩
    · refine ⟨rfl, rfl, rfl, fun t ht => ?_⟩
      simp [ht]
  obtain ⟨a1, a2, a3, a4⟩ := key w
  obtain ⟨b1, b2, b3, b4⟩ := key w'
  refine ⟨by rw [a1, b1, h1], by rw [a2, b2, h2], fun t ht => ?_⟩
  have hne : t ≠ name ++ ".png" := fun heq => ht (heq ▸ List.mem_cons_self _ _)
  have hv : t ∉ V := fun hv => ht (List.mem_cons_of_mem _ hv)
  rw [a3, b3, a4 t hne, b4 t hne]
  exact h3 t hv

/-- No event moves the image directory of a store. -/
theorem Store.foldl_effect_imageDirectory (events : List Event) :
    ∀ w : Store, (events.foldl storeEnv.effect w).imageDirectory = w.imageDirectory := by
  induction events with
  | nil => intro w; rfl
  | cons e events ih =>
    intro w
    rw [List.foldl_cons, ih]
    cases e <;> first | rfl | (simp only [storeEnv, Store.effect]; split <;> rfl)

/-- No event changes the catalog of a store. -/
theorem Store.foldl_effect_records (events : List Event) :
    ∀ w : Store, (events.foldl storeEnv.effect w).records = w.records := by
  induction events with
  | nil => intro w; rfl
  | cons e events ih =>
    intro w
    rw [List.foldl_cons, ih]
    cases e <;> first | rfl | (simp only [storeEnv, Store.effect]; split <;> rfl)

/-- One iteration of the thumbnail loop on a regular file and on two stores that
agree apart from the thumbnails of the files already gone through: the same events,
the same count, and the stores agree apart from the thumbnail of this file as
well. -/
theorem store_thumbsStep_agree (cfg : ConfigurationSettings) (missingOnly : Bool)
    (s1 s2 : ThumbState Store) (file : FileInfo) (V : List String)
    (hstride : cfg.PageStride ≠ 0) (hfile : file.isDir = false)
    (hdir : cfg.ImageDirectory = s1.run.world.imageDirectory)
    (hagree : Store.AgreeThumbs V s1.run.world s2.run.world)
    (hcount : s1.generatedThumbnails = s2.generatedThumbnails)
    (hname : file.name ++ ".png" ∉ V) :
    ∃ s1' s2' ext, thumbsStep storeEnv cfg missingOnly s1 file = .ok s1' ∧
      thumbsStep storeEnv cfg missingOnly s2 file = .ok s2' ∧
      s1'.run.trace = s1.run.trace ++ ext ∧ s2'.run.trace = s2.run.trace ++ ext ∧
      s1'.generatedThumbnails = s2'.generatedThumbnails ∧
      Store.AgreeThumbs ((file.name ++ ".png") :: V) s1'.run.world s2'.run.world := by
  obtain ⟨t1, ht1, hg1, htr1⟩ := thumbsStep_file storeEnv cfg missingOnly s1 file hstride hfile
  obtain ⟨t2, ht2, hg2, htr2⟩ := thumbsStep_file storeEnv cfg missingOnly s2 file hstride hfile
  have hw1 := (thumbsStep_extends storeEnv cfg missingOnly s1 t1 file ht1).world_eq _
    (by rw [htr1, List.append_assoc, List.append_assoc])
  have hw2 := (thumbsStep_extends storeEnv cfg missingOnly s2 t2 file ht2).world_eq _
    (by rw [htr2, List.append_assoc, List.append_assoc])
  have hstat : storeEnv.stat s2.run.world (thumbNailPath cfg.ImageDirectory file.name) =
      storeEnv.stat s1.run.world (thumbNailPath cfg.ImageDirectory file.name) := by
    have h := hagree.hasFile file.name hname
    show (if s2.run.world.hasFile _ = true then StatResult.ok else StatResult.notExist) =
      (if s1.run.world.hasFile _ = true then StatResult.ok else StatResult.notExist)
    rw [hdir, h, ← hagree.1]
  rw [hstat, ← hcount] at hg2
  have hgg : t1.generatedThumbnails = t2.generatedThumbnails := hg1.trans hg2.symm
  rw [hstat, ← hgg] at htr2 hw2
  refine ⟨t1, t2, _, ht1, ht2, by rw [htr1, List.append_assoc, List.append_assoc],
    by rw [htr2, List.append_assoc, List.append_assoc], hgg, ?_⟩
  rw [hw1, hw2]
  have hstat1 : ∀ (w : Store) p r, storeEnv.effect w (.stat p r) = w := fun _ _ _ => rfl
  simp only [List.foldl_append, List.foldl_cons, List.foldl_nil, hstat1]
  have hmid : Store.AgreeThumbs ((file.name ++ ".png") :: V)
      (List.foldl storeEnv.effect s1.run.world
        (if (missingOnly == false || storeEnv.stat s1.run.world
            (thumbNailPath cfg.ImageDirectory file.name) == StatResult.notExist) = true
          then regeneration cfg.ImageDirectory file else []))
      (List.foldl storeEnv.effect s2.run.world
        (if (missingOnly == false || storeEnv.stat s1.run.world
            (thumbNailPath cfg.ImageDirectory file.name) == StatResult.notExist) = true
          then regeneration cfg.ImageDirectory file else [])) := by
    by_cases hgo : (missingOnly == false || storeEnv.stat s1.run.world
        (thumbNailPath cfg.ImageDirectory file.name) == StatResult.notExist) = true
    · simp only [hgo, if_true]
      exact (hagree.remove _).launch _
    · simp only [hgo, Bool.false_eq_true, if_false]
      exact hagree.weaken _
  by_cases hz : t1.generatedThumbnails % cfg.PageStride = 0
  · simp only [hz, if_true]
    exact hmid.wait
  · simp only [hz, if_false]
    exact hmid

/-- The thumbnail loop on two stores that agree apart from thumbnails of files not
in the listing, over a listing without repeated file names: the same events and the
same count. -/
theorem store_thumbsLoop_agree (cfg : ConfigurationSettings) (missingOnly : Bool)
    (hstride : cfg.PageStride ≠ 0) (files : List FileInfo) :
    ∀ (s1 s2 : ThumbState Store) (V : List String),
      cfg.ImageDirectory = s1.run.world.imageDirectory →
      Store.AgreeThumbs V s1.run.world s2.run.world →
      s1.generatedThumbnails = s2.generatedThumbnails →
      ((files.filter fun f => !f.isDir).map FileInfo.name).Nodup →
      (∀ f ∈ files, f.isDir = false → f.name ++ ".png" ∉ V) →
      ∃ s1' s2' ext, thumbsLoop storeEnv cfg missingOnly s1 files = .ok s1' ∧
        thumbsLoop storeEnv cfg missingOnly s2 files = .ok s2' ∧
        s1'.run.trace = s1.run.trace ++ ext ∧ s2'.run.trace = s2.run.trace ++ ext ∧
        s1'.generatedThumbnails = s2'.generatedThumbnails := by
  induction files with
  | nil => intro s1 s2 V _ _ hc _ _; exact ⟨s1, s2, [], rfl, rfl, by simp, by simp, hc⟩
  | cons file files ih =>
    intro s1 s2 V hdir hagree hc hnodup hV
    by_cases hfile : file.isDir = true
    · obtain ⟨u1, u2, ext, k1, k2, f1, f2, hg⟩ := ih s1 s2 V hdir hagree hc
        (by simpa [List.filter_cons, hfile] using hnodup)
        (fun f hf => hV f (List.mem_cons_of_mem _ hf))
      exact ⟨u1, u2, ext, by simp only [thumbsLoop, thumbsStep, hfile, if_true]; exact k1,
        by simp only [thumbsLoop, thumbsStep, hfile, if_true]; exact k2, f1, f2, hg⟩
    · have hfile' : file.isDir = false := by simpa using hfile
      obtain ⟨t1, t2, ext, h1, h2, e1, e2, hg, hagree'⟩ := store_thumbsStep_agree cfg
        missingOnly s1 s2 file V hstride hfile' hdir hagree hc
        (hV file (List.mem_cons_self _ _) hfile')
      have hdir' : cfg.ImageDirectory = t1.run.world.imageDirectory := by
        obtain ⟨x, _, hxw, _⟩ := thumbsStep_extends storeEnv cfg missingOnly s1 t1 file h1
        rw [hxw, Store.foldl_effect_imageDirectory, hdir]
      simp only [List.filter_cons, hfile', Bool.not_false, if_true, List.map_cons,
        List.nodup_cons] at hnodup
      obtain ⟨u1, u2, ext', k1, k2, f1, f2, hg'⟩ := ih t1 t2 ((file.name ++ ".png") :: V) hdir'
        hagree' hg hnodup.2 (by
          intro f hf hfd hmem
          rcases List.mem_cons.mp hmem with heq | hmem
          · apply hnodup.1
            rw [← string_append_right_cancel _ _ _ heq]
            exact List.mem_map.mpr ⟨f, List.mem_filter.mpr ⟨hf, by simp [hfd]⟩, rfl⟩
          · exact hV f (List.mem_cons_of_mem _ hf) hfd hmem)
      exact ⟨u1, u2, ext ++ ext', by simp only [thumbsLoop, h1]; exact k1,
        by simp only [thumbsLoop, h2]; exact k2, by rw [f1, e1, List.append_assoc],
        by rw [f2, e2, List.append_assoc], hg'⟩

/-- The thumbnail job on a store does not depend on the files the encoder fails
on: with file names that are not repeated, the events and the count are the same
for any other set of such files. -/
theorem store_thumbsJob_agree (cfg : ConfigurationSettings) (missingOnly : Bool)
    (w : Store) (broken : List String)
    (hdir : cfg.ImageDirectory = w.imageDirectory) (hstride : 1 ≤ cfg.PageStride)
    (hnodup : w.images.Nodup) :
    ∃ s1 s2, thumbsJob storeEnv cfg missingOnly ⟨w, []⟩ = .ok s1 ∧
      thumbsJob storeEnv cfg missingOnly ⟨{ w with broken := broken }, []⟩ = .ok s2 ∧
      s1.run.trace = s2.run.trace ∧
      s1.generatedThumbnails = s2.generatedThumbnails := by
  have hps : cfg.PageStride ≠ 0 := by omega
  have hlist : ∀ w' : Store, w'.imageDirectory = w.imageDirectory → w'.images = w.images →
      storeEnv.readDir w' cfg.ImageDirectory =
        some (w.images.map (fun n => ⟨n, false⟩) ++ [⟨"thumbs", true⟩]) := by
    intro w' h1 h2
    simp [storeEnv, hdir, h1, h2]
  have hfilter : (List.filter (fun f : FileInfo => !f.isDir)
      (w.images.map (fun n => ⟨n, false⟩) ++ [⟨"thumbs", true⟩])).map FileInfo.name
      = w.images := by
    simp [List.filter_append, List.filter_map, Function.comp_def]
  obtain ⟨u1, u2, ext, k1, k2, f1, f2, hg⟩ := store_thumbsLoop_agree cfg missingOnly hps
    (w.images.map (fun n => ⟨n, false⟩) ++ [⟨"thumbs", true⟩])
    { run := emit storeEnv ⟨w, []⟩ (.readDir cfg.ImageDirectory
        (some (w.images.map (fun n => ⟨n, false⟩) ++ [⟨"thumbs", true⟩]))),
      generatedThumbnails := 0 }
    { run := emit storeEnv ⟨{ w with broken := broken }, []⟩ (.readDir cfg.ImageDirectory
        (some (w.images.map (fun n => ⟨n, false⟩) ++ [⟨"thumbs", true⟩]))),
      generatedThumbnails := 0 }
    [] hdir ⟨rfl, rfl, fun _ _ => ⟨Iff.rfl, Iff.rfl⟩⟩ rfl (by rw [hfilter]; exact hnodup)
    (fun _ _ _ h => by cases h)
  refine ⟨{ u1 with run := emit storeEnv u1.run .wgWait },
    { u2 with run := emit storeEnv u2.run .wgWait }, ?_, ?_, ?_, hg⟩
  · simp only [thumbsJob, hlist w rfl rfl, k1]
  · simp only [thumbsJob, hlist { w with broken := broken } rfl rfl, k2]
  · show (emit storeEnv u1.run .wgWait).trace = (emit storeEnv u2.run .wgWait).trace
    rw [emit_trace, emit_trace, f1, f2]
    rfl

/-! ## The hash job does not depend on which units fail -/

theorem Store.AgreeHashes.mono {V V' : List Nat} {w w' : Store}
    (h : Store.AgreeHashes V w w') (hsub : ∀ i, i ∈ V → i ∈ V') : Store.AgreeHashes V' w w' :=
  ⟨h.1, fun i hi => h.2 i (fun hv => hi (hsub i hv))⟩

theorem Store.AgreeHashes.answer {V : List Nat} {w w' : Store}
    (h : Store.AgreeHashes V w w') (imageID : Nat) (hid : imageID ∉ V) :
    storeEnv.getImagedHash w imageID = storeEnv.getImagedHash w' imageID := by
  show w.hashed.contains imageID = w'.hashed.contains imageID
  rw [Bool.eq_iff_iff]
  simp only [List.contains, List.elem_iff]
  exact (h.2 _ hid).1

theorem Store.AgreeHashes.waitHashes {V : List Nat} {w w' : Store}
    (h : Store.AgreeHashes V w w') :
    Store.AgreeHashes V (w.effect .wgWait) (w'.effect .wgWait) := by
  refine ⟨h.1, fun i hi => ⟨?_, Iff.rfl⟩⟩
  show i ∈ w.pendingHashes ++ w.hashed ↔ i ∈ w'.pendingHashes ++ w'.hashed
  rw [List.mem_append, List.mem_append, (h.2 i hi).1, (h.2 i hi).2]

theorem Store.AgreeHashes.launchHash {V : List Nat} {w w' : Store}
    (h : Store.AgreeHashes V w w') (fileName : String) (imageID : Nat) :
    Store.AgreeHashes (imageID :: V) (w.effect (.goGeneratedHash fileName imageID))
      (w'.effect (.goGeneratedHash fileName imageID)) := by
  have key : ∀ x : Store, (x.effect (.goGeneratedHash fileName imageID)).records = x.records ∧
      (x.effect (.goGeneratedHash fileName imageID)).hashed = x.hashed ∧
      ∀ i, i ≠ imageID →
        (i ∈ (x.effect (.goGeneratedHash fileName imageID)).pendingHashes ↔
          i ∈ x.pendingHashes) := by
    intro x
    simp only [Store.effect]
    split
    · exact ⟨rfl, rfl, fun _ _ => Iff.rfl⟩
    · refine ⟨rfl, rfl, fun i hi => ?_⟩
      simp [hi]
  obtain ⟨a1, a2, a3⟩ := key w
  obtain ⟨b1, b2, b3⟩ := key w'
  refine ⟨by rw [a1, b1, h.1], fun i hi => ?_⟩
  have hne : i ≠ imageID := fun heq => hi (heq ▸ List.mem_cons_self _ _)
  have hv : i ∉ V := fun hv => hi (List.mem_cons_of_mem _ hv)
  rw [a2, b2, a3 i hne, b3 i hne]
  exact h.2 i hv

/-- The inner loop of the hash job on two stores that agree apart from the hashes
of the records already gone through, over a page without repeated records: the same
events, the same count, and the stores agree apart from the hashes of this page as
well. -/
theorem store_dhashImages_agree (missingOnly : Bool) (images : List ImageInformation) :
    ∀ (s1 s2 : HashState Store) (V : List Nat),
      Store.AgreeHashes V s1.run.world s2.run.world →
      s1.processedImages = s2.processedImages →
      (images.map ImageInformation.ID).Nodup → (∀ r ∈ images, r.ID ∉ V) →
      ∃ ext, (dhashImages storeEnv missingOnly s1 images).run.trace = s1.run.trace ++ ext ∧
        (dhashImages storeEnv missingOnly s2 images).run.trace = s2.run.trace ++ ext ∧
        (dhashImages storeEnv missingOnly s1 images).processedImages =
          (dhashImages storeEnv missingOnly s2 images).processedImages ∧
        Store.AgreeHashes (images.map ImageInformation.ID ++ V)
          (dhashImages storeEnv missingOnly s1 images).run.world
          (dhashImages storeEnv missingOnly s2 images).run.world := by
  induction images with
  | nil => intro s1 s2 V h hc _ _; exact ⟨[], by simp [dhashImages], by simp [dhashImages], hc, h⟩
  | cons image images ih =>
    intro s1 s2 V hagree hc hnodup hV
    simp only [List.map_cons, List.nodup_cons] at hnodup
    have hrest : ∀ r ∈ images, r.ID ∉ image.ID :: V := by
      intro r hr hmem
      rcases List.mem_cons.mp hmem with heq | hmem
      · exact hnodup.1 (heq ▸ List.mem_map.mpr ⟨r, hr, rfl⟩)
      · exact hV r (List.mem_cons_of_mem _ hr) hmem
    have hmono : ∀ {a b : Store},
        Store.AgreeHashes (images.map ImageInformation.ID ++ image.ID :: V) a b →
        Store.AgreeHashes ((image :: images).map ImageInformation.ID ++ V) a b :=
      fun h => h.mono (fun i hi => by
        simp only [List.map_cons, List.cons_append, List.mem_cons, List.mem_append] at hi ⊢
        tauto)
    have hget : ∀ b, Store.AgreeHashes V
        (emit storeEnv s1.run (.getImagedHash image.ID b)).world
        (emit storeEnv s2.run (.getImagedHash image.ID b)).world := fun _ => hagree
    unfold dhashImages
    cases missingOnly with
    | false =>
      simp only [Bool.false_eq_true, if_false, beq_self_eq_true, Bool.true_or, if_true]
      obtain ⟨ext, e1, e2, e3, e4⟩ := ih
        { run := emit storeEnv s1.run (.goGeneratedHash image.Location image.ID),
          page := s1.page, processedImages := (s1.processedImages + 1) % uint64Size }
        { run := emit storeEnv s2.run (.goGeneratedHash image.Location image.ID),
          page := s2.page, processedImages := (s2.processedImages + 1) % uint64Size }
        (image.ID :: V) (hagree.launchHash _ _) (by simp only [hc]) hnodup.2 hrest
      exact ⟨[.goGeneratedHash image.Location image.ID] ++ ext,
        by rw [e1, emit_trace, List.append_assoc], by rw [e2, emit_trace, List.append_assoc],
        e3, hmono e4⟩
    | true =>
      simp only [if_true]
      rw [← hagree.answer image.ID (hV image (List.mem_cons_self _ _))]
      cases hh : storeEnv.getImagedHash s1.run.world image.ID with
      | false =>
        have c1 : (true == false || !false) = true := rfl
        simp only [c1, if_true]
        obtain ⟨ext, e1, e2, e3, e4⟩ := ih
          { run := emit storeEnv (emit storeEnv s1.run (.getImagedHash image.ID false))
              (.goGeneratedHash image.Location image.ID),
            page := s1.page, processedImages := (s1.processedImages + 1) % uint64Size }
          { run := emit storeEnv (emit storeEnv s2.run (.getImagedHash image.ID false))
              (.goGeneratedHash image.Location image.ID),
            page := s2.page, processedImages := (s2.processedImages + 1) % uint64Size }
          (image.ID :: V) ((hget false).launchHash _ _) (by simp only [hc]) hnodup.2 hrest
        exact ⟨[.getImagedHash image.ID false, .goGeneratedHash image.Location image.ID] ++ ext,
          by rw [e1]; simp [emit_trace], by rw [e2]; simp [emit_trace], e3, hmono e4⟩
      | true =>
        have c2 : (true == false || !true) = false := rfl
        simp only [c2, Bool.false_eq_true, if_false]
        obtain ⟨ext, e1, e2, e3, e4⟩ := ih
          { s1 with run := emit storeEnv s1.run (.getImagedHash image.ID true) }
          { s2 with run := emit storeEnv s2.run (.getImagedHash image.ID true) }
          (image.ID :: V) ((hget true).mono (fun i hi => List.mem_cons_of_mem _ hi)) hc
          hnodup.2 hrest
        exact ⟨[.getImagedHash image.ID true] ++ ext,
          by rw [e1]; simp [emit_trace], by rw [e2]; simp [emit_trace], e3, hmono e4⟩

/-- A full iteration of the page loop leaves the catalog of a store as it is. -/
theorem store_afterPage_records (cfg : ConfigurationSettings) (missingOnly : Bool)
    (s : HashState Store) :
    (s.afterPage storeEnv cfg missingOnly).run.world.records = s.run.world.records := by
  obtain ⟨ext, _, hw, _⟩ := afterPage_extends storeEnv cfg missingOnly s
  rw [hw, Store.foldl_effect_records]
  rfl

/-- Whether the page loop on a store ends within its fuel depends on the catalog
only. -/
theorem store_dhashLoop_ends (cfg : ConfigurationSettings) (missingOnly : Bool) (fuel : Nat) :
    ∀ s : HashState Store, (dhashLoop storeEnv cfg missingOnly fuel s).2 =
      (visitedRecords s.run.world.records cfg.PageStride fuel s.page).isSome := by
  induction fuel with
  | zero => intro s; rfl
  | succ fuel ih =>
    intro s
    rw [dhashLoop_succ]
    have hfail : (storeEnv.searchImages s.run.world s.page cfg.PageStride).failed = false := rfl
    have himg : (storeEnv.searchImages s.run.world s.page cfg.PageStride).images =
        (s.run.world.records.drop s.page).take cfg.PageStride := rfl
    simp only [hfail, Bool.false_eq_true, if_false, himg, visitedRecords]
    by_cases hlen : ((s.run.world.records.drop s.page).take cfg.PageStride).length ≤ 0
    · simp only [hlen, if_true, Option.isSome_some]
    · simp only [hlen, if_false, Option.isSome_map']
      rw [ih, store_afterPage_records, afterPage_page]

/-- The page loop of the hash job on two stores that agree apart from the hashes of
records it will not meet, when no record is met twice: the loop ends on both with
the same events and the same count. -/
theorem store_dhashLoop_agree (cfg : ConfigurationSettings) (missingOnly : Bool)
    (fuel : Nat) :
    ∀ (s1 s2 : HashState Store) (V : List Nat) (visited : List ImageInformation),
      Store.AgreeHashes V s1.run.world s2.run.world →
      s1.processedImages = s2.processedImages → s1.page = s2.page →
      visitedRecords s1.run.world.records cfg.PageStride fuel s1.page = some visited →
      (visited.map ImageInformation.ID).Nodup → (∀ r ∈ visited, r.ID ∉ V) →
      ∃ s1' s2' ext, dhashLoop storeEnv cfg missingOnly fuel s1 = (s1', true) ∧
        dhashLoop storeEnv cfg missingOnly fuel s2 = (s2', true) ∧
        s1'.run.trace = s1.run.trace ++ ext ∧ s2'.run.trace = s2.run.trace ++ ext ∧
        s1'.processedImages = s2'.processedImages := by
  induction fuel with
  | zero => intro s1 s2 V visited _ _ _ hv; cases hv
  | succ fuel ih =>
    intro s1 s2 V visited hagree hc hpage hv hnodup hV
    have hfail : ∀ s : HashState Store,
        (storeEnv.searchImages s.run.world s.page cfg.PageStride).failed = false :=
      fun _ => rfl
    have hres : storeEnv.searchImages s2.run.world s2.page cfg.PageStride =
        storeEnv.searchImages s1.run.world s1.page cfg.PageStride := by
      show (⟨_, _, false⟩ : SearchResult) = ⟨_, _, false⟩
      rw [← hagree.1, hpage]
    have himg : (storeEnv.searchImages s1.run.world s1.page cfg.PageStride).images =
        (s1.run.world.records.drop s1.page).take cfg.PageStride := rfl
    have hq1 : (s1.afterQuery storeEnv cfg).run.trace = s1.run.trace ++
        [.searchImages s1.page cfg.PageStride
          (storeEnv.searchImages s1.run.world s1.page cfg.PageStride)] := rfl
    have hq2 : (s2.afterQuery storeEnv cfg).run.trace = s2.run.trace ++
        [.searchImages s1.page cfg.PageStride
          (storeEnv.searchImages s1.run.world s1.page cfg.PageStride)] := by
      show s2.run.trace ++ [.searchImages s2.page cfg.PageStride
          (storeEnv.searchImages s2.run.world s2.page cfg.PageStride)] = _
      rw [hres, hpage]
    rw [dhashLoop_succ, dhashLoop_succ]
    simp only [hfail, Bool.false_eq_true, if_false, hres]
    simp only [visitedRecords] at hv
    by_cases hlen : ((s1.run.world.records.drop s1.page).take cfg.PageStride).length ≤ 0
    · simp only [himg, hlen, if_true]
      exact ⟨_, _, _, rfl, rfl, hq1, hq2, hc⟩
    · simp only [himg, hlen, if_false]
      simp only [hlen, if_false, Option.map_eq_some'] at hv
      obtain ⟨rest, hrest, rfl⟩ := hv
      simp only [List.map_append] at hnodup
      have hnd := List.nodup_append.mp hnodup
      obtain ⟨ext, e1, e2, e3, e4⟩ := store_dhashImages_agree missingOnly
        ((s1.run.world.records.drop s1.page).take cfg.PageStride)
        (s1.afterQuery storeEnv cfg) (s2.afterQuery storeEnv cfg) V hagree hc hnd.1
        (fun r hr => hV r (List.mem_append_left _ hr))
      have hw1 : (s1.afterPage storeEnv cfg missingOnly).run.world =
          (dhashImages storeEnv missingOnly (s1.afterQuery storeEnv cfg)
            ((s1.run.world.records.drop s1.page).take cfg.PageStride)).run.world.effect
            .wgWait := rfl
      have hw2 : (s2.afterPage storeEnv cfg missingOnly).run.world =
          (dhashImages storeEnv missingOnly (s2.afterQuery storeEnv cfg)
            ((s1.run.world.records.drop s1.page).take cfg.PageStride)).run.world.effect
            .wgWait := by
        show (dhashImages storeEnv missingOnly (s2.afterQuery storeEnv cfg)
          (storeEnv.searchImages s2.run.world s2.page cfg.PageStride).images).run.world.effect
            .wgWait = _
        rw [hres]
        rfl
      have hp2 : (s2.afterPage storeEnv cfg missingOnly).processedImages =
          (dhashImages storeEnv missingOnly (s2.afterQuery storeEnv cfg)
            ((s1.run.world.records.drop s1.page).take cfg.PageStride)).processedImages := by
        show (dhashImages storeEnv missingOnly (s2.afterQuery storeEnv cfg)
          (storeEnv.searchImages s2.run.world s2.page cfg.PageStride).images).processedImages
            = _
        rw [hres]
        rfl
      have ht2 : (s2.afterPage storeEnv cfg missingOnly).run.trace =
          (dhashImages storeEnv missingOnly (s2.afterQuery storeEnv cfg)
            ((s1.run.world.records.drop s1.page).take cfg.PageStride)).run.trace ++
            [.wgWait] := by
        show (dhashImages storeEnv missingOnly (s2.afterQuery storeEnv cfg)
          (storeEnv.searchImages s2.run.world s2.page cfg.PageStride).images).run.trace ++
            [.wgWait] = _
        rw [hres]
        rfl
      obtain ⟨u1, u2, ext', k1, k2, f1, f2, hg⟩ := ih
        (s1.afterPage storeEnv cfg missingOnly) (s2.afterPage storeEnv cfg missingOnly)
        (((s1.run.world.records.drop s1.page).take cfg.PageStride).map ImageInformation.ID ++ V)
        rest
        (by rw [hw1, hw2]; exact e4.waitHashes)
        (by rw [hp2]; exact e3)
        (by rw [afterPage_page, afterPage_page, hpage])
        (by rw [store_afterPage_records, afterPage_page]; exact hrest)
        hnd.2.1
        (by
          intro r hr hmem
          rcases List.mem_append.mp hmem with hmem | hmem
          · exact hnd.2.2 hmem (List.mem_map.mpr ⟨r, hr, rfl⟩)
          · exact hV r (List.mem_append_right _ hr) hmem)
      refine ⟨u1, u2, [.searchImages s1.page cfg.PageStride
          (storeEnv.searchImages s1.run.world s1.page cfg.PageStride)] ++ ext ++ [.wgWait] ++ ext',
        k1, k2, ?_, ?_, hg⟩
      · have ht1 : (s1.afterPage storeEnv cfg missingOnly).run.trace =
            (dhashImages storeEnv missingOnly (s1.afterQuery storeEnv cfg)
              ((s1.run.world.records.drop s1.page).take cfg.PageStride)).run.trace ++
              [.wgWait] := rfl
        rw [f1, ht1, e1, hq1]
        simp
      · rw [f2, ht2, e2, hq2]
        simp


/-- A catalog that does not change hands the hash job all its records from the
offset on, once the fuel outlasts them and the offsets stay below 2^64. -/
theorem visitedRecords_all (records : List ImageInformation) (stride : Nat)
    (hstride : 1 ≤ stride) (hlen : records.length + stride ≤ uint64Size) :
    ∀ fuel page, records.length ≤ page + fuel →
      visitedRecords records stride (fuel + 1) page = some (records.drop page) := by
  intro fuel
  induction fuel with
  | zero =>
    intro page h
    have : records.drop page = [] := List.drop_eq_nil_of_le (by omega)
    simp [visitedRecords, this]
  | succ fuel ih =>
    intro page h
    by_cases hp : records.length ≤ page
    · have : records.drop page = [] := List.drop_eq_nil_of_le hp
      simp [visitedRecords, this]
    · have hne : ¬ ((records.drop page).take stride).length ≤ 0 := by
        simp only [List.length_take, List.length_drop]
        omega
      have hmod : (page + stride) % uint64Size = page + stride :=
        Nat.mod_eq_of_lt (by omega)
      rw [visitedRecords]
      simp only [hne, if_false, hmod]
      rw [ih (page + stride) (by omega)]
      simp only [Option.map_some', Option.some.injEq]
      rw [← List.drop_drop, List.take_append_drop]

/-- The thumbnail loop launches at most one unit per regular file. -/
theorem thumbsLoop_launched_le {W : Type} (env : Env W) (cfg : ConfigurationSettings)
    (missingOnly : Bool) (hstride : cfg.PageStride ≠ 0) (files : List FileInfo) :
    ∀ s s' : ThumbState W, thumbsLoop env cfg missingOnly s files = .ok s' →
      (launchedThumbnails s'.run.trace).length ≤
        (launchedThumbnails s.run.trace).length +
          (files.filter fun f => !f.isDir).length := by
  induction files with
  | nil =>
    intro s s' h
    simp only [thumbsLoop, Except.ok.injEq] at h
    subst h
    simp
  | cons file files ih =>
    intro s s' h
    by_cases hfile : file.isDir = true
    · have h' : thumbsLoop env cfg missingOnly s files = .ok s' := by
        simpa only [thumbsLoop, thumbsStep, hfile, if_true] using h
      have := ih s s' h'
      simpa [List.filter_cons, hfile] using this
    · have hfile' : file.isDir = false := by simpa using hfile
      obtain ⟨s1, hs1, _, ht⟩ := thumbsStep_file env cfg missingOnly s file hstride hfile'
      have h' : thumbsLoop env cfg missingOnly s1 files = .ok s' := by
        simpa only [thumbsLoop, hs1] using h
      have h1 := ih s1 s' h'
      have h2 : (launchedThumbnails s1.run.trace).length ≤
          (launchedThumbnails s.run.trace).length + 1 := by
        rw [ht]
        simp only [launchedThumbnails_append, List.length_append]
        have a1 : (launchedThumbnails [Event.stat (thumbNailPath cfg.ImageDirectory file.name)
            (env.stat s.run.world (thumbNailPath cfg.ImageDirectory file.name))]).length = 0 :=
          rfl
        have a2 : (launchedThumbnails
            (if s1.generatedThumbnails % cfg.PageStride = 0 then [Event.wgWait] else [])).length
              = 0 := by
          split <;> rfl
        have a3 : (launchedThumbnails
            (if (missingOnly == false ||
              env.stat s.run.world (thumbNailPath cfg.ImageDirectory file.name)
                == StatResult.notExist) = true
            then regeneration cfg.ImageDirectory file else [])).length ≤ 1 := by
          split
          · exact Nat.le_of_eq rfl
          · exact Nat.zero_le 1
        omega
      simp only [List.filter_cons, hfile', Bool.not_false, if_true, List.length_cons]
      omega

/-- The hash loop on a store launches at most one unit per record it is handed. -/
theorem store_dhashLoop_launched_le (cfg : ConfigurationSettings) (missingOnly : Bool)
    (fuel : Nat) :
    ∀ (s : HashState Store) (visited : List ImageInformation),
      visitedRecords s.run.world.records cfg.PageStride fuel s.page = some visited →
      (launchedHashes (dhashLoop storeEnv cfg missingOnly fuel s).1.run.trace).length ≤
        (launchedHashes s.run.trace).length + visited.length := by
  induction fuel with
  | zero => intro s visited hv; cases hv
  | succ fuel ih =>
    intro s visited hv
    have hfail : (storeEnv.searchImages s.run.world s.page cfg.PageStride).failed = false := rfl
    have himg : (storeEnv.searchImages s.run.world s.page cfg.PageStride).images =
        (s.run.world.records.drop s.page).take cfg.PageStride := rfl
    have hq : launchedHashes (s.afterQuery storeEnv cfg).run.trace =
        launchedHashes s.run.trace := by
      simp only [HashState.afterQuery, emit_trace, launchedHashes_append]
      exact List.append_nil _
    rw [dhashLoop_succ]
    simp only [hfail, Bool.false_eq_true, if_false, himg]
    simp only [visitedRecords] at hv
    by_cases hlen : ((s.run.world.records.drop s.page).take cfg.PageStride).length ≤ 0
    · simp only [hlen, if_true]
      rw [hq]
      omega
    · simp only [hlen, if_false, Option.map_eq_some'] at hv
      obtain ⟨rest, hrest, rfl⟩ := hv
      simp only [hlen, if_false]
      have h1 := ih (s.afterPage storeEnv cfg missingOnly) rest
        (by rw [store_afterPage_records, afterPage_page]; exact hrest)
      obtain ⟨launched, hsub, hl, _⟩ := dhashImages_launches storeEnv missingOnly
        ((s.run.world.records.drop s.page).take cfg.PageStride) (s.afterQuery storeEnv cfg)
      have h2 : launchedHashes (s.afterPage storeEnv cfg missingOnly).run.trace =
          launchedHashes s.run.trace ++ launched := by
        show launchedHashes ((dhashImages storeEnv missingOnly (s.afterQuery storeEnv cfg)
          ((s.run.world.records.drop s.page).take cfg.PageStride)).run.trace ++ [.wgWait]) = _
        rw [launchedHashes_append, hl, hq]
        exact List.append_nil _
      rw [h2] at h1
      have h3 := hsub.length_le
      simp only [List.length_append] at h1 ⊢
      omega


/-- The thumbnail job returns for every non-zero stride, whatever the listing, the
stat answers and the effects of its units; its count is the number of units it
launched (as a `uint64`), at most one per regular file of the listing. -/
theorem thumbsJob_count {W : Type} (env : Env W) (cfg : ConfigurationSettings)
    (missingOnly : Bool) (hstride : cfg.PageStride ≠ 0) (w : W) :
    ∃ s, thumbsJob env cfg missingOnly ⟨w, []⟩ = .ok s ∧
      s.generatedThumbnails = (launchedThumbnails s.run.trace).length % uint64Size ∧
      ∀ files, env.readDir w cfg.ImageDirectory = some files →
        (launchedThumbnails s.run.trace).length ≤ (files.filter fun f => !f.isDir).length := by
  unfold thumbsJob
  cases hfiles : env.readDir w cfg.ImageDirectory with
  | none =>
    refine ⟨_, rfl, rfl, ?_⟩
    intro files h
    cases h
  | some files =>
    obtain ⟨s', hs', hc⟩ := thumbsLoop_count env cfg missingOnly hstride files
      { run := emit env ⟨w, []⟩ (.readDir cfg.ImageDirectory (some files)),
        generatedThumbnails := 0 } rfl
    have hle := thumbsLoop_launched_le env cfg missingOnly hstride files _ s' hs'
    have hw : launchedThumbnails (emit env s'.run .wgWait).trace =
        launchedThumbnails s'.run.trace := by
      rw [emit_trace, launchedThumbnails_append]
      exact List.append_nil _
    refine ⟨{ s' with run := emit env s'.run .wgWait }, ?_, ?_, ?_⟩
    · simp only [hs']
    · show s'.generatedThumbnails = _
      rw [hw]
      exact hc
    · intro files' h
      cases h
      show (launchedThumbnails (emit env s'.run .wgWait).trace).length ≤ _
      rw [hw]
      have h0 : (launchedThumbnails (emit env (⟨w, []⟩ : Run W)
          (.readDir cfg.ImageDirectory (some files))).trace).length = 0 := rfl
      simp only [h0] at hle
      omega

/-- The hash job counts the units it launched (as a `uint64`), at every point of
the page loop and on completion, whatever the catalog answers. -/
theorem dhashJob_count {W : Type} (env : Env W) (cfg : ConfigurationSettings)
    (missingOnly : Bool) (fuel : Nat) (w : W) :
    (dhashLoop env cfg missingOnly fuel ⟨⟨w, []⟩, 0, 0⟩).1.processedImages =
        (launchedHashes (dhashLoop env cfg missingOnly fuel ⟨⟨w, []⟩, 0, 0⟩).1.run.trace).length
          % uint64Size ∧
    ∀ s, dhashJob env cfg missingOnly fuel ⟨w, []⟩ = .ok s →
      s.processedImages = (launchedHashes s.run.trace).length % uint64Size := by
  have h := dhashLoop_count env cfg missingOnly fuel ⟨⟨w, []⟩, 0, 0⟩ rfl
  refine ⟨h, ?_⟩
  intro s hs
  unfold dhashJob at hs
  generalize dhashLoop env cfg missingOnly fuel ⟨⟨w, []⟩, 0, 0⟩ = res at h hs
  obtain ⟨u, b⟩ := res
  cases b with
  | false => cases hs
  | true =>
    simp only [Except.ok.injEq] at hs
    subst hs
    show u.processedImages = (launchedHashes (u.run.trace ++ [.wgWait])).length % uint64Size
    rw [launchedHashes_append]
    simpa [launchedHashes] using h

/-- The hash job on a store whose records have distinct IDs, with fuel for all its
pages: it returns, and the events and the count are those of the same store with
any other set of files the encoder fails on; the count is the number of units
launched. -/
theorem store_dhashJob_agree (cfg : ConfigurationSettings) (missingOnly : Bool)
    (w : Store) (broken : List String) (fuel : Nat) (hstride : 1 ≤ cfg.PageStride)
    (hnodup : (w.records.map ImageInformation.ID).Nodup)
    (hlen : w.records.length + cfg.PageStride ≤ uint64Size) (hfuel : w.records.length < fuel) :
    ∃ s1 s2, dhashJob storeEnv cfg missingOnly fuel ⟨w, []⟩ = .ok s1 ∧
      dhashJob storeEnv cfg missingOnly fuel ⟨{ w with broken := broken }, []⟩ = .ok s2 ∧
      s1.run.trace = s2.run.trace ∧
      s1.processedImages = s2.processedImages ∧
      s1.processedImages = (launchedHashes s1.run.trace).length := by
  obtain ⟨fuel, rfl⟩ : ∃ f, fuel = f + 1 := ⟨fuel - 1, by omega⟩
  have hv : visitedRecords w.records cfg.PageStride (fuel + 1) 0 = some w.records := by
    have := visitedRecords_all w.records cfg.PageStride hstride hlen fuel 0 (by omega)
    simpa using this
  obtain ⟨u1, u2, ext, k1, k2, f1, f2, hg⟩ := store_dhashLoop_agree cfg missingOnly (fuel + 1)
    ⟨⟨w, []⟩, 0, 0⟩ ⟨⟨{ w with broken := broken }, []⟩, 0, 0⟩ [] w.records
    ⟨rfl, fun _ _ => ⟨Iff.rfl, Iff.rfl⟩⟩ rfl rfl hv hnodup (fun _ _ => List.not_mem_nil _)
  have hle := store_dhashLoop_launched_le cfg missingOnly (fuel + 1) ⟨⟨w, []⟩, 0, 0⟩
    w.records hv
  have hc := dhashLoop_count storeEnv cfg missingOnly (fuel + 1) ⟨⟨w, []⟩, 0, 0⟩ rfl
  have h0 : (launchedHashes ([] : List Event)).length = 0 := rfl
  simp only [k1, h0, Nat.zero_add] at hle hc
  refine ⟨{ u1 with run := emit storeEnv u1.run .wgWait },
    { u2 with run := emit storeEnv u2.run .wgWait }, ?_, ?_, ?_, hg, ?_⟩
  · simp only [dhashJob, k1]
  · simp only [dhashJob, k2]
  · show u1.run.trace ++ [Event.wgWait] = u2.run.trace ++ [Event.wgWait]
    rw [f1, f2]
  · show u1.processedImages = (launchedHashes (u1.run.trace ++ [.wgWait])).length
    rw [launchedHashes_append, hc]
    have : launchedHashes [Event.wgWait] = [] := rfl
    rw [this, List.append_nil]
    exact Nat.mod_eq_of_lt (by omega)

/-- C8: a failing unit never aborts a batch job and is still counted.  On a store
whose listing has distinct file names and whose catalog has distinct record IDs,
for every listing and every catalog (with fuel for all its pages), both jobs
return; the events of the run (so the units launched, in order) and the reported
count are the same for every other set `broken` of files the encoder of the units
fails on; and the count is the number of units launched.  For any environment
whatsoever the thumbnail job returns and both jobs count the units they launched
as a `uint64`, the hash job after any number of pages too. -/
theorem batch_jobs_count_every_launched_unit (cfg : ConfigurationSettings)
    (missingOnly : Bool) (w : Store) (broken : List String) (fuel : Nat)
    (hdir : cfg.ImageDirectory = w.imageDirectory) (hstride : 1 ≤ cfg.PageStride)
    (himages : w.images.Nodup) (hcount : w.images.length < uint64Size)
    (hrecords : (w.records.map ImageInformation.ID).Nodup)
    (hlen : w.records.length + cfg.PageStride ≤ uint64Size)
    (hfuel : w.records.length < fuel) :
    (∃ s1 s2, thumbsJob storeEnv cfg missingOnly ⟨w, []⟩ = .ok s1 ∧
      thumbsJob storeEnv cfg missingOnly ⟨{ w with broken := broken }, []⟩ = .ok s2 ∧
      s1.run.trace = s2.run.trace ∧
      launchedThumbnails s1.run.trace = launchedThumbnails s2.run.trace ∧
      s1.generatedThumbnails = s2.generatedThumbnails ∧
      s1.generatedThumbnails = (launchedThumbnails s1.run.trace).length) ∧
    (∃ s1 s2, dhashJob storeEnv cfg missingOnly fuel ⟨w, []⟩ = .ok s1 ∧
      dhashJob storeEnv cfg missingOnly fuel ⟨{ w with broken := broken }, []⟩ = .ok s2 ∧
      s1.run.trace = s2.run.trace ∧
      launchedHashes s1.run.trace = launchedHashes s2.run.trace ∧
      s1.processedImages = s2.processedImages ∧
      s1.processedImages = (launchedHashes s1.run.trace).length) ∧
    (∀ (W : Type) (env : Env W) (r : W),
      ∃ s, thumbsJob env cfg missingOnly ⟨r, []⟩ = .ok s ∧
        s.generatedThumbnails = (launchedThumbnails s.run.trace).length % uint64Size) ∧
    (∀ (W : Type) (env : Env W) (r : W) (pages : Nat),
      (dhashLoop env cfg missingOnly pages ⟨⟨r, []⟩, 0, 0⟩).1.processedImages =
        (launchedHashes
          (dhashLoop env cfg missingOnly pages ⟨⟨r, []⟩, 0, 0⟩).1.run.trace).length
          % uint64Size ∧
      ∀ s, dhashJob env cfg missingOnly pages ⟨r, []⟩ = .ok s →
        s.processedImages = (launchedHashes s.run.trace).length % uint64Size) := by
  have hps : cfg.PageStride ≠ 0 := by omega
  refine ⟨?_, ?_, ?_, ?_⟩
  · obtain ⟨s1, s2, h1, h2, ht, hg⟩ :=
      store_thumbsJob_agree cfg missingOnly w broken hdir hstride himages
    obtain ⟨s, hs, hc, hb⟩ := thumbsJob_count storeEnv cfg missingOnly hps w
    have hs1 : s = s1 := by
      rw [hs] at h1
      exact Except.ok.inj h1
    subst hs1
    have hle := hb (w.images.map (fun n => ⟨n, false⟩) ++ [⟨"thumbs", true⟩])
      (by simp [storeEnv, hdir])
    have hfilter : (List.filter (fun f : FileInfo => !f.isDir)
        (w.images.map (fun n => ⟨n, false⟩) ++ [⟨"thumbs", true⟩])).length
        = w.images.length := by
      simp [List.filter_append, List.filter_map, Function.comp_def]
    rw [hfilter] at hle
    refine ⟨s, s2, hs, h2, ht, by rw [ht], hg, ?_⟩
    rw [hc]
    exact Nat.mod_eq_of_lt (by omega)
  · obtain ⟨s1, s2, h1, h2, ht, hg, hc⟩ :=
      store_dhashJob_agree cfg missingOnly w broken fuel hstride hrecords hlen hfuel
    exact ⟨s1, s2, h1, h2, ht, by rw [ht], hg, hc⟩
  · intro W env r
    obtain ⟨s, hs, hc, _⟩ := thumbsJob_count env cfg missingOnly hps r
    exact ⟨s, hs, hc⟩
  · intro W env r pages
    exact dhashJob_count env cfg missingOnly pages r

/-- C8 on the sample store with two records, once with an encoder that fails on
the file `B` and once with one that fails on no file: the same three thumbnail
units and the same two hash units are launched and counted. -/
theorem batch_jobs_count_every_launched_unit_witness :
    (∃ s1 s2, thumbsJob storeEnv sampleConfig true ⟨brokenStore, []⟩ = .ok s1 ∧
      thumbsJob storeEnv sampleConfig true ⟨{ brokenStore with broken := [] }, []⟩ = .ok s2 ∧
      launchedThumbnails s1.run.trace = ["A", "B", "C"] ∧
      launchedThumbnails s2.run.trace = ["A", "B", "C"] ∧
      s1.generatedThumbnails = 3 ∧ s2.generatedThumbnails = 3) ∧
    (∃ s1 s2, dhashJob storeEnv sampleConfig true 3 ⟨brokenStore, []⟩ = .ok s1 ∧
      dhashJob storeEnv sampleConfig true 3 ⟨{ brokenStore with broken := [] }, []⟩ = .ok s2 ∧
      launchedHashes s1.run.trace = [⟨1, "A"⟩, ⟨2, "B"⟩] ∧
      launchedHashes s2.run.trace = [⟨1, "A"⟩, ⟨2, "B"⟩] ∧
      s1.processedImages = 2 ∧ s2.processedImages = 2) := by
  have h := batch_jobs_count_every_launched_unit sampleConfig true brokenStore [] 3 rfl
    (by decide) (by decide) (by unfold uint64Size; decide) (by decide)
    (by unfold uint64Size; decide) (by decide)
  obtain ⟨⟨s1, s2, h1, h2, _, hl, hg, _⟩, ⟨u1, u2, k1, k2, _, kl, kg, _⟩, _, _⟩ := h
  have c1 : ∃ s, thumbsJob storeEnv sampleConfig true ⟨brokenStore, []⟩ = .ok s ∧
      launchedThumbnails s.run.trace = ["A", "B", "C"] ∧ s.generatedThumbnails = 3 :=
    ⟨_, rfl, by decide, by decide⟩
  have c2 : ∃ s, dhashJob storeEnv sampleConfig true 3 ⟨brokenStore, []⟩ = .ok s ∧
      launchedHashes s.run.trace = [⟨1, "A"⟩, ⟨2, "B"⟩] ∧ s.processedImages = 2 :=
    ⟨_, rfl, by decide, by decide⟩
  obtain ⟨s, hs, a1, a2⟩ := c1
  obtain ⟨u, hu, b1, b2⟩ := c2
  have e1 : s = s1 := Except.ok.inj (hs.symm.trans h1)
  have e2 : u = u1 := Except.ok.inj (hu.symm.trans k1)
  subst e1
  subst e2
  exact ⟨⟨s, s2, h1, h2, a1, hl ▸ a1, a2, hg ▸ a2⟩, ⟨u, u2, k1, k2, b1, kl ▸ b1, b2, kg ▸ b2⟩⟩

/-! ## Enumeration failures end the job -/

/-- When a list that ends in `a` is split at an element with a property that no
element before `a` has, the split is at `a`. -/
theorem concat_eq_split {α : Type} (P : α → Bool) (l pre post : List α) (a q : α)
    (h : l ++ [a] = pre ++ q :: post) (hl : ∀ e ∈ l, P e = false) (hq : P q = true) :
    post = [] ∧ l = pre ∧ a = q := by
  rcases List.eq_nil_or_concat post with rfl | ⟨post', c, rfl⟩
  · have := List.append_inj' h rfl
    exact ⟨rfl, this.1, by simpa using this.2⟩
  · have h' : l ++ [a] = (pre ++ q :: post') ++ [c] := by simpa using h
    have := (List.append_inj' h' rfl).1
    have hmem : q ∈ l := by rw [this]; simp
    rw [hl q hmem] at hq
    cases hq

theorem dhashImages_records {W : Type} (env : Env W) (missingOnly : Bool)
    (images : List ImageInformation) :
    ∀ s : HashState W,
      Extends env Event.ofRecord s.run (dhashImages env missingOnly s images).run := by
  induction images with
  | nil => intro s; exact extends_refl _ _ _
  | cons image images ih =>
    intro s
    unfold dhashImages
    cases missingOnly with
    | false =>
      simp only [Bool.false_eq_true, if_false, beq_self_eq_true, Bool.true_or, if_true]
      exact ((extends_refl _ _ _).emit _ (by rfl)).trans (ih _)
    | true =>
      simp only [if_true]
      split
      · exact (((extends_refl _ _ _).emit _ (by rfl)).emit _ (by rfl)).trans (ih _)
      · exact ((extends_refl _ _ _).emit _ (by rfl)).trans (ih _)

/-- A full iteration of the page loop adds no failed query to the trace. -/
theorem afterPage_no_failed_query {W : Type} (env : Env W) (cfg : ConfigurationSettings)
    (missingOnly : Bool) (s : HashState W)
    (hs : ∀ e ∈ s.run.trace, e.isFailedQuery = false)
    (hok : (env.searchImages s.run.world s.page cfg.PageStride).failed = false) :
    ∀ e ∈ (s.afterPage env cfg missingOnly).run.trace, e.isFailedQuery = false := by
  obtain ⟨ext, ht, _, hk⟩ := dhashImages_records env missingOnly
    (env.searchImages s.run.world s.page cfg.PageStride).images (s.afterQuery env cfg)
  have htrace : (s.afterPage env cfg missingOnly).run.trace =
      s.run.trace ++ [.searchImages s.page cfg.PageStride
        (env.searchImages s.run.world s.page cfg.PageStride)] ++ ext ++ [.wgWait] := by
    show (dhashImages env missingOnly (s.afterQuery env cfg) _).run.trace ++ [.wgWait] = _
    rw [ht]
    rfl
  intro e he
  rw [htrace] at he
  simp only [List.mem_append, List.mem_singleton] at he
  rcases he with ((he | rfl) | he) | rfl
  · exact hs e he
  · exact hok
  · have := hk e he
    cases e <;> first | rfl | cases this
  · rfl

/-- A failed query is the last event of the page loop, and the loop has ended. -/
theorem dhashLoop_failed_query_last {W : Type} (env : Env W) (cfg : ConfigurationSettings)
    (missingOnly : Bool) (fuel : Nat) :
    ∀ (s : HashState W), (∀ e ∈ s.run.trace, e.isFailedQuery = false) →
      ∀ pre q post, q.isFailedQuery = true →
        (dhashLoop env cfg missingOnly fuel s).1.run.trace = pre ++ q :: post →
        post = [] ∧ (dhashLoop env cfg missingOnly fuel s).2 = true := by
  induction fuel with
  | zero =>
    intro s hs pre q post hq h
    have h' : s.run.trace = pre ++ q :: post := h
    have := hs q (by rw [h']; simp)
    rw [this] at hq
    cases hq
  | succ fuel ih =>
    intro s hs pre q post hq h
    rw [dhashLoop_succ] at h ⊢
    have hquery : (s.afterQuery env cfg).run.trace = s.run.trace ++
        [.searchImages s.page cfg.PageStride
          (env.searchImages s.run.world s.page cfg.PageStride)] := rfl
    by_cases hfail : (env.searchImages s.run.world s.page cfg.PageStride).failed = true
    · simp only [hfail, if_true] at h ⊢
      rw [hquery] at h
      exact ⟨(concat_eq_split Event.isFailedQuery _ _ _ _ _ h hs hq).1, trivial⟩
    · have hfail' : (env.searchImages s.run.world s.page cfg.PageStride).failed = false := by
        simpa using hfail
      simp only [hfail', Bool.false_eq_true, if_false] at h ⊢
      by_cases hlen : (env.searchImages s.run.world s.page cfg.PageStride).images.length ≤ 0
      · simp only [hlen, if_true] at h ⊢
        rw [hquery] at h
        have hq' := (concat_eq_split Event.isFailedQuery _ _ _ _ _ h hs hq).2.2
        rw [← hq'] at hq
        rw [show (Event.searchImages s.page cfg.PageStride
          (env.searchImages s.run.world s.page cfg.PageStride)).isFailedQuery =
            (env.searchImages s.run.world s.page cfg.PageStride).failed from rfl, hfail'] at hq
        cases hq
      · simp only [hlen, if_false] at h ⊢
        exact ih _ (afterPage_no_failed_query env cfg missingOnly s hs hfail') pre q post hq h


theorem inv_foldl_effect {W : Type} (env : Env W) (Inv : W → Prop)
    (hinv : ∀ w e, Inv w → Inv (env.effect w e)) (ext : List Event) :
    ∀ w, Inv w → Inv (ext.foldl env.effect w) := by
  induction ext with
  | nil => intro w hw; exact hw
  | cons e ext ih => intro w hw; exact ih _ (hinv w e hw)

theorem afterPage_inv {W : Type} (env : Env W) (cfg : ConfigurationSettings)
    (missingOnly : Bool) (Inv : W → Prop) (hinv : ∀ w e, Inv w → Inv (env.effect w e))
    (s : HashState W) (hs : Inv s.run.world) :
    Inv (s.afterPage env cfg missingOnly).run.world := by
  obtain ⟨ext, _, hw, _⟩ := afterPage_extends env cfg missingOnly s
  rw [hw]
  exact inv_foldl_effect env Inv hinv ext _ (hinv _ _ hs)

theorem afterPage_searchOffsets {W : Type} (env : Env W) (cfg : ConfigurationSettings)
    (missingOnly : Bool) (s : HashState W) :
    searchOffsets (s.afterPage env cfg missingOnly).run.trace =
      searchOffsets s.run.trace ++ [s.page] := by
  obtain ⟨_, _, _, h, _⟩ := dhashImages_launches env missingOnly
    (env.searchImages s.run.world s.page cfg.PageStride).images (s.afterQuery env cfg)
  show searchOffsets ((dhashImages env missingOnly (s.afterQuery env cfg) _).run.trace ++
    [.wgWait]) = _
  rw [searchOffsets_concat, h]
  show searchOffsets (s.run.trace ++ [.searchImages s.page cfg.PageStride _]) ++ [] = _
  rw [searchOffsets_concat, List.append_nil]

/-- The page loop on a catalog that answers `n` non-empty pages and then fails:
with fuel for `n + 1` queries the loop ends, after exactly these queries, the
failed one last. -/
theorem dhashLoop_reaches_failure {W : Type} (env : Env W) (cfg : ConfigurationSettings)
    (missingOnly : Bool) (Inv : W → Prop) (hinv : ∀ w e, Inv w → Inv (env.effect w e))
    (n : Nat) :
    ∀ (j fuel : Nat) (s : HashState W),
      s.page = (j * cfg.PageStride) % uint64Size → Inv s.run.world →
      (∀ w k, Inv w → k < n →
        (env.searchImages w (((j + k) * cfg.PageStride) % uint64Size) cfg.PageStride).failed
          = false ∧
        (env.searchImages w (((j + k) * cfg.PageStride) % uint64Size) cfg.PageStride).images
          ≠ []) →
      (∀ w, Inv w →
        (env.searchImages w (((j + n) * cfg.PageStride) % uint64Size) cfg.PageStride).failed
          = true) →
      n < fuel →
      (dhashLoop env cfg missingOnly fuel s).2 = true ∧
      searchOffsets (dhashLoop env cfg missingOnly fuel s).1.run.trace =
        searchOffsets s.run.trace ++
          (List.range (n + 1)).map (fun k => ((j + k) * cfg.PageStride) % uint64Size) ∧
      ∃ pre result, (dhashLoop env cfg missingOnly fuel s).1.run.trace =
          pre ++ [.searchImages (((j + n) * cfg.PageStride) % uint64Size) cfg.PageStride
            result] ∧
        result.failed = true := by
  induction n with
  | zero =>
    intro j fuel s hpage hw _ hfails hfuel
    obtain ⟨fuel, rfl⟩ : ∃ f, fuel = f + 1 := ⟨fuel - 1, by omega⟩
    have hf := hfails s.run.world hw
    simp only [Nat.add_zero, ← hpage] at hf
    rw [dhashLoop_succ]
    simp only [hf, if_true, Nat.add_zero, ← hpage]
    refine ⟨trivial, ?_, s.run.trace, _, rfl, hf⟩
    show searchOffsets (s.run.trace ++ [.searchImages s.page cfg.PageStride _]) = _
    rw [searchOffsets_concat]
    simp [hpage, List.range_succ]
  | succ n ih =>
    intro j fuel s hpage hw hpages hfails hfuel
    obtain ⟨fuel, rfl⟩ : ∃ f, fuel = f + 1 := ⟨fuel - 1, by omega⟩
    have hp := hpages s.run.world 0 hw (by omega)
    simp only [Nat.add_zero, ← hpage] at hp
    have hlen : ¬ (env.searchImages s.run.world s.page cfg.PageStride).images.length ≤ 0 := by
      have := List.length_pos.mpr hp.2
      omega
    rw [dhashLoop_succ]
    simp only [hp.1, Bool.false_eq_true, if_false, hlen]
    obtain ⟨h1, h2, pre, result, h3, h4⟩ := ih (j + 1) fuel (s.afterPage env cfg missingOnly)
      (by rw [afterPage_page, hpage, Nat.mod_add_mod, Nat.add_mul, Nat.one_mul])
      (afterPage_inv env cfg missingOnly Inv hinv s hw)
      (by
        intro w k hw' hk
        have := hpages w (k + 1) hw' (by omega)
        rwa [show j + (k + 1) = j + 1 + k by omega] at this)
      (by
        intro w hw'
        have := hfails w hw'
        rwa [show j + (n + 1) = j + 1 + n by omega] at this)
      (by omega)
    refine ⟨h1, ?_, pre, result, ?_, h4⟩
    · rw [h2, afterPage_searchOffsets, List.range_succ_eq_map (n + 1)]
      simp only [List.map_cons, List.map_map, Nat.add_zero, ← hpage, List.append_assoc,
        List.singleton_append]
      congr 2
      apply List.map_congr_left
      intro k _
      simp only [Function.comp, Nat.succ_eq_add_one]
      congr 2
      omega
    · rw [h3, show j + 1 + n = j + (n + 1) by omega]


/-- C11: enumeration failures are fatal to the job.  When the directory listing of
the thumbnail job fails, the job returns after that one call: no stat, no
`os.Remove`, no unit, a count of 0.  In the hash job a failed catalog query is the
last event of the page loop, which has then ended, so that the job returns with
`wg.Wait()` as its only later event: no further query, no lookup and no unit for
that page or a later one.  On a catalog that answers `n` non-empty pages and fails
at the next, the job returns after exactly `n + 1` queries, given fuel for them. -/
theorem enumeration_failure_ends_job {W : Type} (env : Env W) (cfg : ConfigurationSettings)
    (missingOnly : Bool) (w : W) :
    (env.readDir w cfg.ImageDirectory = none →
      ∃ s, thumbsJob env cfg missingOnly ⟨w, []⟩ = .ok s ∧
        s.run.trace = [.readDir cfg.ImageDirectory none] ∧
        launchedThumbnails s.run.trace = [] ∧ removedPaths s.run.trace = [] ∧
        s.generatedThumbnails = 0) ∧
    (∀ fuel pre q post, q.isFailedQuery = true →
      (dhashLoop env cfg missingOnly fuel ⟨⟨w, []⟩, 0, 0⟩).1.run.trace = pre ++ q :: post →
      post = [] ∧
      ∃ s, dhashJob env cfg missingOnly fuel ⟨w, []⟩ = .ok s ∧
        s.run.trace = pre ++ [q, .wgWait]) ∧
    (∀ (Inv : W → Prop) (n fuel : Nat),
      (∀ w e, Inv w → Inv (env.effect w e)) → Inv w →
      (∀ w k, Inv w → k < n →
        (env.searchImages w ((k * cfg.PageStride) % uint64Size) cfg.PageStride).failed
          = false ∧
        (env.searchImages w ((k * cfg.PageStride) % uint64Size) cfg.PageStride).images
          ≠ []) →
      (∀ w, Inv w →
        (env.searchImages w ((n * cfg.PageStride) % uint64Size) cfg.PageStride).failed
          = true) →
      n < fuel →
      ∃ s pre result, dhashJob env cfg missingOnly fuel ⟨w, []⟩ = .ok s ∧
        searchOffsets s.run.trace =
          (List.range (n + 1)).map (fun k => (k * cfg.PageStride) % uint64Size) ∧
        s.run.trace = pre ++
          [.searchImages ((n * cfg.PageStride) % uint64Size) cfg.PageStride result,
           .wgWait] ∧
        result.failed = true) := by
  refine ⟨?_, ?_, ?_⟩
  · intro hdir
    refine ⟨⟨emit env ⟨w, []⟩ (.readDir cfg.ImageDirectory none), 0⟩, ?_, rfl, rfl, rfl, rfl⟩
    simp only [thumbsJob, hdir]
  · intro fuel pre q post hq h
    obtain ⟨hpost, hflag⟩ := dhashLoop_failed_query_last env cfg missingOnly fuel
      ⟨⟨w, []⟩, 0, 0⟩ (fun _ he => by cases he) pre q post hq h
    subst hpost
    refine ⟨rfl, ?_⟩
    unfold dhashJob
    generalize dhashLoop env cfg missingOnly fuel ⟨⟨w, []⟩, 0, 0⟩ = res at h hflag
    obtain ⟨u, b⟩ := res
    simp only at hflag h
    subst hflag
    refine ⟨{ u with run := emit env u.run .wgWait }, rfl, ?_⟩
    show u.run.trace ++ [.wgWait] = _
    rw [h]
    simp
  · intro Inv n fuel hinv hw hpages hfails hfuel
    obtain ⟨hflag, hoff, pre, result, htrace, hres⟩ :=
      dhashLoop_reaches_failure env cfg missingOnly Inv hinv n 0 fuel ⟨⟨w, []⟩, 0, 0⟩
        (by simp) hw
        (by intro w k hw' hk; simpa using hpages w k hw' hk)
        (by intro w hw'; simpa using hfails w hw')
        hfuel
    unfold dhashJob
    generalize dhashLoop env cfg missingOnly fuel ⟨⟨w, []⟩, 0, 0⟩ = res at hflag hoff htrace
    obtain ⟨u, b⟩ := res
    simp only at hflag hoff htrace
    subst hflag
    refine ⟨{ u with run := emit env u.run .wgWait }, pre, result, rfl, ?_, ?_, hres⟩
    · show searchOffsets (u.run.trace ++ [.wgWait]) = _
      rw [searchOffsets_concat, hoff]
      simp [searchOffsets]
    · show u.run.trace ++ [.wgWait] = _
      rw [htrace]
      simp

/-- C11 on the sample store behind adapters that cannot list a directory and whose
query fails from the offset 2 on: the thumbnail job stops at the listing; the hash
job handles the first page and stops at the second query. -/
theorem enumeration_failure_ends_job_witness :
    (∃ s, thumbsJob failingEnv sampleConfig false ⟨sampleStore, []⟩ = .ok s ∧
      s.run.trace = [.readDir "images" none] ∧
      launchedThumbnails s.run.trace = [] ∧ removedPaths s.run.trace = [] ∧
      s.generatedThumbnails = 0) ∧
    (∃ s pre result, dhashJob failingEnv sampleConfig false 2 ⟨sampleStore, []⟩ = .ok s ∧
      searchOffsets s.run.trace =
        (List.range (1 + 1)).map (fun k => (k * sampleConfig.PageStride) % uint64Size) ∧
      s.run.trace = pre ++
        [.searchImages ((1 * sampleConfig.PageStride) % uint64Size) sampleConfig.PageStride
          result, .wgWait] ∧
      result.failed = true) :=
  ⟨(enumeration_failure_ends_job failingEnv sampleConfig false sampleStore).1 rfl,
   (enumeration_failure_ends_job failingEnv sampleConfig false sampleStore).2.2
    (fun w => w.records = [⟨1, "A"⟩]) 1 2
    (by
      intro w e hw
      cases e <;> first | exact hw | skip
      all_goals (simp only [failingEnv, storeEnv, Store.effect]; split <;> exact hw))
    rfl
    (by
      intro w k hw hk
      obtain rfl : k = 0 := by omega
      simp [failingEnv, storeEnv, hw, sampleConfig])
    (by
      intro w hw
      simp [failingEnv, sampleConfig, uint64Size])
    (by decide)⟩


/-! ## The hash job skips a record only when its hash exists -/

theorem hashLookups_append (t t' : List Event) :
    hashLookups (t ++ t') = hashLookups t ++ hashLookups t' := by
  simp [hashLookups]

theorem queuedRecords_append (t t' : List Event) :
    queuedRecords (t ++ t') = queuedRecords t ++ queuedRecords t' := by
  simp [queuedRecords, queuedPages]

/-- The inner loop of the missing-only hash job: one lookup per record of the
page, a launch for exactly the records whose lookup found no hash. -/
theorem dhashImages_filter {W : Type} (env : Env W) (images : List ImageInformation) :
    ∀ s : HashState W, ∃ answers : List Bool, answers.length = images.length ∧
      hashLookups (dhashImages env true s images).run.trace =
        hashLookups s.run.trace ++ (images.map ImageInformation.ID).zip answers ∧
      launchedHashes (dhashImages env true s images).run.trace =
        launchedHashes s.run.trace ++
          ((images.zip answers).filter fun p => !p.2).map Prod.fst ∧
      queuedRecords (dhashImages env true s images).run.trace =
        queuedRecords s.run.trace := by
  induction images with
  | nil => intro s; exact ⟨[], rfl, by simp [dhashImages], by simp [dhashImages], rfl⟩
  | cons image images ih =>
    intro s
    unfold dhashImages
    simp only [if_true, Bool.true_eq_false, Bool.false_or, Bool.not_eq_true']
    cases env.getImagedHash s.run.world image.ID with
    | false =>
      obtain ⟨answers, h1, h2, h3, h4⟩ := ih
        { run := emit env (emit env s.run (.getImagedHash image.ID false))
            (.goGeneratedHash image.Location image.ID),
          page := s.page,
          processedImages := (s.processedImages + 1) % uint64Size }
      refine ⟨false :: answers, by simp [h1], ?_, ?_, ?_⟩
      · exact h2.trans (by simp [emit_trace, hashLookups_append, hashLookups])
      · exact h3.trans (by simp [emit_trace, launchedHashes_append, launchedHashes])
      · exact h4.trans (by simp [emit_trace, queuedRecords_append, queuedRecords, queuedPages])
    | true =>
      obtain ⟨answers, h1, h2, h3, h4⟩ := ih
        { s with run := emit env s.run (.getImagedHash image.ID true) }
      refine ⟨true :: answers, by simp [h1], ?_, ?_, ?_⟩
      · exact h2.trans (by simp [emit_trace, hashLookups_append, hashLookups])
      · exact h3.trans (by simp [emit_trace, launchedHashes_append, launchedHashes])
      · exact h4.trans (by simp [emit_trace, queuedRecords_append, queuedRecords, queuedPages])

/-- The inner loop of the full hash job: no lookup, a launch for every record of
the page. -/
theorem dhashImages_all {W : Type} (env : Env W) (images : List ImageInformation) :
    ∀ s : HashState W,
      hashLookups (dhashImages env false s images).run.trace = hashLookups s.run.trace ∧
      launchedHashes (dhashImages env false s images).run.trace =
        launchedHashes s.run.trace ++ images ∧
      queuedRecords (dhashImages env false s images).run.trace =
        queuedRecords s.run.trace := by
  induction images with
  | nil => intro s; exact ⟨rfl, by simp [dhashImages], rfl⟩
  | cons image images ih =>
    intro s
    unfold dhashImages
    simp only [Bool.false_eq_true, if_false, beq_self_eq_true, Bool.true_or, if_true]
    obtain ⟨h2, h3, h4⟩ := ih
      { run := emit env s.run (.goGeneratedHash image.Location image.ID),
        page := s.page,
        processedImages := (s.processedImages + 1) % uint64Size }
    refine ⟨?_, ?_, ?_⟩
    · exact h2.trans (by simp [emit_trace, hashLookups_append, hashLookups])
    · exact h3.trans (by simp [emit_trace, launchedHashes_append, launchedHashes])
    · exact h4.trans (by simp [emit_trace, queuedRecords_append, queuedRecords, queuedPages])


/-- The invariant of the missing-only page loop: there is one lookup answer per
record handled so far, and the launches are the records with the answer "no
hash". -/
theorem skipsOnlyHashed_of_answers (t : List Event) (answers : List Bool)
    (hlen : answers.length = (queuedRecords t).length)
    (hlook : hashLookups t = ((queuedRecords t).map ImageInformation.ID).zip answers)
    (hlaunch : launchedHashes t =
      (((queuedRecords t).zip answers).filter fun p => !p.2).map Prod.fst) :
    SkipsOnlyHashed t := by
  have h1 : (hashLookups t).map Prod.fst = (queuedRecords t).map ImageInformation.ID := by
    rw [hlook]
    exact List.map_fst_zip _ _ (by simp [hlen])
  have h2 : (hashLookups t).map Prod.snd = answers := by
    rw [hlook]
    exact List.map_snd_zip _ _ (by simp [hlen])
  exact ⟨h1, by rw [h2]; exact hlaunch⟩

theorem dhashLoop_filter {W : Type} (env : Env W) (cfg : ConfigurationSettings)
    (fuel : Nat) :
    ∀ s : HashState W,
      (∃ answers : List Bool, answers.length = (queuedRecords s.run.trace).length ∧
        hashLookups s.run.trace =
          ((queuedRecords s.run.trace).map ImageInformation.ID).zip answers ∧
        launchedHashes s.run.trace =
          (((queuedRecords s.run.trace).zip answers).filter fun p => !p.2).map Prod.fst) →
      ∃ answers : List Bool,
        answers.length = (queuedRecords (dhashLoop env cfg true fuel s).1.run.trace).length ∧
        hashLookups (dhashLoop env cfg true fuel s).1.run.trace =
          ((queuedRecords (dhashLoop env cfg true fuel s).1.run.trace).map
            ImageInformation.ID).zip answers ∧
        launchedHashes (dhashLoop env cfg true fuel s).1.run.trace =
          (((queuedRecords (dhashLoop env cfg true fuel s).1.run.trace).zip answers).filter
            fun p => !p.2).map Prod.fst := by
  induction fuel with
  | zero => intro s hs; exact hs
  | succ fuel ih =>
    intro s hs
    obtain ⟨answers, a1, a2, a3⟩ := hs
    have hq1 : hashLookups (s.afterQuery env cfg).run.trace = hashLookups s.run.trace := by
      simp [HashState.afterQuery, emit_trace, hashLookups_append, hashLookups]
    have hq2 : launchedHashes (s.afterQuery env cfg).run.trace = launchedHashes s.run.trace := by
      simp [HashState.afterQuery, emit_trace, launchedHashes_append, launchedHashes]
    have hq3 : queuedRecords (s.afterQuery env cfg).run.trace = queuedRecords s.run.trace ++
        (if (env.searchImages s.run.world s.page cfg.PageStride).failed = true then []
          else (env.searchImages s.run.world s.page cfg.PageStride).images) := by
      simp only [HashState.afterQuery, emit_trace, queuedRecords_append]
      congr 1
      by_cases hf : (env.searchImages s.run.world s.page cfg.PageStride).failed = true <;>
        simp [queuedRecords, queuedPages, hf]
    rw [dhashLoop_succ]
    by_cases hfail : (env.searchImages s.run.world s.page cfg.PageStride).failed = true
    · simp only [hfail, if_true] at hq3 ⊢
      rw [hq1, hq2, hq3, List.append_nil]
      exact ⟨answers, a1, a2, a3⟩
    · have hfail' : (env.searchImages s.run.world s.page cfg.PageStride).failed = false := by
        simpa using hfail
      simp only [hfail', Bool.false_eq_true, if_false] at hq3 ⊢
      by_cases hlen : (env.searchImages s.run.world s.page cfg.PageStride).images.length ≤ 0
      · have hnil : (env.searchImages s.run.world s.page cfg.PageStride).images = [] :=
          List.length_eq_zero.mp (by omega)
        simp only [hlen, if_true]
        rw [hq1, hq2, hq3, hnil, List.append_nil]
        exact ⟨answers, a1, a2, a3⟩
      · simp only [hlen, if_false]
        apply ih
        obtain ⟨answers', b1, b2, b3, b4⟩ := dhashImages_filter env
          (env.searchImages s.run.world s.page cfg.PageStride).images (s.afterQuery env cfg)
        have ht : (s.afterPage env cfg true).run.trace =
            (dhashImages env true (s.afterQuery env cfg)
              (env.searchImages s.run.world s.page cfg.PageStride).images).run.trace ++
              [.wgWait] := rfl
        have c1 : hashLookups (s.afterPage env cfg true).run.trace =
            hashLookups s.run.trace ++
              ((env.searchImages s.run.world s.page cfg.PageStride).images.map
                ImageInformation.ID).zip answers' := by
          rw [ht, hashLookups_append, b2, hq1]
          simp [hashLookups]
        have c2 : launchedHashes (s.afterPage env cfg true).run.trace =
            launchedHashes s.run.trace ++
              (((env.searchImages s.run.world s.page cfg.PageStride).images.zip answers').filter
                fun p => !p.2).map Prod.fst := by
          rw [ht, launchedHashes_append, b3, hq2]
          simp [launchedHashes]
        have c3 : queuedRecords (s.afterPage env cfg true).run.trace =
            queuedRecords s.run.trace ++
              (env.searchImages s.run.world s.page cfg.PageStride).images := by
          rw [ht, queuedRecords_append, b4, hq3]
          simp [queuedRecords, queuedPages]
        refine ⟨answers ++ answers', ?_, ?_, ?_⟩
        · rw [c3]
          simp [a1, b1]
        · rw [c1, c3, a2, List.map_append, List.zip_append (by simp [a1])]
        · rw [c2, c3, a3, List.zip_append a1.symm, List.filter_append, List.map_append]

theorem dhashLoop_all {W : Type} (env : Env W) (cfg : ConfigurationSettings)
    (fuel : Nat) :
    ∀ s : HashState W, LaunchesEveryRecord s.run.trace →
      LaunchesEveryRecord (dhashLoop env cfg false fuel s).1.run.trace := by
  induction fuel with
  | zero => intro s hs; exact hs
  | succ fuel ih =>
    intro s hs
    obtain ⟨a1, a2⟩ := hs
    have hq1 : hashLookups (s.afterQuery env cfg).run.trace = hashLookups s.run.trace := by
      simp [HashState.afterQuery, emit_trace, hashLookups_append, hashLookups]
    have hq2 : launchedHashes (s.afterQuery env cfg).run.trace = launchedHashes s.run.trace := by
      simp [HashState.afterQuery, emit_trace, launchedHashes_append, launchedHashes]
    have hq3 : queuedRecords (s.afterQuery env cfg).run.trace = queuedRecords s.run.trace ++
        (if (env.searchImages s.run.world s.page cfg.PageStride).failed = true then []
          else (env.searchImages s.run.world s.page cfg.PageStride).images) := by
      simp only [HashState.afterQuery, emit_trace, queuedRecords_append]
      congr 1
      by_cases hf : (env.searchImages s.run.world s.page cfg.PageStride).failed = true <;>
        simp [queuedRecords, queuedPages, hf]
    rw [dhashLoop_succ]
    by_cases hfail : (env.searchImages s.run.world s.page cfg.PageStride).failed = true
    · simp only [hfail, if_true] at hq3 ⊢
      exact ⟨hq1.trans a1, by rw [hq2, hq3, List.append_nil]; exact a2⟩
    · have hfail' : (env.searchImages s.run.world s.page cfg.PageStride).failed = false := by
        simpa using hfail
      simp only [hfail', Bool.false_eq_true, if_false] at hq3 ⊢
      by_cases hlen : (env.searchImages s.run.world s.page cfg.PageStride).images.length ≤ 0
      · have hnil : (env.searchImages s.run.world s.page cfg.PageStride).images = [] :=
          List.length_eq_zero.mp (by omega)
        simp only [hlen, if_true]
        exact ⟨hq1.trans a1, by rw [hq2, hq3, hnil, List.append_nil]; exact a2⟩
      · simp only [hlen, if_false]
        apply ih
        obtain ⟨b2, b3, b4⟩ := dhashImages_all env
          (env.searchImages s.run.world s.page cfg.PageStride).images (s.afterQuery env cfg)
        have ht : (s.afterPage env cfg false).run.trace =
            (dhashImages env false (s.afterQuery env cfg)
              (env.searchImages s.run.world s.page cfg.PageStride).images).run.trace ++
              [.wgWait] := rfl
        refine ⟨?_, ?_⟩
        · rw [ht, hashLookups_append, b2, hq1, a1]
          rfl
        · rw [ht, launchedHashes_append, b3, hq2, queuedRecords_append, b4, hq3, a2]
          simp [launchedHashes, queuedRecords, queuedPages]


/-- C12: in the hash job with missing-only set a record is skipped only when a hash
exists for it.  At every point of the page loop and when the job has returned, for
every catalog: the lookups made are one per record of the pages handled, in order;
a record is launched exactly when its lookup returned an error (no hash) and
skipped exactly when it returned none.  Without missing-only no lookup is made and
every record of every page handled is launched, in order. -/
theorem dhashJob_skips_only_hashed_records {W : Type} (env : Env W)
    (cfg : ConfigurationSettings) (w : W) (fuel : Nat) :
    SkipsOnlyHashed (dhashLoop env cfg true fuel ⟨⟨w, []⟩, 0, 0⟩).1.run.trace ∧
    (∀ s, dhashJob env cfg true fuel ⟨w, []⟩ = .ok s → SkipsOnlyHashed s.run.trace) ∧
    LaunchesEveryRecord (dhashLoop env cfg false fuel ⟨⟨w, []⟩, 0, 0⟩).1.run.trace ∧
    (∀ s, dhashJob env cfg false fuel ⟨w, []⟩ = .ok s →
      LaunchesEveryRecord s.run.trace) := by
  have hwait : ∀ t : List Event, hashLookups (t ++ [.wgWait]) = hashLookups t ∧
      launchedHashes (t ++ [.wgWait]) = launchedHashes t ∧
      queuedRecords (t ++ [.wgWait]) = queuedRecords t := by
    intro t
    refine ⟨?_, ?_, ?_⟩
    · rw [hashLookups_append]; exact List.append_nil _
    · rw [launchedHashes_append]; exact List.append_nil _
    · rw [queuedRecords_append]; exact List.append_nil _
  have h1 : SkipsOnlyHashed (dhashLoop env cfg true fuel ⟨⟨w, []⟩, 0, 0⟩).1.run.trace := by
    obtain ⟨answers, a1, a2, a3⟩ := dhashLoop_filter env cfg fuel ⟨⟨w, []⟩, 0, 0⟩
      ⟨[], rfl, rfl, rfl⟩
    exact skipsOnlyHashed_of_answers _ answers a1 a2 a3
  have h2 : LaunchesEveryRecord (dhashLoop env cfg false fuel ⟨⟨w, []⟩, 0, 0⟩).1.run.trace :=
    dhashLoop_all env cfg fuel ⟨⟨w, []⟩, 0, 0⟩ ⟨rfl, rfl⟩
  refine ⟨h1, ?_, h2, ?_⟩
  · intro s hs
    unfold dhashJob at hs
    generalize dhashLoop env cfg true fuel ⟨⟨w, []⟩, 0, 0⟩ = res at h1 hs
    obtain ⟨u, b⟩ := res
    cases b with
    | false => cases hs
    | true =>
      simp only [Except.ok.injEq] at hs
      subst hs
      obtain ⟨e1, e2, e3⟩ := hwait u.run.trace
      show SkipsOnlyHashed (u.run.trace ++ [.wgWait])
      unfold SkipsOnlyHashed at h1 ⊢
      rw [e1, e2, e3]
      exact h1
  · intro s hs
    unfold dhashJob at hs
    generalize dhashLoop env cfg false fuel ⟨⟨w, []⟩, 0, 0⟩ = res at h2 hs
    obtain ⟨u, b⟩ := res
    cases b with
    | false => cases hs
    | true =>
      simp only [Except.ok.injEq] at hs
      subst hs
      obtain ⟨e1, e2, e3⟩ := hwait u.run.trace
      show LaunchesEveryRecord (u.run.trace ++ [.wgWait])
      unfold LaunchesEveryRecord at h2 ⊢
      rw [e1, e2, e3]
      exact h2

/-- C12 on the store with the records 1 and 2, of which 1 has a hash: the
missing-only job looks both up and launches record 2 only; the full job launches
both without a lookup. -/
theorem dhashJob_skips_only_hashed_records_witness :
    (∃ s, dhashJob storeEnv sampleConfig true 2 ⟨hashedStore, []⟩ = .ok s ∧
      SkipsOnlyHashed s.run.trace ∧
      hashLookups s.run.trace = [(1, true), (2, false)] ∧
      launchedHashes s.run.trace = [⟨2, "B"⟩]) ∧
    (∃ s, dhashJob storeEnv sampleConfig false 2 ⟨hashedStore, []⟩ = .ok s ∧
      LaunchesEveryRecord s.run.trace ∧
      hashLookups s.run.trace = [] ∧
      launchedHashes s.run.trace = [⟨1, "A"⟩, ⟨2, "B"⟩]) :=
  ⟨⟨_, rfl,
      (dhashJob_skips_only_hashed_records storeEnv sampleConfig hashedStore 2).2.1 _ rfl,
      by decide, by decide⟩,
   ⟨_, rfl,
      (dhashJob_skips_only_hashed_records storeEnv sampleConfig hashedStore 2).2.2.2 _ rfl,
      by decide, by decide⟩⟩


/-! ## The thumbnail job leaves existing thumbnails alone -/

theorem statAnswers_append (t t' : List Event) :
    statAnswers (t ++ t') = statAnswers t ++ statAnswers t' := by
  simp [statAnswers]

theorem removedPaths_append (t t' : List Event) :
    removedPaths (t ++ t') = removedPaths t ++ removedPaths t' := by
  simp [removedPaths]

/-- The missing-only thumbnail loop: one stat per regular file, a removal and a
launch for exactly the files whose stat reported "does not exist". -/
theorem thumbsLoop_filter {W : Type} (env : Env W) (cfg : ConfigurationSettings)
    (hstride : cfg.PageStride ≠ 0) (files : List FileInfo) :
    ∀ s : ThumbState W, ∃ s' answers,
      thumbsLoop env cfg true s files = .ok s' ∧
      answers.length = (files.filter fun f => !f.isDir).length ∧
      statAnswers s'.run.trace = statAnswers s.run.trace ++
        ((files.filter fun f => !f.isDir).map
          fun f => thumbNailPath cfg.ImageDirectory f.name).zip answers ∧
      removedPaths s'.run.trace = removedPaths s.run.trace ++
        (((files.filter fun f => !f.isDir).zip answers).filter
          fun p => p.2 == StatResult.notExist).map
          (fun p => thumbNailPath cfg.ImageDirectory p.1.name) ∧
      launchedThumbnails s'.run.trace = launchedThumbnails s.run.trace ++
        (((files.filter fun f => !f.isDir).zip answers).filter
          fun p => p.2 == StatResult.notExist).map (fun p => p.1.name) := by
  induction files with
  | nil => intro s; exact ⟨s, [], rfl, rfl, by simp, by simp, by simp⟩
  | cons file files ih =>
    intro s
    by_cases hfile : file.isDir = true
    · obtain ⟨s', answers, h1, h2, h3, h4, h5⟩ := ih s
      refine ⟨s', answers, ?_, ?_, ?_, ?_, ?_⟩
      · simp only [thumbsLoop, thumbsStep, hfile, if_true]
        exact h1
      · simpa [List.filter_cons, hfile] using h2
      · simpa [List.filter_cons, hfile] using h3
      · simpa [List.filter_cons, hfile] using h4
      · simpa [List.filter_cons, hfile] using h5
    · have hfile' : file.isDir = false := by simpa using hfile
      obtain ⟨s1, hs1, _, ht⟩ := thumbsStep_file env cfg true s file hstride hfile'
      obtain ⟨s', answers, h1, h2, h3, h4, h5⟩ := ih s1
      have hw1 : statAnswers
          (if s1.generatedThumbnails % cfg.PageStride = 0 then [Event.wgWait] else []) = [] := by
        split <;> rfl
      have hw2 : removedPaths
          (if s1.generatedThumbnails % cfg.PageStride = 0 then [Event.wgWait] else []) = [] := by
        split <;> rfl
      have hw3 : launchedThumbnails
          (if s1.generatedThumbnails % cfg.PageStride = 0 then [Event.wgWait] else []) = [] := by
        split <;> rfl
      generalize env.stat s.run.world (thumbNailPath cfg.ImageDirectory file.name) = ans at ht
      have hcond : ((true == false || ans == StatResult.notExist) = true) ↔
          (ans == StatResult.notExist) = true := by simp
      have g1 : statAnswers s1.run.trace = statAnswers s.run.trace ++
          [(thumbNailPath cfg.ImageDirectory file.name, ans)] := by
        rw [ht]
        simp only [statAnswers_append, hw1, List.append_nil]
        by_cases ha : (ans == StatResult.notExist) = true
        · simp [hcond, ha, statAnswers, regeneration]
        · simp [hcond, ha, statAnswers]
      have g2 : removedPaths s1.run.trace = removedPaths s.run.trace ++
          (if (ans == StatResult.notExist) = true
            then [thumbNailPath cfg.ImageDirectory file.name] else []) := by
        rw [ht]
        simp only [removedPaths_append, hw2, List.append_nil]
        by_cases ha : (ans == StatResult.notExist) = true
        · simp [hcond, ha, removedPaths, regeneration]
        · simp [hcond, ha, removedPaths]
      have g3 : launchedThumbnails s1.run.trace = launchedThumbnails s.run.trace ++
          (if (ans == StatResult.notExist) = true then [file.name] else []) := by
        rw [ht]
        simp only [launchedThumbnails_append, hw3, List.append_nil]
        by_cases ha : (ans == StatResult.notExist) = true
        · simp [hcond, ha, launchedThumbnails, regeneration]
        · simp [hcond, ha, launchedThumbnails]
      refine ⟨s', ans :: answers, ?_, ?_, ?_, ?_, ?_⟩
      · simp only [thumbsLoop, hs1]
        exact h1
      · simp [List.filter_cons, hfile', h2]
      · rw [h3, g1]
        simp [List.filter_cons, hfile']
      · rw [h4, g2]
        by_cases ha : (ans == StatResult.notExist) = true
        · simp [List.filter_cons, hfile', ha]
        · simp [List.filter_cons, hfile', ha]
      · rw [h5, g3]
        by_cases ha : (ans == StatResult.notExist) = true
        · simp [List.filter_cons, hfile', ha]
        · simp [List.filter_cons, hfile', ha]


/-- C13: with missing-only set the thumbnail job never deletes or regenerates a
thumbnail that exists.  For every listing and every stat answer the job returns
(the stride not being 0); it stats the thumbnail path of each regular file once, in
listing order; a path is removed and a unit launched for exactly the files whose
stat reported that the path does not exist, so a file whose thumbnail exists, or
whose stat failed otherwise, gets neither; and the count is the number of units
launched. -/
theorem thumbsJob_regenerates_only_missing {W : Type} (env : Env W)
    (cfg : ConfigurationSettings) (w : W) (files : List FileInfo)
    (hstride : cfg.PageStride ≠ 0)
    (hfiles : env.readDir w cfg.ImageDirectory = some files) :
    ∃ s, thumbsJob env cfg true ⟨w, []⟩ = .ok s ∧
      RegeneratesOnlyMissing cfg.ImageDirectory (files.filter fun f => !f.isDir)
        s.run.trace ∧
      s.generatedThumbnails = (launchedThumbnails s.run.trace).length % uint64Size ∧
      (files.length < uint64Size →
        s.generatedThumbnails = (launchedThumbnails s.run.trace).length) := by
  obtain ⟨s', answers, h1, h2, h3, h4, h5⟩ := thumbsLoop_filter env cfg hstride files
    { run := emit env ⟨w, []⟩ (.readDir cfg.ImageDirectory (some files)),
      generatedThumbnails := 0 }
  obtain ⟨u, hu, hc, hb⟩ := thumbsJob_count env cfg true hstride w
  have hjob : thumbsJob env cfg true ⟨w, []⟩ =
      .ok { s' with run := emit env s'.run .wgWait } := by
    simp only [thumbsJob, hfiles, h1]
  have hu' : u = { s' with run := emit env s'.run .wgWait } :=
    Except.ok.inj (hu.symm.trans hjob)
  subst hu'
  have e1 : statAnswers (s'.run.trace ++ [.wgWait]) =
      ((files.filter fun f => !f.isDir).map
        fun f => thumbNailPath cfg.ImageDirectory f.name).zip answers := by
    rw [statAnswers_append, h3]
    simp [emit_trace, statAnswers]
  have e2 : removedPaths (s'.run.trace ++ [.wgWait]) =
      (((files.filter fun f => !f.isDir).zip answers).filter
        fun p => p.2 == StatResult.notExist).map
        (fun p => thumbNailPath cfg.ImageDirectory p.1.name) := by
    rw [removedPaths_append, h4]
    simp [emit_trace, removedPaths]
  have e3 : launchedThumbnails (s'.run.trace ++ [.wgWait]) =
      (((files.filter fun f => !f.isDir).zip answers).filter
        fun p => p.2 == StatResult.notExist).map (fun p => p.1.name) := by
    rw [launchedThumbnails_append, h5]
    simp [emit_trace, launchedThumbnails]
  have f1 : (statAnswers (s'.run.trace ++ [.wgWait])).map Prod.fst =
      (files.filter fun f => !f.isDir).map
        fun f => thumbNailPath cfg.ImageDirectory f.name := by
    rw [e1]
    exact List.map_fst_zip _ _ (by simp [h2])
  have f2 : (statAnswers (s'.run.trace ++ [.wgWait])).map Prod.snd = answers := by
    rw [e1]
    exact List.map_snd_zip _ _ (by simp [h2])
  have hreg : RegeneratesOnlyMissing cfg.ImageDirectory (files.filter fun f => !f.isDir)
      (s'.run.trace ++ [.wgWait]) :=
    ⟨f1, by rw [f2]; exact e2, by rw [f2]; exact e3⟩
  refine ⟨_, hjob, hreg, hc, ?_⟩
  · intro hlen
    rw [hc]
    have hle := hb files hfiles
    have : (files.filter fun f => !f.isDir).length ≤ files.length := List.length_filter_le _ _
    exact Nat.mod_eq_of_lt (by omega)

/-- C13 on the sample store with the thumbnail of `A` in place: `A` is left alone,
`B` and `C` are regenerated. -/
theorem thumbsJob_regenerates_only_missing_witness :
    ∃ s, thumbsJob storeEnv sampleConfig true ⟨thumbedStore, []⟩ = .ok s ∧
      RegeneratesOnlyMissing sampleConfig.ImageDirectory
        ([⟨"A", false⟩, ⟨"B", false⟩, ⟨"C", false⟩, ⟨"thumbs", true⟩].filter
          fun f => !f.isDir) s.run.trace ∧
      statAnswers s.run.trace =
        [("images/thumbs/A.png", .ok), ("images/thumbs/B.png", .notExist),
         ("images/thumbs/C.png", .notExist)] ∧
      removedPaths s.run.trace = ["images/thumbs/B.png", "images/thumbs/C.png"] ∧
      launchedThumbnails s.run.trace = ["B", "C"] ∧
      s.generatedThumbnails = 2 := by
  obtain ⟨s, hs, hreg, _, _⟩ := thumbsJob_regenerates_only_missing storeEnv sampleConfig
    thumbedStore [⟨"A", false⟩, ⟨"B", false⟩, ⟨"C", false⟩, ⟨"thumbs", true⟩]
    (by decide) (by decide)
  have c : ∃ u, thumbsJob storeEnv sampleConfig true ⟨thumbedStore, []⟩ = .ok u ∧
      statAnswers u.run.trace =
        [("images/thumbs/A.png", .ok), ("images/thumbs/B.png", .notExist),
         ("images/thumbs/C.png", .notExist)] ∧
      removedPaths u.run.trace = ["images/thumbs/B.png", "images/thumbs/C.png"] ∧
      launchedThumbnails u.run.trace = ["B", "C"] ∧
      u.generatedThumbnails = 2 :=
    ⟨_, rfl, by decide, by decide, by decide, by decide⟩
  obtain ⟨u, hu, c1, c2, c3, c4⟩ := c
  have e : u = s := Except.ok.inj (hu.symm.trans hs)
  subst e
  exact ⟨u, hs, hreg, c1, c2, c3, c4⟩


/-! ## The permission checks of the collection router -/

theorem message_beq (m a b : String) : (m ++ a == m ++ b) = (a == b) := by
  by_cases h : a = b
  · subst h; simp
  · have h' : m ++ a ≠ m ++ b := fun e => h (string_append_left_cancel m a b e)
    simp [h, h']

theorem nameInUse_message_ne (x : String) :
    x ++ " is already in use, plese select a different name. " ≠
      "You do not have edit member permission for collection. " := by
  intro h
  have h1 := congrArg (fun s => (s.data.reverse).take 3) h
  simp only [String.data_append, List.reverse_append] at h1
  revert h1
  simp

/-- Past the permission check, `deletemember` never answers with the refusal for
insufficient permission. -/
theorem deleteValidated_not_refusal {D : Type} (env : RouterEnv D) (input : TemplateInput)
    (request : Request) (collectionID parsedImageID : Nat) (info : CollectionInformation)
    (r : RouterRun D) :
    (deleteValidated env input request collectionID parsedImageID info r).response.isPermissionRefusal
      input = false := by
  unfold deleteValidated
  simp only []
  split
  · cases env.deleteCollection r.world collectionID <;>
      simp [respond, Response.isPermissionRefusal, message_beq]
  · cases env.removeCollectionMember r.world collectionID parsedImageID <;>
      simp [respond, Response.isPermissionRefusal, message_beq]

/-- The permission check of `deletemember`, collectionrouter.go:121-127: the
request is refused for insufficient permission exactly when it reaches the check
(the user is logged in, both IDs parse, the collection is fetched) and the user
lacks `ModifyCollectionMembers` and either `UsersControlOwnObjects` is unset or the
user is not the uploader of the collection. -/
theorem deleteMember_refusal {D : Type} (env : RouterEnv D) (cfg : ConfigurationSettings)
    (input : TemplateInput) (request : Request) (d : D) :
    (deleteMember env cfg input request d).response.isPermissionRefusal input = true ↔
      input.UserInformation.Name ≠ "" ∧
      (parseUint (request.FormValue "ID") 32).2 = false ∧
      (parseUint (request.FormValue "ImageID") 32).2 = false ∧
      ∃ info, env.getCollection d (parseUint (request.FormValue "ID") 32).1 = .ok info ∧
        input.HasPermission .ModifyCollectionMembers = false ∧
        (cfg.UsersControlOwnObjects = false ∨ info.UploaderID ≠ input.UserInformation.ID) := by
  unfold deleteMember
  simp only []
  by_cases h1 : input.UserInformation.Name = ""
  · simp [h1, respond, Response.isPermissionRefusal]
  have e1 : (input.UserInformation.Name == "") = false := by simpa using h1
  by_cases h2 : (parseUint (request.FormValue "ID") 32).2 = true
  · simp [e1, h2, respond, Response.isPermissionRefusal, message_beq]
  have e2 : (parseUint (request.FormValue "ID") 32).2 = false := by simpa using h2
  by_cases h3 : (parseUint (request.FormValue "ImageID") 32).2 = true
  · simp [e1, e2, h3, respond, Response.isPermissionRefusal, message_beq]
  have e3 : (parseUint (request.FormValue "ImageID") 32).2 = false := by simpa using h3
  simp only [e1, e2, e3, Bool.false_eq_true, if_false]
  cases hget : env.getCollection d (parseUint (request.FormValue "ID") 32).1 with
  | error err => simp [h1, respond, Response.isPermissionRefusal, message_beq]
  | ok info =>
    simp only []
    by_cases hcond : (input.HasPermission .ModifyCollectionMembers != true
        && (cfg.UsersControlOwnObjects != true
          || info.UploaderID != input.UserInformation.ID)) = true
    · rw [if_pos hcond]
      have hc := hcond
      simp only [Bool.and_eq_true, Bool.or_eq_true, bne_iff_ne, ne_eq,
        Bool.not_eq_true] at hc
      simp only [respond, Response.isPermissionRefusal, beq_self_eq_true, Bool.and_self,
        true_iff]
      exact ⟨h1, trivial, trivial, info, rfl, hc.1, hc.2⟩
    · rw [if_neg hcond, deleteValidated_not_refusal]
      simp only [Bool.false_eq_true, false_iff]
      rintro ⟨_, _, _, info', hinfo, hp, hown⟩
      cases hinfo
      apply hcond
      simp only [Bool.and_eq_true, Bool.or_eq_true, bne_iff_ne, ne_eq, Bool.not_eq_true]
      exact ⟨hp, hown⟩


/-- The permission check of `modify`, collectionrouter.go:270-276, from the point
where the lengths are validated: the request is refused for insufficient permission
exactly when the collection is fetched, the new name is not in use by another
collection, and the user lacks `ModifyCollections` and either
`UsersControlOwnObjects` is unset or the user is not the uploader. -/
theorem modifyValidated_refusal {D : Type} (env : RouterEnv D) (cfg : ConfigurationSettings)
    (input : TemplateInput) (request : Request) (collectionID : Nat)
    (newName newDesc : String) (r0 : RouterRun D) :
    (modifyValidated env cfg input request collectionID newName newDesc
        r0).response.isPermissionRefusal input = true ↔
      ∃ info, env.getCollection r0.world collectionID = .ok info ∧
        (∀ other, env.getCollectionByName
            (env.effect r0.world (.getCollection collectionID (.ok info))) newName
              = .ok other → other.ID = info.ID) ∧
        input.HasPermission .ModifyCollections = false ∧
        (cfg.UsersControlOwnObjects = false ∨ info.UploaderID ≠ input.UserInformation.ID) := by
  unfold modifyValidated
  simp only []
  cases hget : env.getCollection r0.world collectionID with
  | error err => simp [respond, Response.isPermissionRefusal, message_beq]
  | ok info =>
    simp only []
    have hworld : (record env r0 (.getCollection collectionID (.ok info))).world =
        env.effect r0.world (.getCollection collectionID (.ok info)) := rfl
    rw [hworld]
    obtain ⟨d1, hd1⟩ : ∃ d1, d1 = env.effect r0.world (.getCollection collectionID (.ok info)) :=
      ⟨_, rfl⟩
    rw [← hd1]
    have hinuse : ((input.Message ++ newName ++
        " is already in use, plese select a different name. " ==
        input.Message ++ "You do not have edit member permission for collection. ")) = false := by
      rw [String.append_assoc, message_beq]
      exact beq_eq_false_iff_ne.mpr (nameInUse_message_ne newName)
    by_cases huse : (match env.getCollectionByName d1 newName with
        | .ok newNameCollection => newNameCollection.ID != info.ID
        | .error _ => false) = true
    · rw [if_pos huse]
      simp only [respond, Response.isPermissionRefusal, hinuse, Bool.false_and,
        Bool.false_eq_true, false_iff]
      rintro ⟨info', hinfo, hfree, _, _⟩
      cases hinfo
      cases hnamed : env.getCollectionByName d1 newName with
      | error e => simp [hnamed] at huse
      | ok other =>
        simp only [hnamed, bne_iff_ne, ne_eq] at huse
        exact huse (hfree other (hd1 ▸ hnamed))
    · rw [if_neg huse]
      have hfree : ∀ other, env.getCollectionByName d1 newName = .ok other →
          other.ID = info.ID := by
        intro other hnamed
        simp only [hnamed, bne_iff_ne, ne_eq, Decidable.not_not] at huse
        exact huse
      by_cases hcond : (input.HasPermission .ModifyCollections != true
          && (cfg.UsersControlOwnObjects != true
            || info.UploaderID != input.UserInformation.ID)) = true
      · rw [if_pos hcond]
        have hc := hcond
        simp only [Bool.and_eq_true, Bool.or_eq_true, bne_iff_ne, ne_eq,
          Bool.not_eq_true] at hc
        simp only [respond, Response.isPermissionRefusal, beq_self_eq_true, Bool.and_self,
          true_iff]
        exact ⟨info, rfl, hd1 ▸ hfree, hc.1, hc.2⟩
      · rw [if_neg hcond]
        have hnot : ∀ h : Handled D, h.response.isPermissionRefusal input = false →
            (h.response.isPermissionRefusal input = true ↔
              ∃ info', DBResult.ok info = DBResult.ok info' ∧
                (∀ other, env.getCollectionByName
                    (env.effect r0.world (.getCollection collectionID (.ok info'))) newName
                      = .ok other → other.ID = info'.ID) ∧
                input.HasPermission .ModifyCollections = false ∧
                (cfg.UsersControlOwnObjects = false ∨
                  info'.UploaderID ≠ input.UserInformation.ID)) := by
          intro h hh
          rw [hh]
          simp only [Bool.false_eq_true, false_iff]
          rintro ⟨info', hinfo, _, hp, hown⟩
          cases hinfo
          apply hcond
          simp only [Bool.and_eq_true, Bool.or_eq_true, bne_iff_ne, ne_eq, Bool.not_eq_true]
          exact ⟨hp, hown⟩
        apply hnot
        cases env.updateCollection
            (record env (record env r0 (.getCollection collectionID (.ok info)))
              (.getCollectionByName newName (env.getCollectionByName d1 newName))).world
            collectionID newName newDesc <;>
          simp [respond, Response.isPermissionRefusal, message_beq]


theorem modify_refusal {D : Type} (env : RouterEnv D) (cfg : ConfigurationSettings)
    (input : TemplateInput) (request : Request) (d : D) :
    (modify env cfg input request d).response.isPermissionRefusal input = true ↔
      ∃ info, ReachesModifyCheck env input request d info ∧
        input.HasPermission .ModifyCollections = false ∧
        (cfg.UsersControlOwnObjects = false ∨ info.UploaderID ≠ input.UserInformation.ID) := by
  unfold modify ReachesModifyCheck
  simp only []
  by_cases h1 : input.UserInformation.Name = ""
  · simp [h1, respond, Response.isPermissionRefusal]
  have e1 : (input.UserInformation.Name == "") = false := by simpa using h1
  by_cases h2 : (parseUint (request.FormValue "ID") 32).2 = true
  · simp [e1, h2, respond, Response.isPermissionRefusal, message_beq]
  have e2 : (parseUint (request.FormValue "ID") 32).2 = false := by simpa using h2
  by_cases h3 : ((env.trimSpace (request.FormValue "NewName")).utf8ByteSize < 3
      || (env.trimSpace (request.FormValue "NewName")).utf8ByteSize > 255) = true
  · simp only [e1, e2, Bool.false_eq_true, if_false, h3, if_true, respond,
      Response.isPermissionRefusal, message_beq]
    simp
  have e3 : ((env.trimSpace (request.FormValue "NewName")).utf8ByteSize < 3
      || (env.trimSpace (request.FormValue "NewName")).utf8ByteSize > 255) = false := by
    simpa using h3
  by_cases h4 : (env.trimSpace (request.FormValue "NewDescription")).utf8ByteSize > 255
  · simp only [e1, e2, e3, Bool.false_eq_true, if_false, h4, if_true, respond,
      Response.isPermissionRefusal, message_beq]
    simp
  simp only [e1, e2, e3, Bool.false_eq_true, if_false, h4]
  rw [modifyValidated_refusal]
  constructor
  · rintro ⟨info, a, b, c, e⟩
    exact ⟨info, ⟨h1, trivial, trivial, fun h => h, a, b⟩, c, e⟩
  · rintro ⟨info, ⟨_, _, _, _, a, b⟩, c, e⟩
    exact ⟨info, a, b, c, e⟩

/-- C14: with `UsersControlOwnObjects` set, the permission checks are ignored for a
user managing a collection they contributed.  In the commands `deletemember` and
`modify` of `CollectionPostRouter` the request is refused for insufficient
permission if and only if it reaches the permission check with the collection
fetched and the user lacks the permission (`ModifyCollectionMembers`, resp.
`ModifyCollections`) and either `UsersControlOwnObjects` is unset or the user is
not the uploader of the collection. -/
theorem ownObjects_permission_checks {D : Type} (env : RouterEnv D)
    (cfg : ConfigurationSettings) (input : TemplateInput) (request : Request) (d : D) :
    (request.FormValue "command" = "deletemember" →
      ((CollectionPostRouter env cfg input request d).response.isPermissionRefusal input
          = true ↔
        ∃ info, ReachesDeleteCheck env input request d info ∧
          input.HasPermission .ModifyCollectionMembers = false ∧
          (cfg.UsersControlOwnObjects = false ∨
            info.UploaderID ≠ input.UserInformation.ID))) ∧
    (request.FormValue "command" = "modify" →
      ((CollectionPostRouter env cfg input request d).response.isPermissionRefusal input
          = true ↔
        ∃ info, ReachesModifyCheck env input request d info ∧
          input.HasPermission .ModifyCollections = false ∧
          (cfg.UsersControlOwnObjects = false ∨
            info.UploaderID ≠ input.UserInformation.ID))) := by
  constructor
  · intro hcmd
    have hpost : CollectionPostRouter env cfg input request d =
        deleteMember env cfg input request d := by
      simp [CollectionPostRouter, hcmd]
    rw [hpost, deleteMember_refusal]
    unfold ReachesDeleteCheck
    constructor
    · rintro ⟨a, b, c, info, e, f, g⟩
      exact ⟨info, ⟨a, b, c, e⟩, f, g⟩
    · rintro ⟨info, ⟨a, b, c, e⟩, f, g⟩
      exact ⟨a, b, c, info, e, f, g⟩
  · intro hcmd
    have hpost : CollectionPostRouter env cfg input request d =
        modify env cfg input request d := by
      simp [CollectionPostRouter, hcmd]
    rw [hpost, modify_refusal]

/-- C14 on the sample catalog, whose collection 7 was uploaded by user 1: user 2
without permissions is refused in both commands; user 1 without permissions is
refused when `UsersControlOwnObjects` is unset and is not when it is set. -/
theorem ownObjects_permission_checks_witness :
    (CollectionPostRouter libraryEnv sampleConfig (inputOf ⟨"bob", 2⟩ [])
        (requestOf [("command", "deletemember"), ("ID", "7"), ("ImageID", "5")])
        sampleLibrary).response.isPermissionRefusal (inputOf ⟨"bob", 2⟩ []) = true ∧
    (CollectionPostRouter libraryEnv ownObjectsConfig (inputOf ⟨"bob", 2⟩ [])
        (requestOf [("command", "modify"), ("ID", "7"), ("NewName", "Summer")])
        sampleLibrary).response.isPermissionRefusal (inputOf ⟨"bob", 2⟩ []) = true ∧
    (CollectionPostRouter libraryEnv sampleConfig (inputOf ⟨"alice", 1⟩ [])
        (requestOf [("command", "modify"), ("ID", "7"), ("NewName", "Summer")])
        sampleLibrary).response.isPermissionRefusal (inputOf ⟨"alice", 1⟩ []) = true ∧
    (CollectionPostRouter libraryEnv ownObjectsConfig (inputOf ⟨"alice", 1⟩ [])
        (requestOf [("command", "modify"), ("ID", "7"), ("NewName", "Summer")])
        sampleLibrary).response.isPermissionRefusal (inputOf ⟨"alice", 1⟩ []) = false :=
  ⟨((ownObjects_permission_checks libraryEnv sampleConfig (inputOf ⟨"bob", 2⟩ [])
      (requestOf [("command", "deletemember"), ("ID", "7"), ("ImageID", "5")])
      sampleLibrary).1 (by decide)).mpr
      ⟨⟨7, "Holiday", 1, 1⟩, ⟨by decide, by decide, by decide, by decide⟩, by decide,
        Or.inl (by decide)⟩,
   ((ownObjects_permission_checks libraryEnv ownObjectsConfig (inputOf ⟨"bob", 2⟩ [])
      (requestOf [("command", "modify"), ("ID", "7"), ("NewName", "Summer")])
      sampleLibrary).2 (by decide)).mpr
      ⟨⟨7, "Holiday", 1, 1⟩,
        ⟨by decide, by decide, by decide, by decide, by decide,
          fun other h => by
            have : libraryEnv.getCollectionByName
                (libraryEnv.effect sampleLibrary
                  (.getCollection
                    (parseUint ((requestOf [("command", "modify"), ("ID", "7"),
                      ("NewName", "Summer")]).FormValue "ID") 32).1
                    (.ok ⟨7, "Holiday", 1, 1⟩)))
                (libraryEnv.trimSpace ((requestOf [("command", "modify"), ("ID", "7"),
                  ("NewName", "Summer")]).FormValue "NewName")) = .error .errNoRows := by
              decide
            rw [this] at h
            cases h⟩,
        by decide, Or.inr (by decide)⟩,
   by decide, by decide⟩


/-! ## The page offset of `CollectionGetRouter` -/

/-- The value `ParseUint` returns with an error is 0 (syntax) or the largest value
of the bit size (range). -/
theorem parseUintDigits_rejected (maxVal : Nat) (cs : List Char) :
    ∀ n, (parseUintDigits maxVal cs n).2 = true →
      (parseUintDigits maxVal cs n).1 = 0 ∨ (parseUintDigits maxVal cs n).1 = maxVal := by
  induction cs with
  | nil => intro n h; cases h
  | cons c cs ih =>
    intro n h
    unfold parseUintDigits at h ⊢
    split
    · rename_i hdigit
      simp only [hdigit, and_self, if_true] at h
      split
      · exact Or.inr rfl
      · rename_i hcut
        simp only [hcut, if_false] at h
        split
        · exact Or.inr rfl
        · rename_i hfit
          simp only [hfit, if_false] at h
          exact ih _ h
    · exact Or.inl rfl

theorem parseUint_rejected (s : String) (bitSize : Nat) (h : (parseUint s bitSize).2 = true) :
    (parseUint s bitSize).1 = 0 ∨ (parseUint s bitSize).1 = 2 ^ bitSize - 1 := by
  unfold parseUint at h ⊢
  split
  · exact Or.inl rfl
  · rename_i hs
    simp only [hs, if_false] at h
    exact parseUintDigits_rejected _ _ _ h

theorem changeViewMode_trace {D : Type} (env : RouterEnv D) (input : TemplateInput)
    (request : Request) (r : RouterRun D) (e : RouterEvent)
    (he : e ∈ (changeViewMode env input request r).2.trace) :
    e ∈ r.trace ∨ ∃ viewMode, e = .sessionSave viewMode := by
  unfold changeViewMode at he
  split at he
  · simp only [record, List.mem_append, List.mem_singleton] at he
    exact he.imp id fun h => ⟨_, h⟩
  · split at he
    · simp only [record, List.mem_append, List.mem_singleton] at he
      exact he.imp id fun h => ⟨_, h⟩
    · split at he
      · simp only [record, List.mem_append, List.mem_singleton] at he
        exact he.imp id fun h => ⟨_, h⟩
      · exact Or.inl he

/-- Every `GetCollectionMembers` call of `CollectionGetRouter` is made with the
value that `ParseUint` returned for the form value `PageStart`, error or not, and
with the configured stride. -/
theorem collectionGet_members_call {D : Type} (env : RouterEnv D)
    (cfg : ConfigurationSettings) (input : TemplateInput) (request : Request) (d : D)
    (collectionID pageStart pageStride : Nat)
    (result : DBResult (List ImageInformation × Nat))
    (h : RouterEvent.getCollectionMembers collectionID pageStart pageStride result ∈
      (CollectionGetRouter env cfg input request d).trace) :
    pageStart = (parseUint (request.FormValue "PageStart") 32).1 ∧
      pageStride = cfg.PageStride := by
  have hview : ∀ e, e ∈ (changeViewMode env input request ⟨d, []⟩).2.trace →
      ∃ viewMode, e = RouterEvent.sessionSave viewMode := by
    intro e he
    rcases changeViewMode_trace env input request _ e he with h | h
    · cases h
    · exact h
  unfold CollectionGetRouter at h
  simp only [] at h
  split at h
  · obtain ⟨_, hv⟩ := hview _ h
    cases hv
  · split at h
    · simp only [respond, record, List.mem_append, List.mem_singleton] at h
      rcases h with h | h
      · obtain ⟨_, hv⟩ := hview _ h
        cases hv
      · cases h
    · unfold showCollection at h
      simp only [] at h
      split at h
      · split at h <;>
          simp only [respond, record, List.mem_append, List.mem_singleton] at h <;>
          · rcases h with ((h | h) | h) | h
            · obtain ⟨_, hv⟩ := hview _ h
              cases hv
            · cases h
            · cases h
              exact ⟨rfl, rfl⟩
            · cases h
      · simp only [respond, record, List.mem_append, List.mem_singleton] at h
        rcases h with (h | h) | h
        · obtain ⟨_, hv⟩ := hview _ h
          cases hv
        · cases h
        · cases h
          exact ⟨rfl, rfl⟩


/-- C15: the page offset of `CollectionGetRouter` for a `PageStart` that
`strconv.ParseUint(s, 10, 32)` rejects.  An empty, non-numeric or signed string is a
syntax error with the value 0, and 0 is passed on; a string of digits out of the
32-bit range is a range error with the value `2 ^ 32 - 1`, and the handler, which
drops the error, passes 4294967295 to `GetCollectionMembers`, not 0: here for the
request `ID=7&PageStart=4294967296` on the sample catalog. -/
theorem collectionGet_pageStart_out_of_range :
    parseUint "4294967296" 32 = (4294967295, true) ∧
    (CollectionGetRouter libraryEnv sampleConfig (inputOf ⟨"bob", 2⟩ [])
      (requestOf [("ID", "7"), ("PageStart", "4294967296")]) sampleLibrary).trace =
      [.getCollection 7 (.ok ⟨7, "Holiday", 1, 1⟩),
       .getCollectionMembers 7 4294967295 2 (.ok ([], 1)),
       .getCollectionTags 7 [] false] ∧
    parseUint "" 32 = (0, true) ∧ parseUint "abc" 32 = (0, true) ∧
    parseUint "-1" 32 = (0, true) ∧
    (CollectionGetRouter libraryEnv sampleConfig (inputOf ⟨"bob", 2⟩ [])
      (requestOf [("ID", "7"), ("PageStart", "-1")]) sampleLibrary).trace =
      [.getCollection 7 (.ok ⟨7, "Holiday", 1, 1⟩),
       .getCollectionMembers 7 0 2 (.ok ([⟨5, ""⟩], 1)),
       .getCollectionTags 7 [] false] := by
  decide


/-! ## The length test of collection names -/

/-- The command `modify` rejects a new name of fewer than 3 or more than 255 bytes
with the unsupported-length message, before any catalog call. -/
theorem modify_rejects_unsupported_length {D : Type} (env : RouterEnv D)
    (cfg : ConfigurationSettings) (input : TemplateInput) (request : Request) (d : D)
    (hname : input.UserInformation.Name ≠ "")
    (hid : (parseUint (request.FormValue "ID") 32).2 = false)
    (hlen : (env.trimSpace (request.FormValue "NewName")).utf8ByteSize < 3 ∨
      (env.trimSpace (request.FormValue "NewName")).utf8ByteSize > 255) :
    modify env cfg input request d =
      { world := d, trace := [],
        response := .redirectWithFlash
          (collectionLink env (parseUint (request.FormValue "ID") 32).1 input.OldQuery)
          (input.Message ++
            "New Name is an unsupported length. Please ensure it is longer than 3 characters but shorter than 255. ")
          "CollectionFailed" } := by
  have e1 : (input.UserInformation.Name == "") = false := by simpa using hname
  have e3 : ((env.trimSpace (request.FormValue "NewName")).utf8ByteSize < 3
      || (env.trimSpace (request.FormValue "NewName")).utf8ByteSize > 255) = true := by
    simpa using hlen
  unfold modify
  simp only [e1, hid, e3, Bool.false_eq_true, if_false, if_true, respond]

/-- The collection-creating branch of `addcollectionmember` rejects a name of fewer
than 3 or more than 255 bytes with the unsupported-length message, without another
catalog call. -/
theorem createCollection_rejects_unsupported_length {D : Type} (env : RouterEnv D)
    (input : TemplateInput) (request : Request) (parsedImageID : Nat) (r : RouterRun D)
    (hperm : input.HasPermission .AddCollections = true)
    (hlen : (request.FormValue "CollectionName").utf8ByteSize < 3 ∨
      (request.FormValue "CollectionName").utf8ByteSize > 255) :
    createCollection env input request parsedImageID r =
      { world := r.world, trace := r.trace,
        response := .redirectWithFlash (imageLink env parsedImageID input.OldQuery)
          (input.Message ++
            "CollectionName should be longer than 3 characters but less than 255. ")
          "CollectionFailed" } := by
  have e3 : ((request.FormValue "CollectionName").utf8ByteSize < 3
      || (request.FormValue "CollectionName").utf8ByteSize > 255) = true := by
    simpa using hlen
  unfold createCollection
  simp only [hperm, bne_self_eq_false, Bool.false_eq_true, if_false, e3, if_true, respond]

/-- The command `modify` accepts a new name of exactly 3 or exactly 255 bytes: it
goes on to fetch the collection. -/
theorem modify_accepts_bounds {D : Type} (env : RouterEnv D)
    (cfg : ConfigurationSettings) (input : TemplateInput) (request : Request) (d : D)
    (hname : input.UserInformation.Name ≠ "")
    (hid : (parseUint (request.FormValue "ID") 32).2 = false)
    (hlen : (env.trimSpace (request.FormValue "NewName")).utf8ByteSize = 3 ∨
      (env.trimSpace (request.FormValue "NewName")).utf8ByteSize = 255)
    (hdesc : (env.trimSpace (request.FormValue "NewDescription")).utf8ByteSize ≤ 255) :
    modify env cfg input request d =
      modifyValidated env cfg input request (parseUint (request.FormValue "ID") 32).1
        (env.trimSpace (request.FormValue "NewName"))
        (env.trimSpace (request.FormValue "NewDescription")) { world := d, trace := [] } := by
  have e1 : (input.UserInformation.Name == "") = false := by simpa using hname
  have e3 : ((env.trimSpace (request.FormValue "NewName")).utf8ByteSize < 3
      || (env.trimSpace (request.FormValue "NewName")).utf8ByteSize > 255) = false := by
    rcases hlen with h | h <;> simp [h]
  have e4 : ¬ (env.trimSpace (request.FormValue "NewDescription")).utf8ByteSize > 255 := by
    omega
  unfold modify
  simp only [e1, hid, e3, e4, Bool.false_eq_true, if_false]

/-- C16: the length test of collection names at the bounds.  The messages ask for a
name "longer than 3 characters but shorter than 255", but the tests are
`len < 3 || len > 255`: the name `abc`, of length 3, passes both.  On the sample
catalog `modify` with `NewName=abc` renames the collection 7, and
`addcollectionmember` with `CollectionName=abc` creates the collection; a name of
length 2 is rejected by both with the unsupported-length message. -/
theorem collection_name_of_length_3_accepted :
    "abc".utf8ByteSize = 3 ∧
    CollectionPostRouter libraryEnv sampleConfig (inputOf ⟨"bob", 2⟩ [.ModifyCollections])
      (requestOf [("command", "modify"), ("ID", "7"), ("NewName", "abc")]) sampleLibrary =
      { world := { collections := [⟨7, "abc", 1, [5]⟩], nextID := 8 },
        trace := [.getCollection 7 (.ok ⟨7, "Holiday", 1, 1⟩),
          .getCollectionByName "abc" (.error .errNoRows),
          .updateCollection 7 "abc" "" none,
          .goWriteAuditLogByName "bob" "MODIFY-COLLECTION" "bob modified collection (7)"],
        response := .redirectWithFlash "/collection?ID=7&SearchTerms="
          "Successfully modified collection." "CollectionSuccess" } ∧
    (CollectionPostRouter libraryEnv sampleConfig (inputOf ⟨"bob", 2⟩ [.AddCollections])
      (requestOf [("command", "addcollectionmember"), ("ImageID", "9"),
        ("CollectionName", "abc")]) sampleLibrary).trace =
      [.getCollectionByName "abc" (.error .errNoRows),
       .newCollection "abc" "" 2 (.ok 8),
       .addCollectionMember 8 [9] 2 none] ∧
    CollectionPostRouter libraryEnv sampleConfig (inputOf ⟨"bob", 2⟩ [.ModifyCollections])
      (requestOf [("command", "modify"), ("ID", "7"), ("NewName", "ab")]) sampleLibrary =
      { world := sampleLibrary, trace := [],
        response := .redirectWithFlash "/collection?ID=7&SearchTerms="
          "New Name is an unsupported length. Please ensure it is longer than 3 characters but shorter than 255. "
          "CollectionFailed" } := by
  decide


/-! ## What `deletemember` deletes -/

/-- Past the permission check, `deletemember` looks at the member count only: with
at most one member it calls `DeleteCollection` for the collection, whatever image
the request names; with more it calls `RemoveCollectionMember` for the collection
and the image named.  One audit entry follows. -/
theorem deleteValidated_calls {D : Type} (env : RouterEnv D) (input : TemplateInput)
    (request : Request) (collectionID parsedImageID : Nat) (info : CollectionInformation)
    (r : RouterRun D) :
    (info.Members ≤ 1 → ∃ audit,
      (deleteValidated env input request collectionID parsedImageID info r).trace =
        r.trace ++ [.deleteCollection collectionID (env.deleteCollection r.world collectionID),
          audit]) ∧
    (1 < info.Members → ∃ audit,
      (deleteValidated env input request collectionID parsedImageID info r).trace =
        r.trace ++ [.removeCollectionMember collectionID parsedImageID
            (env.removeCollectionMember r.world collectionID parsedImageID),
          audit]) := by
  constructor
  · intro h
    unfold deleteValidated
    simp only [h, if_true]
    cases env.deleteCollection r.world collectionID <;>
      exact ⟨_, List.append_assoc _ _ _⟩
  · intro h
    have h' : ¬ info.Members ≤ 1 := by omega
    unfold deleteValidated
    simp only [h', if_false]
    cases env.removeCollectionMember r.world collectionID parsedImageID <;>
      exact ⟨_, List.append_assoc _ _ _⟩

/-- C17: what `deletemember` deletes.  The handler deletes the collection whenever
its member count is at most 1, without looking at the image the request names.  On
the sample catalog, whose collection 7 holds the image 5 only, the request
`ID=7&ImageID=9` of a permitted user deletes the collection although image 9 is
not in it; the empty collection 8 is deleted likewise.  With two members the
handler calls `RemoveCollectionMember` for the collection and the image named and
the collection stays. -/
theorem deleteMember_deletes_collection_for_other_image :
    CollectionPostRouter libraryEnv sampleConfig
      (inputOf ⟨"bob", 2⟩ [.ModifyCollectionMembers])
      (requestOf [("command", "deletemember"), ("ID", "7"), ("ImageID", "9")])
      sampleLibrary =
      { world := { collections := [], nextID := 8 },
        trace := [.getCollection 7 (.ok ⟨7, "Holiday", 1, 1⟩),
          .deleteCollection 7 none,
          .goWriteAuditLogByName "bob" "REMOVE-COLLECTIONMEMBER"
            "bob removed image from collection. 9 from 7, Holiday"],
        response := .redirectWithFlash "/collections?SearchTerms="
          "Successfully remove image from collection. Collection empty, so collection was also removed. "
          "DeleteSuccess" } ∧
    (CollectionPostRouter libraryEnv sampleConfig
      (inputOf ⟨"bob", 2⟩ [.ModifyCollectionMembers])
      (requestOf [("command", "deletemember"), ("ID", "8"), ("ImageID", "9")])
      largerLibrary).trace =
      [.getCollection 8 (.ok ⟨8, "Empty", 1, 0⟩),
       .deleteCollection 8 none,
       .goWriteAuditLogByName "bob" "REMOVE-COLLECTIONMEMBER"
         "bob removed image from collection. 9 from 8, Empty"] ∧
    CollectionPostRouter libraryEnv sampleConfig
      (inputOf ⟨"bob", 2⟩ [.ModifyCollectionMembers])
      (requestOf [("command", "deletemember"), ("ID", "7"), ("ImageID", "5")])
      largerLibrary =
      { world := { collections := [⟨7, "Holiday", 1, [6]⟩, ⟨8, "Empty", 1, []⟩], nextID := 9 },
        trace := [.getCollection 7 (.ok ⟨7, "Holiday", 1, 2⟩),
          .removeCollectionMember 7 5 none,
          .goWriteAuditLogByName "bob" "REMOVE-COLLECTIONMEMBER"
            "bob removed image from collection. 5 from 7, Holiday"],
        response := .redirectWithFlash "/collection?ID=7&SearchTerms="
          "Successfully removed image from collection. " "CollectionSuccess" } := by
  decide


/-! ## `CreateSessionStore` normalises the keys -/

theorem generatedLengths_append (t t' : List Event) :
    generatedLengths (t ++ t') = generatedLengths t ++ generatedLengths t' := by
  simp [generatedLengths]

theorem freshSessionKeys_eq {W : Type} (env : Env W) (r : Run W) :
    freshSessionKeys env r =
      ([env.generateRandomKey r.world 64,
        env.generateRandomKey
          (env.effect r.world (.generateRandomKey 64 (env.generateRandomKey r.world 64))) 32],
       { world := env.effect
            (env.effect r.world (.generateRandomKey 64 (env.generateRandomKey r.world 64)))
            (.generateRandomKey 32 (env.generateRandomKey
              (env.effect r.world (.generateRandomKey 64 (env.generateRandomKey r.world 64)))
              32)),
         trace := r.trace ++
          [.generateRandomKey 64 (env.generateRandomKey r.world 64),
           .generateRandomKey 32 (env.generateRandomKey
              (env.effect r.world (.generateRandomKey 64 (env.generateRandomKey r.world 64)))
              32)] }) := by
  simp [freshSessionKeys, emit]

/-- The first statement of `CreateSessionStore`: the keys are the two fresh ones
exactly when the configured ones are invalid. -/
theorem sessionStoreKeys_eq {W : Type} (env : Env W) (cfg : ConfigurationSettings)
    (r : Run W) :
    sessionStoreKeys env cfg r =
      if sessionKeysInvalid cfg then freshSessionKeys env r else (cfg.SessionStoreKey, r) := by
  unfold sessionStoreKeys sessionKeysInvalid
  rcases hkeys : cfg.SessionStoreKey with _ | ⟨k0, _ | ⟨k1, rest⟩⟩
  · simp
  · simp
  · by_cases h : (k0.length != 64 || k1.length != 32) = true
    · simp only [h, if_true]
      have : (decide ((k0 :: k1 :: rest).length < 2)
          || ((k0 :: k1 :: rest).getD 0 []).length != 64
          || ((k0 :: k1 :: rest).getD 1 []).length != 32) = true := by
        have hlen : ¬ (rest.length + 1 + 1 < 2) := by omega
        simpa [hlen] using h
      rw [if_pos this]
    · simp only [h, if_false]
      have : ¬ (decide ((k0 :: k1 :: rest).length < 2)
          || ((k0 :: k1 :: rest).getD 0 []).length != 64
          || ((k0 :: k1 :: rest).getD 1 []).length != 32) = true := by
        have hlen : ¬ (rest.length + 1 + 1 < 2) := by omega
        simpa [hlen] using h
      rw [if_neg this]
      simp


/-- C18: `CreateSessionStore` normalises the configured keys.  When
`SessionStoreKey` has fewer than two keys (nil included), or its first key is not
64 or its second not 32 bytes long, it becomes exactly two keys fresh from
`GenerateRandomKey(64)` and `GenerateRandomKey(32)`; otherwise it is unchanged.
`CSRFKey` becomes a key fresh from `GenerateRandomKey(32)` when it is not 32 bytes
long (nil included) and is unchanged otherwise.  The generator is called for these
keys only, in that order.  With a generator that returns keys of the length asked
for, afterwards the first session key has 64 bytes, the second 32 and the CSRF key
32. -/
theorem CreateSessionStore_normalises_keys {W : Type} (env : Env W)
    (cfg : ConfigurationSettings) (r : Run W) :
    (sessionKeysInvalid cfg = true →
      ∃ w64 w32, (CreateSessionStore env cfg r).1.SessionStoreKey =
        [env.generateRandomKey w64 64, env.generateRandomKey w32 32]) ∧
    (sessionKeysInvalid cfg = false →
      (CreateSessionStore env cfg r).1.SessionStoreKey = cfg.SessionStoreKey) ∧
    (cfg.CSRFKey.length ≠ 32 →
      ∃ w, (CreateSessionStore env cfg r).1.CSRFKey = env.generateRandomKey w 32) ∧
    (cfg.CSRFKey.length = 32 → (CreateSessionStore env cfg r).1.CSRFKey = cfg.CSRFKey) ∧
    generatedLengths (CreateSessionStore env cfg r).2.trace =
      generatedLengths r.trace ++ (if sessionKeysInvalid cfg = true then [64, 32] else []) ++
        (if cfg.CSRFKey.length ≠ 32 then [32] else []) ∧
    ((∀ w n, (env.generateRandomKey w n).length = n) →
      2 ≤ (CreateSessionStore env cfg r).1.SessionStoreKey.length ∧
      ((CreateSessionStore env cfg r).1.SessionStoreKey.getD 0 []).length = 64 ∧
      ((CreateSessionStore env cfg r).1.SessionStoreKey.getD 1 []).length = 32 ∧
      (CreateSessionStore env cfg r).1.CSRFKey.length = 32) := by
  have hkeys : (CreateSessionStore env cfg r).1.SessionStoreKey =
      (sessionStoreKeys env cfg r).1 := by
    unfold CreateSessionStore
    simp only []
    split <;> rfl
  have hcsrf : (CreateSessionStore env cfg r).1.CSRFKey =
      if cfg.CSRFKey.length ≠ 32
        then env.generateRandomKey (sessionStoreKeys env cfg r).2.world 32
        else cfg.CSRFKey := by
    unfold CreateSessionStore
    simp only []
    by_cases h : cfg.CSRFKey.length = 32
    · simp [h]
    · simp [h]
  have htrace : (CreateSessionStore env cfg r).2.trace =
      (sessionStoreKeys env cfg r).2.trace ++
        (if cfg.CSRFKey.length ≠ 32
          then [.generateRandomKey 32
            (env.generateRandomKey (sessionStoreKeys env cfg r).2.world 32)]
          else []) := by
    unfold CreateSessionStore
    simp only []
    by_cases h : cfg.CSRFKey.length = 32
    · simp [h]
    · simp [h, emit]
  rw [sessionStoreKeys_eq] at hkeys hcsrf htrace
  refine ⟨?_, ?_, ?_, ?_, ?_, ?_⟩
  · intro h
    rw [hkeys, if_pos h, freshSessionKeys_eq]
    exact ⟨_, _, rfl⟩
  · intro h
    rw [hkeys, if_neg (by simp [h])]
  · intro h
    rw [hcsrf, if_pos h]
    exact ⟨_, rfl⟩
  · intro h
    rw [hcsrf, if_neg (by simp [h])]
  · rw [htrace, generatedLengths_append]
    congr 1
    · by_cases h : sessionKeysInvalid cfg = true
      · rw [if_pos h, if_pos h, freshSessionKeys_eq, generatedLengths_append]
        rfl
      · rw [if_neg h, if_neg h, List.append_nil]
    · by_cases h : cfg.CSRFKey.length = 32
      · simp [h, generatedLengths]
      · simp [h, generatedLengths]
  · intro hgen
    have hsession : 2 ≤ (CreateSessionStore env cfg r).1.SessionStoreKey.length ∧
        ((CreateSessionStore env cfg r).1.SessionStoreKey.getD 0 []).length = 64 ∧
        ((CreateSessionStore env cfg r).1.SessionStoreKey.getD 1 []).length = 32 := by
      rw [hkeys]
      by_cases h : sessionKeysInvalid cfg = true
      · rw [if_pos h, freshSessionKeys_eq]
        simp [hgen]
      · rw [if_neg h]
        have h' : sessionKeysInvalid cfg = false := by simpa using h
        unfold sessionKeysInvalid at h'
        simp only [Bool.or_eq_false_iff, decide_eq_false_iff_not, Nat.not_lt,
          bne_eq_false_iff_eq] at h'
        exact ⟨h'.1.1, h'.1.2, h'.2⟩
    refine ⟨hsession.1, hsession.2.1, hsession.2.2, ?_⟩
    rw [hcsrf]
    by_cases h : cfg.CSRFKey.length = 32
    · simp [h]
    · simp [h, hgen]

/-- C18 on the sample store, whose generator returns keys of the length asked for:
a configuration with no keys gets two session keys of 64 and 32 bytes and a CSRF
key of 32 bytes; the sample configuration keeps its keys. -/
theorem CreateSessionStore_normalises_keys_witness :
    (2 ≤ (CreateSessionStore storeEnv keylessConfig ⟨sampleStore, []⟩).1.SessionStoreKey.length ∧
      ((CreateSessionStore storeEnv keylessConfig
          ⟨sampleStore, []⟩).1.SessionStoreKey.getD 0 []).length = 64 ∧
      ((CreateSessionStore storeEnv keylessConfig
          ⟨sampleStore, []⟩).1.SessionStoreKey.getD 1 []).length = 32 ∧
      (CreateSessionStore storeEnv keylessConfig ⟨sampleStore, []⟩).1.CSRFKey.length = 32) ∧
    generatedLengths (CreateSessionStore storeEnv keylessConfig ⟨sampleStore, []⟩).2.trace
      = [64, 32, 32] ∧
    (CreateSessionStore storeEnv sampleConfig ⟨sampleStore, []⟩).1.SessionStoreKey =
      sampleConfig.SessionStoreKey :=
  ⟨(CreateSessionStore_normalises_keys storeEnv keylessConfig ⟨sampleStore, []⟩).2.2.2.2.2
      (fun _ n => List.length_replicate n 0),
   by decide,
   (CreateSessionStore_normalises_keys storeEnv sampleConfig ⟨sampleStore, []⟩).2.1
      (by decide)⟩


/-! ## `fixMissingConfigs` makes the stride positive -/

theorem setIfMissing_pageStride (missing : ConfigurationSettings → Bool)
    (set : ConfigurationSettings → ConfigurationSettings) (x cfg : ConfigurationSettings)
    (hset : ∀ c, (set c).PageStride = c.PageStride) (hx : x.PageStride = cfg.PageStride) :
    (setIfMissing missing set x).PageStride = cfg.PageStride := by
  unfold setIfMissing
  split
  · exact (hset x).trans hx
  · exact hx

/-- The last default of `fixMissingConfigs`, gib.go:346-348. -/
theorem setIfMissing_pageStride_default (x cfg : ConfigurationSettings)
    (hx : x.PageStride = cfg.PageStride) :
    (setIfMissing (fun c => c.PageStride ≤ 0) (fun c => { c with PageStride := 30 })
      x).PageStride = if cfg.PageStride = 0 then 30 else cfg.PageStride := by
  unfold setIfMissing
  by_cases h : cfg.PageStride = 0
  · simp [hx, h]
  · simp [hx, h]

/-- The defaults of `fixMissingConfigs` turn a stride of 0 into 30 and keep every
other stride. -/
theorem fixMissingFields_pageStride (cfg : ConfigurationSettings) :
    (fixMissingFields cfg).PageStride = if cfg.PageStride = 0 then 30 else cfg.PageStride := by
  unfold fixMissingFields
  apply setIfMissing_pageStride_default
  iterate 9
    apply setIfMissing_pageStride
    · intro c; rfl
  rfl

theorem fixMissingConfigs_pageStride {W : Type} (env : Env W) (cfg : ConfigurationSettings)
    (r : Run W) :
    (fixMissingConfigs env cfg r).1.PageStride =
      if cfg.PageStride = 0 then 30 else cfg.PageStride := by
  rw [← fixMissingFields_pageStride]
  unfold fixMissingConfigs
  generalize fixMissingFields cfg = x
  unfold CreateSessionStore
  simp only []
  split <;> rfl


/-- The thumbnail job returns whenever the stride is not 0. -/
theorem thumbsLoop_returns {W : Type} (env : Env W) (cfg : ConfigurationSettings)
    (missingOnly : Bool) (hstride : cfg.PageStride ≠ 0) (files : List FileInfo) :
    ∀ s : ThumbState W, ∃ s', thumbsLoop env cfg missingOnly s files = .ok s' := by
  induction files with
  | nil => intro s; exact ⟨s, rfl⟩
  | cons file files ih =>
    intro s
    by_cases hfile : file.isDir = true
    · obtain ⟨s', h⟩ := ih s
      exact ⟨s', by simp only [thumbsLoop, thumbsStep, hfile, if_true]; exact h⟩
    · have hfile' : file.isDir = false := by simpa using hfile
      obtain ⟨s1, hs1, _, _⟩ := thumbsStep_file env cfg missingOnly s file hstride hfile'
      obtain ⟨s', h⟩ := ih s1
      exact ⟨s', by simp only [thumbsLoop, hs1]; exact h⟩

theorem thumbsJob_returns {W : Type} (env : Env W) (cfg : ConfigurationSettings)
    (missingOnly : Bool) (hstride : cfg.PageStride ≠ 0) (r : Run W) :
    ∃ s, thumbsJob env cfg missingOnly r = .ok s := by
  unfold thumbsJob
  cases hfiles : env.readDir r.world cfg.ImageDirectory with
  | none => exact ⟨_, rfl⟩
  | some files =>
    obtain ⟨s', h⟩ := thumbsLoop_returns env cfg missingOnly hstride files
      { run := emit env r (.readDir cfg.ImageDirectory (some files)), generatedThumbnails := 0 }
    exact ⟨{ s' with run := emit env s'.run .wgWait }, by simp only [h]⟩

/-- The offsets of the page loop, for any catalog and any number of iterations:
each query is made at the offset of the one before plus the stride, in `uint64`. -/
theorem dhashLoop_offsets {W : Type} (env : Env W) (cfg : ConfigurationSettings)
    (missingOnly : Bool) (fuel : Nat) :
    ∀ s : HashState W, s.page < uint64Size →
      ∃ m, m ≤ fuel ∧
        searchOffsets (dhashLoop env cfg missingOnly fuel s).1.run.trace =
          searchOffsets s.run.trace ++
            (List.range m).map (fun k => (s.page + k * cfg.PageStride) % uint64Size) := by
  induction fuel with
  | zero => intro s _; exact ⟨0, Nat.le_refl 0, by simp [dhashLoop]⟩
  | succ fuel ih =>
    intro s hs
    have hquery : searchOffsets (s.afterQuery env cfg).run.trace =
        searchOffsets s.run.trace ++ [s.page] := by
      show searchOffsets (s.run.trace ++ [.searchImages s.page cfg.PageStride _]) = _
      rw [searchOffsets_concat]
    have hone : (List.range 1).map (fun k => (s.page + k * cfg.PageStride) % uint64Size) =
        [s.page] := by
      simp [List.range_succ, Nat.mod_eq_of_lt hs]
    rw [dhashLoop_succ]
    split
    · exact ⟨1, by omega, by rw [hquery, hone]⟩
    · split
      · exact ⟨1, by omega, by rw [hquery, hone]⟩
      · obtain ⟨m, hm, h⟩ := ih (s.afterPage env cfg missingOnly)
          (by rw [afterPage_page]; exact Nat.mod_lt _ (by unfold uint64Size; omega))
        refine ⟨m + 1, by omega, ?_⟩
        rw [h, afterPage_searchOffsets, afterPage_page, List.range_succ_eq_map m]
        simp only [List.map_cons, List.map_map, Nat.zero_mul, Nat.add_zero,
          Nat.mod_eq_of_lt hs, List.append_assoc, List.singleton_append]
        congr 2
        apply List.map_congr_left
        intro k _
        simp only [Function.comp, Nat.succ_eq_add_one]
        rw [Nat.mod_add_mod]
        congr 1
        rw [Nat.add_mul, Nat.one_mul]
        omega

theorem searchOffsets_eq_nil (t : List Event)
    (h : ∀ e ∈ t, ∀ page stride result, e ≠ .searchImages page stride result) :
    searchOffsets t = [] := by
  induction t with
  | nil => rfl
  | cons e t ih =>
    have ht := ih fun e' he' => h e' (List.mem_cons_of_mem _ he')
    have he := h e (List.mem_cons_self _ _)
    cases e <;> first
      | exact absurd rfl (he _ _ _)
      | simpa [searchOffsets] using ht


/-- The offsets of the page loop on a catalog of fewer than `2 ^ 64 - PageStride`
records (no page at or beyond the offset `size` has a record): no offset wraps
around, each is the one before plus the stride. -/
theorem dhashLoop_offsets_exact {W : Type} (env : Env W) (cfg : ConfigurationSettings)
    (missingOnly : Bool) (size : Nat) (hsize : size + cfg.PageStride ≤ uint64Size)
    (hend : ∀ w page, size ≤ page →
      (env.searchImages w page cfg.PageStride).failed = true ∨
      (env.searchImages w page cfg.PageStride).images = [])
    (fuel : Nat) :
    ∀ s : HashState W, s.page < size + cfg.PageStride →
      ∃ m, searchOffsets (dhashLoop env cfg missingOnly fuel s).1.run.trace =
        searchOffsets s.run.trace ++
          (List.range m).map (fun k => s.page + k * cfg.PageStride) := by
  induction fuel with
  | zero => intro s _; exact ⟨0, by simp [dhashLoop]⟩
  | succ fuel ih =>
    intro s hs
    have hquery : searchOffsets (s.afterQuery env cfg).run.trace =
        searchOffsets s.run.trace ++ [s.page] := by
      show searchOffsets (s.run.trace ++ [.searchImages s.page cfg.PageStride _]) = _
      rw [searchOffsets_concat]
    have hone : (List.range 1).map (fun k => s.page + k * cfg.PageStride) = [s.page] := by
      simp [List.range_succ]
    rw [dhashLoop_succ]
    split
    · exact ⟨1, by rw [hquery, hone]⟩
    · rename_i hfail
      split
      · exact ⟨1, by rw [hquery, hone]⟩
      · rename_i hlen
        have hpage : s.page < size := by
          by_contra hge
          rcases hend s.run.world s.page (by omega) with h | h
          · exact hfail h
          · exact hlen (by simp [h])
        have hnext : (s.page + cfg.PageStride) % uint64Size = s.page + cfg.PageStride :=
          Nat.mod_eq_of_lt (by omega)
        obtain ⟨m, h⟩ := ih (s.afterPage env cfg missingOnly)
          (by rw [afterPage_page, hnext]; omega)
        refine ⟨m + 1, ?_⟩
        rw [h, afterPage_searchOffsets, afterPage_page, hnext, List.range_succ_eq_map m]
        simp only [List.map_cons, List.map_map, Nat.zero_mul, Nat.add_zero,
          List.append_assoc, List.singleton_append]
        congr 2
        apply List.map_congr_left
        intro k _
        simp only [Function.comp, Nat.succ_eq_add_one]
        rw [Nat.add_mul, Nat.one_mul]
        omega

/-- A hash regeneration run on a catalog of fewer than `2 ^ 64 - PageStride`
records queries at strictly increasing offsets. -/
theorem runMode_hash_offsets_increase {W : Type} (env : Env W) (flags : Flags)
    (cfg : ConfigurationSettings) (fuel : Nat) (r0 r : Run W) (size : Nat)
    (h0 : ∀ e ∈ r0.trace, ∃ n key, e = .generateRandomKey n key)
    (hstride : 1 ≤ cfg.PageStride) (hsize : size + cfg.PageStride ≤ uint64Size)
    (hend : ∀ w page, size ≤ page →
      (env.searchImages w page cfg.PageStride).failed = true ∨
      (env.searchImages w page cfg.PageStride).images = [])
    (hthumbs : flags.thumbsonly = false) (hhash : flags.dhashonly = true)
    (h : runMode env flags cfg fuel r0 = .ok r) :
    (searchOffsets r.trace).Pairwise (· < ·) := by
  unfold runMode at h
  simp only [hthumbs, hhash, Bool.false_eq_true, if_false, if_true] at h
  cases hb : bootstrap env cfg fuel
      (emit env (emit env (emit env r0 .saveConfiguration) .cacheTemplates) .throttleInit)
    with
  | error f => rw [hb] at h; cases h
  | ok b =>
    rw [hb] at h
    simp only [] at h
    obtain ⟨_, h⟩ := assigned_of_ok _ _ _ h
    have hpre : searchOffsets b.run.trace = [] := by
      apply searchOffsets_eq_nil
      intro e he page stride result heq
      subst heq
      rcases bootstrap_events env _ fuel _ b hb _ he with he | he | ⟨c, he⟩ | he | he | he
      · simp only [emit_trace, List.mem_append, List.mem_singleton] at he
        rcases he with ((he | he) | he) | he
        · obtain ⟨_, _, he⟩ := h0 _ he
          cases he
        · cases he
        · cases he
        · cases he
      · cases he
      · cases he
      · cases he
      · cases he
      · cases he
    cases hj : dhashJob env cfg flags.missingonly fuel b.run with
    | error f => rw [hj] at h; cases h
    | ok s =>
      rw [hj] at h
      simp only [Except.ok.injEq] at h
      subst h
      obtain ⟨m, hoff⟩ := dhashLoop_offsets_exact env cfg flags.missingonly size hsize hend
        fuel { run := b.run, page := 0, processedImages := 0 } (by show 0 < _; omega)
      unfold dhashJob at hj
      generalize dhashLoop env cfg flags.missingonly fuel
        { run := b.run, page := 0, processedImages := 0 } = res at hj hoff
      obtain ⟨u, flag⟩ := res
      cases flag with
      | false => cases hj
      | true =>
        simp only [Except.ok.injEq] at hj
        subst hj
        show (searchOffsets (u.run.trace ++ [.wgWait])).Pairwise (· < ·)
        rw [searchOffsets_concat]
        simp only [] at hoff
        rw [hoff, hpre]
        simp only [List.nil_append, List.append_nil, Nat.zero_add]
        apply List.Pairwise.map _ _ (List.pairwise_lt_range m)
        intro a b hab
        exact Nat.mul_lt_mul_of_pos_right hab (by omega)


/-- The queries of a hash regeneration run: up to the job no query is made, and the
job queries at the multiples of the stride (in `uint64`). -/
theorem runMode_hash_offsets {W : Type} (env : Env W) (flags : Flags)
    (cfg : ConfigurationSettings) (fuel : Nat) (r0 r : Run W)
    (h0 : ∀ e ∈ r0.trace, ∃ n key, e = .generateRandomKey n key)
    (hthumbs : flags.thumbsonly = false) (hhash : flags.dhashonly = true)
    (h : runMode env flags cfg fuel r0 = .ok r) :
    ∃ m, m ≤ fuel ∧ searchOffsets r.trace = (List.range m).map fun k =>
      (k * cfg.PageStride) % uint64Size := by
  unfold runMode at h
  simp only [hthumbs, hhash, Bool.false_eq_true, if_false, if_true] at h
  cases hb : bootstrap env cfg fuel
      (emit env (emit env (emit env r0 .saveConfiguration) .cacheTemplates) .throttleInit)
    with
  | error f => rw [hb] at h; cases h
  | ok b =>
    rw [hb] at h
    simp only [] at h
    obtain ⟨_, h⟩ := assigned_of_ok _ _ _ h
    have hpre : searchOffsets b.run.trace = [] := by
      apply searchOffsets_eq_nil
      intro e he page stride result heq
      subst heq
      rcases bootstrap_events env _ fuel _ b hb _ he with he | he | ⟨c, he⟩ | he | he | he
      · simp only [emit_trace, List.mem_append, List.mem_singleton] at he
        rcases he with ((he | he) | he) | he
        · obtain ⟨_, _, he⟩ := h0 _ he
          cases he
        · cases he
        · cases he
        · cases he
      · cases he
      · cases he
      · cases he
      · cases he
      · cases he
    cases hj : dhashJob env cfg flags.missingonly fuel b.run with
    | error f => rw [hj] at h; cases h
    | ok s =>
      rw [hj] at h
      simp only [Except.ok.injEq] at h
      subst h
      obtain ⟨m, hm, hoff⟩ := dhashLoop_offsets env cfg flags.missingonly fuel
        { run := b.run, page := 0, processedImages := 0 } (Nat.two_pow_pos 64)
      unfold dhashJob at hj
      generalize dhashLoop env cfg flags.missingonly fuel
        { run := b.run, page := 0, processedImages := 0 } = res at hj hoff
      obtain ⟨u, flag⟩ := res
      cases flag with
      | false => cases hj
      | true =>
        simp only [Except.ok.injEq] at hj
        subst hj
        refine ⟨m, hm, ?_⟩
        show searchOffsets (u.run.trace ++ [.wgWait]) = _
        rw [searchOffsets_concat]
        simp only [] at hoff
        rw [hoff, hpre]
        simp

theorem runMode_thumbs_returns {W : Type} (env : Env W) (flags : Flags)
    (cfg : ConfigurationSettings) (fuel : Nat) (r0 : Run W)
    (hstride : cfg.PageStride ≠ 0) (hthumbs : flags.thumbsonly = true) :
    ∃ r, runMode env flags cfg fuel r0 = .ok r := by
  obtain ⟨s, hs⟩ := thumbsJob_returns env cfg flags.missingonly hstride r0
  refine ⟨s.run, ?_⟩
  unfold runMode
  simp only [hthumbs, if_true, hs]

/-- C19 as stated fails: with a page stride of `2 ^ 63`, which `fixMissingConfigs`
keeps, a hash regeneration run whose second query is still answered a page makes
its third query at the offset 0 again, the `uint64` offset having wrapped: the
offsets of the run are 0, `2 ^ 63`, 0 and do not increase. -/
theorem hash_offsets_wrap_around :
    (fixMissingConfigs shrinkingEnv wideStrideConfig ⟨0, []⟩).1.PageStride = 2 ^ 63 ∧
    ∃ r, main shrinkingEnv hashMode wideStrideConfig 3 0 = .ok r ∧
      searchOffsets r.trace = [0, 9223372036854775808, 0] ∧
      ¬ (searchOffsets r.trace).Pairwise (· < ·) := by
  have hrun : ∃ r, main shrinkingEnv hashMode wideStrideConfig 3 0 = .ok r ∧
      searchOffsets r.trace = [0, 9223372036854775808, 0] := ⟨_, rfl, by decide⟩
  obtain ⟨r, h1, h2⟩ := hrun
  refine ⟨by decide, r, h1, h2, ?_⟩
  rw [h2]
  decide

/-- C19, amended: `fixMissingConfigs` runs before any batch job and leaves a stride
of at least 1: a loaded stride of 0 becomes 30, any other is kept.  So a thumbnail
regeneration run of `main` returns (the modulus by the stride never divides by
zero), for every loaded configuration; and a hash regeneration run of `main`
queries at the offsets `0, PageStride, 2 * PageStride, ...` computed in `uint64`,
that is modulo `2 ^ 64`.  The offset increases strictly from query to query as
long as it has not wrapped around: throughout a run on a catalog of fewer than
`2 ^ 64 - PageStride` records, and for any catalog from one query to the next
while the next offset stays below `2 ^ 64`; two queries in a row are never made
at the same offset. -/
theorem fixMissingConfigs_pageStride_positive {W : Type} (env : Env W) (flags : Flags)
    (loaded : ConfigurationSettings) (fuel : Nat) (world : W) :
    (fixMissingConfigs env loaded ⟨world, []⟩).1.PageStride =
      (if loaded.PageStride = 0 then 30 else loaded.PageStride) ∧
    1 ≤ (fixMissingConfigs env loaded ⟨world, []⟩).1.PageStride ∧
    (flags.thumbsonly = true → ∃ r, main env flags loaded fuel world = .ok r) ∧
    (flags.thumbsonly = false → flags.dhashonly = true →
      ∀ r, main env flags loaded fuel world = .ok r →
        ∃ m, searchOffsets r.trace = (List.range m).map fun k =>
          (k * (fixMissingConfigs env loaded ⟨world, []⟩).1.PageStride) % uint64Size) ∧
    (∀ size, size + (fixMissingConfigs env loaded ⟨world, []⟩).1.PageStride ≤ uint64Size →
      (∀ w page, size ≤ page →
        (env.searchImages w page
          (fixMissingConfigs env loaded ⟨world, []⟩).1.PageStride).failed = true ∨
        (env.searchImages w page
          (fixMissingConfigs env loaded ⟨world, []⟩).1.PageStride).images = []) →
      flags.thumbsonly = false → flags.dhashonly = true →
      ∀ r, main env flags loaded fuel world = .ok r →
        (searchOffsets r.trace).Pairwise (· < ·)) ∧
    (∀ k, (k + 1) * (fixMissingConfigs env loaded ⟨world, []⟩).1.PageStride < uint64Size →
      (k * (fixMissingConfigs env loaded ⟨world, []⟩).1.PageStride) % uint64Size <
        ((k + 1) * (fixMissingConfigs env loaded ⟨world, []⟩).1.PageStride) % uint64Size) ∧
    (loaded.PageStride < uint64Size → ∀ k,
      (k * (fixMissingConfigs env loaded ⟨world, []⟩).1.PageStride) % uint64Size ≠
        ((k + 1) * (fixMissingConfigs env loaded ⟨world, []⟩).1.PageStride) % uint64Size) := by
  have hstride := fixMissingConfigs_pageStride env loaded ⟨world, []⟩
  have hkeys : ∀ e ∈ (fixMissingConfigs env loaded ⟨world, []⟩).2.trace,
      ∃ n key, e = Event.generateRandomKey n key := by
    intro e he
    rcases fixMissingConfigs_events env loaded ⟨world, []⟩ e he with he | h
    · cases he
    · exact h
  have hmain : main env flags loaded fuel world =
      runMode env flags (fixMissingConfigs env loaded ⟨world, []⟩).1 fuel
        (fixMissingConfigs env loaded ⟨world, []⟩).2 := rfl
  rw [hmain]
  generalize fixMissingConfigs env loaded ⟨world, []⟩ = fixed at hstride hkeys ⊢
  have hpos : 1 ≤ fixed.1.PageStride := by
    rw [hstride]
    split <;> omega
  refine ⟨hstride, hpos, ?_, ?_, ?_, ?_, ?_⟩
  · intro hthumbs
    exact runMode_thumbs_returns env flags fixed.1 fuel fixed.2 (by omega) hthumbs
  · intro hthumbs hhash r hr
    obtain ⟨m, _, hm⟩ := runMode_hash_offsets env flags fixed.1 fuel fixed.2 r hkeys
      hthumbs hhash hr
    exact ⟨m, hm⟩
  · intro size hsize hend hthumbs hhash r hr
    exact runMode_hash_offsets_increase env flags fixed.1 fuel fixed.2 r size hkeys hpos
      hsize hend hthumbs hhash hr
  · intro k hk
    generalize fixed.1.PageStride = stride at hpos hk ⊢
    have h1 : k * stride < uint64Size := by
      have : k * stride ≤ (k + 1) * stride := Nat.mul_le_mul_right _ (by omega)
      omega
    rw [Nat.mod_eq_of_lt h1, Nat.mod_eq_of_lt hk, Nat.add_mul]
    omega
  · intro hlt k heq
    have hlt' : fixed.1.PageStride < uint64Size := by
      rw [hstride]
      split
      · unfold uint64Size; decide
      · exact hlt
    generalize fixed.1.PageStride = stride at hpos hlt' heq
    have h1 : (k * stride + 0) % uint64Size = (k * stride + stride) % uint64Size := by
      rw [Nat.add_zero, heq, Nat.add_mul, Nat.one_mul]
    have h2 : 0 % uint64Size = stride % uint64Size := Nat.ModEq.add_left_cancel' _ h1
    rw [Nat.mod_eq_of_lt hlt', Nat.zero_mod] at h2
    omega

/-- The amended C19 on the sample store with a configuration loaded without a stride: the
stride becomes 30, the thumbnail run returns, and the hash run queries at 0 and
30. -/
theorem fixMissingConfigs_pageStride_positive_witness :
    (fixMissingConfigs storeEnv strideLessConfig ⟨sampleStore, []⟩).1.PageStride = 30 ∧
    (∃ r, main storeEnv thumbsMode strideLessConfig 2 sampleStore = .ok r) ∧
    (∃ r, main storeEnv hashMode strideLessConfig 2 sampleStore = .ok r ∧
      searchOffsets r.trace = [0, 30]) ∧
    thumbsJob storeEnv strideLessConfig false ⟨sampleStore, []⟩ = .error .divideByZero :=
  ⟨(fixMissingConfigs_pageStride_positive storeEnv thumbsMode strideLessConfig 2
      sampleStore).1,
   (fixMissingConfigs_pageStride_positive storeEnv thumbsMode strideLessConfig 2
      sampleStore).2.2.1 rfl,
   ⟨_, rfl, by decide⟩,
   rfl⟩

end GoImageBoard
